import Mathlib

/-!
# DSDCC congestion-control family: TcpDcvegas, TcpDsdcc, TcpDstcp

A shallow embedding of `src/internet/model/tcp-dcvegas.{h,cc}`, `tcp-dsdcc.cc` and
`tcp-dstcp.cc`.

Conventions of the embedding.

* `uint32_t` is a `Nat` reduced modulo `2 ^ 32` after every arithmetic step (`wrapU32`);
  `int32_t` and `int64_t` are `Int` (the narrowing to `int32_t` is `wrapI32`).
* `double` is a rational number: arithmetic is exact, the rounding error of IEEE doubles is
  outside the model.  A conversion `double -> uint32_t` is `castU32` (truncation toward zero).
* A member function is a function of the instance (`self`) and of the control block
  (`tcb`, the `TcpSocketState` the host owns) that returns the new instance and the new
  control block.  The events fired through `m_traceCongestionEstimate` are returned as a list.
* `NS_ASSERT` failures, integer divisions by zero and `NS_ABORT_MSG_IF` end the call with a
  `Fault`.
* The base class `TcpLinuxReno` keeps no state that the functions embedded here read.
-/

namespace ns3

/-! ## Machine arithmetic -/

/-- Reduction of a natural number to the range of `uint32_t`. -/
def wrapU32 (n : Nat) : Nat := n % 2 ^ 32

/-- Narrowing of an integer to the range of `int32_t` (two's complement). -/
def wrapI32 (z : Int) : Int := (z + 2 ^ 31) % 2 ^ 32 - 2 ^ 31

/-- Integer part of a `double`, rounding toward zero. -/
def truncQ (x : ℚ) : Int := if 0 ≤ x then ⌊x⌋ else ⌈x⌉

/-- Conversion `static_cast<uint32_t> (double)`: truncation toward zero.  For a value outside
`[0, 2 ^ 32)` the low 32 bits of the truncated value are taken. -/
def castU32 (x : ℚ) : Nat := (truncQ x % 2 ^ 32).toNat

/-- Ways a call can end without returning: a failed `NS_ASSERT`, an integer division by zero,
an `NS_ABORT_MSG_IF` whose condition holds. -/
inductive Fault where
  | assertion
  | divideByZero
  | abort
  deriving DecidableEq, Repr

/-- The fault a call ended with, if it did not return. -/
def faultOf {α : Type} : Except Fault α → Option Fault
  | .error e => some e
  | .ok _ => none

/-! ## Host types: `Time`, `SequenceNumber32`, `TcpSocketState` -/

/-- The ns-3 `Time`: a signed tick count, one tick per nanosecond (the default resolution). -/
structure Time where
  m_data : Int
  deriving DecidableEq, Repr

/-- Method `Time::IsZero`. -/
def Time.IsZero (t : Time) : Bool := t.m_data == 0

/-- Method `Time::GetMicroSeconds`: the tick count divided by 1000, rounding toward zero. -/
def Time.GetMicroSeconds (t : Time) : Int := Int.tdiv t.m_data 1000

/-- A 32-bit TCP sequence number. -/
abbrev SequenceNumber32 := Nat

/-- Operator `SequenceNumber32::operator>`: serial-number comparison with 32-bit rollover. -/
def SequenceNumber32.gt (a b : SequenceNumber32) : Bool :=
  (decide (a > b) && decide (a - b ≤ 2147483647)) ||
    (decide (b > a) && decide (b - a > 2147483647))

/-- Operator `SequenceNumber32::operator>=`. -/
def SequenceNumber32.ge (a b : SequenceNumber32) : Bool :=
  SequenceNumber32.gt a b || decide (a = b)

/-- The enumeration `TcpSocketState::EcnState_t`. -/
inductive EcnState_t where
  | ECN_DISABLED
  | ECN_IDLE
  | ECN_CE_RCVD
  | ECN_SENDING_ECE
  | ECN_ECE_RCVD
  | ECN_CWR_SENT
  deriving DecidableEq, Repr

/-- Flow classification held in `TcpSocketState::m_flowMode`; `Unclassified` stands for every
value other than `Elephant` and `Mouse`. -/
inductive FlowMode_t where
  | Unclassified
  | Mouse
  | Elephant
  deriving DecidableEq, Repr

/-- The enumeration `TcpSocketState::UseEcn_t`. -/
inductive UseEcn_t where
  | Off
  | On
  | AcceptOnly
  deriving DecidableEq, Repr

/-- The enumeration `TcpSocketState::EcnMode_t`. -/
inductive EcnMode_t where
  | ClassicEcn
  | DctcpEcn
  deriving DecidableEq, Repr

/-- The enumeration `TcpSocketState::EcnCodePoint_t`. -/
inductive EcnCodePoint_t where
  | NotECT
  | Ect1
  | Ect0
  | CeCp
  deriving DecidableEq, Repr

/-- The part of the control block `TcpSocketState` that the congestion-control code reads or
writes.  `m_rxBuffer` is the receive buffer's `NextRxSequence`; `m_sent` records the calls of
`m_sendEmptyPacketCallback` as pairs (header flags, receive sequence at the time of the call),
most recent first. -/
structure TcpSocketState where
  m_cWnd : Nat
  m_cWndInfl : Nat
  m_ssThresh : Nat
  m_segmentSize : Nat
  m_minRtt : Time
  m_lastAckedSeq : SequenceNumber32
  m_nextTxSequence : SequenceNumber32
  m_ecnState : EcnState_t
  m_flowMode : FlowMode_t
  m_useEcn : UseEcn_t
  m_ecnMode : EcnMode_t
  m_ectCodePoint : EcnCodePoint_t
  m_rxBuffer : SequenceNumber32
  m_sent : List (Nat × SequenceNumber32)
  deriving DecidableEq, Repr

/-- Method `TcpSocketState::GetCwndInSegments`: `m_cWnd / m_segmentSize` in `uint32_t`. -/
def TcpSocketState.GetCwndInSegments (tcb : TcpSocketState) : Except Fault Nat :=
  if tcb.m_segmentSize = 0 then .error Fault.divideByZero
  else .ok (tcb.m_cWnd / tcb.m_segmentSize)

/-- The network-queue estimate of `PktsAcked`, the same lines in the three classes:
`NS_ASSERT (current_rtt >= base_rtt); int32_t nq = segCwnd * (current_rtt-base_rtt) / current_rtt;`
with the product and the quotient taken in `int64_t`. -/
def networkQueue (segCwnd : Nat) (current_rtt base_rtt : Int) : Except Fault Int :=
  if current_rtt < base_rtt then .error Fault.assertion
  else if current_rtt = 0 then .error Fault.divideByZero
  else .ok (wrapI32 (Int.tdiv ((segCwnd : Int) * (current_rtt - base_rtt)) current_rtt))

/-- One firing of the `CongestionEstimate` trace source: (marked bytes, total bytes, alpha). -/
abbrev CongestionEstimate := Nat × Nat × ℚ

/-- What a call of `PktsAcked` leaves behind: the instance, the control block and the trace
events fired during the call. -/
structure Outcome (σ : Type) where
  self : σ
  tcb : TcpSocketState
  trace : List CongestionEstimate
  deriving DecidableEq

/-- One acknowledgment event as the host delivers it: the control block at the time of the
call, the number of segments acknowledged and the RTT sample. -/
structure Ack where
  tcb : TcpSocketState
  segmentsAcked : Nat
  rtt : Time

/-- The `uint32_t` product `segmentsAcked * tcb->m_segmentSize`. -/
def ackedBytes (tcb : TcpSocketState) (segmentsAcked : Nat) : Nat :=
  wrapU32 (segmentsAcked * tcb.m_segmentSize)

/-! ## TcpDcvegas (tcp-dcvegas.h, tcp-dcvegas.cc) -/

/-- The enumeration `TcpDcvegas::Signal`. -/
inductive TcpDcvegas.Signal where
  | non_sig
  | rtt_sig
  deriving DecidableEq, Repr

/-- The data members of `TcpDcvegas` (tcp-dcvegas.h, lines 103-124). -/
structure TcpDcvegas where
  m_ackedBytesRtt : Nat
  m_ackedBytesTotal : Nat
  m_nq_k : Int
  m_priorRcvNxt : SequenceNumber32
  m_priorRcvNxtFlag : Bool
  m_alpha : ℚ
  m_signal : TcpDcvegas.Signal
  m_nextSeq : SequenceNumber32
  m_nextSeqFlag : Bool
  m_g : ℚ
  m_initialized : Bool
  deriving DecidableEq

namespace TcpDcvegas

/-- The copy constructor `TcpDcvegas (const TcpDcvegas& sock)`.  `raw` is the content of the
storage of the new object before the member-initialiser list runs; a member that the list
does not name keeps it. -/
def copy (raw sock : TcpDcvegas) : TcpDcvegas :=
  { raw with
    m_ackedBytesRtt := sock.m_ackedBytesRtt
    m_ackedBytesTotal := sock.m_ackedBytesTotal
    m_nq_k := sock.m_nq_k
    m_priorRcvNxt := sock.m_priorRcvNxt
    m_priorRcvNxtFlag := sock.m_priorRcvNxtFlag
    m_alpha := sock.m_alpha
    m_signal := sock.m_signal
    m_nextSeq := sock.m_nextSeq
    m_nextSeqFlag := sock.m_nextSeqFlag
    m_g := sock.m_g
    m_initialized := sock.m_initialized }

/-- Method `TcpDcvegas::Fork`: `CopyObject<TcpDcvegas> (this)`, the copy constructor run on new
storage `raw`.  The original is returned along with the copy. -/
def Fork (raw self : TcpDcvegas) : TcpDcvegas × TcpDcvegas :=
  (self, copy raw self)

/-- Method `TcpDcvegas::GetSsThresh`. -/
def GetSsThresh (self : TcpDcvegas) (tcb : TcpSocketState) (_bytesInFlight : Nat) :
    Nat × TcpDcvegas :=
  (castU32 ((1 - self.m_alpha / 2) * (tcb.m_cWnd : ℚ)), self)

/-- Method `TcpDcvegas::Reset`. -/
def Reset (self : TcpDcvegas) (tcb : TcpSocketState) : TcpDcvegas :=
  { self with
    m_nextSeq := tcb.m_nextTxSequence
    m_ackedBytesRtt := 0
    m_ackedBytesTotal := 0
    m_signal := Signal.non_sig }

/-- Part of `PktsAcked`, lines 132-153: the per-acknowledgment accounting. -/
def account (self : TcpDcvegas) (tcb : TcpSocketState) (segmentsAcked : Nat) (rtt : Time) :
    Except Fault TcpDcvegas :=
  let s1 := { self with
    m_ackedBytesTotal := wrapU32 (self.m_ackedBytesTotal + ackedBytes tcb segmentsAcked) }
  if rtt.IsZero then .ok s1
  else
    match tcb.GetCwndInSegments with
    | .error e => .error e
    | .ok segCwnd =>
      match networkQueue segCwnd rtt.GetMicroSeconds tcb.m_minRtt.GetMicroSeconds with
      | .error e => .error e
      | .ok nq =>
        if nq ≥ s1.m_nq_k then
          .ok { s1 with
            m_signal := Signal.rtt_sig
            m_ackedBytesRtt := wrapU32 (s1.m_ackedBytesRtt + ackedBytes tcb segmentsAcked) }
        else .ok s1

/-- Part of `PktsAcked`, lines 155-159: the first call latches the window boundary. -/
def latch (self : TcpDcvegas) (tcb : TcpSocketState) : TcpDcvegas :=
  if self.m_nextSeqFlag = false then
    { self with m_nextSeq := tcb.m_nextTxSequence, m_nextSeqFlag := true }
  else self

/-- The fraction `bytesRtt` of `PktsAcked`, lines 164-168. -/
def bytesRtt (self : TcpDcvegas) : ℚ :=
  if self.m_ackedBytesTotal > 0 then
    (self.m_ackedBytesRtt : ℚ) * 1 / (self.m_ackedBytesTotal : ℚ)
  else 0

/-- Part of `PktsAcked`, lines 164-180: the body of `if (tcb->m_lastAckedSeq >= m_nextSeq)`. -/
def expire (self : TcpDcvegas) (tcb : TcpSocketState) : Outcome TcpDcvegas :=
  let s1 := { self with m_alpha := (1 - self.m_g) * self.m_alpha + self.m_g * bytesRtt self }
  let ev : CongestionEstimate := (s1.m_ackedBytesRtt, s1.m_ackedBytesTotal, s1.m_alpha)
  let tcb1 :=
    if s1.m_signal = Signal.rtt_sig then
      let val := castU32 ((1 - s1.m_alpha / 2) * (tcb.m_cWnd : ℚ))
      let ss := max val (wrapU32 (2 * tcb.m_segmentSize))
      { tcb with m_ssThresh := ss, m_cWnd := ss }
    else tcb
  { self := Reset s1 tcb1, tcb := tcb1, trace := [ev] }

/-- Method `TcpDcvegas::PktsAcked`. -/
def PktsAcked (self : TcpDcvegas) (tcb : TcpSocketState) (segmentsAcked : Nat) (rtt : Time) :
    Except Fault (Outcome TcpDcvegas) :=
  match account self tcb segmentsAcked rtt with
  | .error e => .error e
  | .ok s1 =>
    let s2 := latch s1 tcb
    if SequenceNumber32.ge tcb.m_lastAckedSeq s2.m_nextSeq then .ok (expire s2 tcb)
    else .ok { self := s2, tcb := tcb, trace := [] }

/-- A sequence of `PktsAcked` calls on one instance.  The host owns the control block and may
change it in any way between two calls, so every call comes with its own control block. -/
def run (self : TcpDcvegas) : List Ack → Except Fault TcpDcvegas
  | [] => .ok self
  | a :: rest =>
    match PktsAcked self a.tcb a.segmentsAcked a.rtt with
    | .error e => .error e
    | .ok out => run out.self rest

end TcpDcvegas

/-! ## TcpDsdcc (tcp-dsdcc.cc)

The header tcp-dsdcc.h is not among the sources.  The members are those that tcp-dsdcc.cc
names; their types follow the members of the same name in tcp-dcvegas.h. -/

/-- The enumeration `TcpDsdcc::Signal`, the two values tcp-dsdcc.cc names. -/
inductive TcpDsdcc.Signal where
  | non_sig
  | rtt_sig
  deriving DecidableEq, Repr

/-- The data members of `TcpDsdcc`. -/
structure TcpDsdcc where
  m_ackedBytesEcn : Nat
  m_ackedBytesRtt : Nat
  m_ackedBytesTotal : Nat
  m_nq_k : Int
  m_priorRcvNxt : SequenceNumber32
  m_priorRcvNxtFlag : Bool
  m_alpha_ecn : ℚ
  m_alpha_rtt : ℚ
  m_alpha : ℚ
  m_signal : TcpDsdcc.Signal
  m_nextSeq : SequenceNumber32
  m_nextSeqFlag : Bool
  m_ceState : Bool
  m_delayedAckReserved : Bool
  m_g : ℚ
  m_useEct0 : Bool
  m_initialized : Bool
  deriving DecidableEq

namespace TcpDsdcc

/-- The copy constructor `TcpDsdcc (const TcpDsdcc& sock)`, lines 87-105.  `raw` is the content
of the storage of the new object before the member-initialiser list runs; a member that the
list does not name keeps it. -/
def copy (raw sock : TcpDsdcc) : TcpDsdcc :=
  { raw with
    m_ackedBytesEcn := sock.m_ackedBytesEcn
    m_ackedBytesTotal := sock.m_ackedBytesTotal
    m_priorRcvNxt := sock.m_priorRcvNxt
    m_priorRcvNxtFlag := sock.m_priorRcvNxtFlag
    m_alpha_ecn := sock.m_alpha_ecn
    m_alpha_rtt := sock.m_alpha_rtt
    m_alpha := sock.m_alpha
    m_nextSeq := sock.m_nextSeq
    m_nextSeqFlag := sock.m_nextSeqFlag
    m_ceState := sock.m_ceState
    m_delayedAckReserved := sock.m_delayedAckReserved
    m_g := sock.m_g
    m_useEct0 := sock.m_useEct0
    m_initialized := sock.m_initialized }

/-- Method `TcpDsdcc::Fork`: `CopyObject<TcpDsdcc> (this)`, the copy constructor run on new storage
`raw`.  The original is returned along with the copy. -/
def Fork (raw self : TcpDsdcc) : TcpDsdcc × TcpDsdcc :=
  (self, copy raw self)

/-- Method `TcpDsdcc::GetSsThresh`. -/
def GetSsThresh (self : TcpDsdcc) (tcb : TcpSocketState) (_bytesInFlight : Nat) :
    Nat × TcpDsdcc :=
  (castU32 ((1 - self.m_alpha / 2) * (tcb.m_cWnd : ℚ)), self)

/-- Method `TcpDsdcc::Reset`. -/
def Reset (self : TcpDsdcc) (tcb : TcpSocketState) : TcpDsdcc :=
  { self with
    m_nextSeq := tcb.m_nextTxSequence
    m_ackedBytesEcn := 0
    m_ackedBytesRtt := 0
    m_ackedBytesTotal := 0
    m_signal := Signal.non_sig }

/-- Part of `PktsAcked`, lines 143-164: the total and the delay accounting. -/
def accountRtt (self : TcpDsdcc) (tcb : TcpSocketState) (segmentsAcked : Nat) (rtt : Time) :
    Except Fault TcpDsdcc :=
  let s1 := { self with
    m_ackedBytesTotal := wrapU32 (self.m_ackedBytesTotal + ackedBytes tcb segmentsAcked) }
  if rtt.IsZero then .ok s1
  else
    match tcb.GetCwndInSegments with
    | .error e => .error e
    | .ok segCwnd =>
      match networkQueue segCwnd rtt.GetMicroSeconds tcb.m_minRtt.GetMicroSeconds with
      | .error e => .error e
      | .ok nq =>
        if nq ≥ s1.m_nq_k then
          .ok { s1 with
            m_signal := Signal.rtt_sig
            m_ackedBytesRtt := wrapU32 (s1.m_ackedBytesRtt + ackedBytes tcb segmentsAcked) }
        else .ok s1

/-- Part of `PktsAcked`, lines 167-170: the ECN accounting. -/
def accountEcn (self : TcpDsdcc) (tcb : TcpSocketState) (segmentsAcked : Nat) : TcpDsdcc :=
  if tcb.m_ecnState = EcnState_t.ECN_ECE_RCVD then
    { self with
      m_ackedBytesEcn := wrapU32 (self.m_ackedBytesEcn + ackedBytes tcb segmentsAcked) }
  else self

/-- Part of `PktsAcked`, lines 143-170: the per-acknowledgment accounting. -/
def account (self : TcpDsdcc) (tcb : TcpSocketState) (segmentsAcked : Nat) (rtt : Time) :
    Except Fault TcpDsdcc :=
  match accountRtt self tcb segmentsAcked rtt with
  | .error e => .error e
  | .ok s1 => .ok (accountEcn s1 tcb segmentsAcked)

/-- Part of `PktsAcked`, lines 171-175: the first call latches the window boundary. -/
def latch (self : TcpDsdcc) (tcb : TcpSocketState) : TcpDsdcc :=
  if self.m_nextSeqFlag = false then
    { self with m_nextSeq := tcb.m_nextTxSequence, m_nextSeqFlag := true }
  else self

/-- The fraction `bytesRtt` of `PktsAcked`, lines 181-185. -/
def bytesRtt (self : TcpDsdcc) : ℚ :=
  if self.m_ackedBytesTotal > 0 then
    (self.m_ackedBytesRtt : ℚ) * 1 / (self.m_ackedBytesTotal : ℚ)
  else 0

/-- The fraction `bytesEcn` of `PktsAcked`, lines 205-209. -/
def bytesEcn (self : TcpDsdcc) : ℚ :=
  if self.m_ackedBytesTotal > 0 then
    (self.m_ackedBytesEcn : ℚ) * 1 / (self.m_ackedBytesTotal : ℚ)
  else 0

/-- Part of `PktsAcked`, lines 181-198: the window close of a long flow (`Elephant`). -/
def expireElephant (self : TcpDsdcc) (tcb : TcpSocketState) : Outcome TcpDsdcc :=
  let s1 := { self with
    m_alpha_rtt := (1 - self.m_g) * self.m_alpha_rtt + self.m_g * bytesRtt self }
  let ev : CongestionEstimate := (s1.m_ackedBytesRtt, s1.m_ackedBytesTotal, s1.m_alpha_rtt)
  let s2 := { s1 with m_alpha := s1.m_alpha_rtt }
  let tcb1 :=
    if s2.m_signal = Signal.rtt_sig then
      let val := castU32 ((1 - s2.m_alpha_rtt / 2) * (tcb.m_cWnd : ℚ))
      let ss := max val (wrapU32 (2 * tcb.m_segmentSize))
      { tcb with m_ssThresh := ss, m_cWnd := ss }
    else tcb
  { self := Reset s2 tcb1, tcb := tcb1, trace := [ev] }

/-- Part of `PktsAcked`, lines 205-214: the window close of a short flow (`Mouse`). -/
def expireMouse (self : TcpDsdcc) (tcb : TcpSocketState) : Outcome TcpDsdcc :=
  let s1 := { self with
    m_alpha_ecn := (1 - self.m_g) * self.m_alpha_ecn + self.m_g * bytesEcn self }
  let s2 := { s1 with m_alpha := s1.m_alpha_ecn }
  let ev : CongestionEstimate := (s2.m_ackedBytesEcn, s2.m_ackedBytesTotal, s2.m_alpha_ecn)
  { self := Reset s2 tcb, tcb := tcb, trace := [ev] }

/-- Method `TcpDsdcc::PktsAcked`. -/
def PktsAcked (self : TcpDsdcc) (tcb : TcpSocketState) (segmentsAcked : Nat) (rtt : Time) :
    Except Fault (Outcome TcpDsdcc) :=
  match account self tcb segmentsAcked rtt with
  | .error e => .error e
  | .ok s1 =>
    let s2 := latch s1 tcb
    match tcb.m_flowMode with
    | FlowMode_t.Elephant =>
      if SequenceNumber32.ge tcb.m_lastAckedSeq s2.m_nextSeq then .ok (expireElephant s2 tcb)
      else .ok { self := s2, tcb := tcb, trace := [] }
    | FlowMode_t.Mouse =>
      if SequenceNumber32.ge tcb.m_lastAckedSeq s2.m_nextSeq then .ok (expireMouse s2 tcb)
      else .ok { self := s2, tcb := tcb, trace := [] }
    | FlowMode_t.Unclassified => .ok { self := s2, tcb := tcb, trace := [] }

/-- A sequence of `PktsAcked` calls on one instance, every call with its own control block. -/
def run (self : TcpDsdcc) : List Ack → Except Fault TcpDsdcc
  | [] => .ok self
  | a :: rest =>
    match PktsAcked self a.tcb a.segmentsAcked a.rtt with
    | .error e => .error e
    | .ok out => run out.self rest

end TcpDsdcc

/-! ## TcpDstcp (tcp-dstcp.cc)

The header tcp-dstcp.h is not among the sources.  The members are those that tcp-dstcp.cc
names; the thresholds are `int32_t` as `m_nq_k` in tcp-dcvegas.h, the drain cycle, the two
scales and the round counter are `uint32_t` as their attribute checkers say, `m_last_minRtt`
is `int64_t` and `m_drain_cwnd` and the gains are `double`. -/

/-- The enumeration `TcpDstcp::Signal`, the five values tcp-dstcp.cc names. -/
inductive TcpDstcp.Signal where
  | non_sig
  | ecn_sig
  | rtt_sig
  | ear_sig
  | drain_sig
  deriving DecidableEq, Repr

/-- The declared type of `m_nq_avg`, which tcp-dstcp.cc does not show: an `int32_t` keeps the
integer part of a value assigned to it, a `double` keeps the value. -/
inductive NqAvgDecl where
  | int32
  | double
  deriving DecidableEq, Repr

/-- Assignment of a `double` expression to `m_nq_avg`. -/
def NqAvgDecl.store : NqAvgDecl → ℚ → ℚ
  | NqAvgDecl.int32, x => ((wrapI32 (truncQ x) : Int) : ℚ)
  | NqAvgDecl.double, x => x

/-- The constant `INT64_MAX`. -/
def INT64_MAX : Int := 9223372036854775807

/-- The data members of `TcpDstcp`. -/
structure TcpDstcp where
  m_ackedBytesEcn : Nat
  m_ackedBytesRtt : Nat
  m_ackedBytesTotal : Nat
  m_nq_k1 : Int
  m_nq_k2 : Int
  m_nq_avg : ℚ
  m_nq_g : ℚ
  m_priorRcvNxt : SequenceNumber32
  m_priorRcvNxtFlag : Bool
  m_alpha_ecn : ℚ
  m_alpha_rtt : ℚ
  m_alpha : ℚ
  m_signal : TcpDstcp.Signal
  m_last_minRtt : Int
  m_nextSeq : SequenceNumber32
  m_nextSeqFlag : Bool
  m_ceState : Bool
  m_delayedAckReserved : Bool
  m_g : ℚ
  m_useEct0 : Bool
  m_initialized : Bool
  m_drain_cycle : Nat
  m_drain_cycle_scale : Nat
  m_drain_cwnd : ℚ
  m_drain_cwnd_scale : Nat
  m_round : Nat
  deriving DecidableEq

namespace TcpDstcp

/-- The copy constructor `TcpDstcp (const TcpDstcp& sock)`, lines 126-156.  `raw` is the content
of the storage of the new object before the member-initialiser list runs; a member that the
list does not name keeps it. -/
def copy (raw sock : TcpDstcp) : TcpDstcp :=
  { raw with
    m_ackedBytesEcn := sock.m_ackedBytesEcn
    m_ackedBytesRtt := sock.m_ackedBytesRtt
    m_ackedBytesTotal := sock.m_ackedBytesTotal
    m_nq_k1 := sock.m_nq_k1
    m_nq_k2 := sock.m_nq_k2
    m_nq_avg := sock.m_nq_avg
    m_nq_g := sock.m_nq_g
    m_priorRcvNxt := sock.m_priorRcvNxt
    m_priorRcvNxtFlag := sock.m_priorRcvNxtFlag
    m_alpha_ecn := sock.m_alpha_ecn
    m_alpha_rtt := sock.m_alpha_rtt
    m_alpha := sock.m_alpha
    m_signal := sock.m_signal
    m_last_minRtt := sock.m_last_minRtt
    m_nextSeq := sock.m_nextSeq
    m_nextSeqFlag := sock.m_nextSeqFlag
    m_ceState := sock.m_ceState
    m_delayedAckReserved := sock.m_delayedAckReserved
    m_g := sock.m_g
    m_useEct0 := sock.m_useEct0
    m_initialized := sock.m_initialized
    m_drain_cycle := sock.m_drain_cycle
    m_drain_cycle_scale := sock.m_drain_cycle_scale
    m_drain_cwnd_scale := sock.m_drain_cwnd_scale
    m_round := sock.m_round }

/-- Method `TcpDstcp::Fork`: `CopyObject<TcpDstcp> (this)`, the copy constructor run on new storage
`raw`.  The original is returned along with the copy. -/
def Fork (raw self : TcpDstcp) : TcpDstcp × TcpDstcp :=
  (self, copy raw self)

/-- Method `TcpDstcp::GetSsThresh`. -/
def GetSsThresh (self : TcpDstcp) (tcb : TcpSocketState) (_bytesInFlight : Nat) :
    Nat × TcpDstcp :=
  (castU32 ((1 - self.m_alpha / 2) * (tcb.m_cWnd : ℚ)), self)

/-- Method `TcpDstcp::Reset`. -/
def Reset (self : TcpDstcp) (tcb : TcpSocketState) : TcpDstcp :=
  { self with
    m_nextSeq := tcb.m_nextTxSequence
    m_ackedBytesEcn := 0
    m_ackedBytesRtt := 0
    m_ackedBytesTotal := 0
    m_signal := Signal.non_sig
    m_nq_avg := -1
    m_last_minRtt := INT64_MAX }

/-- Part of `PktsAcked`, lines 211-225: the delay accounting and the average of the queue estimate,
once the estimate `nq` is known. -/
def accountNq (ty : NqAvgDecl) (self : TcpDstcp) (tcb : TcpSocketState) (segmentsAcked : Nat)
    (nq : Int) : TcpDstcp :=
  let s1 :=
    if nq ≥ self.m_nq_k1 then
      { self with
        m_ackedBytesRtt := wrapU32 (self.m_ackedBytesRtt + ackedBytes tcb segmentsAcked)
        m_signal := Signal.rtt_sig }
    else self
  if s1.m_nq_avg < 0 then { s1 with m_nq_avg := (nq : ℚ) }
  else { s1 with m_nq_avg := ty.store (s1.m_nq_avg + s1.m_nq_g * ((nq : ℚ) - s1.m_nq_avg)) }

/-- Part of `PktsAcked`, lines 194-226: the total and the delay accounting. -/
def accountRtt (ty : NqAvgDecl) (self : TcpDstcp) (tcb : TcpSocketState) (segmentsAcked : Nat)
    (rtt : Time) : Except Fault TcpDstcp :=
  let s1 := { self with
    m_ackedBytesTotal := wrapU32 (self.m_ackedBytesTotal + ackedBytes tcb segmentsAcked) }
  if rtt.IsZero then .ok s1
  else
    match tcb.GetCwndInSegments with
    | .error e => .error e
    | .ok segCwnd =>
      let s2 := { s1 with m_last_minRtt := min s1.m_last_minRtt rtt.GetMicroSeconds }
      match networkQueue segCwnd rtt.GetMicroSeconds tcb.m_minRtt.GetMicroSeconds with
      | .error e => .error e
      | .ok nq => .ok (accountNq ty s2 tcb segmentsAcked nq)

/-- Part of `PktsAcked`, lines 228-232: the ECN accounting. -/
def accountEcn (self : TcpDstcp) (tcb : TcpSocketState) (segmentsAcked : Nat) : TcpDstcp :=
  if tcb.m_ecnState = EcnState_t.ECN_ECE_RCVD then
    { self with
      m_ackedBytesEcn := wrapU32 (self.m_ackedBytesEcn + ackedBytes tcb segmentsAcked)
      m_signal := Signal.ecn_sig }
  else self

/-- Part of `PktsAcked`, lines 194-232: the per-acknowledgment accounting. -/
def account (ty : NqAvgDecl) (self : TcpDstcp) (tcb : TcpSocketState) (segmentsAcked : Nat)
    (rtt : Time) : Except Fault TcpDstcp :=
  match accountRtt ty self tcb segmentsAcked rtt with
  | .error e => .error e
  | .ok s1 => .ok (accountEcn s1 tcb segmentsAcked)

/-- Part of `PktsAcked`, lines 233-237: the first call latches the window boundary. -/
def latch (self : TcpDstcp) (tcb : TcpSocketState) : TcpDstcp :=
  if self.m_nextSeqFlag = false then
    { self with m_nextSeq := tcb.m_nextTxSequence, m_nextSeqFlag := true }
  else self

/-- The fraction `bytesEcn` of `PktsAcked`, lines 242-248. -/
def bytesEcn (self : TcpDstcp) : ℚ :=
  if self.m_ackedBytesTotal > 0 then
    (self.m_ackedBytesEcn : ℚ) * 1 / (self.m_ackedBytesTotal : ℚ)
  else 0

/-- The fraction `bytesRtt` of `PktsAcked`, lines 243-248. -/
def bytesRtt (self : TcpDstcp) : ℚ :=
  if self.m_ackedBytesTotal > 0 then
    (self.m_ackedBytesRtt : ℚ) * 1 / (self.m_ackedBytesTotal : ℚ)
  else 0

/-- The drain target `static_cast<uint32_t> (m_drain_cwnd * m_drain_cwnd_scale *
tcb->m_segmentSize)` of lines 261 and 280. -/
def drainTarget (self : TcpDstcp) (tcb : TcpSocketState) : Nat :=
  castU32 (self.m_drain_cwnd * (self.m_drain_cwnd_scale : ℚ) * (tcb.m_segmentSize : ℚ))

/-- Part of `PktsAcked`, lines 249-256: the two averages and the promotion of `ecn_sig` to `ear_sig`. -/
def updateAlphas (self : TcpDstcp) : TcpDstcp :=
  let s1 := { self with
    m_alpha_ecn := (1 - self.m_g) * self.m_alpha_ecn + self.m_g * bytesEcn self
    m_alpha_rtt := (1 - self.m_g) * self.m_alpha_rtt + self.m_g * bytesRtt self }
  if s1.m_signal = Signal.ecn_sig ∧ s1.m_nq_avg ≥ (s1.m_nq_k2 : ℚ) then
    { s1 with m_signal := Signal.ear_sig }
  else s1

/-- Part of `PktsAcked`, lines 258-272: the round counter and the drain test. -/
def drainCheck (self : TcpDstcp) (tcb : TcpSocketState) : Except Fault TcpDstcp :=
  let s1 := { self with m_round := wrapU32 (self.m_round + 1) }
  let period := wrapU32 (s1.m_drain_cycle * s1.m_drain_cycle_scale)
  if period = 0 then .error Fault.divideByZero
  else if s1.m_round % period = 0 then
    let s2 := if tcb.m_cWnd > drainTarget s1 tcb then { s1 with m_signal := Signal.drain_sig }
      else s1
    .ok { s2 with m_round := 0 }
  else .ok s1

/-- Part of `PktsAcked`, lines 275-313: the `switch (m_signal)`, the trace event and `Reset`. -/
def react (self : TcpDstcp) (tcb : TcpSocketState) : Outcome TcpDstcp :=
  let r : TcpDstcp × TcpSocketState :=
    match self.m_signal with
    | Signal.drain_sig =>
      let c := drainTarget self tcb
      (self, { tcb with m_cWnd := c, m_ssThresh := c, m_cWndInfl := c })
    | Signal.non_sig => (self, tcb)
    | Signal.ecn_sig => ({ self with m_alpha := self.m_alpha_ecn }, tcb)
    | Signal.rtt_sig =>
      let c := castU32 ((tcb.m_cWnd : ℚ) - (1 - self.m_alpha_rtt) * (tcb.m_segmentSize : ℚ))
      (self, { tcb with m_cWnd := c, m_ssThresh := c, m_cWndInfl := c })
    | Signal.ear_sig => ({ self with m_alpha := self.m_alpha_ecn + self.m_alpha_rtt }, tcb)
  let ev : CongestionEstimate := (r.1.m_ackedBytesEcn, r.1.m_ackedBytesTotal, r.1.m_alpha)
  { self := Reset r.1 r.2, tcb := r.2, trace := [ev] }

/-- Part of `PktsAcked`, lines 242-313: the body of `if (tcb->m_lastAckedSeq >= m_nextSeq)`. -/
def expire (self : TcpDstcp) (tcb : TcpSocketState) : Except Fault (Outcome TcpDstcp) :=
  match drainCheck (updateAlphas self) tcb with
  | .error e => .error e
  | .ok s1 => .ok (react s1 tcb)

/-- Method `TcpDstcp::PktsAcked`. -/
def PktsAcked (ty : NqAvgDecl) (self : TcpDstcp) (tcb : TcpSocketState) (segmentsAcked : Nat)
    (rtt : Time) : Except Fault (Outcome TcpDstcp) :=
  match account ty self tcb segmentsAcked rtt with
  | .error e => .error e
  | .ok s1 =>
    let s2 := latch s1 tcb
    if SequenceNumber32.ge tcb.m_lastAckedSeq s2.m_nextSeq then expire s2 tcb
    else .ok { self := s2, tcb := tcb, trace := [] }

/-- A sequence of `PktsAcked` calls on one instance, every call with its own control block. -/
def run (ty : NqAvgDecl) (self : TcpDstcp) : List Ack → Except Fault TcpDstcp
  | [] => .ok self
  | a :: rest =>
    match PktsAcked ty self a.tcb a.segmentsAcked a.rtt with
    | .error e => .error e
    | .ok out => run ty out.self rest

end TcpDstcp

/-! ## Runs without counter overflow -/

/-- No call of the run wraps the 32-bit total `m_ackedBytesTotal` (TcpDcvegas). -/
def TcpDcvegas.noOverflow (self : TcpDcvegas) : List Ack → Bool
  | [] => true
  | a :: rest =>
    decide (self.m_ackedBytesTotal + a.segmentsAcked * a.tcb.m_segmentSize < 2 ^ 32) &&
      match TcpDcvegas.PktsAcked self a.tcb a.segmentsAcked a.rtt with
      | .error _ => true
      | .ok out => TcpDcvegas.noOverflow out.self rest

/-- No call of the run wraps the 32-bit total `m_ackedBytesTotal` (TcpDsdcc). -/
def TcpDsdcc.noOverflow (self : TcpDsdcc) : List Ack → Bool
  | [] => true
  | a :: rest =>
    decide (self.m_ackedBytesTotal + a.segmentsAcked * a.tcb.m_segmentSize < 2 ^ 32) &&
      match TcpDsdcc.PktsAcked self a.tcb a.segmentsAcked a.rtt with
      | .error _ => true
      | .ok out => TcpDsdcc.noOverflow out.self rest

/-- No call of the run wraps the 32-bit total `m_ackedBytesTotal` (TcpDstcp). -/
def TcpDstcp.noOverflow (ty : NqAvgDecl) (self : TcpDstcp) : List Ack → Bool
  | [] => true
  | a :: rest =>
    decide (self.m_ackedBytesTotal + a.segmentsAcked * a.tcb.m_segmentSize < 2 ^ 32) &&
      match TcpDstcp.PktsAcked ty self a.tcb a.segmentsAcked a.rtt with
      | .error _ => true
      | .ok out => TcpDstcp.noOverflow ty out.self rest

/-! ## Two objects side by side: the original and its fork -/

/-- Method `PktsAcked` called on the first object of a pair (TcpDcvegas). -/
def TcpDcvegas.ackFirst (p : TcpDcvegas × TcpDcvegas) (tcb : TcpSocketState)
    (segmentsAcked : Nat) (rtt : Time) : Except Fault (TcpDcvegas × TcpDcvegas) :=
  match TcpDcvegas.PktsAcked p.1 tcb segmentsAcked rtt with
  | .error e => .error e
  | .ok out => .ok (out.self, p.2)

/-- Method `PktsAcked` called on the second object of a pair (TcpDcvegas). -/
def TcpDcvegas.ackSecond (p : TcpDcvegas × TcpDcvegas) (tcb : TcpSocketState)
    (segmentsAcked : Nat) (rtt : Time) : Except Fault (TcpDcvegas × TcpDcvegas) :=
  match TcpDcvegas.PktsAcked p.2 tcb segmentsAcked rtt with
  | .error e => .error e
  | .ok out => .ok (p.1, out.self)

/-! ## Construction and initialisation -/

/-- The default constructor `TcpDcvegas ()`, tcp-dcvegas.cc lines 67-79.  `raw` is the content
of the storage of the new object before the member-initialiser list runs; the members that
the list does not name (`m_nq_k`, `m_alpha`, `m_g`, set afterwards through the attributes)
keep it. -/
def TcpDcvegas.construct (raw : TcpDcvegas) : TcpDcvegas :=
  { raw with
    m_ackedBytesRtt := 0
    m_ackedBytesTotal := 0
    m_priorRcvNxt := 0
    m_priorRcvNxtFlag := false
    m_signal := TcpDcvegas.Signal.non_sig
    m_nextSeq := 0
    m_nextSeqFlag := false
    m_initialized := false }

/-- Method `TcpDcvegas::Init`. -/
def TcpDcvegas.Init (self : TcpDcvegas) (tcb : TcpSocketState) : TcpDcvegas × TcpSocketState :=
  ({ self with m_initialized := true }, { tcb with m_useEcn := UseEcn_t.Off })

/-- Method `TcpDcvegas::InitializeDcvegasAlpha`: `NS_ABORT_MSG_IF (m_initialized, ...)`, then
the assignment. -/
def TcpDcvegas.InitializeDcvegasAlpha (self : TcpDcvegas) (alpha : ℚ) :
    Except Fault TcpDcvegas :=
  if self.m_initialized = true then .error Fault.abort
  else .ok { self with m_alpha := alpha }

/-- The default constructor `TcpDsdcc ()`, tcp-dsdcc.cc lines 72-85.  `raw` is the content of
the storage of the new object before the member-initialiser list runs; the members that the
list does not name (`m_ackedBytesRtt`, `m_signal`, and `m_nq_k`, the alphas, `m_g`,
`m_useEct0`, set afterwards through the attributes) keep it. -/
def TcpDsdcc.construct (raw : TcpDsdcc) : TcpDsdcc :=
  { raw with
    m_ackedBytesEcn := 0
    m_ackedBytesTotal := 0
    m_priorRcvNxt := 0
    m_priorRcvNxtFlag := false
    m_nextSeq := 0
    m_nextSeqFlag := false
    m_ceState := false
    m_delayedAckReserved := false
    m_initialized := false }

/-- Method `TcpDsdcc::Init`. -/
def TcpDsdcc.Init (self : TcpDsdcc) (tcb : TcpSocketState) : TcpDsdcc × TcpSocketState :=
  ({ self with m_initialized := true },
    { tcb with
      m_useEcn := UseEcn_t.On
      m_ecnMode := EcnMode_t.DctcpEcn
      m_ectCodePoint := if self.m_useEct0 then EcnCodePoint_t.Ect0 else EcnCodePoint_t.Ect1 })

/-- Method `TcpDsdcc::InitializeDsdccAlpha`: `NS_ABORT_MSG_IF (m_initialized, ...)`, then the
three assignments. -/
def TcpDsdcc.InitializeDsdccAlpha (self : TcpDsdcc) (alpha : ℚ) : Except Fault TcpDsdcc :=
  if self.m_initialized = true then .error Fault.abort
  else .ok { self with m_alpha_ecn := alpha, m_alpha_rtt := alpha, m_alpha := alpha }

/-- The default constructor `TcpDstcp ()`, tcp-dstcp.cc lines 102-124.  `raw` is the content of
the storage of the new object before the member-initialiser list runs; the members that the
list does not name (the thresholds, `m_nq_g`, the alphas, `m_g`, `m_useEct0`, `m_drain_cwnd`,
set afterwards through the attributes) keep it. -/
def TcpDstcp.construct (raw : TcpDstcp) : TcpDstcp :=
  { raw with
    m_ackedBytesEcn := 0
    m_ackedBytesRtt := 0
    m_ackedBytesTotal := 0
    m_nq_avg := -1
    m_priorRcvNxt := 0
    m_priorRcvNxtFlag := false
    m_signal := TcpDstcp.Signal.non_sig
    m_last_minRtt := INT64_MAX
    m_nextSeq := 0
    m_nextSeqFlag := false
    m_ceState := false
    m_delayedAckReserved := false
    m_initialized := false
    m_drain_cycle := 8
    m_drain_cycle_scale := 1
    m_drain_cwnd_scale := 1
    m_round := 0 }

/-- Method `TcpDstcp::Init`. -/
def TcpDstcp.Init (self : TcpDstcp) (tcb : TcpSocketState) : TcpDstcp × TcpSocketState :=
  ({ self with m_initialized := true },
    { tcb with
      m_useEcn := UseEcn_t.On
      m_ecnMode := EcnMode_t.DctcpEcn
      m_ectCodePoint := if self.m_useEct0 then EcnCodePoint_t.Ect0 else EcnCodePoint_t.Ect1 })

/-- Method `TcpDstcp::InitializeDstcpAlpha`: `NS_ABORT_MSG_IF (m_initialized, ...)`, then the
three assignments. -/
def TcpDstcp.InitializeDstcpAlpha (self : TcpDstcp) (alpha : ℚ) : Except Fault TcpDstcp :=
  if self.m_initialized = true then .error Fault.abort
  else .ok { self with m_alpha_ecn := alpha, m_alpha_rtt := alpha, m_alpha := alpha }

/-! ## The window close of TcpDstcp, observed -/

/-- The period `m_drain_cycle * m_drain_cycle_scale` of line 260, a `uint32_t` product. -/
def TcpDstcp.drainPeriod (self : TcpDstcp) : Nat :=
  wrapU32 (self.m_drain_cycle * self.m_drain_cycle_scale)

/-- The two tests of lines 260-261 for an instance about to close its window: the incremented
round counter is a multiple of the period, and the window exceeds the drain target. -/
def TcpDstcp.drainFires (self : TcpDstcp) (tcb : TcpSocketState) : Bool :=
  decide (wrapU32 (self.m_round + 1) % TcpDstcp.drainPeriod self = 0) &&
    decide (tcb.m_cWnd > TcpDstcp.drainTarget self tcb)

/-- The value of `m_signal` with which a call enters the `switch (m_signal)` of line 275;
`none` when the call does not get there (a fault, or no window to close). -/
def TcpDstcp.closingSignal (ty : NqAvgDecl) (self : TcpDstcp) (tcb : TcpSocketState)
    (segmentsAcked : Nat) (rtt : Time) : Option TcpDstcp.Signal :=
  match TcpDstcp.account ty self tcb segmentsAcked rtt with
  | .error _ => none
  | .ok s1 =>
    if SequenceNumber32.ge tcb.m_lastAckedSeq (TcpDstcp.latch s1 tcb).m_nextSeq then
      match TcpDstcp.drainCheck (TcpDstcp.updateAlphas (TcpDstcp.latch s1 tcb)) tcb with
      | .error _ => none
      | .ok s2 => some s2.m_signal
    else none

/-- The number of windows closed along a run: the trace events fired. -/
def TcpDstcp.closedWindows (ty : NqAvgDecl) (self : TcpDstcp) : List Ack → Nat
  | [] => 0
  | a :: rest =>
    match TcpDstcp.PktsAcked ty self a.tcb a.segmentsAcked a.rtt with
    | .error _ => 0
    | .ok out => out.trace.length + TcpDstcp.closedWindows ty out.self rest

/-! ## Congestion events (tcp-dsdcc.cc, tcp-dstcp.cc)

TcpDcvegas does not override `CwndEvent`. -/

/-- The enumeration `TcpSocketState::TcpCAEvent_t`. -/
inductive TcpCAEvent_t where
  | CA_EVENT_TX_START
  | CA_EVENT_CWND_RESTART
  | CA_EVENT_COMPLETE_CWR
  | CA_EVENT_LOSS
  | CA_EVENT_ECN_NO_CE
  | CA_EVENT_ECN_IS_CE
  | CA_EVENT_DELAYED_ACK
  | CA_EVENT_NON_DELAYED_ACK
  deriving DecidableEq, Repr

/-- The flag bit `TcpHeader::ACK`. -/
def TcpHeader.ACK : Nat := 16

/-- The flag bit `TcpHeader::ECE`. -/
def TcpHeader.ECE : Nat := 64

/-- Method `TcpRxBuffer::NextRxSequence`, on the receive buffer of the control block. -/
def TcpSocketState.NextRxSequence (tcb : TcpSocketState) : SequenceNumber32 := tcb.m_rxBuffer

/-- Method `TcpRxBuffer::SetNextRxSequence`, on the receive buffer of the control block. -/
def TcpSocketState.SetNextRxSequence (tcb : TcpSocketState) (s : SequenceNumber32) :
    TcpSocketState :=
  { tcb with m_rxBuffer := s }

/-- The call `tcb->m_sendEmptyPacketCallback (flags)`: the host sends an empty segment with
these flags, acknowledging up to the receive sequence the buffer holds at that moment. -/
def TcpSocketState.m_sendEmptyPacketCallback (tcb : TcpSocketState) (flags : Nat) :
    TcpSocketState :=
  { tcb with m_sent := (flags, tcb.NextRxSequence) :: tcb.m_sent }

/-- Method `TcpDsdcc::CeState0to1`. -/
def TcpDsdcc.CeState0to1 (self : TcpDsdcc) (tcb : TcpSocketState) :
    TcpDsdcc × TcpSocketState :=
  let tcb1 :=
    if (!self.m_ceState && self.m_delayedAckReserved && self.m_priorRcvNxtFlag) = true then
      let tmpRcvNxt := tcb.NextRxSequence
      let t1 := tcb.SetNextRxSequence self.m_priorRcvNxt
      let t2 := t1.m_sendEmptyPacketCallback TcpHeader.ACK
      t2.SetNextRxSequence tmpRcvNxt
    else tcb
  let s1 := if self.m_priorRcvNxtFlag = false then { self with m_priorRcvNxtFlag := true }
    else self
  ({ s1 with m_priorRcvNxt := tcb1.NextRxSequence, m_ceState := true },
    { tcb1 with m_ecnState := EcnState_t.ECN_CE_RCVD })

/-- Method `TcpDsdcc::CeState1to0`. -/
def TcpDsdcc.CeState1to0 (self : TcpDsdcc) (tcb : TcpSocketState) :
    TcpDsdcc × TcpSocketState :=
  let tcb1 :=
    if (self.m_ceState && self.m_delayedAckReserved && self.m_priorRcvNxtFlag) = true then
      let tmpRcvNxt := tcb.NextRxSequence
      let t1 := tcb.SetNextRxSequence self.m_priorRcvNxt
      let t2 := t1.m_sendEmptyPacketCallback (TcpHeader.ACK ||| TcpHeader.ECE)
      t2.SetNextRxSequence tmpRcvNxt
    else tcb
  let s1 := if self.m_priorRcvNxtFlag = false then { self with m_priorRcvNxtFlag := true }
    else self
  let s2 := { s1 with m_priorRcvNxt := tcb1.NextRxSequence, m_ceState := false }
  if tcb1.m_ecnState = EcnState_t.ECN_CE_RCVD ∨ tcb1.m_ecnState = EcnState_t.ECN_SENDING_ECE then
    (s2, { tcb1 with m_ecnState := EcnState_t.ECN_IDLE })
  else (s2, tcb1)

/-- Method `TcpDsdcc::UpdateAckReserved`. -/
def TcpDsdcc.UpdateAckReserved (self : TcpDsdcc) (tcb : TcpSocketState)
    (event : TcpCAEvent_t) : TcpDsdcc × TcpSocketState :=
  match event with
  | TcpCAEvent_t.CA_EVENT_DELAYED_ACK =>
    if self.m_delayedAckReserved = false then ({ self with m_delayedAckReserved := true }, tcb)
    else (self, tcb)
  | TcpCAEvent_t.CA_EVENT_NON_DELAYED_ACK =>
    if self.m_delayedAckReserved = true then ({ self with m_delayedAckReserved := false }, tcb)
    else (self, tcb)
  | _ => (self, tcb)

/-- Method `TcpDsdcc::CwndEvent`. -/
def TcpDsdcc.CwndEvent (self : TcpDsdcc) (tcb : TcpSocketState) (event : TcpCAEvent_t) :
    TcpDsdcc × TcpSocketState :=
  match event with
  | TcpCAEvent_t.CA_EVENT_ECN_IS_CE => TcpDsdcc.CeState0to1 self tcb
  | TcpCAEvent_t.CA_EVENT_ECN_NO_CE => TcpDsdcc.CeState1to0 self tcb
  | TcpCAEvent_t.CA_EVENT_DELAYED_ACK => TcpDsdcc.UpdateAckReserved self tcb event
  | TcpCAEvent_t.CA_EVENT_NON_DELAYED_ACK => TcpDsdcc.UpdateAckReserved self tcb event
  | _ => (self, tcb)

/-- Method `TcpDstcp::CeState0to1`. -/
def TcpDstcp.CeState0to1 (self : TcpDstcp) (tcb : TcpSocketState) :
    TcpDstcp × TcpSocketState :=
  let tcb1 :=
    if (!self.m_ceState && self.m_delayedAckReserved && self.m_priorRcvNxtFlag) = true then
      let tmpRcvNxt := tcb.NextRxSequence
      let t1 := tcb.SetNextRxSequence self.m_priorRcvNxt
      let t2 := t1.m_sendEmptyPacketCallback TcpHeader.ACK
      t2.SetNextRxSequence tmpRcvNxt
    else tcb
  let s1 := if self.m_priorRcvNxtFlag = false then { self with m_priorRcvNxtFlag := true }
    else self
  ({ s1 with m_priorRcvNxt := tcb1.NextRxSequence, m_ceState := true },
    { tcb1 with m_ecnState := EcnState_t.ECN_CE_RCVD })

/-- Method `TcpDstcp::CeState1to0`. -/
def TcpDstcp.CeState1to0 (self : TcpDstcp) (tcb : TcpSocketState) :
    TcpDstcp × TcpSocketState :=
  let tcb1 :=
    if (self.m_ceState && self.m_delayedAckReserved && self.m_priorRcvNxtFlag) = true then
      let tmpRcvNxt := tcb.NextRxSequence
      let t1 := tcb.SetNextRxSequence self.m_priorRcvNxt
      let t2 := t1.m_sendEmptyPacketCallback (TcpHeader.ACK ||| TcpHeader.ECE)
      t2.SetNextRxSequence tmpRcvNxt
    else tcb
  let s1 := if self.m_priorRcvNxtFlag = false then { self with m_priorRcvNxtFlag := true }
    else self
  let s2 := { s1 with m_priorRcvNxt := tcb1.NextRxSequence, m_ceState := false }
  if tcb1.m_ecnState = EcnState_t.ECN_CE_RCVD ∨ tcb1.m_ecnState = EcnState_t.ECN_SENDING_ECE then
    (s2, { tcb1 with m_ecnState := EcnState_t.ECN_IDLE })
  else (s2, tcb1)

/-- Method `TcpDstcp::UpdateAckReserved`. -/
def TcpDstcp.UpdateAckReserved (self : TcpDstcp) (tcb : TcpSocketState)
    (event : TcpCAEvent_t) : TcpDstcp × TcpSocketState :=
  match event with
  | TcpCAEvent_t.CA_EVENT_DELAYED_ACK =>
    if self.m_delayedAckReserved = false then ({ self with m_delayedAckReserved := true }, tcb)
    else (self, tcb)
  | TcpCAEvent_t.CA_EVENT_NON_DELAYED_ACK =>
    if self.m_delayedAckReserved = true then ({ self with m_delayedAckReserved := false }, tcb)
    else (self, tcb)
  | _ => (self, tcb)

/-- Method `TcpDstcp::CwndEvent`. -/
def TcpDstcp.CwndEvent (self : TcpDstcp) (tcb : TcpSocketState) (event : TcpCAEvent_t) :
    TcpDstcp × TcpSocketState :=
  match event with
  | TcpCAEvent_t.CA_EVENT_ECN_IS_CE => TcpDstcp.CeState0to1 self tcb
  | TcpCAEvent_t.CA_EVENT_ECN_NO_CE => TcpDstcp.CeState1to0 self tcb
  | TcpCAEvent_t.CA_EVENT_DELAYED_ACK => TcpDstcp.UpdateAckReserved self tcb event
  | TcpCAEvent_t.CA_EVENT_NON_DELAYED_ACK => TcpDstcp.UpdateAckReserved self tcb event
  | _ => (self, tcb)

/-! ## TcpDsdcc on a long flow, seen as TcpDcvegas -/

/-- The members of a TcpDsdcc instance and of a TcpDcvegas instance that the delay rule reads
or writes hold the same values; the tracked alpha is `m_alpha_rtt` in TcpDsdcc and `m_alpha`
in TcpDcvegas. -/
def delayAgree (d : TcpDsdcc) (v : TcpDcvegas) : Prop :=
  d.m_ackedBytesRtt = v.m_ackedBytesRtt ∧ d.m_ackedBytesTotal = v.m_ackedBytesTotal ∧
    (d.m_signal = TcpDsdcc.Signal.rtt_sig ↔ v.m_signal = TcpDcvegas.Signal.rtt_sig) ∧
    d.m_nextSeq = v.m_nextSeq ∧ d.m_nextSeqFlag = v.m_nextSeqFlag ∧ d.m_g = v.m_g ∧
    d.m_nq_k = v.m_nq_k ∧ d.m_alpha_rtt = v.m_alpha

/-! ## Runs of TcpDcvegas, observed -/

/-- The number of windows closed along a run of TcpDcvegas: the trace events fired. -/
def TcpDcvegas.closedWindows (self : TcpDcvegas) : List Ack → Nat
  | [] => 0
  | a :: rest =>
    match TcpDcvegas.PktsAcked self a.tcb a.segmentsAcked a.rtt with
    | .error _ => 0
    | .ok out => out.trace.length + TcpDcvegas.closedWindows out.self rest

/-- No call of the run marks a byte: after the accounting of every call `m_ackedBytesRtt` is 0
and the delay signal is not set. -/
def TcpDcvegas.unmarked (self : TcpDcvegas) : List Ack → Bool
  | [] => true
  | a :: rest =>
    match TcpDcvegas.account self a.tcb a.segmentsAcked a.rtt with
    | .error _ => true
    | .ok s1 =>
      decide (s1.m_ackedBytesRtt = 0) && decide (s1.m_signal = TcpDcvegas.Signal.non_sig) &&
        match TcpDcvegas.PktsAcked self a.tcb a.segmentsAcked a.rtt with
        | .error _ => true
        | .ok out => TcpDcvegas.unmarked out.self rest

/-- The control blocks that the calls of a run leave, in order. -/
def TcpDcvegas.blocks (self : TcpDcvegas) : List Ack → List TcpSocketState
  | [] => []
  | a :: rest =>
    match TcpDcvegas.PktsAcked self a.tcb a.segmentsAcked a.rtt with
    | .error _ => []
    | .ok out => out.tcb :: TcpDcvegas.blocks out.self rest

/-! ## The queue estimate of a call -/

/-- The queue estimate `nq` that `PktsAcked` computes for a non-zero RTT sample, lines 140-145
of tcp-dcvegas.cc and the same lines of the two other classes. -/
def queueEstimate (tcb : TcpSocketState) (rtt : Time) : Except Fault Int :=
  match tcb.GetCwndInSegments with
  | .error e => .error e
  | .ok segCwnd => networkQueue segCwnd rtt.GetMicroSeconds tcb.m_minRtt.GetMicroSeconds

/-- Some acknowledgment of the list carries a non-zero RTT sample. -/
def sampled (acks : List Ack) : Bool := acks.any (fun a => !a.rtt.IsZero)

/-- The test that makes `PktsAcked` count the acknowledged bytes as delay-marked: the RTT
sample is non-zero and the queue estimate reaches the threshold `k`. -/
def delayMarked (tcb : TcpSocketState) (rtt : Time) (k : Int) : Bool :=
  !rtt.IsZero &&
    match queueEstimate tcb rtt with
    | .error _ => false
    | .ok nq => decide (nq ≥ k)

/-! ## Sequences of congestion events -/

/-- One congestion event as the host delivers it: the control block at the time of the call
and the event. -/
structure CaEvent where
  tcb : TcpSocketState
  event : TcpCAEvent_t

/-- The two events that report the mark of an arriving segment, `CA_EVENT_ECN_IS_CE` and
`CA_EVENT_ECN_NO_CE`. -/
def TcpCAEvent_t.isMark : TcpCAEvent_t → Bool
  | TcpCAEvent_t.CA_EVENT_ECN_IS_CE => true
  | TcpCAEvent_t.CA_EVENT_ECN_NO_CE => true
  | _ => false

/-- The segments sent during a call: what the record of the control block holds after the
call on top of what it held before, most recent first. -/
def sentDuring (before after : TcpSocketState) : List (Nat × SequenceNumber32) :=
  after.m_sent.take (after.m_sent.length - before.m_sent.length)

/-- A sequence of `CwndEvent` calls on one TcpDsdcc instance, every call with its own control
block. -/
def TcpDsdcc.deliver (self : TcpDsdcc) : List CaEvent → TcpDsdcc
  | [] => self
  | e :: rest => TcpDsdcc.deliver (TcpDsdcc.CwndEvent self e.tcb e.event).1 rest

/-- A sequence of `CwndEvent` calls on one TcpDstcp instance, every call with its own control
block. -/
def TcpDstcp.deliver (self : TcpDstcp) : List CaEvent → TcpDstcp
  | [] => self
  | e :: rest => TcpDstcp.deliver (TcpDstcp.CwndEvent self e.tcb e.event).1 rest

/-- The receive sequence that the control block held at the last mark event of a sequence of
events; `none` when the sequence has no mark event. -/
def lastMark : List CaEvent → Option SequenceNumber32
  | [] => none
  | e :: rest =>
    match lastMark rest with
    | some q => some q
    | none => if e.event.isMark then some e.tcb.NextRxSequence else none

/-! ## The window of TcpDstcp since the last close -/

/-- The acknowledgments of a run that came after its last window close, in order; `acc` holds
those that came before the run. -/
def TcpDstcp.sinceClose (ty : NqAvgDecl) (self : TcpDstcp) (acc : List Ack) :
    List Ack → List Ack
  | [] => acc
  | a :: rest =>
    match TcpDstcp.PktsAcked ty self a.tcb a.segmentsAcked a.rtt with
    | .error _ => acc
    | .ok out => TcpDstcp.sinceClose ty out.self (if out.trace = [] then acc ++ [a] else []) rest

/-- The queue estimates of the acknowledgments of a list that carry a non-zero RTT sample. -/
def estimates : List Ack → List Int
  | [] => []
  | a :: rest =>
    if a.rtt.IsZero then estimates rest
    else
      match queueEstimate a.tcb a.rtt with
      | .error _ => estimates rest
      | .ok nq => nq :: estimates rest

/-! ## Concrete instances -/

namespace Example

/-- A control block: window of 7 segments of 1000 bytes, minimum RTT 100 microseconds, every
byte sent so far acknowledged. -/
def tcb : TcpSocketState :=
  { m_cWnd := 7000
    m_cWndInfl := 7000
    m_ssThresh := 65535
    m_segmentSize := 1000
    m_minRtt := { m_data := 100000 }
    m_lastAckedSeq := 100
    m_nextTxSequence := 100
    m_ecnState := EcnState_t.ECN_IDLE
    m_flowMode := FlowMode_t.Elephant
    m_useEcn := UseEcn_t.On
    m_ecnMode := EcnMode_t.DctcpEcn
    m_ectCodePoint := EcnCodePoint_t.Ect0
    m_rxBuffer := 1
    m_sent := [] }

/-- The control block `tcb` with data still in flight: sent up to 200, acknowledged up to 100. -/
def tcbInFlight : TcpSocketState := { tcb with m_nextTxSequence := 200 }

/-- The control block `tcb` with the echo of a congestion mark received. -/
def tcbEce : TcpSocketState :=
  { tcb with m_cWnd := 100000, m_ecnState := EcnState_t.ECN_ECE_RCVD }

/-- An RTT sample of one millisecond. -/
def rtt1ms : Time := { m_data := 1000000 }

/-- The zero RTT sample. -/
def rttZero : Time := { m_data := 0 }

/-- A TcpDcvegas instance with the attribute defaults (`g = 1/16`, `k = 5`, `alpha = 1`) and
empty accumulators. -/
def dcvegas : TcpDcvegas :=
  { m_ackedBytesRtt := 0
    m_ackedBytesTotal := 0
    m_nq_k := 5
    m_priorRcvNxt := 0
    m_priorRcvNxtFlag := false
    m_alpha := 1
    m_signal := TcpDcvegas.Signal.non_sig
    m_nextSeq := 0
    m_nextSeqFlag := false
    m_g := 1 / 16
    m_initialized := false }

/-- A TcpDsdcc instance with the attribute defaults and empty accumulators. -/
def dsdcc : TcpDsdcc :=
  { m_ackedBytesEcn := 0
    m_ackedBytesRtt := 0
    m_ackedBytesTotal := 0
    m_nq_k := 5
    m_priorRcvNxt := 0
    m_priorRcvNxtFlag := false
    m_alpha_ecn := 1
    m_alpha_rtt := 1
    m_alpha := 1
    m_signal := TcpDsdcc.Signal.non_sig
    m_nextSeq := 0
    m_nextSeqFlag := false
    m_ceState := false
    m_delayedAckReserved := false
    m_g := 1 / 16
    m_useEct0 := true
    m_initialized := false }

/-- A TcpDsdcc instance in the middle of a window: 1000 delay-marked bytes out of 1000, the
delay signal set, threshold 5. -/
def dsdccMidWindow : TcpDsdcc :=
  { dsdcc with
    m_ackedBytesRtt := 1000
    m_ackedBytesTotal := 1000
    m_signal := TcpDsdcc.Signal.rtt_sig
    m_nextSeq := 100
    m_nextSeqFlag := true }

/-- Storage filled with zeros, as a TcpDsdcc object. -/
def dsdccZeroed : TcpDsdcc :=
  { m_ackedBytesEcn := 0
    m_ackedBytesRtt := 0
    m_ackedBytesTotal := 0
    m_nq_k := 0
    m_priorRcvNxt := 0
    m_priorRcvNxtFlag := false
    m_alpha_ecn := 0
    m_alpha_rtt := 0
    m_alpha := 0
    m_signal := TcpDsdcc.Signal.non_sig
    m_nextSeq := 0
    m_nextSeqFlag := false
    m_ceState := false
    m_delayedAckReserved := false
    m_g := 0
    m_useEct0 := false
    m_initialized := false }

/-- A TcpDstcp instance with the attribute defaults (`g = 1/16`, `nqG = 7/8`, `k1 = 5`,
`k2 = 20`, `alpha = 1`, drain cycle 8, drain window 5.5, both scales 1) and empty
accumulators. -/
def dstcp : TcpDstcp :=
  { m_ackedBytesEcn := 0
    m_ackedBytesRtt := 0
    m_ackedBytesTotal := 0
    m_nq_k1 := 5
    m_nq_k2 := 20
    m_nq_avg := -1
    m_nq_g := 7 / 8
    m_priorRcvNxt := 0
    m_priorRcvNxtFlag := false
    m_alpha_ecn := 1
    m_alpha_rtt := 1
    m_alpha := 1
    m_signal := TcpDstcp.Signal.non_sig
    m_last_minRtt := INT64_MAX
    m_nextSeq := 0
    m_nextSeqFlag := false
    m_ceState := false
    m_delayedAckReserved := false
    m_g := 1 / 16
    m_useEct0 := true
    m_initialized := false
    m_drain_cycle := 8
    m_drain_cycle_scale := 1
    m_drain_cwnd := 11 / 2
    m_drain_cwnd_scale := 1
    m_round := 0 }

/-- The instance `dstcp` seven closed windows into its drain cycle. -/
def dstcpRound7 : TcpDstcp := { dstcp with m_round := 7 }

/-- Storage filled with zeros, as a TcpDstcp object. -/
def dstcpZeroed : TcpDstcp :=
  { m_ackedBytesEcn := 0
    m_ackedBytesRtt := 0
    m_ackedBytesTotal := 0
    m_nq_k1 := 0
    m_nq_k2 := 0
    m_nq_avg := 0
    m_nq_g := 0
    m_priorRcvNxt := 0
    m_priorRcvNxtFlag := false
    m_alpha_ecn := 0
    m_alpha_rtt := 0
    m_alpha := 0
    m_signal := TcpDstcp.Signal.non_sig
    m_last_minRtt := 0
    m_nextSeq := 0
    m_nextSeqFlag := false
    m_ceState := false
    m_delayedAckReserved := false
    m_g := 0
    m_useEct0 := false
    m_initialized := false
    m_drain_cycle := 0
    m_drain_cycle_scale := 0
    m_drain_cwnd := 0
    m_drain_cwnd_scale := 0
    m_round := 0 }

/-- The control block `tcb` later on: acknowledged up to 200, sent up to 300. -/
def tcbLater : TcpSocketState := { tcb with m_lastAckedSeq := 200, m_nextTxSequence := 300 }

/-- Two acknowledgments of an `Elephant` flow: a delay-marked segment with data in flight up to
200, then a segment without RTT sample that acknowledges up to 200 and closes the window. -/
def acks : List Ack :=
  [{ tcb := tcbInFlight, segmentsAcked := 1, rtt := rtt1ms },
    { tcb := tcbLater, segmentsAcked := 1, rtt := rttZero }]

/-- Two acknowledgments as `acks`, each with the echo of a congestion mark received. -/
def acksEce : List Ack :=
  [{ tcb := { tcbInFlight with m_ecnState := EcnState_t.ECN_ECE_RCVD }, segmentsAcked := 1,
      rtt := rtt1ms },
    { tcb := { tcbLater with m_ecnState := EcnState_t.ECN_ECE_RCVD }, segmentsAcked := 1,
      rtt := rttZero }]

/-- The instance `dcvegas` after the accounting of one delay-marked segment of 1000 bytes. -/
def dcvegasAccounted : TcpDcvegas :=
  { dcvegas with
    m_ackedBytesRtt := 1000
    m_ackedBytesTotal := 1000
    m_signal := TcpDcvegas.Signal.rtt_sig }

/-- A TcpDcvegas instance in the middle of a window that ends at sequence number 100:
1000 delay-marked bytes out of 1000, the delay signal set. -/
def dcvegasMidWindow : TcpDcvegas :=
  { dcvegasAccounted with m_nextSeq := 100, m_nextSeqFlag := true }

/-- What `PktsAcked dcvegasMidWindow tcbLater 1 rttZero` leaves: the window is closed with
`alpha = 31/32` and the window reduced to 3609 bytes. -/
def dcvegasClosed : Outcome TcpDcvegas :=
  { self := { dcvegas with m_alpha := 31 / 32, m_nextSeq := 300, m_nextSeqFlag := true }
    tcb := { tcbLater with m_cWnd := 3609, m_ssThresh := 3609 }
    trace := [(1000, 2000, 31 / 32)] }

/-- What `PktsAcked dsdccMidWindow tcbLater 1 rttZero` leaves. -/
def dsdccClosed : Outcome TcpDsdcc :=
  { self := { dsdcc with
      m_alpha := 31 / 32, m_alpha_rtt := 31 / 32, m_nextSeq := 300, m_nextSeqFlag := true }
    tcb := { tcbLater with m_cWnd := 3609, m_ssThresh := 3609 }
    trace := [(1000, 2000, 31 / 32)] }

/-- A TcpDstcp instance in the middle of a window that ends at sequence number 100:
1000 delay-marked bytes out of 1000, the delay signal set, average queue estimate 6. -/
def dstcpMidWindow : TcpDstcp :=
  { dstcp with
    m_ackedBytesRtt := 1000
    m_ackedBytesTotal := 1000
    m_signal := TcpDstcp.Signal.rtt_sig
    m_nq_avg := 6
    m_last_minRtt := 1000
    m_nextSeq := 100
    m_nextSeqFlag := true }

/-- What `PktsAcked ty dstcpMidWindow tcbLater 1 rttZero` leaves. -/
def dstcpClosed : Outcome TcpDstcp :=
  { self := { dstcp with
      m_alpha_ecn := 15 / 16, m_alpha_rtt := 31 / 32, m_nextSeq := 300, m_nextSeqFlag := true
      m_round := 1 }
    tcb := { tcbLater with m_cWnd := 6968, m_ssThresh := 6968, m_cWndInfl := 6968 }
    trace := [(0, 2000, 1)] }

/-- The instance `dcvegas` after the first acknowledgment of `acksEce`: 1000 delay-marked bytes
out of 1000, the window boundary latched at 200. -/
def dcvegasMarked : TcpDcvegas :=
  { dcvegasAccounted with m_nextSeq := 200, m_nextSeqFlag := true }

/-- The instance `dsdcc` after the first acknowledgment of `acksEce`: 1000 ECN-marked and 1000
delay-marked bytes out of 1000, the window boundary latched at 200. -/
def dsdccMarked : TcpDsdcc :=
  { dsdccMidWindow with m_ackedBytesEcn := 1000, m_nextSeq := 200 }

/-- The instance `dstcp` after the first acknowledgment of `acksEce`: 1000 ECN-marked and 1000
delay-marked bytes out of 1000, the window boundary latched at 200. -/
def dstcpMarked : TcpDstcp :=
  { dstcpMidWindow with
    m_ackedBytesEcn := 1000, m_signal := TcpDstcp.Signal.ecn_sig, m_nextSeq := 200 }

/-- Two acknowledgments on segments of one byte that wrap the 32-bit total: `2 ^ 31`
delay-marked segments, then `2 ^ 31 + 1` segments without RTT sample that close the window
with `m_ackedBytesRtt = 2 ^ 31` and `m_ackedBytesTotal = 1`. -/
def acksWrap : List Ack :=
  [{ tcb := { tcbInFlight with m_segmentSize := 1 }, segmentsAcked := 2147483648,
      rtt := rtt1ms },
    { tcb := { tcbLater with m_segmentSize := 1 }, segmentsAcked := 2147483649,
      rtt := rttZero }]

/-- The control block `tcbLater` with a minimum RTT of 100.9 microseconds. -/
def tcbMinRtt1009 : TcpSocketState := { tcbLater with m_minRtt := { m_data := 100900 } }

/-- An RTT sample of 100.5 microseconds. -/
def rtt1005 : Time := { m_data := 100500 }

/-- The control block `tcbLater` with a minimum RTT of 300 nanoseconds. -/
def tcbMinRtt300ns : TcpSocketState := { tcbLater with m_minRtt := { m_data := 300 } }

/-- An RTT sample of 500 nanoseconds. -/
def rtt500ns : Time := { m_data := 500 }

/-- An RTT sample of 50 microseconds, below the minimum RTT of `tcb`. -/
def rtt50us : Time := { m_data := 50000 }

/-- The instance `dstcp` configured with `DrainCycle = 0`. -/
def dstcpCycle0 : TcpDstcp := { dstcp with m_drain_cycle := 0 }

/-- The instance `dstcp` configured with `DrainCycle = 65536` and `DrainCycleScale = 65536`,
whose 32-bit product is 0. -/
def dstcpCycleWrap : TcpDstcp :=
  { dstcp with m_drain_cycle := 65536, m_drain_cycle_scale := 65536 }

/-- A window of two acknowledgments: the first arrives with the echo of a congestion mark and
no RTT sample, the second without echo and delay-marked, and closes the window. -/
def acksEceThenDelay : List Ack :=
  [{ tcb := { tcbInFlight with m_ecnState := EcnState_t.ECN_ECE_RCVD }, segmentsAcked := 1,
      rtt := rttZero },
    { tcb := tcbLater, segmentsAcked := 1, rtt := rtt1ms }]

/-- The instance `dstcp` after the first acknowledgment of `acksEceThenDelay`: 1000 ECN-marked
bytes out of 1000, signal `ecn_sig`, the window boundary latched at 200. -/
def dstcpEceFirst : TcpDstcp :=
  { dstcp with
    m_ackedBytesEcn := 1000
    m_ackedBytesTotal := 1000
    m_signal := TcpDstcp.Signal.ecn_sig
    m_nextSeq := 200
    m_nextSeqFlag := true }

/-- A TcpDstcp instance in the middle of a window that ends at sequence number 100: 4000
ECN-marked and 2000 delay-marked bytes out of 8000, signal `ecn_sig`, average queue
estimate 25 (above `k2 = 20`). -/
def dstcpEar : TcpDstcp :=
  { dstcp with
    m_ackedBytesEcn := 4000
    m_ackedBytesRtt := 2000
    m_ackedBytesTotal := 8000
    m_signal := TcpDstcp.Signal.ecn_sig
    m_nq_avg := 25
    m_nextSeq := 100
    m_nextSeqFlag := true }

/-- The control block `tcbLater` of a short flow. -/
def tcbMouse : TcpSocketState := { tcbLater with m_flowMode := FlowMode_t.Mouse }

/-- A TcpDsdcc instance in the middle of a window that ends at sequence number 100: 4000
ECN-marked and 2000 delay-marked bytes out of 8000, the delay signal set. -/
def dsdccMouse : TcpDsdcc :=
  { dsdcc with
    m_ackedBytesEcn := 4000
    m_ackedBytesRtt := 2000
    m_ackedBytesTotal := 8000
    m_signal := TcpDsdcc.Signal.rtt_sig
    m_nextSeq := 100
    m_nextSeqFlag := true }


/-- The instance `dstcp` with gain `g = 0`, so that the averages stay at 1. -/
def dstcpG0 : TcpDstcp := { dstcp with m_g := 0 }

/-- One acknowledgment of one segment, without RTT sample, on the control block `tcb` where
every byte sent is acknowledged: it closes a window. -/
def ackClosing : Ack := { tcb := tcb, segmentsAcked := 1, rtt := rttZero }

/-- Seven window-closing acknowledgments. -/
def acksSeven : List Ack := List.replicate 7 ackClosing

/-- The instance `dstcpG0` after the seven window closes of `acksSeven`. -/
def dstcpG0Round7 : TcpDstcp :=
  { dstcpG0 with m_round := 7, m_nextSeq := 100, m_nextSeqFlag := true }


/-- The control block `tcbLater` of a flow that is neither `Elephant` nor `Mouse`. -/
def tcbUnclassified : TcpSocketState := { tcbLater with m_flowMode := FlowMode_t.Unclassified }

/-- The control block `tcb` of a receiver that expects sequence number 3000 next. -/
def tcbRx : TcpSocketState := { tcb with m_rxBuffer := 3000 }

/-- The control block `tcbRx` after a congestion mark was received. -/
def tcbRxCe : TcpSocketState := { tcbRx with m_ecnState := EcnState_t.ECN_CE_RCVD }

/-- A TcpDsdcc instance with a delayed acknowledgment reserved and the checkpoint 2000. -/
def dsdccReserved : TcpDsdcc :=
  { dsdcc with m_delayedAckReserved := true, m_priorRcvNxt := 2000, m_priorRcvNxtFlag := true }

/-- A TcpDstcp instance with a delayed acknowledgment reserved and the checkpoint 2000. -/
def dstcpReserved : TcpDstcp :=
  { dstcp with m_delayedAckReserved := true, m_priorRcvNxt := 2000, m_priorRcvNxtFlag := true }

/-- The instance `dsdccReserved` in the marked state. -/
def dsdccReservedCe : TcpDsdcc := { dsdccReserved with m_ceState := true }

/-- The instance `dstcpReserved` in the marked state. -/
def dstcpReservedCe : TcpDstcp := { dstcpReserved with m_ceState := true }

/-- An RTT sample of 100 microseconds, the minimum RTT of `tcb`. -/
def rtt100us : Time := { m_data := 100000 }

/-- Ten acknowledgments of ten segments each, every sample equal to the minimum RTT, each on
the control block `tcb` where every byte sent is acknowledged: each closes a window of 10000
bytes, none of them delay-marked. -/
def acksTenWindows : List Ack :=
  List.replicate 10 { tcb := tcb, segmentsAcked := 10, rtt := rtt100us }

/-- The instance `dcvegas` after the ten windows of `acksTenWindows`. -/
def dcvegasTenWindows : TcpDcvegas :=
  { dcvegas with m_alpha := (15 / 16) ^ 10, m_nextSeq := 100, m_nextSeqFlag := true }

/-- The control block after more data was sent and part of it acknowledged: acknowledged up
to 250, sent up to 400. -/
def tcbNext : TcpSocketState := { tcbLater with m_lastAckedSeq := 250, m_nextTxSequence := 400 }

/-- A control block with a window of 4000000000 segments of one byte, minimum RTT one
microsecond, data in flight up to 200. -/
def tcbHuge : TcpSocketState :=
  { tcbInFlight with m_cWnd := 4000000000, m_segmentSize := 1, m_minRtt := { m_data := 1000 } }

/-- An RTT sample of two milliseconds. -/
def rtt2ms : Time := { m_data := 2000000 }

/-- The instance `dstcpMidWindow` with the window boundary at 200: one sample seen in the
window, average queue estimate 6. -/
def dstcpSampled : TcpDstcp := { dstcpMidWindow with m_nextSeq := 200 }

/-- An RTT sample of 200 microseconds. -/
def rtt200us : Time := { m_data := 200000 }

/-- One delay-marked acknowledgment with data in flight: the first sample of a window. -/
def acksOne : List Ack := [{ tcb := tcbInFlight, segmentsAcked := 1, rtt := rtt1ms }]

/-- Two acknowledgments on the control block `tcbHuge`, with samples of one and of two
milliseconds; neither closes the window. -/
def acksHuge : List Ack :=
  [{ tcb := tcbHuge, segmentsAcked := 1, rtt := rtt1ms },
    { tcb := tcbHuge, segmentsAcked := 1, rtt := rtt2ms }]

/-- The control block `tcbLater` with a window of 1500 bytes, one and a half segments. -/
def tcbSmall : TcpSocketState := { tcbLater with m_cWnd := 1500 }


/-- The control block `tcbRx` later on: the receiver expects sequence number 4500. -/
def tcbRxLater : TcpSocketState := { tcbRx with m_rxBuffer := 4500 }

/-- A delayed acknowledgment is reserved, then a marked segment arrives while the receiver
expects 3000. -/
def events : List CaEvent :=
  [{ tcb := tcbRx, event := TcpCAEvent_t.CA_EVENT_DELAYED_ACK },
    { tcb := tcbRx, event := TcpCAEvent_t.CA_EVENT_ECN_IS_CE }]

/-- An unmarked segment arrives while the receiver expects 4500. -/
def eventClear : CaEvent := { tcb := tcbRxLater, event := TcpCAEvent_t.CA_EVENT_ECN_NO_CE }

/-- The acknowledgments `acks`, which close a window, followed by two samples of the next
window, of one millisecond and of 200 microseconds, with queue estimates 6 and 3. -/
def acksSecondWindow : List Ack :=
  acks ++
    [{ tcb := tcbNext, segmentsAcked := 1, rtt := rtt1ms },
      { tcb := tcbNext, segmentsAcked := 1, rtt := rtt200us }]

/-- The instance `dstcp` after the acknowledgments `acksSecondWindow`, with `m_nq_avg` a
`double`. -/
def dstcpSecondWindow : TcpDstcp :=
  { dstcp with
    m_ackedBytesRtt := 1000
    m_ackedBytesTotal := 2000
    m_nq_avg := 27 / 8
    m_alpha_ecn := 15 / 16
    m_alpha_rtt := 31 / 32
    m_signal := TcpDstcp.Signal.rtt_sig
    m_last_minRtt := 200
    m_nextSeq := 300
    m_nextSeqFlag := true
    m_round := 1 }
/-- Storage for a new TcpDsdcc object that holds, in the two members that the default
constructor does not name, 5000 for `m_ackedBytesRtt` and `rtt_sig` for `m_signal`, and the
defaults of the attributes elsewhere. -/
def dsdccStorage : TcpDsdcc :=
  { dsdcc with m_ackedBytesRtt := 5000, m_signal := TcpDsdcc.Signal.rtt_sig }

end Example

/-! ## General lemmas -/

theorem castU32_eq_floor {x : ℚ} (h0 : 0 ≤ x) (h1 : x < 2 ^ 32) : castU32 x = ⌊x⌋₊ := by
  unfold castU32 truncQ
  rw [if_pos h0]
  have hf0 : 0 ≤ ⌊x⌋ := Int.floor_nonneg.mpr h0
  have hf1 : ⌊x⌋ < 2 ^ 32 := by
    rw [Int.floor_lt]
    push_cast
    exact h1
  rw [Int.emod_eq_of_lt hf0 hf1]
  rfl

/-- For `0 ≤ alpha ≤ 2` and a 32-bit window the product `(1 - alpha / 2) * cwnd` is in the
range of `uint32_t`, so its conversion is its integer part. -/
theorem castU32_reduction {alpha : ℚ} {cwnd : Nat} (h0 : 0 ≤ alpha) (h2 : alpha ≤ 2)
    (hc : cwnd < 2 ^ 32) :
    castU32 ((1 - alpha / 2) * (cwnd : ℚ)) = ⌊(1 - alpha / 2) * (cwnd : ℚ)⌋₊ ∧
      castU32 ((1 - alpha / 2) * (cwnd : ℚ)) ≤ cwnd := by
  have hc0 : (0 : ℚ) ≤ (cwnd : ℚ) := Nat.cast_nonneg cwnd
  have hf0 : (0 : ℚ) ≤ 1 - alpha / 2 := by linarith
  have hf1 : 1 - alpha / 2 ≤ 1 := by linarith
  have hx0 : 0 ≤ (1 - alpha / 2) * (cwnd : ℚ) := mul_nonneg hf0 hc0
  have hx1 : (1 - alpha / 2) * (cwnd : ℚ) ≤ (cwnd : ℚ) := by
    calc (1 - alpha / 2) * (cwnd : ℚ) ≤ 1 * (cwnd : ℚ) := mul_le_mul_of_nonneg_right hf1 hc0
      _ = (cwnd : ℚ) := one_mul _
  have hc' : (cwnd : ℚ) < 2 ^ 32 := by exact_mod_cast hc
  have hfl := castU32_eq_floor hx0 (lt_of_le_of_lt hx1 hc')
  refine ⟨hfl, ?_⟩
  rw [hfl]
  have : ⌊(1 - alpha / 2) * (cwnd : ℚ)⌋₊ ≤ ⌊(cwnd : ℚ)⌋₊ := Nat.floor_mono hx1
  simpa using this

theorem ackedBytes_of_lt {tcb : TcpSocketState} {n : Nat}
    (h : n * tcb.m_segmentSize < 2 ^ 32) : ackedBytes tcb n = n * tcb.m_segmentSize := by
  unfold ackedBytes wrapU32
  exact Nat.mod_eq_of_lt h

theorem ewma_mem_unit {g a f : ℚ} (hg0 : 0 ≤ g) (hg1 : g ≤ 1) (ha0 : 0 ≤ a) (ha1 : a ≤ 1)
    (hf0 : 0 ≤ f) (hf1 : f ≤ 1) :
    0 ≤ (1 - g) * a + g * f ∧ (1 - g) * a + g * f ≤ 1 := by
  constructor
  · have h1 : 0 ≤ (1 - g) * a := mul_nonneg (by linarith) ha0
    have h2 : 0 ≤ g * f := mul_nonneg hg0 hf0
    linarith
  · have h1 : (1 - g) * a ≤ (1 - g) * 1 := mul_le_mul_of_nonneg_left ha1 (by linarith)
    have h2 : g * f ≤ g * 1 := mul_le_mul_of_nonneg_left hf1 hg0
    linarith

theorem frac_mem_unit {m t : Nat} (h : m ≤ t) :
    0 ≤ (if t > 0 then (m : ℚ) * 1 / (t : ℚ) else 0) ∧
      (if t > 0 then (m : ℚ) * 1 / (t : ℚ) else 0) ≤ 1 := by
  split
  · rename_i ht
    have ht' : (0 : ℚ) < (t : ℚ) := by exact_mod_cast ht
    have hm : (m : ℚ) ≤ (t : ℚ) := by exact_mod_cast h
    constructor
    · positivity
    · rw [mul_one, div_le_one ht']
      exact hm
  · constructor <;> norm_num

/-- One accounting step keeps a marked-byte counter below the total when the total does not
wrap. -/
theorem counter_step {m t m1 : Nat} {tcb : TcpSocketState} {n : Nat} (h : m ≤ t)
    (hno : t + n * tcb.m_segmentSize < 2 ^ 32)
    (hm : m1 = m ∨ m1 = wrapU32 (m + ackedBytes tcb n)) :
    m1 ≤ wrapU32 (t + ackedBytes tcb n) := by
  have hb : ackedBytes tcb n = n * tcb.m_segmentSize := ackedBytes_of_lt (by omega)
  rw [hb] at hm ⊢
  have ht : wrapU32 (t + n * tcb.m_segmentSize) = t + n * tcb.m_segmentSize :=
    Nat.mod_eq_of_lt hno
  have hm' : wrapU32 (m + n * tcb.m_segmentSize) = m + n * tcb.m_segmentSize :=
    Nat.mod_eq_of_lt (by omega)
  rw [ht]
  rcases hm with hm | hm
  · omega
  · rw [hm, hm']
    omega

theorem ok_of_toOption {ε α : Type} {x : Except ε α} {a : α} (h : x.toOption = some a) :
    x = .ok a := by
  cases x with
  | error e => cases h
  | ok b =>
    simp only [Except.toOption, Option.some.injEq] at h
    rw [h]

/-! ## TcpDcvegas: lemmas -/

namespace TcpDcvegas

/-- The accounting step changes only the two byte counters and the signal. -/
theorem account_spec_dcvegas {self s1 : TcpDcvegas} {tcb : TcpSocketState} {n : Nat} {rtt : Time}
    (h : account self tcb n rtt = .ok s1) :
    s1.m_ackedBytesTotal = wrapU32 (self.m_ackedBytesTotal + ackedBytes tcb n) ∧
    (s1.m_ackedBytesRtt = self.m_ackedBytesRtt ∨
      s1.m_ackedBytesRtt = wrapU32 (self.m_ackedBytesRtt + ackedBytes tcb n)) ∧
    s1.m_alpha = self.m_alpha ∧ s1.m_g = self.m_g ∧ s1.m_nq_k = self.m_nq_k ∧
    s1.m_nextSeq = self.m_nextSeq ∧ s1.m_nextSeqFlag = self.m_nextSeqFlag ∧
    (rtt.IsZero = true → s1.m_signal = self.m_signal ∧
      s1.m_ackedBytesRtt = self.m_ackedBytesRtt) := by
  unfold account at h
  simp only at h
  split at h
  · cases h; simp
  · rename_i hz
    split at h
    · cases h
    · split at h
      · cases h
      · split at h <;> cases h <;> simp [hz]

theorem latch_fields_dcvegas (self : TcpDcvegas) (tcb : TcpSocketState) :
    (latch self tcb).m_ackedBytesRtt = self.m_ackedBytesRtt ∧
    (latch self tcb).m_ackedBytesTotal = self.m_ackedBytesTotal ∧
    (latch self tcb).m_alpha = self.m_alpha ∧ (latch self tcb).m_g = self.m_g ∧
    (latch self tcb).m_signal = self.m_signal ∧ (latch self tcb).m_nq_k = self.m_nq_k ∧
    (latch self tcb).m_nextSeqFlag = true ∧
    (self.m_nextSeqFlag = true → latch self tcb = self) := by
  unfold latch
  split
  · rename_i h
    simp [h]
  · rename_i h
    simp at h
    simp [h]

theorem PktsAcked_eq_dcvegas {self s1 : TcpDcvegas} {tcb : TcpSocketState} {n : Nat} {rtt : Time}
    (h : account self tcb n rtt = .ok s1) :
    PktsAcked self tcb n rtt =
      if SequenceNumber32.ge tcb.m_lastAckedSeq (latch s1 tcb).m_nextSeq then
        .ok (expire (latch s1 tcb) tcb)
      else .ok { self := latch s1 tcb, tcb := tcb, trace := [] } := by
  unfold PktsAcked
  rw [h]

theorem account_of_ok_dcvegas {self : TcpDcvegas} {tcb : TcpSocketState} {n : Nat} {rtt : Time}
    {out : Outcome TcpDcvegas} (h : PktsAcked self tcb n rtt = .ok out) :
    ∃ s1, account self tcb n rtt = .ok s1 := by
  unfold PktsAcked at h
  cases hacc : account self tcb n rtt with
  | error e => rw [hacc] at h; cases h
  | ok s1 => exact ⟨s1, rfl⟩

/-- Every call that returns leaves either the latched accounting state (no trace event) or
the outcome of the window-close block (one trace event). -/
theorem outcome_cases_dcvegas {self : TcpDcvegas} {tcb : TcpSocketState} {n : Nat} {rtt : Time}
    {out : Outcome TcpDcvegas} (h : PktsAcked self tcb n rtt = .ok out) :
    ∃ s1, account self tcb n rtt = .ok s1 ∧
      ((out = { self := latch s1 tcb, tcb := tcb, trace := [] } ∧
          SequenceNumber32.ge tcb.m_lastAckedSeq (latch s1 tcb).m_nextSeq = false) ∨
        (SequenceNumber32.ge tcb.m_lastAckedSeq (latch s1 tcb).m_nextSeq = true ∧
          out = expire (latch s1 tcb) tcb)) := by
  obtain ⟨s1, hacc⟩ := account_of_ok_dcvegas h
  rw [PktsAcked_eq_dcvegas hacc] at h
  refine ⟨s1, hacc, ?_⟩
  split at h
  · rename_i hge
    cases h
    exact Or.inr ⟨hge, rfl⟩
  · rename_i hge
    cases h
    exact Or.inl ⟨rfl, by simpa using hge⟩

/-- A call that fires a trace event is a call that found `m_lastAckedSeq >= m_nextSeq` and ran
the window-close block. -/
theorem closed_of_trace_dcvegas {self : TcpDcvegas} {tcb : TcpSocketState} {n : Nat} {rtt : Time}
    {out : Outcome TcpDcvegas} (h : PktsAcked self tcb n rtt = .ok out) (ht : out.trace ≠ []) :
    ∃ s1, account self tcb n rtt = .ok s1 ∧
      SequenceNumber32.ge tcb.m_lastAckedSeq (latch s1 tcb).m_nextSeq = true ∧
      out = expire (latch s1 tcb) tcb := by
  obtain ⟨s1, hacc, hc⟩ := outcome_cases_dcvegas h
  refine ⟨s1, hacc, ?_⟩
  rcases hc with ⟨ho, -⟩ | hc
  · rw [ho] at ht
    exact absurd rfl ht
  · exact hc

end TcpDcvegas

/-! ## TcpDsdcc: lemmas -/

namespace TcpDsdcc

theorem accountRtt_spec_dsdcc {self s1 : TcpDsdcc} {tcb : TcpSocketState} {n : Nat} {rtt : Time}
    (h : accountRtt self tcb n rtt = .ok s1) :
    s1.m_ackedBytesTotal = wrapU32 (self.m_ackedBytesTotal + ackedBytes tcb n) ∧
    (s1.m_ackedBytesRtt = self.m_ackedBytesRtt ∨
      s1.m_ackedBytesRtt = wrapU32 (self.m_ackedBytesRtt + ackedBytes tcb n)) ∧
    s1.m_ackedBytesEcn = self.m_ackedBytesEcn ∧
    s1.m_alpha = self.m_alpha ∧ s1.m_alpha_ecn = self.m_alpha_ecn ∧
    s1.m_alpha_rtt = self.m_alpha_rtt ∧ s1.m_g = self.m_g ∧
    s1.m_nextSeq = self.m_nextSeq ∧ s1.m_nextSeqFlag = self.m_nextSeqFlag ∧
    (rtt.IsZero = true → s1.m_signal = self.m_signal ∧
      s1.m_ackedBytesRtt = self.m_ackedBytesRtt) := by
  unfold accountRtt at h
  simp only at h
  split at h
  · cases h; simp
  · rename_i hz
    split at h
    · cases h
    · split at h
      · cases h
      · split at h <;> cases h <;> simp [hz]

theorem accountEcn_spec_dsdcc (self : TcpDsdcc) (tcb : TcpSocketState) (n : Nat) :
    (accountEcn self tcb n).m_ackedBytesTotal = self.m_ackedBytesTotal ∧
    (accountEcn self tcb n).m_ackedBytesRtt = self.m_ackedBytesRtt ∧
    ((accountEcn self tcb n).m_ackedBytesEcn = self.m_ackedBytesEcn ∨
      (accountEcn self tcb n).m_ackedBytesEcn =
        wrapU32 (self.m_ackedBytesEcn + ackedBytes tcb n)) ∧
    (accountEcn self tcb n).m_alpha = self.m_alpha ∧
    (accountEcn self tcb n).m_alpha_ecn = self.m_alpha_ecn ∧
    (accountEcn self tcb n).m_alpha_rtt = self.m_alpha_rtt ∧
    (accountEcn self tcb n).m_g = self.m_g ∧
    (accountEcn self tcb n).m_nextSeq = self.m_nextSeq ∧
    (accountEcn self tcb n).m_nextSeqFlag = self.m_nextSeqFlag ∧
    (accountEcn self tcb n).m_signal = self.m_signal := by
  unfold accountEcn
  split <;> simp

theorem account_spec_dsdcc {self s1 : TcpDsdcc} {tcb : TcpSocketState} {n : Nat} {rtt : Time}
    (h : account self tcb n rtt = .ok s1) :
    s1.m_ackedBytesTotal = wrapU32 (self.m_ackedBytesTotal + ackedBytes tcb n) ∧
    (s1.m_ackedBytesRtt = self.m_ackedBytesRtt ∨
      s1.m_ackedBytesRtt = wrapU32 (self.m_ackedBytesRtt + ackedBytes tcb n)) ∧
    (s1.m_ackedBytesEcn = self.m_ackedBytesEcn ∨
      s1.m_ackedBytesEcn = wrapU32 (self.m_ackedBytesEcn + ackedBytes tcb n)) ∧
    s1.m_alpha = self.m_alpha ∧ s1.m_alpha_ecn = self.m_alpha_ecn ∧
    s1.m_alpha_rtt = self.m_alpha_rtt ∧ s1.m_g = self.m_g ∧
    s1.m_nextSeq = self.m_nextSeq ∧ s1.m_nextSeqFlag = self.m_nextSeqFlag ∧
    (rtt.IsZero = true → s1.m_signal = self.m_signal ∧
      s1.m_ackedBytesRtt = self.m_ackedBytesRtt) := by
  unfold account at h
  cases h1 : accountRtt self tcb n rtt with
  | error e => rw [h1] at h; cases h
  | ok s =>
    rw [h1] at h
    cases h
    obtain ⟨a1, a2, a3, a4, a5, a6, a7, a8, a9, a10⟩ := accountRtt_spec_dsdcc h1
    obtain ⟨b1, b2, b3, b4, b5, b6, b7, b8, b9, b10⟩ := accountEcn_spec_dsdcc s tcb n
    refine ⟨by rw [b1, a1], by rw [b2]; exact a2, by rw [← a3]; exact b3, by rw [b4, a4],
      by rw [b5, a5], by rw [b6, a6], by rw [b7, a7], by rw [b8, a8], by rw [b9, a9], ?_⟩
    intro hz
    rw [b10, b2]
    exact a10 hz

theorem latch_fields_dsdcc (self : TcpDsdcc) (tcb : TcpSocketState) :
    (latch self tcb).m_ackedBytesRtt = self.m_ackedBytesRtt ∧
    (latch self tcb).m_ackedBytesEcn = self.m_ackedBytesEcn ∧
    (latch self tcb).m_ackedBytesTotal = self.m_ackedBytesTotal ∧
    (latch self tcb).m_alpha = self.m_alpha ∧
    (latch self tcb).m_alpha_ecn = self.m_alpha_ecn ∧
    (latch self tcb).m_alpha_rtt = self.m_alpha_rtt ∧ (latch self tcb).m_g = self.m_g ∧
    (latch self tcb).m_signal = self.m_signal ∧
    (latch self tcb).m_nextSeqFlag = true ∧
    (self.m_nextSeqFlag = true → latch self tcb = self) := by
  unfold latch
  split
  · rename_i h
    simp [h]
  · rename_i h
    simp at h
    simp [h]

theorem PktsAcked_eq_dsdcc {self s1 : TcpDsdcc} {tcb : TcpSocketState} {n : Nat} {rtt : Time}
    (h : account self tcb n rtt = .ok s1) :
    PktsAcked self tcb n rtt =
      match tcb.m_flowMode with
      | FlowMode_t.Elephant =>
        if SequenceNumber32.ge tcb.m_lastAckedSeq (latch s1 tcb).m_nextSeq then
          .ok (expireElephant (latch s1 tcb) tcb)
        else .ok { self := latch s1 tcb, tcb := tcb, trace := [] }
      | FlowMode_t.Mouse =>
        if SequenceNumber32.ge tcb.m_lastAckedSeq (latch s1 tcb).m_nextSeq then
          .ok (expireMouse (latch s1 tcb) tcb)
        else .ok { self := latch s1 tcb, tcb := tcb, trace := [] }
      | FlowMode_t.Unclassified => .ok { self := latch s1 tcb, tcb := tcb, trace := [] } := by
  unfold PktsAcked
  rw [h]

theorem account_of_ok_dsdcc {self : TcpDsdcc} {tcb : TcpSocketState} {n : Nat} {rtt : Time}
    {out : Outcome TcpDsdcc} (h : PktsAcked self tcb n rtt = .ok out) :
    ∃ s1, account self tcb n rtt = .ok s1 := by
  unfold PktsAcked at h
  cases hacc : account self tcb n rtt with
  | error e => rw [hacc] at h; cases h
  | ok s1 => exact ⟨s1, rfl⟩

/-- Every call that returns leaves either the latched accounting state (no trace event) or
the outcome of one of the two window-close blocks (one trace event). -/
theorem outcome_cases_dsdcc {self : TcpDsdcc} {tcb : TcpSocketState} {n : Nat} {rtt : Time}
    {out : Outcome TcpDsdcc} (h : PktsAcked self tcb n rtt = .ok out) :
    ∃ s1, account self tcb n rtt = .ok s1 ∧
      ((out = { self := latch s1 tcb, tcb := tcb, trace := [] } ∧
          (tcb.m_flowMode = FlowMode_t.Unclassified ∨
            SequenceNumber32.ge tcb.m_lastAckedSeq (latch s1 tcb).m_nextSeq = false)) ∨
        (SequenceNumber32.ge tcb.m_lastAckedSeq (latch s1 tcb).m_nextSeq = true ∧
          ((tcb.m_flowMode = FlowMode_t.Elephant ∧ out = expireElephant (latch s1 tcb) tcb) ∨
            (tcb.m_flowMode = FlowMode_t.Mouse ∧ out = expireMouse (latch s1 tcb) tcb)))) := by
  obtain ⟨s1, hacc⟩ := account_of_ok_dsdcc h
  rw [PktsAcked_eq_dsdcc hacc] at h
  refine ⟨s1, hacc, ?_⟩
  cases hf : tcb.m_flowMode <;> rw [hf] at h <;> simp only at h
  · cases h
    exact Or.inl ⟨rfl, Or.inl rfl⟩
  · split at h
    · rename_i hge
      cases h
      exact Or.inr ⟨hge, Or.inr ⟨rfl, rfl⟩⟩
    · rename_i hge
      cases h
      exact Or.inl ⟨rfl, Or.inr (by simpa using hge)⟩
  · split at h
    · rename_i hge
      cases h
      exact Or.inr ⟨hge, Or.inl ⟨rfl, rfl⟩⟩
    · rename_i hge
      cases h
      exact Or.inl ⟨rfl, Or.inr (by simpa using hge)⟩

end TcpDsdcc

/-- A call of TcpDsdcc that fires a trace event is a call on a classified flow that found
`m_lastAckedSeq >= m_nextSeq` and ran one of the two window-close blocks. -/
theorem TcpDsdcc.closed_of_trace_dsdcc {self : TcpDsdcc} {tcb : TcpSocketState} {n : Nat}
    {rtt : Time} {out : Outcome TcpDsdcc} (h : TcpDsdcc.PktsAcked self tcb n rtt = .ok out)
    (ht : out.trace ≠ []) :
    ∃ s1, TcpDsdcc.account self tcb n rtt = .ok s1 ∧
      SequenceNumber32.ge tcb.m_lastAckedSeq (TcpDsdcc.latch s1 tcb).m_nextSeq = true ∧
      ((tcb.m_flowMode = FlowMode_t.Elephant ∧
          out = TcpDsdcc.expireElephant (TcpDsdcc.latch s1 tcb) tcb) ∨
        (tcb.m_flowMode = FlowMode_t.Mouse ∧
          out = TcpDsdcc.expireMouse (TcpDsdcc.latch s1 tcb) tcb)) := by
  obtain ⟨s1, hacc, hc⟩ := TcpDsdcc.outcome_cases_dsdcc h
  refine ⟨s1, hacc, ?_⟩
  rcases hc with ⟨ho, -⟩ | hc
  · rw [ho] at ht
    exact absurd rfl ht
  · exact hc

/-! ## TcpDstcp: lemmas -/

namespace TcpDstcp

theorem accountNq_spec_dstcp (ty : NqAvgDecl) (self : TcpDstcp) (tcb : TcpSocketState) (n : Nat)
    (nq : Int) :
    (accountNq ty self tcb n nq).m_ackedBytesTotal = self.m_ackedBytesTotal ∧
    ((accountNq ty self tcb n nq).m_ackedBytesRtt = self.m_ackedBytesRtt ∨
      (accountNq ty self tcb n nq).m_ackedBytesRtt =
        wrapU32 (self.m_ackedBytesRtt + ackedBytes tcb n)) ∧
    (accountNq ty self tcb n nq).m_ackedBytesEcn = self.m_ackedBytesEcn ∧
    (accountNq ty self tcb n nq).m_alpha = self.m_alpha ∧
    (accountNq ty self tcb n nq).m_alpha_ecn = self.m_alpha_ecn ∧
    (accountNq ty self tcb n nq).m_alpha_rtt = self.m_alpha_rtt ∧
    (accountNq ty self tcb n nq).m_g = self.m_g ∧
    (accountNq ty self tcb n nq).m_nextSeq = self.m_nextSeq ∧
    (accountNq ty self tcb n nq).m_nextSeqFlag = self.m_nextSeqFlag ∧
    (accountNq ty self tcb n nq).m_round = self.m_round := by
  unfold accountNq
  simp only
  split <;> split <;> simp

theorem accountRtt_spec_dstcp {ty : NqAvgDecl} {self s1 : TcpDstcp} {tcb : TcpSocketState} {n : Nat}
    {rtt : Time} (h : accountRtt ty self tcb n rtt = .ok s1) :
    s1.m_ackedBytesTotal = wrapU32 (self.m_ackedBytesTotal + ackedBytes tcb n) ∧
    (s1.m_ackedBytesRtt = self.m_ackedBytesRtt ∨
      s1.m_ackedBytesRtt = wrapU32 (self.m_ackedBytesRtt + ackedBytes tcb n)) ∧
    s1.m_ackedBytesEcn = self.m_ackedBytesEcn ∧
    s1.m_alpha = self.m_alpha ∧ s1.m_alpha_ecn = self.m_alpha_ecn ∧
    s1.m_alpha_rtt = self.m_alpha_rtt ∧ s1.m_g = self.m_g ∧
    s1.m_nextSeq = self.m_nextSeq ∧ s1.m_nextSeqFlag = self.m_nextSeqFlag ∧
    s1.m_round = self.m_round ∧
    (rtt.IsZero = true → s1 = { self with
      m_ackedBytesTotal := wrapU32 (self.m_ackedBytesTotal + ackedBytes tcb n) }) := by
  unfold accountRtt at h
  simp only at h
  split at h
  · cases h; simp
  · rename_i hz
    split at h
    · cases h
    · split at h
      · cases h
      · cases h
        rename_i segCwnd _ nq _
        obtain ⟨a1, a2, a3, a4, a5, a6, a7, a8, a9, a10⟩ :=
          accountNq_spec_dstcp ty { self with
            m_ackedBytesTotal := wrapU32 (self.m_ackedBytesTotal + ackedBytes tcb n)
            m_last_minRtt := min self.m_last_minRtt rtt.GetMicroSeconds } tcb n nq
        exact ⟨a1, a2, a3, a4, a5, a6, a7, a8, a9, a10, fun hz' => absurd hz' hz⟩

theorem accountEcn_spec_dstcp (self : TcpDstcp) (tcb : TcpSocketState) (n : Nat) :
    (accountEcn self tcb n).m_ackedBytesTotal = self.m_ackedBytesTotal ∧
    (accountEcn self tcb n).m_ackedBytesRtt = self.m_ackedBytesRtt ∧
    ((accountEcn self tcb n).m_ackedBytesEcn = self.m_ackedBytesEcn ∨
      (accountEcn self tcb n).m_ackedBytesEcn =
        wrapU32 (self.m_ackedBytesEcn + ackedBytes tcb n)) ∧
    (accountEcn self tcb n).m_alpha = self.m_alpha ∧
    (accountEcn self tcb n).m_alpha_ecn = self.m_alpha_ecn ∧
    (accountEcn self tcb n).m_alpha_rtt = self.m_alpha_rtt ∧
    (accountEcn self tcb n).m_g = self.m_g ∧
    (accountEcn self tcb n).m_nextSeq = self.m_nextSeq ∧
    (accountEcn self tcb n).m_nextSeqFlag = self.m_nextSeqFlag ∧
    (accountEcn self tcb n).m_round = self.m_round := by
  unfold accountEcn
  split <;> simp

theorem account_spec_dstcp {ty : NqAvgDecl} {self s1 : TcpDstcp} {tcb : TcpSocketState} {n : Nat}
    {rtt : Time} (h : account ty self tcb n rtt = .ok s1) :
    s1.m_ackedBytesTotal = wrapU32 (self.m_ackedBytesTotal + ackedBytes tcb n) ∧
    (s1.m_ackedBytesRtt = self.m_ackedBytesRtt ∨
      s1.m_ackedBytesRtt = wrapU32 (self.m_ackedBytesRtt + ackedBytes tcb n)) ∧
    (s1.m_ackedBytesEcn = self.m_ackedBytesEcn ∨
      s1.m_ackedBytesEcn = wrapU32 (self.m_ackedBytesEcn + ackedBytes tcb n)) ∧
    s1.m_alpha = self.m_alpha ∧ s1.m_alpha_ecn = self.m_alpha_ecn ∧
    s1.m_alpha_rtt = self.m_alpha_rtt ∧ s1.m_g = self.m_g ∧
    s1.m_nextSeq = self.m_nextSeq ∧ s1.m_nextSeqFlag = self.m_nextSeqFlag ∧
    s1.m_round = self.m_round := by
  unfold account at h
  cases h1 : accountRtt ty self tcb n rtt with
  | error e => rw [h1] at h; cases h
  | ok s =>
    rw [h1] at h
    cases h
    obtain ⟨a1, a2, a3, a4, a5, a6, a7, a8, a9, a10, -⟩ := accountRtt_spec_dstcp h1
    obtain ⟨b1, b2, b3, b4, b5, b6, b7, b8, b9, b10⟩ := accountEcn_spec_dstcp s tcb n
    exact ⟨by rw [b1, a1], by rw [b2]; exact a2, by rw [← a3]; exact b3, by rw [b4, a4],
      by rw [b5, a5], by rw [b6, a6], by rw [b7, a7], by rw [b8, a8], by rw [b9, a9],
      by rw [b10, a10]⟩

theorem latch_fields_dstcp (self : TcpDstcp) (tcb : TcpSocketState) :
    (latch self tcb).m_ackedBytesRtt = self.m_ackedBytesRtt ∧
    (latch self tcb).m_ackedBytesEcn = self.m_ackedBytesEcn ∧
    (latch self tcb).m_ackedBytesTotal = self.m_ackedBytesTotal ∧
    (latch self tcb).m_alpha = self.m_alpha ∧
    (latch self tcb).m_alpha_ecn = self.m_alpha_ecn ∧
    (latch self tcb).m_alpha_rtt = self.m_alpha_rtt ∧ (latch self tcb).m_g = self.m_g ∧
    (latch self tcb).m_round = self.m_round ∧
    (latch self tcb).m_nextSeqFlag = true ∧
    (self.m_nextSeqFlag = true → latch self tcb = self) := by
  unfold latch
  split
  · rename_i h
    simp [h]
  · rename_i h
    simp at h
    simp [h]

theorem updateAlphas_fields_dstcp (self : TcpDstcp) :
    (updateAlphas self).m_alpha_ecn =
      (1 - self.m_g) * self.m_alpha_ecn + self.m_g * bytesEcn self ∧
    (updateAlphas self).m_alpha_rtt =
      (1 - self.m_g) * self.m_alpha_rtt + self.m_g * bytesRtt self ∧
    (updateAlphas self).m_alpha = self.m_alpha ∧ (updateAlphas self).m_g = self.m_g ∧
    (updateAlphas self).m_nextSeqFlag = self.m_nextSeqFlag ∧
    (updateAlphas self).m_round = self.m_round := by
  unfold updateAlphas
  simp only
  split <;> simp

theorem drainCheck_fields_dstcp {self s1 : TcpDstcp} {tcb : TcpSocketState}
    (h : drainCheck self tcb = .ok s1) :
    s1.m_alpha_ecn = self.m_alpha_ecn ∧ s1.m_alpha_rtt = self.m_alpha_rtt ∧
    s1.m_alpha = self.m_alpha ∧ s1.m_g = self.m_g ∧
    s1.m_nextSeqFlag = self.m_nextSeqFlag := by
  unfold drainCheck at h
  simp only at h
  split at h
  · cases h
  · split at h
    · cases h
      split <;> simp
    · cases h
      simp

theorem react_fields_dstcp (self : TcpDstcp) (tcb : TcpSocketState) :
    (react self tcb).self.m_alpha_ecn = self.m_alpha_ecn ∧
    (react self tcb).self.m_alpha_rtt = self.m_alpha_rtt ∧
    ((react self tcb).self.m_alpha = self.m_alpha ∨
      (react self tcb).self.m_alpha = self.m_alpha_ecn ∨
      (react self tcb).self.m_alpha = self.m_alpha_ecn + self.m_alpha_rtt) ∧
    (react self tcb).self.m_g = self.m_g ∧
    (react self tcb).self.m_ackedBytesEcn = 0 ∧ (react self tcb).self.m_ackedBytesRtt = 0 ∧
    (react self tcb).self.m_ackedBytesTotal = 0 ∧
    (react self tcb).self.m_signal = Signal.non_sig ∧
    (react self tcb).self.m_nq_avg = -1 ∧
    (react self tcb).self.m_nextSeq = (react self tcb).tcb.m_nextTxSequence ∧
    (react self tcb).tcb.m_nextTxSequence = tcb.m_nextTxSequence ∧
    (react self tcb).tcb.m_lastAckedSeq = tcb.m_lastAckedSeq ∧
    (react self tcb).tcb.m_ecnState = tcb.m_ecnState ∧
    (react self tcb).self.m_nextSeqFlag = self.m_nextSeqFlag ∧
    (react self tcb).self.m_round = self.m_round ∧
    (react self tcb).trace ≠ [] := by
  unfold react Reset
  cases self.m_signal <;> simp

theorem PktsAcked_eq_dstcp {ty : NqAvgDecl} {self s1 : TcpDstcp} {tcb : TcpSocketState} {n : Nat}
    {rtt : Time} (h : account ty self tcb n rtt = .ok s1) :
    PktsAcked ty self tcb n rtt =
      if SequenceNumber32.ge tcb.m_lastAckedSeq (latch s1 tcb).m_nextSeq then
        expire (latch s1 tcb) tcb
      else .ok { self := latch s1 tcb, tcb := tcb, trace := [] } := by
  unfold PktsAcked
  rw [h]

theorem account_of_ok_dstcp {ty : NqAvgDecl} {self : TcpDstcp} {tcb : TcpSocketState} {n : Nat}
    {rtt : Time} {out : Outcome TcpDstcp} (h : PktsAcked ty self tcb n rtt = .ok out) :
    ∃ s1, account ty self tcb n rtt = .ok s1 := by
  unfold PktsAcked at h
  cases hacc : account ty self tcb n rtt with
  | error e => rw [hacc] at h; cases h
  | ok s1 => exact ⟨s1, rfl⟩

/-- Every call that returns leaves either the latched accounting state (no trace event) or
the outcome of the window-close block (one trace event). -/
theorem outcome_cases_dstcp {ty : NqAvgDecl} {self : TcpDstcp} {tcb : TcpSocketState} {n : Nat}
    {rtt : Time} {out : Outcome TcpDstcp} (h : PktsAcked ty self tcb n rtt = .ok out) :
    ∃ s1, account ty self tcb n rtt = .ok s1 ∧
      ((out = { self := latch s1 tcb, tcb := tcb, trace := [] } ∧
          SequenceNumber32.ge tcb.m_lastAckedSeq (latch s1 tcb).m_nextSeq = false) ∨
        (SequenceNumber32.ge tcb.m_lastAckedSeq (latch s1 tcb).m_nextSeq = true ∧
          ∃ s2, drainCheck (updateAlphas (latch s1 tcb)) tcb = .ok s2 ∧
            out = react s2 tcb)) := by
  obtain ⟨s1, hacc⟩ := account_of_ok_dstcp h
  rw [PktsAcked_eq_dstcp hacc] at h
  refine ⟨s1, hacc, ?_⟩
  split at h
  · rename_i hge
    unfold expire at h
    cases hd : drainCheck (updateAlphas (latch s1 tcb)) tcb with
    | error e => rw [hd] at h; cases h
    | ok s2 =>
      rw [hd] at h
      cases h
      exact Or.inr ⟨hge, s2, rfl, rfl⟩
  · rename_i hge
    cases h
    exact Or.inl ⟨rfl, by simpa using hge⟩

/-- A call that fires a trace event is a call that found `m_lastAckedSeq >= m_nextSeq` and ran
the window-close block. -/
theorem closed_of_trace_dstcp {ty : NqAvgDecl} {self : TcpDstcp} {tcb : TcpSocketState} {n : Nat}
    {rtt : Time} {out : Outcome TcpDstcp} (h : PktsAcked ty self tcb n rtt = .ok out)
    (ht : out.trace ≠ []) :
    ∃ s1, account ty self tcb n rtt = .ok s1 ∧
      SequenceNumber32.ge tcb.m_lastAckedSeq (latch s1 tcb).m_nextSeq = true ∧
      ∃ s2, drainCheck (updateAlphas (latch s1 tcb)) tcb = .ok s2 ∧ out = react s2 tcb := by
  obtain ⟨s1, hacc, hc⟩ := outcome_cases_dstcp h
  refine ⟨s1, hacc, ?_⟩
  rcases hc with ⟨ho, -⟩ | hc
  · rw [ho] at ht
    exact absurd rfl ht
  · exact hc

end TcpDstcp

/-! ## Invariants of the accumulators and of the averages -/

namespace TcpDcvegas

theorem expire_fields_dcvegas (self : TcpDcvegas) (tcb : TcpSocketState) :
    (expire self tcb).self.m_alpha = (1 - self.m_g) * self.m_alpha + self.m_g * bytesRtt self ∧
    (expire self tcb).self.m_g = self.m_g ∧
    (expire self tcb).self.m_ackedBytesRtt = 0 ∧ (expire self tcb).self.m_ackedBytesTotal = 0 ∧
    (expire self tcb).self.m_signal = Signal.non_sig ∧
    (expire self tcb).self.m_nextSeq = (expire self tcb).tcb.m_nextTxSequence ∧
    (expire self tcb).tcb.m_nextTxSequence = tcb.m_nextTxSequence ∧
    (expire self tcb).tcb.m_lastAckedSeq = tcb.m_lastAckedSeq ∧
    (expire self tcb).self.m_nextSeqFlag = self.m_nextSeqFlag ∧
    (expire self tcb).trace ≠ [] := by
  unfold expire Reset
  simp only
  split <;> simp

theorem step_acc_dcvegas {self : TcpDcvegas} {tcb : TcpSocketState} {n : Nat} {rtt : Time}
    {out : Outcome TcpDcvegas} (h : PktsAcked self tcb n rtt = .ok out)
    (hno : self.m_ackedBytesTotal + n * tcb.m_segmentSize < 2 ^ 32)
    (hle : self.m_ackedBytesRtt ≤ self.m_ackedBytesTotal) :
    out.self.m_ackedBytesRtt ≤ out.self.m_ackedBytesTotal := by
  obtain ⟨s1, hacc, hc⟩ := outcome_cases_dcvegas h
  obtain ⟨a1, a2, -⟩ := account_spec_dcvegas hacc
  have hs1 : s1.m_ackedBytesRtt ≤ s1.m_ackedBytesTotal := by
    rw [a1]
    exact counter_step hle hno a2
  obtain ⟨l1, l2, -⟩ := latch_fields_dcvegas s1 tcb
  rcases hc with ⟨ho, -⟩ | ⟨-, ho⟩
  · rw [ho]
    simp only
    rw [l1, l2]
    exact hs1
  · obtain ⟨-, -, e3, e4, -⟩ := expire_fields_dcvegas (latch s1 tcb) tcb
    rw [ho, e3, e4]

theorem step_bounds_dcvegas {self : TcpDcvegas} {tcb : TcpSocketState} {n : Nat} {rtt : Time}
    {out : Outcome TcpDcvegas} (h : PktsAcked self tcb n rtt = .ok out)
    (hno : self.m_ackedBytesTotal + n * tcb.m_segmentSize < 2 ^ 32)
    (hle : self.m_ackedBytesRtt ≤ self.m_ackedBytesTotal)
    (hg : 0 ≤ self.m_g ∧ self.m_g ≤ 1) (ha : 0 ≤ self.m_alpha ∧ self.m_alpha ≤ 1) :
    (0 ≤ out.self.m_g ∧ out.self.m_g ≤ 1) ∧ (0 ≤ out.self.m_alpha ∧ out.self.m_alpha ≤ 1) := by
  obtain ⟨s1, hacc, hc⟩ := outcome_cases_dcvegas h
  obtain ⟨a1, a2, a3, a4, -⟩ := account_spec_dcvegas hacc
  have hs1 : s1.m_ackedBytesRtt ≤ s1.m_ackedBytesTotal := by
    rw [a1]
    exact counter_step hle hno a2
  obtain ⟨l1, l2, l3, l4, -⟩ := latch_fields_dcvegas s1 tcb
  rcases hc with ⟨ho, -⟩ | ⟨-, ho⟩
  · rw [ho]
    simp only
    rw [l3, l4, a3, a4]
    exact ⟨hg, ha⟩
  · obtain ⟨e1, e2, -⟩ := expire_fields_dcvegas (latch s1 tcb) tcb
    rw [ho, e1, e2, l3, l4, a3, a4]
    refine ⟨hg, ?_⟩
    have hf : 0 ≤ bytesRtt (latch s1 tcb) ∧ bytesRtt (latch s1 tcb) ≤ 1 := by
      unfold bytesRtt
      rw [l1, l2]
      exact frac_mem_unit hs1
    exact ewma_mem_unit hg.1 hg.2 ha.1 ha.2 hf.1 hf.2

theorem run_acc_dcvegas : ∀ (acks : List Ack) (s0 s : TcpDcvegas),
    s0.m_ackedBytesRtt ≤ s0.m_ackedBytesTotal → noOverflow s0 acks = true →
    run s0 acks = .ok s → s.m_ackedBytesRtt ≤ s.m_ackedBytesTotal := by
  intro acks
  induction acks with
  | nil =>
    intro s0 s hle _ hrun
    simp only [run] at hrun
    cases hrun
    exact hle
  | cons a rest ih =>
    intro s0 s hle hno hrun
    simp only [run] at hrun
    simp only [noOverflow, Bool.and_eq_true, decide_eq_true_eq] at hno
    cases hp : PktsAcked s0 a.tcb a.segmentsAcked a.rtt with
    | error e => rw [hp] at hrun; cases hrun
    | ok out =>
      rw [hp] at hrun
      have hno2 := hno.2
      rw [hp] at hno2
      exact ih out.self s (step_acc_dcvegas hp hno.1 hle) hno2 hrun

theorem run_bounds_dcvegas : ∀ (acks : List Ack) (s0 s : TcpDcvegas),
    s0.m_ackedBytesRtt ≤ s0.m_ackedBytesTotal → (0 ≤ s0.m_g ∧ s0.m_g ≤ 1) →
    (0 ≤ s0.m_alpha ∧ s0.m_alpha ≤ 1) → noOverflow s0 acks = true →
    run s0 acks = .ok s → 0 ≤ s.m_alpha ∧ s.m_alpha ≤ 1 := by
  intro acks
  induction acks with
  | nil =>
    intro s0 s _ _ ha _ hrun
    simp only [run] at hrun
    cases hrun
    exact ha
  | cons a rest ih =>
    intro s0 s hle hg ha hno hrun
    simp only [run] at hrun
    simp only [noOverflow, Bool.and_eq_true, decide_eq_true_eq] at hno
    cases hp : PktsAcked s0 a.tcb a.segmentsAcked a.rtt with
    | error e => rw [hp] at hrun; cases hrun
    | ok out =>
      rw [hp] at hrun
      have hno2 := hno.2
      rw [hp] at hno2
      have hb := step_bounds_dcvegas hp hno.1 hle hg ha
      exact ih out.self s (step_acc_dcvegas hp hno.1 hle) hb.1 hb.2 hno2 hrun

end TcpDcvegas

namespace TcpDsdcc

theorem expireElephant_fields_dsdcc (self : TcpDsdcc) (tcb : TcpSocketState) :
    (expireElephant self tcb).self.m_alpha_rtt =
      (1 - self.m_g) * self.m_alpha_rtt + self.m_g * bytesRtt self ∧
    (expireElephant self tcb).self.m_alpha = (expireElephant self tcb).self.m_alpha_rtt ∧
    (expireElephant self tcb).self.m_alpha_ecn = self.m_alpha_ecn ∧
    (expireElephant self tcb).self.m_g = self.m_g ∧
    (expireElephant self tcb).self.m_ackedBytesEcn = 0 ∧
    (expireElephant self tcb).self.m_ackedBytesRtt = 0 ∧
    (expireElephant self tcb).self.m_ackedBytesTotal = 0 ∧
    (expireElephant self tcb).self.m_signal = Signal.non_sig ∧
    (expireElephant self tcb).self.m_nextSeq = (expireElephant self tcb).tcb.m_nextTxSequence ∧
    (expireElephant self tcb).tcb.m_nextTxSequence = tcb.m_nextTxSequence ∧
    (expireElephant self tcb).tcb.m_lastAckedSeq = tcb.m_lastAckedSeq ∧
    (expireElephant self tcb).tcb.m_flowMode = tcb.m_flowMode ∧
    (expireElephant self tcb).tcb.m_ecnState = tcb.m_ecnState ∧
    (expireElephant self tcb).self.m_nextSeqFlag = self.m_nextSeqFlag := by
  unfold expireElephant Reset
  simp only
  split <;> simp

theorem expireMouse_fields_dsdcc (self : TcpDsdcc) (tcb : TcpSocketState) :
    (expireMouse self tcb).self.m_alpha_ecn =
      (1 - self.m_g) * self.m_alpha_ecn + self.m_g * bytesEcn self ∧
    (expireMouse self tcb).self.m_alpha = (expireMouse self tcb).self.m_alpha_ecn ∧
    (expireMouse self tcb).self.m_alpha_rtt = self.m_alpha_rtt ∧
    (expireMouse self tcb).self.m_g = self.m_g ∧
    (expireMouse self tcb).self.m_ackedBytesEcn = 0 ∧
    (expireMouse self tcb).self.m_ackedBytesRtt = 0 ∧
    (expireMouse self tcb).self.m_ackedBytesTotal = 0 ∧
    (expireMouse self tcb).self.m_signal = Signal.non_sig ∧
    (expireMouse self tcb).self.m_nextSeq = (expireMouse self tcb).tcb.m_nextTxSequence ∧
    (expireMouse self tcb).tcb = tcb ∧
    (expireMouse self tcb).self.m_nextSeqFlag = self.m_nextSeqFlag := by
  unfold expireMouse Reset
  simp

theorem step_acc_dsdcc {self : TcpDsdcc} {tcb : TcpSocketState} {n : Nat} {rtt : Time}
    {out : Outcome TcpDsdcc} (h : PktsAcked self tcb n rtt = .ok out)
    (hno : self.m_ackedBytesTotal + n * tcb.m_segmentSize < 2 ^ 32)
    (hle : self.m_ackedBytesEcn ≤ self.m_ackedBytesTotal ∧
      self.m_ackedBytesRtt ≤ self.m_ackedBytesTotal) :
    out.self.m_ackedBytesEcn ≤ out.self.m_ackedBytesTotal ∧
      out.self.m_ackedBytesRtt ≤ out.self.m_ackedBytesTotal := by
  obtain ⟨s1, hacc, hc⟩ := outcome_cases_dsdcc h
  obtain ⟨a1, a2, a3, -⟩ := account_spec_dsdcc hacc
  have hs1 : s1.m_ackedBytesEcn ≤ s1.m_ackedBytesTotal ∧
      s1.m_ackedBytesRtt ≤ s1.m_ackedBytesTotal := by
    rw [a1]
    exact ⟨counter_step hle.1 hno a3, counter_step hle.2 hno a2⟩
  obtain ⟨l1, l2, l3, -⟩ := latch_fields_dsdcc s1 tcb
  rcases hc with ⟨ho, -⟩ | ⟨-, ⟨-, ho⟩ | ⟨-, ho⟩⟩
  · rw [ho]
    simp only
    rw [l1, l2, l3]
    exact hs1
  · obtain ⟨-, -, -, -, e5, e6, e7, -⟩ := expireElephant_fields_dsdcc (latch s1 tcb) tcb
    rw [ho, e5, e6, e7]
    exact ⟨le_refl 0, le_refl 0⟩
  · obtain ⟨-, -, -, -, e5, e6, e7, -⟩ := expireMouse_fields_dsdcc (latch s1 tcb) tcb
    rw [ho, e5, e6, e7]
    exact ⟨le_refl 0, le_refl 0⟩

theorem step_bounds_dsdcc {self : TcpDsdcc} {tcb : TcpSocketState} {n : Nat} {rtt : Time}
    {out : Outcome TcpDsdcc} (h : PktsAcked self tcb n rtt = .ok out)
    (hno : self.m_ackedBytesTotal + n * tcb.m_segmentSize < 2 ^ 32)
    (hle : self.m_ackedBytesEcn ≤ self.m_ackedBytesTotal ∧
      self.m_ackedBytesRtt ≤ self.m_ackedBytesTotal)
    (hg : 0 ≤ self.m_g ∧ self.m_g ≤ 1) (ha : 0 ≤ self.m_alpha ∧ self.m_alpha ≤ 1)
    (hae : 0 ≤ self.m_alpha_ecn ∧ self.m_alpha_ecn ≤ 1)
    (har : 0 ≤ self.m_alpha_rtt ∧ self.m_alpha_rtt ≤ 1) :
    (0 ≤ out.self.m_g ∧ out.self.m_g ≤ 1) ∧ (0 ≤ out.self.m_alpha ∧ out.self.m_alpha ≤ 1) ∧
      (0 ≤ out.self.m_alpha_ecn ∧ out.self.m_alpha_ecn ≤ 1) ∧
      (0 ≤ out.self.m_alpha_rtt ∧ out.self.m_alpha_rtt ≤ 1) := by
  obtain ⟨s1, hacc, hc⟩ := outcome_cases_dsdcc h
  obtain ⟨a1, a2, a3, a4, a5, a6, a7, -⟩ := account_spec_dsdcc hacc
  have hs1 : s1.m_ackedBytesEcn ≤ s1.m_ackedBytesTotal ∧
      s1.m_ackedBytesRtt ≤ s1.m_ackedBytesTotal := by
    rw [a1]
    exact ⟨counter_step hle.1 hno a3, counter_step hle.2 hno a2⟩
  obtain ⟨l1, l2, l3, l4, l5, l6, l7, -⟩ := latch_fields_dsdcc s1 tcb
  rcases hc with ⟨ho, -⟩ | ⟨-, ⟨-, ho⟩ | ⟨-, ho⟩⟩
  · rw [ho]
    simp only
    rw [l4, l5, l6, l7, a4, a5, a6, a7]
    exact ⟨hg, ha, hae, har⟩
  · obtain ⟨e1, e2, e3, e4, -⟩ := expireElephant_fields_dsdcc (latch s1 tcb) tcb
    have hf : 0 ≤ bytesRtt (latch s1 tcb) ∧ bytesRtt (latch s1 tcb) ≤ 1 := by
      unfold bytesRtt
      rw [l1, l3]
      exact frac_mem_unit hs1.2
    have hnew := ewma_mem_unit hg.1 hg.2 har.1 har.2 hf.1 hf.2
    rw [ho, e2, e1, e3, e4, l5, l6, l7, a5, a6, a7]
    exact ⟨hg, hnew, hae, hnew⟩
  · obtain ⟨e1, e2, e3, e4, -⟩ := expireMouse_fields_dsdcc (latch s1 tcb) tcb
    have hf : 0 ≤ bytesEcn (latch s1 tcb) ∧ bytesEcn (latch s1 tcb) ≤ 1 := by
      unfold bytesEcn
      rw [l2, l3]
      exact frac_mem_unit hs1.1
    have hnew := ewma_mem_unit hg.1 hg.2 hae.1 hae.2 hf.1 hf.2
    rw [ho, e2, e1, e3, e4, l5, l6, l7, a5, a6, a7]
    exact ⟨hg, hnew, hnew, har⟩

theorem run_acc_dsdcc : ∀ (acks : List Ack) (s0 s : TcpDsdcc),
    (s0.m_ackedBytesEcn ≤ s0.m_ackedBytesTotal ∧ s0.m_ackedBytesRtt ≤ s0.m_ackedBytesTotal) →
    noOverflow s0 acks = true → run s0 acks = .ok s →
    s.m_ackedBytesEcn ≤ s.m_ackedBytesTotal ∧ s.m_ackedBytesRtt ≤ s.m_ackedBytesTotal := by
  intro acks
  induction acks with
  | nil =>
    intro s0 s hle _ hrun
    simp only [run] at hrun
    cases hrun
    exact hle
  | cons a rest ih =>
    intro s0 s hle hno hrun
    simp only [run] at hrun
    simp only [noOverflow, Bool.and_eq_true, decide_eq_true_eq] at hno
    cases hp : PktsAcked s0 a.tcb a.segmentsAcked a.rtt with
    | error e => rw [hp] at hrun; cases hrun
    | ok out =>
      rw [hp] at hrun
      have hno2 := hno.2
      rw [hp] at hno2
      exact ih out.self s (step_acc_dsdcc hp hno.1 hle) hno2 hrun

theorem run_bounds_dsdcc : ∀ (acks : List Ack) (s0 s : TcpDsdcc),
    (s0.m_ackedBytesEcn ≤ s0.m_ackedBytesTotal ∧ s0.m_ackedBytesRtt ≤ s0.m_ackedBytesTotal) →
    (0 ≤ s0.m_g ∧ s0.m_g ≤ 1) → (0 ≤ s0.m_alpha ∧ s0.m_alpha ≤ 1) →
    (0 ≤ s0.m_alpha_ecn ∧ s0.m_alpha_ecn ≤ 1) → (0 ≤ s0.m_alpha_rtt ∧ s0.m_alpha_rtt ≤ 1) →
    noOverflow s0 acks = true → run s0 acks = .ok s →
    (0 ≤ s.m_alpha ∧ s.m_alpha ≤ 1) ∧ (0 ≤ s.m_alpha_ecn ∧ s.m_alpha_ecn ≤ 1) ∧
      (0 ≤ s.m_alpha_rtt ∧ s.m_alpha_rtt ≤ 1) := by
  intro acks
  induction acks with
  | nil =>
    intro s0 s _ _ ha hae har _ hrun
    simp only [run] at hrun
    cases hrun
    exact ⟨ha, hae, har⟩
  | cons a rest ih =>
    intro s0 s hle hg ha hae har hno hrun
    simp only [run] at hrun
    simp only [noOverflow, Bool.and_eq_true, decide_eq_true_eq] at hno
    cases hp : PktsAcked s0 a.tcb a.segmentsAcked a.rtt with
    | error e => rw [hp] at hrun; cases hrun
    | ok out =>
      rw [hp] at hrun
      have hno2 := hno.2
      rw [hp] at hno2
      have hb := step_bounds_dsdcc hp hno.1 hle hg ha hae har
      exact ih out.self s (step_acc_dsdcc hp hno.1 hle) hb.1 hb.2.1 hb.2.2.1 hb.2.2.2 hno2 hrun

end TcpDsdcc

namespace TcpDstcp

theorem updateAlphas_acc_dstcp (self : TcpDstcp) :
    (updateAlphas self).m_ackedBytesEcn = self.m_ackedBytesEcn ∧
    (updateAlphas self).m_ackedBytesRtt = self.m_ackedBytesRtt ∧
    (updateAlphas self).m_ackedBytesTotal = self.m_ackedBytesTotal := by
  unfold updateAlphas
  simp only
  split <;> simp

theorem step_acc_dstcp {ty : NqAvgDecl} {self : TcpDstcp} {tcb : TcpSocketState} {n : Nat}
    {rtt : Time} {out : Outcome TcpDstcp} (h : PktsAcked ty self tcb n rtt = .ok out)
    (hno : self.m_ackedBytesTotal + n * tcb.m_segmentSize < 2 ^ 32)
    (hle : self.m_ackedBytesEcn ≤ self.m_ackedBytesTotal ∧
      self.m_ackedBytesRtt ≤ self.m_ackedBytesTotal) :
    out.self.m_ackedBytesEcn ≤ out.self.m_ackedBytesTotal ∧
      out.self.m_ackedBytesRtt ≤ out.self.m_ackedBytesTotal := by
  obtain ⟨s1, hacc, hc⟩ := outcome_cases_dstcp h
  obtain ⟨a1, a2, a3, -⟩ := account_spec_dstcp hacc
  have hs1 : s1.m_ackedBytesEcn ≤ s1.m_ackedBytesTotal ∧
      s1.m_ackedBytesRtt ≤ s1.m_ackedBytesTotal := by
    rw [a1]
    exact ⟨counter_step hle.1 hno a3, counter_step hle.2 hno a2⟩
  obtain ⟨l1, l2, l3, -⟩ := latch_fields_dstcp s1 tcb
  rcases hc with ⟨ho, -⟩ | ⟨-, s2, -, ho⟩
  · rw [ho]
    simp only
    rw [l1, l2, l3]
    exact hs1
  · obtain ⟨-, -, -, -, e5, e6, e7, -⟩ := react_fields_dstcp s2 tcb
    rw [ho, e5, e6, e7]
    exact ⟨le_refl 0, le_refl 0⟩

theorem step_bounds_dstcp {ty : NqAvgDecl} {self : TcpDstcp} {tcb : TcpSocketState} {n : Nat}
    {rtt : Time} {out : Outcome TcpDstcp} (h : PktsAcked ty self tcb n rtt = .ok out)
    (hno : self.m_ackedBytesTotal + n * tcb.m_segmentSize < 2 ^ 32)
    (hle : self.m_ackedBytesEcn ≤ self.m_ackedBytesTotal ∧
      self.m_ackedBytesRtt ≤ self.m_ackedBytesTotal)
    (hg : 0 ≤ self.m_g ∧ self.m_g ≤ 1) (ha : 0 ≤ self.m_alpha ∧ self.m_alpha ≤ 2)
    (hae : 0 ≤ self.m_alpha_ecn ∧ self.m_alpha_ecn ≤ 1)
    (har : 0 ≤ self.m_alpha_rtt ∧ self.m_alpha_rtt ≤ 1) :
    (0 ≤ out.self.m_g ∧ out.self.m_g ≤ 1) ∧ (0 ≤ out.self.m_alpha ∧ out.self.m_alpha ≤ 2) ∧
      (0 ≤ out.self.m_alpha_ecn ∧ out.self.m_alpha_ecn ≤ 1) ∧
      (0 ≤ out.self.m_alpha_rtt ∧ out.self.m_alpha_rtt ≤ 1) := by
  obtain ⟨s1, hacc, hc⟩ := outcome_cases_dstcp h
  obtain ⟨a1, a2, a3, a4, a5, a6, a7, -⟩ := account_spec_dstcp hacc
  have hs1 : s1.m_ackedBytesEcn ≤ s1.m_ackedBytesTotal ∧
      s1.m_ackedBytesRtt ≤ s1.m_ackedBytesTotal := by
    rw [a1]
    exact ⟨counter_step hle.1 hno a3, counter_step hle.2 hno a2⟩
  obtain ⟨l1, l2, l3, l4, l5, l6, l7, -⟩ := latch_fields_dstcp s1 tcb
  rcases hc with ⟨ho, -⟩ | ⟨-, s2, hd, ho⟩
  · rw [ho]
    simp only
    rw [l4, l5, l6, l7, a4, a5, a6, a7]
    exact ⟨hg, ha, hae, har⟩
  · obtain ⟨u1, u2, u3, u4, -⟩ := updateAlphas_fields_dstcp (latch s1 tcb)
    obtain ⟨d1, d2, d3, d4, -⟩ := drainCheck_fields_dstcp hd
    obtain ⟨r1, r2, r3, r4, -⟩ := react_fields_dstcp s2 tcb
    have hfe : 0 ≤ bytesEcn (latch s1 tcb) ∧ bytesEcn (latch s1 tcb) ≤ 1 := by
      unfold bytesEcn
      rw [l2, l3]
      exact frac_mem_unit hs1.1
    have hfr : 0 ≤ bytesRtt (latch s1 tcb) ∧ bytesRtt (latch s1 tcb) ≤ 1 := by
      unfold bytesRtt
      rw [l1, l3]
      exact frac_mem_unit hs1.2
    have hg' : 0 ≤ (latch s1 tcb).m_g ∧ (latch s1 tcb).m_g ≤ 1 := by
      rw [l7, a7]
      exact hg
    have hne : 0 ≤ s2.m_alpha_ecn ∧ s2.m_alpha_ecn ≤ 1 := by
      rw [d1, u1]
      refine ewma_mem_unit hg'.1 hg'.2 ?_ ?_ hfe.1 hfe.2
      · rw [l5, a5]; exact hae.1
      · rw [l5, a5]; exact hae.2
    have hnr : 0 ≤ s2.m_alpha_rtt ∧ s2.m_alpha_rtt ≤ 1 := by
      rw [d2, u2]
      refine ewma_mem_unit hg'.1 hg'.2 ?_ ?_ hfr.1 hfr.2
      · rw [l6, a6]; exact har.1
      · rw [l6, a6]; exact har.2
    have hold : 0 ≤ s2.m_alpha ∧ s2.m_alpha ≤ 2 := by
      rw [d3, u3, l4, a4]
      exact ha
    rw [ho, r1, r2, r4]
    refine ⟨by rw [d4, u4]; exact hg', ?_, hne, hnr⟩
    rcases r3 with r3 | r3 | r3 <;> rw [r3]
    · exact hold
    · exact ⟨hne.1, by linarith [hne.2]⟩
    · exact ⟨by linarith [hne.1, hnr.1], by linarith [hne.2, hnr.2]⟩

theorem run_acc_dstcp (ty : NqAvgDecl) : ∀ (acks : List Ack) (s0 s : TcpDstcp),
    (s0.m_ackedBytesEcn ≤ s0.m_ackedBytesTotal ∧ s0.m_ackedBytesRtt ≤ s0.m_ackedBytesTotal) →
    noOverflow ty s0 acks = true → run ty s0 acks = .ok s →
    s.m_ackedBytesEcn ≤ s.m_ackedBytesTotal ∧ s.m_ackedBytesRtt ≤ s.m_ackedBytesTotal := by
  intro acks
  induction acks with
  | nil =>
    intro s0 s hle _ hrun
    simp only [run] at hrun
    cases hrun
    exact hle
  | cons a rest ih =>
    intro s0 s hle hno hrun
    simp only [run] at hrun
    simp only [noOverflow, Bool.and_eq_true, decide_eq_true_eq] at hno
    cases hp : PktsAcked ty s0 a.tcb a.segmentsAcked a.rtt with
    | error e => rw [hp] at hrun; cases hrun
    | ok out =>
      rw [hp] at hrun
      have hno2 := hno.2
      rw [hp] at hno2
      exact ih out.self s (step_acc_dstcp hp hno.1 hle) hno2 hrun

theorem run_bounds_dstcp (ty : NqAvgDecl) : ∀ (acks : List Ack) (s0 s : TcpDstcp),
    (s0.m_ackedBytesEcn ≤ s0.m_ackedBytesTotal ∧ s0.m_ackedBytesRtt ≤ s0.m_ackedBytesTotal) →
    (0 ≤ s0.m_g ∧ s0.m_g ≤ 1) → (0 ≤ s0.m_alpha ∧ s0.m_alpha ≤ 2) →
    (0 ≤ s0.m_alpha_ecn ∧ s0.m_alpha_ecn ≤ 1) → (0 ≤ s0.m_alpha_rtt ∧ s0.m_alpha_rtt ≤ 1) →
    noOverflow ty s0 acks = true → run ty s0 acks = .ok s →
    (0 ≤ s.m_alpha ∧ s.m_alpha ≤ 2) ∧ (0 ≤ s.m_alpha_ecn ∧ s.m_alpha_ecn ≤ 1) ∧
      (0 ≤ s.m_alpha_rtt ∧ s.m_alpha_rtt ≤ 1) := by
  intro acks
  induction acks with
  | nil =>
    intro s0 s _ _ ha hae har _ hrun
    simp only [run] at hrun
    cases hrun
    exact ⟨ha, hae, har⟩
  | cons a rest ih =>
    intro s0 s hle hg ha hae har hno hrun
    simp only [run] at hrun
    simp only [noOverflow, Bool.and_eq_true, decide_eq_true_eq] at hno
    cases hp : PktsAcked ty s0 a.tcb a.segmentsAcked a.rtt with
    | error e => rw [hp] at hrun; cases hrun
    | ok out =>
      rw [hp] at hrun
      have hno2 := hno.2
      rw [hp] at hno2
      have hb := step_bounds_dstcp hp hno.1 hle hg ha hae har
      exact ih out.self s (step_acc_dstcp hp hno.1 hle) hb.1 hb.2.1 hb.2.2.1 hb.2.2.2 hno2 hrun

end TcpDstcp

/-! ## A call without new acknowledgment -/

theorem ackedBytes_zero (tcb : TcpSocketState) : ackedBytes tcb 0 = 0 := by
  simp [ackedBytes, wrapU32]

theorem TcpDcvegas.account_idle_dcvegas {self : TcpDcvegas} (tcb : TcpSocketState)
    (h0 : self.m_ackedBytesTotal = 0) :
    TcpDcvegas.account self tcb 0 (Time.mk 0) = .ok self := by
  cases self
  simp only at h0
  subst h0
  simp [TcpDcvegas.account, Time.IsZero, ackedBytes_zero, wrapU32]

theorem TcpDsdcc.account_idle_dsdcc {self : TcpDsdcc} (tcb : TcpSocketState)
    (h0 : self.m_ackedBytesTotal = 0) (he : self.m_ackedBytesEcn = 0) :
    TcpDsdcc.account self tcb 0 (Time.mk 0) = .ok self := by
  cases self
  simp only at h0 he
  subst h0 he
  simp [TcpDsdcc.account, TcpDsdcc.accountRtt, TcpDsdcc.accountEcn, Time.IsZero,
    ackedBytes_zero, wrapU32]

theorem TcpDstcp.account_idle_dstcp (ty : NqAvgDecl) {self : TcpDstcp} (tcb : TcpSocketState)
    (h0 : self.m_ackedBytesTotal = 0) (he : self.m_ackedBytesEcn = 0) :
    TcpDstcp.account ty self tcb 0 (Time.mk 0) = .ok self ∨
      TcpDstcp.account ty self tcb 0 (Time.mk 0) =
        .ok { self with m_signal := TcpDstcp.Signal.ecn_sig } := by
  cases self
  simp only at h0 he
  subst h0 he
  by_cases hece : tcb.m_ecnState = EcnState_t.ECN_ECE_RCVD
  · right
    simp [TcpDstcp.account, TcpDstcp.accountRtt, TcpDstcp.accountEcn, Time.IsZero,
      ackedBytes_zero, wrapU32, hece]
  · left
    simp [TcpDstcp.account, TcpDstcp.accountRtt, TcpDstcp.accountEcn, Time.IsZero,
      ackedBytes_zero, wrapU32, hece]

/-! ## C1: the slow-start threshold query -/

/-- C1: in TcpDcvegas, TcpDsdcc and TcpDstcp, for every instance, control block and
`bytesInFlight`, `GetSsThresh` returns `(1 - alpha / 2) * cwnd` converted to `uint32_t`, which
is the integer part of the product whenever `0 ≤ alpha ≤ 2` and `cwnd` is a 32-bit value; the
result is the same for every other `bytesInFlight`, and the instance is returned unchanged
(the control block is passed read-only). -/
theorem C1_GetSsThresh (a : TcpDcvegas) (b : TcpDsdcc) (c : TcpDstcp) (tcb : TcpSocketState)
    (bytesInFlight other : Nat) :
    ((a.GetSsThresh tcb bytesInFlight).1 = castU32 ((1 - a.m_alpha / 2) * (tcb.m_cWnd : ℚ)) ∧
      (0 ≤ a.m_alpha → a.m_alpha ≤ 2 → tcb.m_cWnd < 2 ^ 32 →
        (a.GetSsThresh tcb bytesInFlight).1 = ⌊(1 - a.m_alpha / 2) * (tcb.m_cWnd : ℚ)⌋₊) ∧
      a.GetSsThresh tcb other = a.GetSsThresh tcb bytesInFlight ∧
      (a.GetSsThresh tcb bytesInFlight).2 = a) ∧
    ((b.GetSsThresh tcb bytesInFlight).1 = castU32 ((1 - b.m_alpha / 2) * (tcb.m_cWnd : ℚ)) ∧
      (0 ≤ b.m_alpha → b.m_alpha ≤ 2 → tcb.m_cWnd < 2 ^ 32 →
        (b.GetSsThresh tcb bytesInFlight).1 = ⌊(1 - b.m_alpha / 2) * (tcb.m_cWnd : ℚ)⌋₊) ∧
      b.GetSsThresh tcb other = b.GetSsThresh tcb bytesInFlight ∧
      (b.GetSsThresh tcb bytesInFlight).2 = b) ∧
    ((c.GetSsThresh tcb bytesInFlight).1 = castU32 ((1 - c.m_alpha / 2) * (tcb.m_cWnd : ℚ)) ∧
      (0 ≤ c.m_alpha → c.m_alpha ≤ 2 → tcb.m_cWnd < 2 ^ 32 →
        (c.GetSsThresh tcb bytesInFlight).1 = ⌊(1 - c.m_alpha / 2) * (tcb.m_cWnd : ℚ)⌋₊) ∧
      c.GetSsThresh tcb other = c.GetSsThresh tcb bytesInFlight ∧
      (c.GetSsThresh tcb bytesInFlight).2 = c) :=
  ⟨⟨rfl, fun h0 h2 hc => (castU32_reduction h0 h2 hc).1, rfl, rfl⟩,
    ⟨rfl, fun h0 h2 hc => (castU32_reduction h0 h2 hc).1, rfl, rfl⟩,
    ⟨rfl, fun h0 h2 hc => (castU32_reduction h0 h2 hc).1, rfl, rfl⟩⟩

/-- C1 at the default instances and a window of 7000 bytes: the three queries return the
integer part of `(1 - 1 / 2) * 7000`. -/
theorem C1_GetSsThresh_witness :
    (Example.dcvegas.GetSsThresh Example.tcb 0).1 =
        ⌊(1 - Example.dcvegas.m_alpha / 2) * (Example.tcb.m_cWnd : ℚ)⌋₊ ∧
      (Example.dsdcc.GetSsThresh Example.tcb 0).1 =
        ⌊(1 - Example.dsdcc.m_alpha / 2) * (Example.tcb.m_cWnd : ℚ)⌋₊ ∧
      (Example.dstcp.GetSsThresh Example.tcb 0).1 =
        ⌊(1 - Example.dstcp.m_alpha / 2) * (Example.tcb.m_cWnd : ℚ)⌋₊ :=
  have h := C1_GetSsThresh Example.dcvegas Example.dsdcc Example.dstcp Example.tcb 0 1
  ⟨h.1.2.1 (by decide!) (by decide!) (by decide!),
    h.2.1.2.1 (by decide!) (by decide!) (by decide!),
    h.2.2.2.1 (by decide!) (by decide!) (by decide!)⟩

example : (Example.dcvegas.GetSsThresh Example.tcb 0).1 = 3500 := by decide!

/-! ## C2: bounded alpha -/

/-- The fraction of delay-marked bytes is not negative, whatever the counters hold. -/
theorem bytesRtt_nonneg_dsdcc (self : TcpDsdcc) : 0 ≤ TcpDsdcc.bytesRtt self := by
  unfold TcpDsdcc.bytesRtt
  split
  · positivity
  · exact le_refl 0

/-- One call of TcpDsdcc keeps what does not depend on `m_ackedBytesRtt`: the ECN counter
below the total, `alphaEcn` in `[0, 1]`, and `alpha` and `alphaRtt` not negative. -/
theorem step_fresh_dsdcc {self : TcpDsdcc} {tcb : TcpSocketState} {n : Nat} {rtt : Time}
    {out : Outcome TcpDsdcc} (h : TcpDsdcc.PktsAcked self tcb n rtt = .ok out)
    (hno : self.m_ackedBytesTotal + n * tcb.m_segmentSize < 2 ^ 32)
    (hle : self.m_ackedBytesEcn ≤ self.m_ackedBytesTotal)
    (hg : 0 ≤ self.m_g ∧ self.m_g ≤ 1) (ha : 0 ≤ self.m_alpha)
    (hae : 0 ≤ self.m_alpha_ecn ∧ self.m_alpha_ecn ≤ 1) (har : 0 ≤ self.m_alpha_rtt) :
    out.self.m_ackedBytesEcn ≤ out.self.m_ackedBytesTotal ∧
      (0 ≤ out.self.m_g ∧ out.self.m_g ≤ 1) ∧ 0 ≤ out.self.m_alpha ∧
      (0 ≤ out.self.m_alpha_ecn ∧ out.self.m_alpha_ecn ≤ 1) ∧ 0 ≤ out.self.m_alpha_rtt := by
  obtain ⟨s1, hacc, hc⟩ := TcpDsdcc.outcome_cases_dsdcc h
  obtain ⟨a1, -, a3, a4, a5, a6, a7, -⟩ := TcpDsdcc.account_spec_dsdcc hacc
  have hs1 : s1.m_ackedBytesEcn ≤ s1.m_ackedBytesTotal := by
    rw [a1]
    exact counter_step hle hno a3
  obtain ⟨-, l2, l3, l4, l5, l6, l7, -⟩ := TcpDsdcc.latch_fields_dsdcc s1 tcb
  rcases hc with ⟨ho, -⟩ | ⟨-, ⟨-, ho⟩ | ⟨-, ho⟩⟩
  · rw [ho]
    simp only
    rw [l2, l3, l4, l5, l6, l7, a4, a5, a6, a7]
    exact ⟨hs1, hg, ha, hae, har⟩
  · obtain ⟨e1, e2, e3, e4, e5, -, e7, -⟩ :=
      TcpDsdcc.expireElephant_fields_dsdcc (TcpDsdcc.latch s1 tcb) tcb
    have hnew : 0 ≤ (1 - self.m_g) * self.m_alpha_rtt +
        self.m_g * TcpDsdcc.bytesRtt (TcpDsdcc.latch s1 tcb) :=
      add_nonneg (mul_nonneg (by linarith [hg.2]) har)
        (mul_nonneg hg.1 (bytesRtt_nonneg_dsdcc _))
    rw [ho, e2, e1, e3, e4, e5, e7, l5, l6, l7, a5, a6, a7]
    exact ⟨le_refl 0, hg, hnew, hae, hnew⟩
  · obtain ⟨e1, e2, e3, e4, e5, -, e7, -⟩ :=
      TcpDsdcc.expireMouse_fields_dsdcc (TcpDsdcc.latch s1 tcb) tcb
    have hf : 0 ≤ TcpDsdcc.bytesEcn (TcpDsdcc.latch s1 tcb) ∧
        TcpDsdcc.bytesEcn (TcpDsdcc.latch s1 tcb) ≤ 1 := by
      unfold TcpDsdcc.bytesEcn
      rw [l2, l3]
      exact frac_mem_unit hs1
    have hnew := ewma_mem_unit hg.1 hg.2 hae.1 hae.2 hf.1 hf.2
    rw [ho, e2, e1, e3, e4, e5, e7, l5, l6, l7, a5, a6, a7]
    exact ⟨le_refl 0, hg, hnew.1, hnew, har⟩

/-- Along a run of TcpDsdcc that wraps no total, whatever `m_ackedBytesRtt` held at the
start: `alphaEcn` stays in `[0, 1]`, and `alpha` and `alphaRtt` stay not negative. -/
theorem run_fresh_dsdcc : ∀ (acks : List Ack) (s0 s : TcpDsdcc),
    s0.m_ackedBytesEcn ≤ s0.m_ackedBytesTotal →
    (0 ≤ s0.m_g ∧ s0.m_g ≤ 1) → 0 ≤ s0.m_alpha →
    (0 ≤ s0.m_alpha_ecn ∧ s0.m_alpha_ecn ≤ 1) → 0 ≤ s0.m_alpha_rtt →
    TcpDsdcc.noOverflow s0 acks = true → TcpDsdcc.run s0 acks = .ok s →
    s.m_ackedBytesEcn ≤ s.m_ackedBytesTotal ∧ 0 ≤ s.m_alpha ∧
      (0 ≤ s.m_alpha_ecn ∧ s.m_alpha_ecn ≤ 1) ∧ 0 ≤ s.m_alpha_rtt := by
  intro acks
  induction acks with
  | nil =>
    intro s0 s hle _ ha hae har _ hrun
    simp only [TcpDsdcc.run] at hrun
    cases hrun
    exact ⟨hle, ha, hae, har⟩
  | cons a rest ih =>
    intro s0 s hle hg ha hae har hno hrun
    simp only [TcpDsdcc.run] at hrun
    simp only [TcpDsdcc.noOverflow, Bool.and_eq_true, decide_eq_true_eq] at hno
    cases hp : TcpDsdcc.PktsAcked s0 a.tcb a.segmentsAcked a.rtt with
    | error e => rw [hp] at hrun; cases hrun
    | ok out =>
      rw [hp] at hrun
      have hno2 := hno.2
      rw [hp] at hno2
      obtain ⟨b1, b2, b3, b4, b5⟩ := step_fresh_dsdcc hp hno.1 hle hg ha hae har
      exact ih out.self s b1 b2 b3 b4 b5 hno2 hrun

/-- C2, as stated, fails.  In TcpDstcp, from the default instance (`alpha = 1`, `g = 1/16`,
both in `[0, 1]`, empty accumulators) one acknowledgment that is both ECN-marked and
delay-marked, without any counter overflow, closes the window through the `ear_sig` branch
and leaves `alpha = alphaEcn + alphaRtt = 2`.  It also fails when the 32-bit total wraps: the
two acknowledgments of `Example.acksWrap` take the default TcpDcvegas instance to
`alpha = 2147483663 / 16`.  And it fails in TcpDsdcc, whose default constructor does not
initialise `m_ackedBytesRtt`: built on the storage `Example.dsdccStorage`, which holds 5000
there, with alphas 1 and `g = 1/16`, the instance closes its first window on one
acknowledgment of 1000 bytes, without overflow, and is left with
`alphaRtt = alpha = 15/16 + 1/16 * (5000/1000) = 5/4`. -/
theorem C2_dstcp_alpha_reaches_two :
    (0 ≤ Example.dstcp.m_alpha ∧ Example.dstcp.m_alpha ≤ 1) ∧
    (0 ≤ Example.dstcp.m_g ∧ Example.dstcp.m_g ≤ 1) ∧
    TcpDstcp.noOverflow NqAvgDecl.double Example.dstcp
      [{ tcb := Example.tcbEce, segmentsAcked := 1, rtt := Example.rtt1ms }] = true ∧
    (TcpDstcp.run NqAvgDecl.double Example.dstcp
      [{ tcb := Example.tcbEce, segmentsAcked := 1, rtt := Example.rtt1ms }]).toOption.map
        (fun s => (s.m_alpha_ecn, s.m_alpha_rtt, s.m_alpha)) = some (1, 1, 2) ∧
    (TcpDstcp.run NqAvgDecl.int32 Example.dstcp
      [{ tcb := Example.tcbEce, segmentsAcked := 1, rtt := Example.rtt1ms }]).toOption.map
        (fun s => (s.m_alpha_ecn, s.m_alpha_rtt, s.m_alpha)) = some (1, 1, 2) ∧
    (0 ≤ Example.dcvegas.m_alpha ∧ Example.dcvegas.m_alpha ≤ 1) ∧
    (0 ≤ Example.dcvegas.m_g ∧ Example.dcvegas.m_g ≤ 1) ∧
    TcpDcvegas.noOverflow Example.dcvegas Example.acksWrap = false ∧
    (TcpDcvegas.run Example.dcvegas Example.acksWrap).toOption.map (fun s => s.m_alpha) =
      some (2147483663 / 16) ∧
    ((TcpDsdcc.construct Example.dsdccStorage).m_alpha,
      (TcpDsdcc.construct Example.dsdccStorage).m_alpha_ecn,
      (TcpDsdcc.construct Example.dsdccStorage).m_alpha_rtt,
      (TcpDsdcc.construct Example.dsdccStorage).m_g) = (1, 1, 1, 1 / 16) ∧
    ((TcpDsdcc.construct Example.dsdccStorage).m_ackedBytesEcn,
      (TcpDsdcc.construct Example.dsdccStorage).m_ackedBytesRtt,
      (TcpDsdcc.construct Example.dsdccStorage).m_ackedBytesTotal) = (0, 5000, 0) ∧
    TcpDsdcc.noOverflow (TcpDsdcc.construct Example.dsdccStorage)
      [{ tcb := Example.tcb, segmentsAcked := 1, rtt := Example.rttZero }] = true ∧
    (TcpDsdcc.run (TcpDsdcc.construct Example.dsdccStorage)
      [{ tcb := Example.tcb, segmentsAcked := 1, rtt := Example.rttZero }]).toOption.map
        (fun s => (s.m_alpha_ecn, s.m_alpha_rtt, s.m_alpha)) = some (1, 5 / 4, 5 / 4) := by
  refine ⟨⟨?_, ?_⟩, ⟨?_, ?_⟩, ?_, ?_, ?_, ⟨?_, ?_⟩, ⟨?_, ?_⟩, ?_, ?_, ?_, ?_, ?_, ?_⟩ <;>
    decide!

/-- C2, amended: take a fresh instance, the default constructor run on any storage `raw`,
whose gain `g` and alphas lie in `[0, 1]` (the constructors do not write them), and any
sequence of `PktsAcked` calls that returns and wraps no 32-bit byte total.  In the state it
leaves: in TcpDcvegas `alpha` is in `[0, 1]`; in TcpDstcp `alphaEcn` and `alphaRtt` are in
`[0, 1]` and `alpha` in `[0, 2]`; in TcpDsdcc `alphaEcn` is in `[0, 1]` and `alpha` and
`alphaRtt` are not negative, and they are at most 1 if the storage held 0 in
`m_ackedBytesRtt`, which the constructor of TcpDsdcc leaves as it finds it. -/
theorem C2_bounded_alpha :
    (∀ (raw s : TcpDcvegas) (acks : List Ack),
      0 ≤ raw.m_g → raw.m_g ≤ 1 → 0 ≤ raw.m_alpha → raw.m_alpha ≤ 1 →
      (TcpDcvegas.construct raw).noOverflow acks = true →
      (TcpDcvegas.construct raw).run acks = .ok s →
      0 ≤ s.m_alpha ∧ s.m_alpha ≤ 1) ∧
    (∀ (raw s : TcpDsdcc) (acks : List Ack),
      0 ≤ raw.m_g → raw.m_g ≤ 1 → 0 ≤ raw.m_alpha → raw.m_alpha ≤ 1 →
      0 ≤ raw.m_alpha_ecn → raw.m_alpha_ecn ≤ 1 → 0 ≤ raw.m_alpha_rtt → raw.m_alpha_rtt ≤ 1 →
      (TcpDsdcc.construct raw).noOverflow acks = true →
      (TcpDsdcc.construct raw).run acks = .ok s →
      (0 ≤ s.m_alpha_ecn ∧ s.m_alpha_ecn ≤ 1) ∧ 0 ≤ s.m_alpha ∧ 0 ≤ s.m_alpha_rtt ∧
        (raw.m_ackedBytesRtt = 0 → s.m_alpha ≤ 1 ∧ s.m_alpha_rtt ≤ 1)) ∧
    (∀ (ty : NqAvgDecl) (raw s : TcpDstcp) (acks : List Ack),
      0 ≤ raw.m_g → raw.m_g ≤ 1 → 0 ≤ raw.m_alpha → raw.m_alpha ≤ 1 →
      0 ≤ raw.m_alpha_ecn → raw.m_alpha_ecn ≤ 1 → 0 ≤ raw.m_alpha_rtt → raw.m_alpha_rtt ≤ 1 →
      (TcpDstcp.construct raw).noOverflow ty acks = true →
      (TcpDstcp.construct raw).run ty acks = .ok s →
      (0 ≤ s.m_alpha ∧ s.m_alpha ≤ 2) ∧ (0 ≤ s.m_alpha_ecn ∧ s.m_alpha_ecn ≤ 1) ∧
        (0 ≤ s.m_alpha_rtt ∧ s.m_alpha_rtt ≤ 1)) := by
  refine ⟨?_, ?_, ?_⟩
  · intro raw s acks hg0 hg1 ha0 ha1 hno hrun
    exact TcpDcvegas.run_bounds_dcvegas acks (TcpDcvegas.construct raw) s (le_refl 0)
      ⟨hg0, hg1⟩ ⟨ha0, ha1⟩ hno hrun
  · intro raw s acks hg0 hg1 ha0 ha1 he0 he1 hr0 hr1 hno hrun
    obtain ⟨-, f2, f3, f4⟩ := run_fresh_dsdcc acks (TcpDsdcc.construct raw) s (le_refl 0)
      ⟨hg0, hg1⟩ ha0 ⟨he0, he1⟩ hr0 hno hrun
    refine ⟨f3, f2, f4, ?_⟩
    intro hz
    have hle : (TcpDsdcc.construct raw).m_ackedBytesRtt ≤
        (TcpDsdcc.construct raw).m_ackedBytesTotal := by
      show raw.m_ackedBytesRtt ≤ 0
      rw [hz]
    obtain ⟨b1, -, b3⟩ := TcpDsdcc.run_bounds_dsdcc acks (TcpDsdcc.construct raw) s
      ⟨le_refl 0, hle⟩ ⟨hg0, hg1⟩ ⟨ha0, ha1⟩ ⟨he0, he1⟩ ⟨hr0, hr1⟩ hno hrun
    exact ⟨b1.2, b3.2⟩
  · intro ty raw s acks hg0 hg1 ha0 ha1 he0 he1 hr0 hr1 hno hrun
    have ha2 : raw.m_alpha ≤ 2 := by linarith
    exact TcpDstcp.run_bounds_dstcp ty acks (TcpDstcp.construct raw) s
      ⟨le_refl 0, le_refl 0⟩ ⟨hg0, hg1⟩ ⟨ha0, ha2⟩ ⟨he0, he1⟩ ⟨hr0, hr1⟩ hno hrun

/-- C2, amended, at fresh instances on storage with the attribute defaults: after the two
acknowledgments of `Example.acks` the alphas are within the bounds. -/
theorem C2_bounded_alpha_witness :
    (0 ≤ Example.dcvegasClosed.self.m_alpha ∧ Example.dcvegasClosed.self.m_alpha ≤ 1) ∧
    ((0 ≤ Example.dsdccClosed.self.m_alpha_ecn ∧ Example.dsdccClosed.self.m_alpha_ecn ≤ 1) ∧
      0 ≤ Example.dsdccClosed.self.m_alpha ∧ 0 ≤ Example.dsdccClosed.self.m_alpha_rtt ∧
      Example.dsdccClosed.self.m_alpha ≤ 1 ∧ Example.dsdccClosed.self.m_alpha_rtt ≤ 1) ∧
    ((0 ≤ Example.dstcpClosed.self.m_alpha ∧ Example.dstcpClosed.self.m_alpha ≤ 2) ∧
      (0 ≤ Example.dstcpClosed.self.m_alpha_ecn ∧ Example.dstcpClosed.self.m_alpha_ecn ≤ 1) ∧
      (0 ≤ Example.dstcpClosed.self.m_alpha_rtt ∧ Example.dstcpClosed.self.m_alpha_rtt ≤ 1)) :=
  have hd := C2_bounded_alpha.2.1 Example.dsdcc Example.dsdccClosed.self Example.acks
    (by decide!) (by decide!) (by decide!) (by decide!) (by decide!) (by decide!)
    (by decide!) (by decide!) (by decide!) (ok_of_toOption (by decide!))
  ⟨C2_bounded_alpha.1 Example.dcvegas Example.dcvegasClosed.self Example.acks
      (by decide!) (by decide!) (by decide!) (by decide!) (by decide!)
      (ok_of_toOption (by decide!)),
    ⟨hd.1, hd.2.1, hd.2.2.1, hd.2.2.2 rfl⟩,
    C2_bounded_alpha.2.2 NqAvgDecl.double Example.dstcp Example.dstcpClosed.self Example.acks
      (by decide!) (by decide!) (by decide!) (by decide!) (by decide!) (by decide!)
      (by decide!) (by decide!) (by decide!) (ok_of_toOption (by decide!))⟩

/-! ## C3: the threshold floor -/

/-- C3, as stated, fails: on the default TcpDcvegas instance with a window of 7 segments of
1000 bytes, one delay-marked acknowledgment closes the window with the delay signal set and
reduces `cwnd` and `ssthresh` to 3500; `GetSsThresh` on the resulting instance and control
block returns 1750, below `2 * segmentSize = 2000`. -/
theorem C3_GetSsThresh_below_floor :
    TcpDcvegas.account Example.dcvegas Example.tcb 1 Example.rtt1ms =
      .ok Example.dcvegasAccounted ∧
    Example.dcvegasAccounted.m_signal = TcpDcvegas.Signal.rtt_sig ∧
    (TcpDcvegas.PktsAcked Example.dcvegas Example.tcb 1 Example.rtt1ms).toOption.map
      (fun out => (out.trace.length, out.tcb.m_cWnd, out.tcb.m_ssThresh,
        (TcpDcvegas.GetSsThresh out.self out.tcb 0).1, 2 * out.tcb.m_segmentSize)) =
      some (1, 3500, 3500, 1750, 2000) := by
  refine ⟨?_, rfl, ?_⟩
  · exact ok_of_toOption (by decide!)
  · decide!

/-- C3, amended: in TcpDcvegas, a `PktsAcked` call that closes a window in which the delay
signal is set returns with `ssthresh` (and `cwnd`, equal to it) not below `2 * segmentSize`,
when that product does not wrap at 32 bits. -/
theorem C3_ssthresh_floor (self s1 : TcpDcvegas) (tcb : TcpSocketState) (n : Nat) (rtt : Time)
    (hacc : TcpDcvegas.account self tcb n rtt = .ok s1)
    (hsig : s1.m_signal = TcpDcvegas.Signal.rtt_sig)
    (hclose : SequenceNumber32.ge tcb.m_lastAckedSeq (TcpDcvegas.latch s1 tcb).m_nextSeq = true)
    (hseg : 2 * tcb.m_segmentSize < 2 ^ 32) :
    ∃ out, TcpDcvegas.PktsAcked self tcb n rtt = .ok out ∧
      2 * out.tcb.m_segmentSize ≤ out.tcb.m_ssThresh ∧ out.tcb.m_cWnd = out.tcb.m_ssThresh := by
  refine ⟨TcpDcvegas.expire (TcpDcvegas.latch s1 tcb) tcb, ?_, ?_, ?_⟩
  · rw [TcpDcvegas.PktsAcked_eq_dcvegas hacc, if_pos hclose]
  · have hs : (TcpDcvegas.latch s1 tcb).m_signal = TcpDcvegas.Signal.rtt_sig := by
      rw [(TcpDcvegas.latch_fields_dcvegas s1 tcb).2.2.2.2.1]
      exact hsig
    simp only [TcpDcvegas.expire, TcpDcvegas.Reset, hs, if_true, wrapU32,
      Nat.mod_eq_of_lt hseg]
    exact le_max_right _ _
  · have hs : (TcpDcvegas.latch s1 tcb).m_signal = TcpDcvegas.Signal.rtt_sig := by
      rw [(TcpDcvegas.latch_fields_dcvegas s1 tcb).2.2.2.2.1]
      exact hsig
    simp only [TcpDcvegas.expire, TcpDcvegas.Reset, hs, if_true]

/-- C3, amended, at the call of the counterexample: `ssthresh = cwnd = 3500`, not below 2000. -/
theorem C3_ssthresh_floor_witness :
    ∃ out, TcpDcvegas.PktsAcked Example.dcvegas Example.tcb 1 Example.rtt1ms = .ok out ∧
      2 * out.tcb.m_segmentSize ≤ out.tcb.m_ssThresh ∧ out.tcb.m_cWnd = out.tcb.m_ssThresh :=
  C3_ssthresh_floor Example.dcvegas Example.dcvegasAccounted Example.tcb 1 Example.rtt1ms
    (ok_of_toOption (by decide!)) rfl (by decide!) (by decide!)

/-! ## C4 -/

/-- C4: a `PktsAcked` call of TcpDcvegas whose accounting gives the instance `s1` and that finds
`m_lastAckedSeq >= m_nextSeq` returns, with `alpha = (1 - g) * alpha + g * fracRtt`, where
`fracRtt` is `m_ackedBytesRtt / m_ackedBytesTotal` of the window and is 0 when the total is 0.
If the delay signal is set, `ssthresh` is the larger of `(1 - alpha_new / 2) * cwnd` converted
to `uint32_t` and the 32-bit product `2 * segmentSize` (which is `2 * segmentSize` unless it
wraps), and `cwnd = ssthresh`; otherwise the control block is unchanged. -/
theorem C4_dcvegas_window_close (self s1 : TcpDcvegas) (tcb : TcpSocketState) (n : Nat)
    (rtt : Time) (hacc : TcpDcvegas.account self tcb n rtt = .ok s1)
    (hclose : SequenceNumber32.ge tcb.m_lastAckedSeq (TcpDcvegas.latch s1 tcb).m_nextSeq = true) :
    ∃ out, TcpDcvegas.PktsAcked self tcb n rtt = .ok out ∧
      out.self.m_alpha = (1 - self.m_g) * self.m_alpha + self.m_g *
        (if s1.m_ackedBytesTotal = 0 then 0
          else (s1.m_ackedBytesRtt : ℚ) / (s1.m_ackedBytesTotal : ℚ)) ∧
      (s1.m_signal = TcpDcvegas.Signal.rtt_sig →
        out.tcb.m_ssThresh = max (castU32 ((1 - out.self.m_alpha / 2) * (tcb.m_cWnd : ℚ)))
          (wrapU32 (2 * tcb.m_segmentSize)) ∧
        (2 * tcb.m_segmentSize < 2 ^ 32 →
          out.tcb.m_ssThresh = max (castU32 ((1 - out.self.m_alpha / 2) * (tcb.m_cWnd : ℚ)))
            (2 * tcb.m_segmentSize)) ∧
        out.tcb.m_cWnd = out.tcb.m_ssThresh) ∧
      (s1.m_signal ≠ TcpDcvegas.Signal.rtt_sig → out.tcb = tcb) := by
  refine ⟨TcpDcvegas.expire (TcpDcvegas.latch s1 tcb) tcb, ?_, ?_, ?_, ?_⟩
  · rw [TcpDcvegas.PktsAcked_eq_dcvegas hacc, if_pos hclose]
  · obtain ⟨-, -, ha, hg, -⟩ := TcpDcvegas.account_spec_dcvegas hacc
    obtain ⟨hr, ht, hla, hlg, -⟩ := TcpDcvegas.latch_fields_dcvegas s1 tcb
    simp only [TcpDcvegas.expire, TcpDcvegas.Reset, TcpDcvegas.bytesRtt]
    rw [hr, ht, hla, hlg, ha, hg]
    by_cases h0 : s1.m_ackedBytesTotal = 0
    · simp [h0]
    · have hpos : s1.m_ackedBytesTotal > 0 := Nat.pos_of_ne_zero h0
      simp [h0, hpos]
  · intro hsig
    have hs : (TcpDcvegas.latch s1 tcb).m_signal = TcpDcvegas.Signal.rtt_sig := by
      rw [(TcpDcvegas.latch_fields_dcvegas s1 tcb).2.2.2.2.1]
      exact hsig
    simp only [TcpDcvegas.expire, TcpDcvegas.Reset, hs, if_true]
    refine ⟨trivial, ?_, trivial⟩
    intro hw
    simp only [wrapU32, Nat.mod_eq_of_lt hw]
  · intro hsig
    have hs : (TcpDcvegas.latch s1 tcb).m_signal ≠ TcpDcvegas.Signal.rtt_sig := by
      rw [(TcpDcvegas.latch_fields_dcvegas s1 tcb).2.2.2.2.1]
      exact hsig
    simp only [TcpDcvegas.expire, TcpDcvegas.Reset, hs, if_false]

/-- C4 at the default instance with a window of 7000 bytes and one delay-marked segment:
`alpha` stays 1 and `ssthresh = cwnd = 3500`. -/
theorem C4_dcvegas_window_close_witness :
    ∃ out, TcpDcvegas.PktsAcked Example.dcvegas Example.tcb 1 Example.rtt1ms = .ok out ∧
      out.self.m_alpha = 1 ∧ out.tcb.m_ssThresh = 3500 ∧ out.tcb.m_cWnd = 3500 := by
  obtain ⟨out, h1, h2, h3, -⟩ :=
    C4_dcvegas_window_close Example.dcvegas Example.dcvegasAccounted Example.tcb 1
      Example.rtt1ms (ok_of_toOption (by decide!)) (by decide!)
  obtain ⟨h4, -, h5⟩ := h3 rfl
  have ha : out.self.m_alpha = 1 := by
    rw [h2]
    decide!
  have hs : out.tcb.m_ssThresh = 3500 := by
    rw [h4, ha]
    decide!
  exact ⟨out, h1, ha, hs, by rw [h5, hs]⟩

/-! ## C5: the accumulator invariant -/

/-- In every state reached from an instance with empty accumulators by any sequence of
`PktsAcked` calls none of which wraps the 32-bit byte total, the marked-byte counters do not
exceed the total: `m_ackedBytesRtt ≤ m_ackedBytesTotal` in the three classes and
`m_ackedBytesEcn ≤ m_ackedBytesTotal` in TcpDsdcc and TcpDstcp (TcpDcvegas has no ECN
counter). -/
theorem accumulator_invariant_of_empty :
    (∀ (s0 s : TcpDcvegas) (acks : List Ack),
      s0.m_ackedBytesRtt = 0 → s0.m_ackedBytesTotal = 0 →
      s0.noOverflow acks = true → s0.run acks = .ok s →
      s.m_ackedBytesRtt ≤ s.m_ackedBytesTotal) ∧
    (∀ (s0 s : TcpDsdcc) (acks : List Ack),
      s0.m_ackedBytesEcn = 0 → s0.m_ackedBytesRtt = 0 → s0.m_ackedBytesTotal = 0 →
      s0.noOverflow acks = true → s0.run acks = .ok s →
      s.m_ackedBytesEcn ≤ s.m_ackedBytesTotal ∧ s.m_ackedBytesRtt ≤ s.m_ackedBytesTotal) ∧
    (∀ (ty : NqAvgDecl) (s0 s : TcpDstcp) (acks : List Ack),
      s0.m_ackedBytesEcn = 0 → s0.m_ackedBytesRtt = 0 → s0.m_ackedBytesTotal = 0 →
      s0.noOverflow ty acks = true → s0.run ty acks = .ok s →
      s.m_ackedBytesEcn ≤ s.m_ackedBytesTotal ∧ s.m_ackedBytesRtt ≤ s.m_ackedBytesTotal) := by
  refine ⟨?_, ?_, ?_⟩
  · intro s0 s acks hr ht hno hrun
    exact TcpDcvegas.run_acc_dcvegas acks s0 s (by rw [hr, ht]) hno hrun
  · intro s0 s acks he hr ht hno hrun
    exact TcpDsdcc.run_acc_dsdcc acks s0 s ⟨by rw [he, ht], by rw [hr, ht]⟩ hno hrun
  · intro ty s0 s acks he hr ht hno hrun
    exact TcpDstcp.run_acc_dstcp ty acks s0 s ⟨by rw [he, ht], by rw [hr, ht]⟩ hno hrun

/-- The invariant from fresh instances, the default constructor run on any storage: it holds
in TcpDcvegas and TcpDstcp, whose constructors set every accumulator to 0; in TcpDsdcc the
ECN counter does not exceed the total, and the delay counter does not if the storage held 0
in `m_ackedBytesRtt`. -/
theorem accumulator_invariant_fresh :
    (∀ (raw s : TcpDcvegas) (acks : List Ack),
      (TcpDcvegas.construct raw).noOverflow acks = true →
      (TcpDcvegas.construct raw).run acks = .ok s →
      s.m_ackedBytesRtt ≤ s.m_ackedBytesTotal) ∧
    (∀ (raw s : TcpDsdcc) (acks : List Ack),
      (TcpDsdcc.construct raw).noOverflow acks = true →
      (TcpDsdcc.construct raw).run acks = .ok s →
      s.m_ackedBytesEcn ≤ s.m_ackedBytesTotal ∧
        (raw.m_ackedBytesRtt = 0 → s.m_ackedBytesRtt ≤ s.m_ackedBytesTotal)) ∧
    (∀ (ty : NqAvgDecl) (raw s : TcpDstcp) (acks : List Ack),
      (TcpDstcp.construct raw).noOverflow ty acks = true →
      (TcpDstcp.construct raw).run ty acks = .ok s →
      s.m_ackedBytesEcn ≤ s.m_ackedBytesTotal ∧ s.m_ackedBytesRtt ≤ s.m_ackedBytesTotal) := by
  refine ⟨?_, ?_, ?_⟩
  · intro raw s acks hno hrun
    exact TcpDcvegas.run_acc_dcvegas acks (TcpDcvegas.construct raw) s (le_refl 0) hno hrun
  · intro raw s acks hno hrun
    constructor
    · have key : ∀ (l : List Ack) (s0 s : TcpDsdcc),
          s0.m_ackedBytesEcn ≤ s0.m_ackedBytesTotal →
          TcpDsdcc.noOverflow s0 l = true → TcpDsdcc.run s0 l = .ok s →
          s.m_ackedBytesEcn ≤ s.m_ackedBytesTotal := by
        intro l
        induction l with
        | nil =>
          intro s0 s hle _ hr
          simp only [TcpDsdcc.run] at hr
          cases hr
          exact hle
        | cons a rest ih =>
          intro s0 s hle hn hr
          simp only [TcpDsdcc.run] at hr
          simp only [TcpDsdcc.noOverflow, Bool.and_eq_true, decide_eq_true_eq] at hn
          cases hp : TcpDsdcc.PktsAcked s0 a.tcb a.segmentsAcked a.rtt with
          | error e => rw [hp] at hr; cases hr
          | ok out =>
            rw [hp] at hr
            have hn2 := hn.2
            rw [hp] at hn2
            obtain ⟨s1, hacc, hc⟩ := TcpDsdcc.outcome_cases_dsdcc hp
            obtain ⟨a1, -, a3, -⟩ := TcpDsdcc.account_spec_dsdcc hacc
            have hs1 : s1.m_ackedBytesEcn ≤ s1.m_ackedBytesTotal := by
              rw [a1]
              exact counter_step hle hn.1 a3
            obtain ⟨-, l2, l3, -⟩ := TcpDsdcc.latch_fields_dsdcc s1 a.tcb
            have hout : out.self.m_ackedBytesEcn ≤ out.self.m_ackedBytesTotal := by
              rcases hc with ⟨ho, -⟩ | ⟨-, ⟨-, ho⟩ | ⟨-, ho⟩⟩
              · rw [ho]
                simp only
                rw [l2, l3]
                exact hs1
              · obtain ⟨-, -, -, -, e5, -, e7, -⟩ :=
                  TcpDsdcc.expireElephant_fields_dsdcc (TcpDsdcc.latch s1 a.tcb) a.tcb
                rw [ho, e5, e7]
              · obtain ⟨-, -, -, -, e5, -, e7, -⟩ :=
                  TcpDsdcc.expireMouse_fields_dsdcc (TcpDsdcc.latch s1 a.tcb) a.tcb
                rw [ho, e5, e7]
            exact ih out.self s hout hn2 hr
      exact key acks (TcpDsdcc.construct raw) s (le_refl 0) hno hrun
    · intro hz
      have hle : (TcpDsdcc.construct raw).m_ackedBytesRtt ≤
          (TcpDsdcc.construct raw).m_ackedBytesTotal := by
        show raw.m_ackedBytesRtt ≤ 0
        rw [hz]
      exact (TcpDsdcc.run_acc_dsdcc acks (TcpDsdcc.construct raw) s ⟨le_refl 0, hle⟩ hno
        hrun).2
  · intro ty raw s acks hno hrun
    exact TcpDstcp.run_acc_dstcp ty acks (TcpDstcp.construct raw) s ⟨le_refl 0, le_refl 0⟩
      hno hrun

/-- The invariant at the default instances in the middle of a window: after the ECN-marked
and delay-marked first acknowledgment of `Example.acksEce` the counters are 1000 out of
1000. -/
theorem accumulator_invariant_of_empty_example :
    Example.dcvegasMarked.m_ackedBytesRtt ≤ Example.dcvegasMarked.m_ackedBytesTotal ∧
    (Example.dsdccMarked.m_ackedBytesEcn ≤ Example.dsdccMarked.m_ackedBytesTotal ∧
      Example.dsdccMarked.m_ackedBytesRtt ≤ Example.dsdccMarked.m_ackedBytesTotal) ∧
    (Example.dstcpMarked.m_ackedBytesEcn ≤ Example.dstcpMarked.m_ackedBytesTotal ∧
      Example.dstcpMarked.m_ackedBytesRtt ≤ Example.dstcpMarked.m_ackedBytesTotal) :=
  ⟨accumulator_invariant_of_empty.1 Example.dcvegas Example.dcvegasMarked
      (Example.acksEce.take 1) rfl rfl (by decide!) (ok_of_toOption (by decide!)),
    accumulator_invariant_of_empty.2.1 Example.dsdcc Example.dsdccMarked
      (Example.acksEce.take 1) rfl rfl rfl (by decide!) (ok_of_toOption (by decide!)),
    accumulator_invariant_of_empty.2.2 NqAvgDecl.double Example.dstcp Example.dstcpMarked
      (Example.acksEce.take 1) rfl rfl rfl (by decide!) (ok_of_toOption (by decide!))⟩

/-- C5 fails in TcpDsdcc: its default constructor sets `m_ackedBytesEcn` and
`m_ackedBytesTotal` to 0 and does not name `m_ackedBytesRtt`, which keeps what the storage
held; the constructors of TcpDcvegas and TcpDstcp set it to 0.  A fresh TcpDsdcc built on the
storage `Example.dsdccStorage`, which holds 5000 there, starts with the delay counter above
the total, and after one acknowledgment of 1000 bytes without RTT sample, with data in
flight and no counter overflow, it has `m_ackedBytesRtt = 5000` against
`m_ackedBytesTotal = 1000`.  Had the acknowledgment closed the window (control block
`Example.tcb`), the call would have left `alphaRtt = 5/4` and, the storage holding
`rtt_sig` in `m_signal`, which the constructor does not name either, cut the window from
7000 to 2625 bytes. -/
theorem C5_fresh_dsdcc_delay_counter_above_total :
    (∀ raw : TcpDsdcc, (TcpDsdcc.construct raw).m_ackedBytesRtt = raw.m_ackedBytesRtt ∧
      (TcpDsdcc.construct raw).m_signal = raw.m_signal ∧
      (TcpDsdcc.construct raw).m_ackedBytesEcn = 0 ∧
      (TcpDsdcc.construct raw).m_ackedBytesTotal = 0) ∧
    (∀ raw : TcpDcvegas, (TcpDcvegas.construct raw).m_ackedBytesRtt = 0) ∧
    (∀ raw : TcpDstcp, (TcpDstcp.construct raw).m_ackedBytesRtt = 0) ∧
    ((TcpDsdcc.construct Example.dsdccStorage).m_ackedBytesRtt,
      (TcpDsdcc.construct Example.dsdccStorage).m_ackedBytesTotal) = (5000, 0) ∧
    TcpDsdcc.noOverflow (TcpDsdcc.construct Example.dsdccStorage)
      [{ tcb := Example.tcbInFlight, segmentsAcked := 1, rtt := Example.rttZero }] = true ∧
    (TcpDsdcc.run (TcpDsdcc.construct Example.dsdccStorage)
      [{ tcb := Example.tcbInFlight, segmentsAcked := 1, rtt := Example.rttZero }]).toOption.map
        (fun s => (s.m_ackedBytesEcn, s.m_ackedBytesRtt, s.m_ackedBytesTotal,
          decide (s.m_ackedBytesRtt ≤ s.m_ackedBytesTotal))) = some (0, 5000, 1000, false) ∧
    (TcpDsdcc.PktsAcked (TcpDsdcc.construct Example.dsdccStorage) Example.tcb 1
      Example.rttZero).toOption.map
        (fun out => (out.trace, out.self.m_alpha_rtt, out.tcb.m_cWnd)) =
      some ([(5000, 1000, 5 / 4)], 5 / 4, 2625) := by
  refine ⟨fun _ => ⟨rfl, rfl, rfl, rfl⟩, fun _ => rfl, fun _ => rfl, ?_, ?_, ?_, ?_⟩ <;>
    decide!

/-! ## C6: the reset at window close -/

/-- C6: in the three classes, a `PktsAcked` call that closes a window (it returns having fired
the trace event of the window-close block; its accounting succeeded and it found
`m_lastAckedSeq >= m_nextSeq`, on a classified flow in TcpDsdcc) leaves every byte
accumulator at 0, the signal at `non_sig`, `m_nextSeq` equal to the control block's
`m_nextTxSequence`, and in TcpDstcp `m_nq_avg = -1`. -/
theorem C6_window_close_reset :
    (∀ (self : TcpDcvegas) (tcb : TcpSocketState) (n : Nat) (rtt : Time)
      (out : Outcome TcpDcvegas),
      TcpDcvegas.PktsAcked self tcb n rtt = .ok out → out.trace ≠ [] →
      (∃ s1, TcpDcvegas.account self tcb n rtt = .ok s1 ∧
        SequenceNumber32.ge tcb.m_lastAckedSeq (TcpDcvegas.latch s1 tcb).m_nextSeq = true) ∧
      out.self.m_ackedBytesRtt = 0 ∧ out.self.m_ackedBytesTotal = 0 ∧
      out.self.m_signal = TcpDcvegas.Signal.non_sig ∧
      out.self.m_nextSeq = out.tcb.m_nextTxSequence ∧
      out.tcb.m_nextTxSequence = tcb.m_nextTxSequence) ∧
    (∀ (self : TcpDsdcc) (tcb : TcpSocketState) (n : Nat) (rtt : Time)
      (out : Outcome TcpDsdcc),
      TcpDsdcc.PktsAcked self tcb n rtt = .ok out → out.trace ≠ [] →
      (∃ s1, TcpDsdcc.account self tcb n rtt = .ok s1 ∧
        SequenceNumber32.ge tcb.m_lastAckedSeq (TcpDsdcc.latch s1 tcb).m_nextSeq = true ∧
        tcb.m_flowMode ≠ FlowMode_t.Unclassified) ∧
      out.self.m_ackedBytesEcn = 0 ∧ out.self.m_ackedBytesRtt = 0 ∧
      out.self.m_ackedBytesTotal = 0 ∧ out.self.m_signal = TcpDsdcc.Signal.non_sig ∧
      out.self.m_nextSeq = out.tcb.m_nextTxSequence ∧
      out.tcb.m_nextTxSequence = tcb.m_nextTxSequence) ∧
    (∀ (ty : NqAvgDecl) (self : TcpDstcp) (tcb : TcpSocketState) (n : Nat) (rtt : Time)
      (out : Outcome TcpDstcp),
      TcpDstcp.PktsAcked ty self tcb n rtt = .ok out → out.trace ≠ [] →
      (∃ s1, TcpDstcp.account ty self tcb n rtt = .ok s1 ∧
        SequenceNumber32.ge tcb.m_lastAckedSeq (TcpDstcp.latch s1 tcb).m_nextSeq = true) ∧
      out.self.m_ackedBytesEcn = 0 ∧ out.self.m_ackedBytesRtt = 0 ∧
      out.self.m_ackedBytesTotal = 0 ∧ out.self.m_signal = TcpDstcp.Signal.non_sig ∧
      out.self.m_nextSeq = out.tcb.m_nextTxSequence ∧
      out.tcb.m_nextTxSequence = tcb.m_nextTxSequence ∧
      out.self.m_nq_avg = -1) := by
  refine ⟨?_, ?_, ?_⟩
  · intro self tcb n rtt out h ht
    obtain ⟨s1, hacc, hge, ho⟩ := TcpDcvegas.closed_of_trace_dcvegas h ht
    obtain ⟨-, -, e3, e4, e5, e6, e7, -⟩ :=
      TcpDcvegas.expire_fields_dcvegas (TcpDcvegas.latch s1 tcb) tcb
    rw [ho]
    exact ⟨⟨s1, hacc, hge⟩, e3, e4, e5, e6, e7⟩
  · intro self tcb n rtt out h ht
    obtain ⟨s1, hacc, hge, ⟨hf, ho⟩ | ⟨hf, ho⟩⟩ := TcpDsdcc.closed_of_trace_dsdcc h ht
    · obtain ⟨-, -, -, -, e5, e6, e7, e8, e9, e10, -⟩ :=
        TcpDsdcc.expireElephant_fields_dsdcc (TcpDsdcc.latch s1 tcb) tcb
      rw [ho]
      exact ⟨⟨s1, hacc, hge, by rw [hf]; decide⟩, e5, e6, e7, e8, e9, e10⟩
    · obtain ⟨-, -, -, -, e5, e6, e7, e8, e9, e10, -⟩ :=
        TcpDsdcc.expireMouse_fields_dsdcc (TcpDsdcc.latch s1 tcb) tcb
      rw [ho]
      exact ⟨⟨s1, hacc, hge, by rw [hf]; decide⟩, e5, e6, e7, e8, e9, by rw [e10]⟩
  · intro ty self tcb n rtt out h ht
    obtain ⟨s1, hacc, hge, s2, -, ho⟩ := TcpDstcp.closed_of_trace_dstcp h ht
    obtain ⟨-, -, -, -, e5, e6, e7, e8, e9, e10, e11, -⟩ := TcpDstcp.react_fields_dstcp s2 tcb
    rw [ho]
    exact ⟨⟨s1, hacc, hge⟩, e5, e6, e7, e8, e10, e11, e9⟩

/-- C6 at the three instances `dcvegasMidWindow`, `dsdccMidWindow`, `dstcpMidWindow`, whose
window ends at 100, and an acknowledgment up to 200 with 300 sent: the accumulators are 0,
the signal is `non_sig`, the new boundary is 300 and `m_nq_avg = -1`. -/
theorem C6_window_close_reset_witness :
    (Example.dcvegasClosed.self.m_ackedBytesRtt = 0 ∧
      Example.dcvegasClosed.self.m_ackedBytesTotal = 0 ∧
      Example.dcvegasClosed.self.m_signal = TcpDcvegas.Signal.non_sig ∧
      Example.dcvegasClosed.self.m_nextSeq = Example.dcvegasClosed.tcb.m_nextTxSequence ∧
      Example.dcvegasClosed.tcb.m_nextTxSequence = Example.tcbLater.m_nextTxSequence) ∧
    (Example.dsdccClosed.self.m_ackedBytesEcn = 0 ∧
      Example.dsdccClosed.self.m_ackedBytesRtt = 0 ∧
      Example.dsdccClosed.self.m_ackedBytesTotal = 0 ∧
      Example.dsdccClosed.self.m_signal = TcpDsdcc.Signal.non_sig ∧
      Example.dsdccClosed.self.m_nextSeq = Example.dsdccClosed.tcb.m_nextTxSequence ∧
      Example.dsdccClosed.tcb.m_nextTxSequence = Example.tcbLater.m_nextTxSequence) ∧
    (Example.dstcpClosed.self.m_ackedBytesEcn = 0 ∧
      Example.dstcpClosed.self.m_ackedBytesRtt = 0 ∧
      Example.dstcpClosed.self.m_ackedBytesTotal = 0 ∧
      Example.dstcpClosed.self.m_signal = TcpDstcp.Signal.non_sig ∧
      Example.dstcpClosed.self.m_nextSeq = Example.dstcpClosed.tcb.m_nextTxSequence ∧
      Example.dstcpClosed.tcb.m_nextTxSequence = Example.tcbLater.m_nextTxSequence ∧
      Example.dstcpClosed.self.m_nq_avg = -1) :=
  ⟨(C6_window_close_reset.1 Example.dcvegasMidWindow Example.tcbLater 1 Example.rttZero
      Example.dcvegasClosed (ok_of_toOption (by decide!)) (by decide)).2,
    (C6_window_close_reset.2.1 Example.dsdccMidWindow Example.tcbLater 1 Example.rttZero
      Example.dsdccClosed (ok_of_toOption (by decide!)) (by decide)).2,
    (C6_window_close_reset.2.2 NqAvgDecl.double Example.dstcpMidWindow Example.tcbLater 1
      Example.rttZero Example.dstcpClosed (ok_of_toOption (by decide!)) (by decide)).2⟩

/-! ## C7: a second evaluation after a window close -/

/-- C7, as stated, fails: with every byte sent acknowledged (`m_lastAckedSeq = m_nextTxSequence
= 100`) a first call closes the window (TcpDcvegas: `alpha = 15/16`; TcpDstcp: `alphaRtt =
15/16`, round counter 1), and a second call on the resulting instance and control block with
`segmentsAcked = 0` and a zero RTT sample closes a window again: `alpha` becomes `225/256` in
TcpDcvegas, and in TcpDstcp `alphaRtt` becomes `225/256` and the round counter 2. -/
theorem C7_second_evaluation_refires :
    (TcpDcvegas.PktsAcked Example.dcvegas Example.tcb 1 Example.rttZero).toOption.map
      (fun out => (out.trace.length, out.self.m_alpha)) = some (1, 15 / 16) ∧
    ((TcpDcvegas.PktsAcked Example.dcvegas Example.tcb 1 Example.rttZero).bind
      (fun out => TcpDcvegas.PktsAcked out.self out.tcb 0 Example.rttZero)).toOption.map
      (fun out => (out.trace.length, out.self.m_alpha)) = some (1, 225 / 256) ∧
    (TcpDstcp.PktsAcked NqAvgDecl.double Example.dstcp Example.tcb 1
      Example.rttZero).toOption.map
      (fun out => (out.trace.length, out.self.m_alpha_rtt, out.self.m_round)) =
      some (1, 15 / 16, 1) ∧
    ((TcpDstcp.PktsAcked NqAvgDecl.double Example.dstcp Example.tcb 1 Example.rttZero).bind
      (fun out => TcpDstcp.PktsAcked NqAvgDecl.double out.self out.tcb 0
        Example.rttZero)).toOption.map
      (fun out => (out.trace.length, out.self.m_alpha_rtt, out.self.m_round)) =
      some (1, 225 / 256, 2) := by
  refine ⟨?_, ?_, ?_, ?_⟩ <;> decide!

/-- C7, amended: in the three classes, after a `PktsAcked` call that closed a window and left a
control block with data still in flight (`m_lastAckedSeq >= m_nextTxSequence` is false), a
second call on the same control block with `segmentsAcked = 0` and a zero RTT sample returns
without closing a window: no trace event, the control block (`cwnd`, `ssthresh`) unchanged,
and `alpha`, `alphaEcn`, `alphaRtt` and the round counter unchanged (in TcpDcvegas and
TcpDsdcc the whole instance is unchanged). -/
theorem C7_no_refire_with_data_in_flight :
    (∀ (self : TcpDcvegas) (tcb : TcpSocketState) (n : Nat) (rtt : Time)
      (out1 : Outcome TcpDcvegas),
      TcpDcvegas.PktsAcked self tcb n rtt = .ok out1 → out1.trace ≠ [] →
      SequenceNumber32.ge out1.tcb.m_lastAckedSeq out1.tcb.m_nextTxSequence = false →
      ∃ out2, TcpDcvegas.PktsAcked out1.self out1.tcb 0 (Time.mk 0) = .ok out2 ∧
        out2.trace = [] ∧ out2.tcb = out1.tcb ∧ out2.self = out1.self) ∧
    (∀ (self : TcpDsdcc) (tcb : TcpSocketState) (n : Nat) (rtt : Time)
      (out1 : Outcome TcpDsdcc),
      TcpDsdcc.PktsAcked self tcb n rtt = .ok out1 → out1.trace ≠ [] →
      SequenceNumber32.ge out1.tcb.m_lastAckedSeq out1.tcb.m_nextTxSequence = false →
      ∃ out2, TcpDsdcc.PktsAcked out1.self out1.tcb 0 (Time.mk 0) = .ok out2 ∧
        out2.trace = [] ∧ out2.tcb = out1.tcb ∧ out2.self = out1.self) ∧
    (∀ (ty : NqAvgDecl) (self : TcpDstcp) (tcb : TcpSocketState) (n : Nat) (rtt : Time)
      (out1 : Outcome TcpDstcp),
      TcpDstcp.PktsAcked ty self tcb n rtt = .ok out1 → out1.trace ≠ [] →
      SequenceNumber32.ge out1.tcb.m_lastAckedSeq out1.tcb.m_nextTxSequence = false →
      ∃ out2, TcpDstcp.PktsAcked ty out1.self out1.tcb 0 (Time.mk 0) = .ok out2 ∧
        out2.trace = [] ∧ out2.tcb = out1.tcb ∧
        out2.self.m_alpha = out1.self.m_alpha ∧
        out2.self.m_alpha_ecn = out1.self.m_alpha_ecn ∧
        out2.self.m_alpha_rtt = out1.self.m_alpha_rtt ∧
        out2.self.m_round = out1.self.m_round) := by
  refine ⟨?_, ?_, ?_⟩
  · intro self tcb n rtt out1 h ht hge
    obtain ⟨s1, -, -, ho⟩ := TcpDcvegas.closed_of_trace_dcvegas h ht
    obtain ⟨-, -, -, e4, -, e6, -, -, e9, -⟩ :=
      TcpDcvegas.expire_fields_dcvegas (TcpDcvegas.latch s1 tcb) tcb
    rw [← ho] at e4 e6 e9
    have hflag : out1.self.m_nextSeqFlag = true := by
      rw [e9]
      exact (TcpDcvegas.latch_fields_dcvegas s1 tcb).2.2.2.2.2.2.1
    have hl : TcpDcvegas.latch out1.self out1.tcb = out1.self :=
      (TcpDcvegas.latch_fields_dcvegas out1.self out1.tcb).2.2.2.2.2.2.2 hflag
    refine ⟨{ self := out1.self, tcb := out1.tcb, trace := [] }, ?_, rfl, rfl, rfl⟩
    rw [TcpDcvegas.PktsAcked_eq_dcvegas (TcpDcvegas.account_idle_dcvegas out1.tcb e4), hl, e6, hge]
    rfl
  · intro self tcb n rtt out1 h ht hge
    have hfacts : out1.self.m_ackedBytesEcn = 0 ∧ out1.self.m_ackedBytesTotal = 0 ∧
        out1.self.m_nextSeq = out1.tcb.m_nextTxSequence ∧
        out1.self.m_nextSeqFlag = true := by
      obtain ⟨s1, -, -, ⟨-, ho⟩ | ⟨-, ho⟩⟩ := TcpDsdcc.closed_of_trace_dsdcc h ht
      · obtain ⟨-, -, -, -, e5, -, e7, -, e9, -, -, -, -, e14⟩ :=
          TcpDsdcc.expireElephant_fields_dsdcc (TcpDsdcc.latch s1 tcb) tcb
        rw [ho]
        exact ⟨e5, e7, e9, by rw [e14]; exact (TcpDsdcc.latch_fields_dsdcc s1 tcb).2.2.2.2.2.2.2.2.1⟩
      · obtain ⟨-, -, -, -, e5, -, e7, -, e9, -, e11⟩ :=
          TcpDsdcc.expireMouse_fields_dsdcc (TcpDsdcc.latch s1 tcb) tcb
        rw [ho]
        exact ⟨e5, e7, e9, by rw [e11]; exact (TcpDsdcc.latch_fields_dsdcc s1 tcb).2.2.2.2.2.2.2.2.1⟩
    obtain ⟨he, h0, hn, hflag⟩ := hfacts
    have hl : TcpDsdcc.latch out1.self out1.tcb = out1.self :=
      (TcpDsdcc.latch_fields_dsdcc out1.self out1.tcb).2.2.2.2.2.2.2.2.2 hflag
    refine ⟨{ self := out1.self, tcb := out1.tcb, trace := [] }, ?_, rfl, rfl, rfl⟩
    rw [TcpDsdcc.PktsAcked_eq_dsdcc (TcpDsdcc.account_idle_dsdcc out1.tcb h0 he), hl, hn, hge]
    cases out1.tcb.m_flowMode <;> rfl
  · intro ty self tcb n rtt out1 h ht hge
    obtain ⟨s1, -, -, s2, hd, ho⟩ := TcpDstcp.closed_of_trace_dstcp h ht
    obtain ⟨-, -, -, -, e5, -, e7, -, -, e10, -, -, -, e14, -⟩ := TcpDstcp.react_fields_dstcp s2 tcb
    rw [← ho] at e5 e7 e10 e14
    have hflag : out1.self.m_nextSeqFlag = true := by
      rw [e14, (TcpDstcp.drainCheck_fields_dstcp hd).2.2.2.2,
        (TcpDstcp.updateAlphas_fields_dstcp (TcpDstcp.latch s1 tcb)).2.2.2.2.1]
      exact (TcpDstcp.latch_fields_dstcp s1 tcb).2.2.2.2.2.2.2.2.1
    rcases TcpDstcp.account_idle_dstcp ty out1.tcb e7 e5 with hacc | hacc
    · have hl : TcpDstcp.latch out1.self out1.tcb = out1.self :=
        (TcpDstcp.latch_fields_dstcp out1.self out1.tcb).2.2.2.2.2.2.2.2.2 hflag
      refine ⟨{ self := out1.self, tcb := out1.tcb, trace := [] }, ?_, rfl, rfl, rfl, rfl,
        rfl, rfl⟩
      rw [TcpDstcp.PktsAcked_eq_dstcp hacc, hl, e10, hge]
      rfl
    · have hl : TcpDstcp.latch { out1.self with m_signal := TcpDstcp.Signal.ecn_sig } out1.tcb =
          { out1.self with m_signal := TcpDstcp.Signal.ecn_sig } :=
        (TcpDstcp.latch_fields_dstcp _ out1.tcb).2.2.2.2.2.2.2.2.2 hflag
      refine ⟨⟨{ out1.self with m_signal := TcpDstcp.Signal.ecn_sig }, out1.tcb, []⟩, ?_, rfl,
        rfl, rfl, rfl, rfl, rfl⟩
      rw [TcpDstcp.PktsAcked_eq_dstcp hacc, hl]
      have hn : ({ out1.self with m_signal := TcpDstcp.Signal.ecn_sig } : TcpDstcp).m_nextSeq =
          out1.tcb.m_nextTxSequence := e10
      rw [hn, hge]
      rfl

/-- C7, amended, at the three windows closed in `Example` by an acknowledgment up to 200 with
300 sent: the second evaluation returns the same instance and control block and fires no
trace event. -/
theorem C7_no_refire_with_data_in_flight_witness :
    (∃ out2, TcpDcvegas.PktsAcked Example.dcvegasClosed.self Example.dcvegasClosed.tcb 0
        (Time.mk 0) = .ok out2 ∧
      out2.trace = [] ∧ out2.tcb = Example.dcvegasClosed.tcb ∧
      out2.self = Example.dcvegasClosed.self) ∧
    (∃ out2, TcpDsdcc.PktsAcked Example.dsdccClosed.self Example.dsdccClosed.tcb 0
        (Time.mk 0) = .ok out2 ∧
      out2.trace = [] ∧ out2.tcb = Example.dsdccClosed.tcb ∧
      out2.self = Example.dsdccClosed.self) ∧
    (∃ out2, TcpDstcp.PktsAcked NqAvgDecl.double Example.dstcpClosed.self
        Example.dstcpClosed.tcb 0 (Time.mk 0) = .ok out2 ∧
      out2.trace = [] ∧ out2.tcb = Example.dstcpClosed.tcb ∧
      out2.self.m_alpha = Example.dstcpClosed.self.m_alpha ∧
      out2.self.m_alpha_ecn = Example.dstcpClosed.self.m_alpha_ecn ∧
      out2.self.m_alpha_rtt = Example.dstcpClosed.self.m_alpha_rtt ∧
      out2.self.m_round = Example.dstcpClosed.self.m_round) :=
  ⟨C7_no_refire_with_data_in_flight.1 Example.dcvegasMidWindow Example.tcbLater 1
      Example.rttZero Example.dcvegasClosed (ok_of_toOption (by decide!)) (by decide)
      (by decide),
    C7_no_refire_with_data_in_flight.2.1 Example.dsdccMidWindow Example.tcbLater 1
      Example.rttZero Example.dsdccClosed (ok_of_toOption (by decide!)) (by decide)
      (by decide),
    C7_no_refire_with_data_in_flight.2.2 NqAvgDecl.double Example.dstcpMidWindow
      Example.tcbLater 1 Example.rttZero Example.dstcpClosed (ok_of_toOption (by decide!))
      (by decide) (by decide)⟩

/-! ## C8, C9, C10: Fork -/

theorem TcpDcvegas.copy_eq_dcvegas (raw A : TcpDcvegas) : TcpDcvegas.copy raw A = A := by
  cases A
  rfl

/-- C8: the fork `B` of a TcpDcvegas instance `A` (whatever the storage `raw` it is built in)
equals `A` in every member: the two accumulators, the threshold `k`, `priorRcvNxt` and its
flag, `alpha`, the signal, the window boundary and its flag, `g` and `initialized`; it answers
every acknowledgment as `A` would; a `PktsAcked` on `B` leaves `A` as it was, and a `PktsAcked`
on `A` leaves `B` as it was. -/
theorem C8_fork_dcvegas (raw A : TcpDcvegas) (tcb : TcpSocketState) (n : Nat) (rtt : Time) :
    (TcpDcvegas.Fork raw A).1 = A ∧ (TcpDcvegas.Fork raw A).2 = A ∧
    ((TcpDcvegas.Fork raw A).2.m_ackedBytesRtt = A.m_ackedBytesRtt ∧
      (TcpDcvegas.Fork raw A).2.m_ackedBytesTotal = A.m_ackedBytesTotal ∧
      (TcpDcvegas.Fork raw A).2.m_nq_k = A.m_nq_k ∧
      (TcpDcvegas.Fork raw A).2.m_priorRcvNxt = A.m_priorRcvNxt ∧
      (TcpDcvegas.Fork raw A).2.m_priorRcvNxtFlag = A.m_priorRcvNxtFlag ∧
      (TcpDcvegas.Fork raw A).2.m_alpha = A.m_alpha ∧
      (TcpDcvegas.Fork raw A).2.m_signal = A.m_signal ∧
      (TcpDcvegas.Fork raw A).2.m_nextSeq = A.m_nextSeq ∧
      (TcpDcvegas.Fork raw A).2.m_nextSeqFlag = A.m_nextSeqFlag ∧
      (TcpDcvegas.Fork raw A).2.m_g = A.m_g ∧
      (TcpDcvegas.Fork raw A).2.m_initialized = A.m_initialized) ∧
    TcpDcvegas.PktsAcked (TcpDcvegas.Fork raw A).2 tcb n rtt = TcpDcvegas.PktsAcked A tcb n rtt ∧
    TcpDcvegas.ackSecond (TcpDcvegas.Fork raw A) tcb n rtt =
      (TcpDcvegas.PktsAcked A tcb n rtt).map (fun out => (A, out.self)) ∧
    TcpDcvegas.ackFirst (TcpDcvegas.Fork raw A) tcb n rtt =
      (TcpDcvegas.PktsAcked A tcb n rtt).map (fun out => (out.self, A)) := by
  have hB : (TcpDcvegas.Fork raw A).2 = A := TcpDcvegas.copy_eq_dcvegas raw A
  have hA : (TcpDcvegas.Fork raw A).1 = A := rfl
  refine ⟨hA, hB, ?_, ?_, ?_, ?_⟩
  · rw [hB]
    exact ⟨rfl, rfl, rfl, rfl, rfl, rfl, rfl, rfl, rfl, rfl, rfl⟩
  · rw [hB]
  · unfold TcpDcvegas.ackSecond
    rw [hB, hA]
    cases TcpDcvegas.PktsAcked A tcb n rtt <;> rfl
  · unfold TcpDcvegas.ackFirst
    rw [hB, hA]
    cases TcpDcvegas.PktsAcked A tcb n rtt <;> rfl

/-- C9: the copy constructor of TcpDsdcc names neither `m_ackedBytesRtt` nor `m_signal` nor
`m_nq_k`: in the fork they hold what the storage held, whatever the original holds.  When
`dsdccMidWindow` (1000 delay-marked bytes, delay signal set, threshold 5) is forked into
zeroed storage, the copy has 0 delay-marked bytes, no signal and threshold 0, and the same
acknowledgment closes the window with `cwnd = 3500` on the original and leaves `cwnd = 7000`
on the copy. -/
theorem C9_fork_dsdcc_drops_delay_state :
    (∀ raw A : TcpDsdcc,
      (TcpDsdcc.Fork raw A).2.m_ackedBytesRtt = raw.m_ackedBytesRtt ∧
      (TcpDsdcc.Fork raw A).2.m_signal = raw.m_signal ∧
      (TcpDsdcc.Fork raw A).2.m_nq_k = raw.m_nq_k) ∧
    (Example.dsdccMidWindow.m_ackedBytesRtt = 1000 ∧
      (TcpDsdcc.Fork Example.dsdccZeroed Example.dsdccMidWindow).2.m_ackedBytesRtt = 0) ∧
    (Example.dsdccMidWindow.m_signal = TcpDsdcc.Signal.rtt_sig ∧
      (TcpDsdcc.Fork Example.dsdccZeroed Example.dsdccMidWindow).2.m_signal =
        TcpDsdcc.Signal.non_sig) ∧
    (Example.dsdccMidWindow.m_nq_k = 5 ∧
      (TcpDsdcc.Fork Example.dsdccZeroed Example.dsdccMidWindow).2.m_nq_k = 0) ∧
    (TcpDsdcc.PktsAcked Example.dsdccMidWindow Example.tcb 0 Example.rttZero).toOption.map
        (fun out => out.tcb.m_cWnd) = some 3500 ∧
    (TcpDsdcc.PktsAcked (TcpDsdcc.Fork Example.dsdccZeroed Example.dsdccMidWindow).2
        Example.tcb 0 Example.rttZero).toOption.map (fun out => out.tcb.m_cWnd) = some 7000 := by
  refine ⟨fun raw A => ⟨rfl, rfl, rfl⟩, ⟨rfl, rfl⟩, ⟨rfl, rfl⟩, ⟨rfl, rfl⟩, ?_, ?_⟩
  · decide!
  · decide!

/-- C10: the copy constructor of TcpDstcp does not name `m_drain_cwnd`: in the fork it holds
what the storage held, whatever the original holds.  At the instance `dstcpRound7` (drain
window 5.5, seven windows into the drain cycle) forked into zeroed storage, the same
acknowledgment closes the eighth window with `cwnd = ssthresh = 5500` on the original and
`cwnd = ssthresh = 0` on the copy. -/
theorem C10_fork_dstcp_drops_drain_window :
    (∀ raw A : TcpDstcp, (TcpDstcp.Fork raw A).2.m_drain_cwnd = raw.m_drain_cwnd) ∧
    (Example.dstcpRound7.m_drain_cwnd = 11 / 2 ∧
      (TcpDstcp.Fork Example.dstcpZeroed Example.dstcpRound7).2.m_drain_cwnd = 0) ∧
    (∀ ty : NqAvgDecl,
      (TcpDstcp.PktsAcked ty Example.dstcpRound7 Example.tcbEce 1 Example.rttZero).toOption.map
          (fun out => (out.tcb.m_cWnd, out.tcb.m_ssThresh)) = some (5500, 5500) ∧
      (TcpDstcp.PktsAcked ty (TcpDstcp.Fork Example.dstcpZeroed Example.dstcpRound7).2
          Example.tcbEce 1 Example.rttZero).toOption.map
          (fun out => (out.tcb.m_cWnd, out.tcb.m_ssThresh)) = some (0, 0)) := by
  refine ⟨fun raw A => rfl, ⟨rfl, ?_⟩, ?_⟩
  · decide!
  · intro ty
    cases ty <;> constructor <;> decide!

/-! ## The members a `PktsAcked` call leaves alone -/

theorem account_frame_dcvegas {self s1 : TcpDcvegas} {tcb : TcpSocketState} {n : Nat}
    {rtt : Time} (h : TcpDcvegas.account self tcb n rtt = .ok s1) :
    s1 = { self with
      m_ackedBytesTotal := s1.m_ackedBytesTotal
      m_ackedBytesRtt := s1.m_ackedBytesRtt
      m_signal := s1.m_signal } := by
  unfold TcpDcvegas.account at h
  simp only at h
  split at h
  · cases h; rfl
  · split at h
    · cases h
    · split at h
      · cases h
      · split at h <;> cases h <;> rfl

theorem PktsAcked_initialized_dcvegas {self : TcpDcvegas} {tcb : TcpSocketState} {n : Nat}
    {rtt : Time} {out : Outcome TcpDcvegas}
    (h : TcpDcvegas.PktsAcked self tcb n rtt = .ok out) :
    out.self.m_initialized = self.m_initialized := by
  obtain ⟨s1, hacc, hc⟩ := TcpDcvegas.outcome_cases_dcvegas h
  have h1 : s1.m_initialized = self.m_initialized := by
    rw [account_frame_dcvegas hacc]
  have h2 : (TcpDcvegas.latch s1 tcb).m_initialized = s1.m_initialized := by
    unfold TcpDcvegas.latch
    split <;> rfl
  rcases hc with ⟨ho, -⟩ | ⟨-, ho⟩
  · rw [ho]
    exact h2.trans h1
  · rw [ho]
    exact h2.trans h1

theorem account_frame_dsdcc {self s1 : TcpDsdcc} {tcb : TcpSocketState} {n : Nat}
    {rtt : Time} (h : TcpDsdcc.account self tcb n rtt = .ok s1) :
    s1 = { self with
      m_ackedBytesTotal := s1.m_ackedBytesTotal
      m_ackedBytesRtt := s1.m_ackedBytesRtt
      m_ackedBytesEcn := s1.m_ackedBytesEcn
      m_signal := s1.m_signal } := by
  unfold TcpDsdcc.account TcpDsdcc.accountRtt TcpDsdcc.accountEcn at h
  simp only at h
  split at h
  · cases h
  · rename_i s hs
    cases h
    split at hs
    · cases hs
      split <;> rfl
    · split at hs
      · cases hs
      · split at hs
        · cases hs
        · split at hs <;> cases hs <;> split <;> rfl

theorem PktsAcked_initialized_dsdcc {self : TcpDsdcc} {tcb : TcpSocketState} {n : Nat}
    {rtt : Time} {out : Outcome TcpDsdcc}
    (h : TcpDsdcc.PktsAcked self tcb n rtt = .ok out) :
    out.self.m_initialized = self.m_initialized := by
  obtain ⟨s1, hacc, hc⟩ := TcpDsdcc.outcome_cases_dsdcc h
  have h1 : s1.m_initialized = self.m_initialized := by
    rw [account_frame_dsdcc hacc]
  have h2 : (TcpDsdcc.latch s1 tcb).m_initialized = s1.m_initialized := by
    unfold TcpDsdcc.latch
    split <;> rfl
  rcases hc with ⟨ho, -⟩ | ⟨-, ⟨-, ho⟩ | ⟨-, ho⟩⟩
  · rw [ho]
    exact h2.trans h1
  · rw [ho]
    exact h2.trans h1
  · rw [ho]
    exact h2.trans h1

theorem account_frame_dstcp {ty : NqAvgDecl} {self s1 : TcpDstcp} {tcb : TcpSocketState}
    {n : Nat} {rtt : Time} (h : TcpDstcp.account ty self tcb n rtt = .ok s1) :
    s1 = { self with
      m_ackedBytesTotal := s1.m_ackedBytesTotal
      m_ackedBytesRtt := s1.m_ackedBytesRtt
      m_ackedBytesEcn := s1.m_ackedBytesEcn
      m_signal := s1.m_signal
      m_nq_avg := s1.m_nq_avg
      m_last_minRtt := s1.m_last_minRtt } := by
  unfold TcpDstcp.account TcpDstcp.accountRtt TcpDstcp.accountEcn at h
  simp only at h
  split at h
  · cases h
  · rename_i s hs
    cases h
    split at hs
    · cases hs
      split <;> rfl
    · split at hs
      · cases hs
      · split at hs
        · cases hs
        · cases hs
          unfold TcpDstcp.accountNq
          simp only
          split <;> split <;> split <;> rfl

theorem latch_frame_dstcp (self : TcpDstcp) (tcb : TcpSocketState) :
    TcpDstcp.latch self tcb = { self with
      m_nextSeq := (TcpDstcp.latch self tcb).m_nextSeq
      m_nextSeqFlag := (TcpDstcp.latch self tcb).m_nextSeqFlag } := by
  unfold TcpDstcp.latch
  split <;> rfl

theorem updateAlphas_frame_dstcp (self : TcpDstcp) :
    TcpDstcp.updateAlphas self = { self with
      m_alpha_ecn := (1 - self.m_g) * self.m_alpha_ecn + self.m_g * TcpDstcp.bytesEcn self
      m_alpha_rtt := (1 - self.m_g) * self.m_alpha_rtt + self.m_g * TcpDstcp.bytesRtt self
      m_signal :=
        if self.m_signal = TcpDstcp.Signal.ecn_sig ∧ self.m_nq_avg ≥ (self.m_nq_k2 : ℚ) then
          TcpDstcp.Signal.ear_sig
        else self.m_signal } := by
  unfold TcpDstcp.updateAlphas
  simp only
  split <;> rfl

theorem PktsAcked_initialized_dstcp {ty : NqAvgDecl} {self : TcpDstcp} {tcb : TcpSocketState}
    {n : Nat} {rtt : Time} {out : Outcome TcpDstcp}
    (h : TcpDstcp.PktsAcked ty self tcb n rtt = .ok out) :
    out.self.m_initialized = self.m_initialized := by
  obtain ⟨s1, hacc, hc⟩ := TcpDstcp.outcome_cases_dstcp h
  have h1 : s1.m_initialized = self.m_initialized := by
    rw [account_frame_dstcp hacc]
  have h2 : (TcpDstcp.latch s1 tcb).m_initialized = s1.m_initialized := by
    rw [latch_frame_dstcp]
  rcases hc with ⟨ho, -⟩ | ⟨-, s2, hd, ho⟩
  · rw [ho]
    exact h2.trans h1
  · have h3 : (TcpDstcp.updateAlphas (TcpDstcp.latch s1 tcb)).m_initialized =
        (TcpDstcp.latch s1 tcb).m_initialized := by
      rw [updateAlphas_frame_dstcp]
    have h4 : s2.m_initialized =
        (TcpDstcp.updateAlphas (TcpDstcp.latch s1 tcb)).m_initialized := by
      unfold TcpDstcp.drainCheck at hd
      simp only at hd
      split at hd
      · cases hd
      · split at hd
        · cases hd
          split <;> rfl
        · cases hd
          rfl
    have h5 : (TcpDstcp.react s2 tcb).self.m_initialized = s2.m_initialized := by
      unfold TcpDstcp.react TcpDstcp.Reset
      cases s2.m_signal <;> rfl
    rw [ho, h5, h4, h3, h2, h1]

/-! ## TcpDstcp: the window-close block -/

theorem drainCheck_zero_dstcp (self : TcpDstcp) (tcb : TcpSocketState)
    (hper : TcpDstcp.drainPeriod self = 0) :
    TcpDstcp.drainCheck self tcb = .error Fault.divideByZero := by
  unfold TcpDstcp.drainPeriod at hper
  unfold TcpDstcp.drainCheck
  simp only [hper, if_true]

theorem drainCheck_ok_dstcp (self : TcpDstcp) (tcb : TcpSocketState)
    (hper : TcpDstcp.drainPeriod self ≠ 0) :
    TcpDstcp.drainCheck self tcb = .ok { self with
      m_round :=
        if wrapU32 (self.m_round + 1) % TcpDstcp.drainPeriod self = 0 then 0
        else wrapU32 (self.m_round + 1)
      m_signal :=
        if TcpDstcp.drainFires self tcb = true then TcpDstcp.Signal.drain_sig
        else self.m_signal } := by
  unfold TcpDstcp.drainPeriod at hper
  unfold TcpDstcp.drainCheck TcpDstcp.drainFires TcpDstcp.drainPeriod
  simp only [hper, if_false]
  by_cases h1 : wrapU32 (self.m_round + 1) % wrapU32 (self.m_drain_cycle *
      self.m_drain_cycle_scale) = 0
  · by_cases h2 : tcb.m_cWnd > TcpDstcp.drainTarget self tcb
    · have h2' : tcb.m_cWnd > TcpDstcp.drainTarget
          { self with m_round := wrapU32 (self.m_round + 1) } tcb := h2
      simp [h1, h2, h2']
    · have h2' : ¬ tcb.m_cWnd > TcpDstcp.drainTarget
          { self with m_round := wrapU32 (self.m_round + 1) } tcb := h2
      simp [h1, h2, h2']
  · simp [h1]

theorem react_branches_dstcp (self : TcpDstcp) (tcb : TcpSocketState) :
    (self.m_signal = TcpDstcp.Signal.ear_sig →
      (TcpDstcp.react self tcb).tcb = tcb ∧
      (TcpDstcp.react self tcb).self.m_alpha = self.m_alpha_ecn + self.m_alpha_rtt) ∧
    (self.m_signal = TcpDstcp.Signal.ecn_sig →
      (TcpDstcp.react self tcb).tcb = tcb ∧
      (TcpDstcp.react self tcb).self.m_alpha = self.m_alpha_ecn) ∧
    (self.m_signal = TcpDstcp.Signal.non_sig →
      (TcpDstcp.react self tcb).tcb = tcb ∧
      (TcpDstcp.react self tcb).self.m_alpha = self.m_alpha) ∧
    (self.m_signal = TcpDstcp.Signal.rtt_sig →
      (TcpDstcp.react self tcb).tcb = { tcb with
        m_cWnd := castU32 ((tcb.m_cWnd : ℚ) - (1 - self.m_alpha_rtt) * (tcb.m_segmentSize : ℚ))
        m_ssThresh :=
          castU32 ((tcb.m_cWnd : ℚ) - (1 - self.m_alpha_rtt) * (tcb.m_segmentSize : ℚ))
        m_cWndInfl :=
          castU32 ((tcb.m_cWnd : ℚ) - (1 - self.m_alpha_rtt) * (tcb.m_segmentSize : ℚ)) } ∧
      (TcpDstcp.react self tcb).self.m_alpha = self.m_alpha) ∧
    (self.m_signal = TcpDstcp.Signal.drain_sig →
      (TcpDstcp.react self tcb).tcb = { tcb with
        m_cWnd := TcpDstcp.drainTarget self tcb
        m_ssThresh := TcpDstcp.drainTarget self tcb
        m_cWndInfl := TcpDstcp.drainTarget self tcb } ∧
      (TcpDstcp.react self tcb).self.m_alpha = self.m_alpha) := by
  refine ⟨?_, ?_, ?_, ?_, ?_⟩ <;> intro h <;> unfold TcpDstcp.react TcpDstcp.Reset <;>
    rw [h] <;> exact ⟨rfl, rfl⟩

/-- A call whose accounting gives `s1`, that finds `m_lastAckedSeq >= m_nextSeq` and whose
drain period is not 0 runs the window-close block to its end: the state `s2` with which it
enters the `switch`, in terms of the instance before the call and of `s1`. -/
theorem close_core_dstcp {ty : NqAvgDecl} {self s1 : TcpDstcp} {tcb : TcpSocketState}
    {n : Nat} {rtt : Time} (hacc : TcpDstcp.account ty self tcb n rtt = .ok s1)
    (hclose : SequenceNumber32.ge tcb.m_lastAckedSeq (TcpDstcp.latch s1 tcb).m_nextSeq = true)
    (hper : TcpDstcp.drainPeriod self ≠ 0) :
    ∃ s2, TcpDstcp.PktsAcked ty self tcb n rtt = .ok (TcpDstcp.react s2 tcb) ∧
      TcpDstcp.closingSignal ty self tcb n rtt = some s2.m_signal ∧
      s2.m_signal =
        (if TcpDstcp.drainFires self tcb = true then TcpDstcp.Signal.drain_sig
          else if s1.m_signal = TcpDstcp.Signal.ecn_sig ∧ s1.m_nq_avg ≥ (self.m_nq_k2 : ℚ) then
            TcpDstcp.Signal.ear_sig
          else s1.m_signal) ∧
      s2.m_round =
        (if wrapU32 (self.m_round + 1) % TcpDstcp.drainPeriod self = 0 then 0
          else wrapU32 (self.m_round + 1)) ∧
      s2.m_alpha_ecn = (1 - self.m_g) * self.m_alpha_ecn + self.m_g * TcpDstcp.bytesEcn s1 ∧
      s2.m_alpha_rtt = (1 - self.m_g) * self.m_alpha_rtt + self.m_g * TcpDstcp.bytesRtt s1 ∧
      s2.m_alpha = self.m_alpha ∧
      TcpDstcp.drainTarget s2 tcb = TcpDstcp.drainTarget self tcb ∧
      s2.m_drain_cycle = self.m_drain_cycle ∧
      s2.m_drain_cycle_scale = self.m_drain_cycle_scale ∧
      s2.m_drain_cwnd = self.m_drain_cwnd ∧
      s2.m_drain_cwnd_scale = self.m_drain_cwnd_scale := by
  have hf := account_frame_dstcp hacc
  have hl := latch_frame_dstcp s1 tcb
  have hu := updateAlphas_frame_dstcp (TcpDstcp.latch s1 tcb)
  have hperc : TcpDstcp.drainPeriod (TcpDstcp.updateAlphas (TcpDstcp.latch s1 tcb)) =
      TcpDstcp.drainPeriod self := by
    rw [hu, hl, hf]
    rfl
  have hfirec : TcpDstcp.drainFires (TcpDstcp.updateAlphas (TcpDstcp.latch s1 tcb)) tcb =
      TcpDstcp.drainFires self tcb := by
    rw [hu, hl, hf]
    rfl
  have hroundc : (TcpDstcp.updateAlphas (TcpDstcp.latch s1 tcb)).m_round = self.m_round := by
    rw [hu, hl, hf]
  have hd := drainCheck_ok_dstcp (TcpDstcp.updateAlphas (TcpDstcp.latch s1 tcb)) tcb
    (by rw [hperc]; exact hper)
  generalize hs2 : ({ TcpDstcp.updateAlphas (TcpDstcp.latch s1 tcb) with
      m_round :=
        if wrapU32 ((TcpDstcp.updateAlphas (TcpDstcp.latch s1 tcb)).m_round + 1) %
            TcpDstcp.drainPeriod (TcpDstcp.updateAlphas (TcpDstcp.latch s1 tcb)) = 0 then 0
        else wrapU32 ((TcpDstcp.updateAlphas (TcpDstcp.latch s1 tcb)).m_round + 1)
      m_signal :=
        if TcpDstcp.drainFires (TcpDstcp.updateAlphas (TcpDstcp.latch s1 tcb)) tcb = true then
          TcpDstcp.Signal.drain_sig
        else (TcpDstcp.updateAlphas (TcpDstcp.latch s1 tcb)).m_signal } : TcpDstcp) = s2 at hd
  refine ⟨s2, ?_, ?_, ?_, ?_, ?_, ?_, ?_, ?_, ?_, ?_, ?_, ?_⟩
  · rw [TcpDstcp.PktsAcked_eq_dstcp hacc, if_pos hclose]
    unfold TcpDstcp.expire
    rw [hd]
  · unfold TcpDstcp.closingSignal
    rw [hacc]
    simp only [hclose, if_true]
    rw [hd]
  · rw [← hs2]
    simp only
    rw [hfirec]
    by_cases hfire : TcpDstcp.drainFires self tcb = true
    · simp only [hfire, if_true]
    · simp only [hfire, if_false]
      rw [hu]
      simp only
      have e1 : (TcpDstcp.latch s1 tcb).m_signal = s1.m_signal := by rw [hl]
      have e2 : (TcpDstcp.latch s1 tcb).m_nq_avg = s1.m_nq_avg := by rw [hl]
      have e3 : (TcpDstcp.latch s1 tcb).m_nq_k2 = self.m_nq_k2 := by rw [hl, hf]
      rw [e1, e2, e3]
  · rw [← hs2]
    simp only
    rw [hperc, hroundc]
  · rw [← hs2]
    simp only
    rw [hu]
    simp only
    have e1 : (TcpDstcp.latch s1 tcb).m_g = self.m_g := by rw [hl, hf]
    have e2 : (TcpDstcp.latch s1 tcb).m_alpha_ecn = self.m_alpha_ecn := by rw [hl, hf]
    have e3 : TcpDstcp.bytesEcn (TcpDstcp.latch s1 tcb) = TcpDstcp.bytesEcn s1 := by
      rw [hl]
      rfl
    rw [e1, e2, e3]
  · rw [← hs2]
    simp only
    rw [hu]
    simp only
    have e1 : (TcpDstcp.latch s1 tcb).m_g = self.m_g := by rw [hl, hf]
    have e2 : (TcpDstcp.latch s1 tcb).m_alpha_rtt = self.m_alpha_rtt := by rw [hl, hf]
    have e3 : TcpDstcp.bytesRtt (TcpDstcp.latch s1 tcb) = TcpDstcp.bytesRtt s1 := by
      rw [hl]
      rfl
    rw [e1, e2, e3]
  · rw [← hs2]
    simp only
    rw [hu, hl, hf]
  · rw [← hs2]
    show TcpDstcp.drainTarget (TcpDstcp.updateAlphas (TcpDstcp.latch s1 tcb)) tcb = _
    rw [hu, hl, hf]
    rfl
  · rw [← hs2]
    simp only
    rw [hu, hl, hf]
  · rw [← hs2]
    simp only
    rw [hu, hl, hf]
  · rw [← hs2]
    simp only
    rw [hu, hl, hf]
  · rw [← hs2]
    simp only
    rw [hu, hl, hf]

/-! ## TcpDstcp: the fractions and the members the `switch` leaves alone -/

theorem bytesEcn_eq_dstcp (s : TcpDstcp) :
    TcpDstcp.bytesEcn s =
      if s.m_ackedBytesTotal = 0 then 0
      else (s.m_ackedBytesEcn : ℚ) / (s.m_ackedBytesTotal : ℚ) := by
  unfold TcpDstcp.bytesEcn
  by_cases h0 : s.m_ackedBytesTotal = 0
  · simp [h0]
  · have hpos : s.m_ackedBytesTotal > 0 := Nat.pos_of_ne_zero h0
    simp [h0, hpos]

theorem bytesRtt_eq_dstcp (s : TcpDstcp) :
    TcpDstcp.bytesRtt s =
      if s.m_ackedBytesTotal = 0 then 0
      else (s.m_ackedBytesRtt : ℚ) / (s.m_ackedBytesTotal : ℚ) := by
  unfold TcpDstcp.bytesRtt
  by_cases h0 : s.m_ackedBytesTotal = 0
  · simp [h0]
  · have hpos : s.m_ackedBytesTotal > 0 := Nat.pos_of_ne_zero h0
    simp [h0, hpos]

theorem react_self_fields_dstcp (self : TcpDstcp) (tcb : TcpSocketState) :
    (TcpDstcp.react self tcb).self.m_alpha_ecn = self.m_alpha_ecn ∧
    (TcpDstcp.react self tcb).self.m_alpha_rtt = self.m_alpha_rtt ∧
    (TcpDstcp.react self tcb).self.m_round = self.m_round := by
  unfold TcpDstcp.react TcpDstcp.Reset
  cases self.m_signal <;> exact ⟨rfl, rfl, rfl⟩

/-! ## TcpDstcp: the signal of a window -/

/-- The accounting of one acknowledgment leaves in `m_signal` the value it found, or
`rtt_sig`, or `ecn_sig`. -/
theorem account_signal_dstcp {ty : NqAvgDecl} {self s1 : TcpDstcp} {tcb : TcpSocketState}
    {n : Nat} {rtt : Time} (h : TcpDstcp.account ty self tcb n rtt = .ok s1) :
    s1.m_signal = self.m_signal ∨ s1.m_signal = TcpDstcp.Signal.rtt_sig ∨
      s1.m_signal = TcpDstcp.Signal.ecn_sig := by
  unfold TcpDstcp.account TcpDstcp.accountRtt TcpDstcp.accountEcn at h
  simp only at h
  split at h
  · cases h
  · rename_i s hs
    cases h
    split at hs
    · cases hs
      split
      · exact Or.inr (Or.inr rfl)
      · exact Or.inl rfl
    · split at hs
      · cases hs
      · split at hs
        · cases hs
        · cases hs
          unfold TcpDstcp.accountNq
          simp only
          split
          · exact Or.inr (Or.inr rfl)
          · split <;> split
            · exact Or.inr (Or.inl rfl)
            · exact Or.inr (Or.inl rfl)
            · exact Or.inl rfl
            · exact Or.inl rfl

/-- The rules by which the accounting of one acknowledgment sets `m_signal`. -/
theorem account_signal_rules_dstcp {ty : NqAvgDecl} {self s1 : TcpDstcp}
    {tcb : TcpSocketState} {n : Nat} {rtt : Time}
    (h : TcpDstcp.account ty self tcb n rtt = .ok s1) :
    (tcb.m_ecnState = EcnState_t.ECN_ECE_RCVD → s1.m_signal = TcpDstcp.Signal.ecn_sig) ∧
    (tcb.m_ecnState ≠ EcnState_t.ECN_ECE_RCVD → rtt.IsZero = true →
      s1.m_signal = self.m_signal) ∧
    (tcb.m_ecnState ≠ EcnState_t.ECN_ECE_RCVD → rtt.IsZero = false →
      ∀ (segCwnd : Nat) (nq : Int), tcb.GetCwndInSegments = .ok segCwnd →
        networkQueue segCwnd rtt.GetMicroSeconds tcb.m_minRtt.GetMicroSeconds = .ok nq →
        s1.m_signal = if nq ≥ self.m_nq_k1 then TcpDstcp.Signal.rtt_sig else self.m_signal) := by
  unfold TcpDstcp.account at h
  cases h1 : TcpDstcp.accountRtt ty self tcb n rtt with
  | error e => rw [h1] at h; cases h
  | ok s =>
    rw [h1] at h
    cases h
    refine ⟨?_, ?_, ?_⟩
    · intro hece
      simp [TcpDstcp.accountEcn, hece]
    · intro hece hz
      have hs := (TcpDstcp.accountRtt_spec_dstcp h1).2.2.2.2.2.2.2.2.2.2 hz
      simp only [TcpDstcp.accountEcn, hece, if_false]
      rw [hs]
    · intro hece hz segCwnd nq hseg hnq
      unfold TcpDstcp.accountRtt at h1
      simp only [hz, hseg, hnq] at h1
      simp only [Bool.false_eq_true, if_false] at h1
      cases h1
      simp only [TcpDstcp.accountEcn, hece, if_false]
      unfold TcpDstcp.accountNq
      simp only
      split <;> split <;> rfl

/-- A call that reaches the `switch` of the window-close block found
`m_lastAckedSeq >= m_nextSeq` and a drain period that is not 0. -/
theorem closingSignal_some_dstcp {ty : NqAvgDecl} {self s1 : TcpDstcp} {tcb : TcpSocketState}
    {n : Nat} {rtt : Time} {sig : TcpDstcp.Signal}
    (hacc : TcpDstcp.account ty self tcb n rtt = .ok s1)
    (h : TcpDstcp.closingSignal ty self tcb n rtt = some sig) :
    SequenceNumber32.ge tcb.m_lastAckedSeq (TcpDstcp.latch s1 tcb).m_nextSeq = true ∧
      TcpDstcp.drainPeriod self ≠ 0 := by
  unfold TcpDstcp.closingSignal at h
  rw [hacc] at h
  simp only at h
  split at h
  · rename_i hge
    refine ⟨hge, ?_⟩
    intro hp0
    have hperc : TcpDstcp.drainPeriod (TcpDstcp.updateAlphas (TcpDstcp.latch s1 tcb)) = 0 := by
      rw [updateAlphas_frame_dstcp, latch_frame_dstcp, account_frame_dstcp hacc]
      exact hp0
    rw [drainCheck_zero_dstcp _ tcb hperc] at h
    cases h
  · cases h

/-! ## TcpDstcp: the round counter along a run -/

theorem react_frame_dstcp (self : TcpDstcp) (tcb : TcpSocketState) :
    (TcpDstcp.react self tcb).self = { self with
      m_alpha := (TcpDstcp.react self tcb).self.m_alpha
      m_nextSeq := (TcpDstcp.react self tcb).self.m_nextSeq
      m_ackedBytesEcn := 0
      m_ackedBytesRtt := 0
      m_ackedBytesTotal := 0
      m_signal := TcpDstcp.Signal.non_sig
      m_nq_avg := -1
      m_last_minRtt := INT64_MAX } ∧
    (TcpDstcp.react self tcb).trace.length = 1 := by
  unfold TcpDstcp.react TcpDstcp.Reset
  cases self.m_signal <;> exact ⟨rfl, rfl⟩

theorem drainPeriod_eight_dstcp {self : TcpDstcp} (hc : self.m_drain_cycle = 8)
    (hs : self.m_drain_cycle_scale = 1) : TcpDstcp.drainPeriod self = 8 := by
  unfold TcpDstcp.drainPeriod wrapU32
  rw [hc, hs]
  decide

/-- What one call does to the round counter when the drain period is 8: the counter stays
below 8 and advances by one, modulo 8, exactly when a window is closed; the drain
configuration is kept and the signal left behind is never `drain_sig`. -/
theorem step_round_dstcp {ty : NqAvgDecl} {self : TcpDstcp} {tcb : TcpSocketState} {n : Nat}
    {rtt : Time} {out : Outcome TcpDstcp} (h : TcpDstcp.PktsAcked ty self tcb n rtt = .ok out)
    (hr : self.m_round < 8) (hc : self.m_drain_cycle = 8) (hs : self.m_drain_cycle_scale = 1)
    (hsig : self.m_signal ≠ TcpDstcp.Signal.drain_sig) :
    out.self.m_round < 8 ∧ out.self.m_drain_cycle = 8 ∧ out.self.m_drain_cycle_scale = 1 ∧
      out.self.m_signal ≠ TcpDstcp.Signal.drain_sig ∧
      out.self.m_round = (self.m_round + out.trace.length) % 8 ∧
      out.self.m_drain_cwnd = self.m_drain_cwnd ∧
      out.self.m_drain_cwnd_scale = self.m_drain_cwnd_scale := by
  obtain ⟨s1, hacc⟩ := TcpDstcp.account_of_ok_dstcp h
  have hf := account_frame_dstcp hacc
  have hl := latch_frame_dstcp s1 tcb
  have hs1 : s1.m_signal ≠ TcpDstcp.Signal.drain_sig := by
    rcases account_signal_dstcp hacc with e | e | e
    · rw [e]; exact hsig
    · rw [e]; decide
    · rw [e]; decide
  have hper : TcpDstcp.drainPeriod self = 8 := drainPeriod_eight_dstcp hc hs
  by_cases hge : SequenceNumber32.ge tcb.m_lastAckedSeq (TcpDstcp.latch s1 tcb).m_nextSeq = true
  · obtain ⟨s2, hp, -, -, hrd, -, -, -, -, c1, c2, c3, c4⟩ :=
      close_core_dstcp hacc hge (by rw [hper]; decide)
    rw [h] at hp
    simp only [Except.ok.injEq] at hp
    obtain ⟨hrf, hlen⟩ := react_frame_dstcp s2 tcb
    have hw : wrapU32 (self.m_round + 1) = self.m_round + 1 := by
      unfold wrapU32
      exact Nat.mod_eq_of_lt (by omega)
    rw [hper, hw] at hrd
    have e1 : out.self.m_round = s2.m_round := by rw [hp, hrf]
    have e2 : out.self.m_drain_cycle = s2.m_drain_cycle := by rw [hp, hrf]
    have e3 : out.self.m_drain_cycle_scale = s2.m_drain_cycle_scale := by rw [hp, hrf]
    have e4 : out.self.m_signal = TcpDstcp.Signal.non_sig := by rw [hp, hrf]
    have e5 : out.self.m_drain_cwnd = s2.m_drain_cwnd := by rw [hp, hrf]
    have e6 : out.self.m_drain_cwnd_scale = s2.m_drain_cwnd_scale := by rw [hp, hrf]
    have e7 : out.trace.length = 1 := by rw [hp, hlen]
    rw [e1, e2, e3, e4, e5, e6, e7, hrd, c1, c2, c3, c4]
    refine ⟨?_, hc, hs, by decide, ?_, rfl, rfl⟩
    · split <;> omega
    · split <;> omega
  · rw [TcpDstcp.PktsAcked_eq_dstcp hacc, if_neg hge] at h
    simp only [Except.ok.injEq] at h
    have e1 : (TcpDstcp.latch s1 tcb).m_round = self.m_round := by rw [hl, hf]
    have e2 : (TcpDstcp.latch s1 tcb).m_drain_cycle = self.m_drain_cycle := by rw [hl, hf]
    have e3 : (TcpDstcp.latch s1 tcb).m_drain_cycle_scale = self.m_drain_cycle_scale := by
      rw [hl, hf]
    have e4 : (TcpDstcp.latch s1 tcb).m_signal = s1.m_signal := by rw [hl]
    have e5 : (TcpDstcp.latch s1 tcb).m_drain_cwnd = self.m_drain_cwnd := by rw [hl, hf]
    have e6 : (TcpDstcp.latch s1 tcb).m_drain_cwnd_scale = self.m_drain_cwnd_scale := by
      rw [hl, hf]
    rw [← h]
    simp only [List.length_nil, Nat.add_zero]
    rw [e1, e2, e3, e4, e5, e6]
    exact ⟨hr, hc, hs, hs1, by omega, rfl, rfl⟩

theorem run_round_dstcp (ty : NqAvgDecl) : ∀ (acks : List Ack) (s0 s : TcpDstcp),
    s0.m_round < 8 → s0.m_drain_cycle = 8 → s0.m_drain_cycle_scale = 1 →
    s0.m_signal ≠ TcpDstcp.Signal.drain_sig → TcpDstcp.run ty s0 acks = .ok s →
    s.m_round < 8 ∧ s.m_drain_cycle = 8 ∧ s.m_drain_cycle_scale = 1 ∧
      s.m_signal ≠ TcpDstcp.Signal.drain_sig ∧
      s.m_round = (s0.m_round + TcpDstcp.closedWindows ty s0 acks) % 8 ∧
      s.m_drain_cwnd = s0.m_drain_cwnd ∧ s.m_drain_cwnd_scale = s0.m_drain_cwnd_scale := by
  intro acks
  induction acks with
  | nil =>
    intro s0 s hr hc hs hsig hrun
    simp only [TcpDstcp.run] at hrun
    cases hrun
    simp only [TcpDstcp.closedWindows, Nat.add_zero]
    exact ⟨hr, hc, hs, hsig, by omega, trivial, trivial⟩
  | cons a rest ih =>
    intro s0 s hr hc hs hsig hrun
    simp only [TcpDstcp.run] at hrun
    cases hp : TcpDstcp.PktsAcked ty s0 a.tcb a.segmentsAcked a.rtt with
    | error e => rw [hp] at hrun; cases hrun
    | ok out =>
      rw [hp] at hrun
      obtain ⟨b1, b2, b3, b4, b5, b6, b7⟩ := step_round_dstcp hp hr hc hs hsig
      obtain ⟨d1, d2, d3, d4, d5, d6, d7⟩ := ih out.self s b1 b2 b3 b4 hrun
      simp only [TcpDstcp.closedWindows, hp]
      refine ⟨d1, d2, d3, d4, ?_, by rw [d6, b6], by rw [d7, b7]⟩
      rw [d5, b5]
      omega

/-! ## C11: a sample below the minimum RTT -/

/-- C11, as stated, fails: a sample of 100.5 microseconds against a minimum RTT of 100.9
microseconds is strictly smaller, yet both are 100 in whole microseconds, the assertion passes
and the three classes return, TcpDstcp with the computed queue estimate 0 as its average.
A zero sample against a minimum RTT of 100 microseconds skips the estimate and returns too. -/
theorem C11_smaller_sample_returns :
    (Example.rtt1005.m_data < Example.tcbMinRtt1009.m_minRtt.m_data ∧
      Example.rtt1005.IsZero = false) ∧
    faultOf (TcpDcvegas.PktsAcked Example.dcvegas Example.tcbMinRtt1009 1 Example.rtt1005) =
      none ∧
    faultOf (TcpDsdcc.PktsAcked Example.dsdcc Example.tcbMinRtt1009 1 Example.rtt1005) = none ∧
    (TcpDstcp.PktsAcked NqAvgDecl.double Example.dstcp Example.tcbMinRtt1009 1
      Example.rtt1005).toOption.map (fun out => out.self.m_nq_avg) = some 0 ∧
    (TcpDstcp.PktsAcked NqAvgDecl.int32 Example.dstcp Example.tcbMinRtt1009 1
      Example.rtt1005).toOption.map (fun out => out.self.m_nq_avg) = some 0 ∧
    Example.rttZero.m_data < Example.tcb.m_minRtt.m_data ∧
    faultOf (TcpDcvegas.PktsAcked Example.dcvegas Example.tcb 1 Example.rttZero) = none ∧
    faultOf (TcpDsdcc.PktsAcked Example.dsdcc Example.tcb 1 Example.rttZero) = none ∧
    faultOf (TcpDstcp.PktsAcked NqAvgDecl.double Example.dstcp Example.tcb 1
      Example.rttZero) = none := by
  refine ⟨⟨?_, ?_⟩, ?_, ?_, ?_, ?_, ?_, ?_, ?_, ?_⟩ <;> decide!

/-- C11, amended: in the three classes, a `PktsAcked` call with a non-zero RTT sample whose
value in whole microseconds is strictly less than the minimum RTT in whole microseconds never
returns: it ends in the assertion failure, or, when `segmentSize` is 0, in the division by
zero of `GetCwndInSegments` that comes first. -/
theorem C11_fatal_below_min_rtt (tcb : TcpSocketState) (n : Nat) (rtt : Time)
    (hz : rtt.IsZero = false)
    (hlt : rtt.GetMicroSeconds < tcb.m_minRtt.GetMicroSeconds) :
    (∀ self : TcpDcvegas, TcpDcvegas.PktsAcked self tcb n rtt =
      .error (if tcb.m_segmentSize = 0 then Fault.divideByZero else Fault.assertion)) ∧
    (∀ self : TcpDsdcc, TcpDsdcc.PktsAcked self tcb n rtt =
      .error (if tcb.m_segmentSize = 0 then Fault.divideByZero else Fault.assertion)) ∧
    (∀ (ty : NqAvgDecl) (self : TcpDstcp), TcpDstcp.PktsAcked ty self tcb n rtt =
      .error (if tcb.m_segmentSize = 0 then Fault.divideByZero else Fault.assertion)) := by
  refine ⟨?_, ?_, ?_⟩
  · intro self
    by_cases hs : tcb.m_segmentSize = 0
    · simp [TcpDcvegas.PktsAcked, TcpDcvegas.account, TcpSocketState.GetCwndInSegments, hz, hs]
    · simp [TcpDcvegas.PktsAcked, TcpDcvegas.account, TcpSocketState.GetCwndInSegments,
        networkQueue, hz, hs, hlt]
  · intro self
    by_cases hs : tcb.m_segmentSize = 0
    · simp [TcpDsdcc.PktsAcked, TcpDsdcc.account, TcpDsdcc.accountRtt,
        TcpSocketState.GetCwndInSegments, hz, hs]
    · simp [TcpDsdcc.PktsAcked, TcpDsdcc.account, TcpDsdcc.accountRtt,
        TcpSocketState.GetCwndInSegments, networkQueue, hz, hs, hlt]
  · intro ty self
    by_cases hs : tcb.m_segmentSize = 0
    · simp [TcpDstcp.PktsAcked, TcpDstcp.account, TcpDstcp.accountRtt,
        TcpSocketState.GetCwndInSegments, hz, hs]
    · simp [TcpDstcp.PktsAcked, TcpDstcp.account, TcpDstcp.accountRtt,
        TcpSocketState.GetCwndInSegments, networkQueue, hz, hs, hlt]

/-- C11, amended, at a sample of 50 microseconds against the minimum RTT of 100 microseconds of
`Example.tcb`: the three default instances end in the assertion failure. -/
theorem C11_fatal_below_min_rtt_witness :
    faultOf (TcpDcvegas.PktsAcked Example.dcvegas Example.tcb 1 Example.rtt50us) =
      some Fault.assertion ∧
    faultOf (TcpDsdcc.PktsAcked Example.dsdcc Example.tcb 1 Example.rtt50us) =
      some Fault.assertion ∧
    faultOf (TcpDstcp.PktsAcked NqAvgDecl.double Example.dstcp Example.tcb 1 Example.rtt50us) =
      some Fault.assertion := by
  have h := C11_fatal_below_min_rtt Example.tcb 1 Example.rtt50us (by decide!) (by decide!)
  refine ⟨?_, ?_, ?_⟩
  · rw [h.1 Example.dcvegas]
    decide!
  · rw [h.2.1 Example.dsdcc]
    decide!
  · rw [h.2.2 NqAvgDecl.double Example.dstcp]
    decide!

/-! ## C12: the initial alpha -/

/-- C12: in the three classes the initial-alpha setter returns exactly when `m_initialized` is
false, and then sets `m_alpha` (in TcpDsdcc and TcpDstcp also `m_alpha_ecn` and
`m_alpha_rtt`) to the given value and nothing else; when `m_initialized` is true it ends in
`NS_ABORT_MSG_IF` before any assignment.  The constructor clears the flag, so the setter is
accepted on a new instance; `Init` sets it, the copy constructor copies it and `PktsAcked`
keeps it, so the setter is rejected after `Init`, after `Init` and any `PktsAcked`, and on
the fork of an initialised instance. -/
theorem C12_initial_alpha (alpha : ℚ) (tcb : TcpSocketState) :
    (∀ raw self : TcpDcvegas,
      ((∃ s, self.InitializeDcvegasAlpha alpha = .ok s) ↔ self.m_initialized = false) ∧
      (self.m_initialized = false →
        self.InitializeDcvegasAlpha alpha = .ok { self with m_alpha := alpha }) ∧
      (self.m_initialized = true → self.InitializeDcvegasAlpha alpha = .error Fault.abort) ∧
      (TcpDcvegas.construct raw).InitializeDcvegasAlpha alpha =
        .ok { TcpDcvegas.construct raw with m_alpha := alpha } ∧
      (self.Init tcb).1.InitializeDcvegasAlpha alpha = .error Fault.abort ∧
      (TcpDcvegas.Fork raw (self.Init tcb).1).2.InitializeDcvegasAlpha alpha =
        .error Fault.abort ∧
      (∀ (tcb2 : TcpSocketState) (n : Nat) (rtt : Time) (out : Outcome TcpDcvegas),
        TcpDcvegas.PktsAcked (self.Init tcb).1 tcb2 n rtt = .ok out →
        out.self.InitializeDcvegasAlpha alpha = .error Fault.abort)) ∧
    (∀ raw self : TcpDsdcc,
      ((∃ s, self.InitializeDsdccAlpha alpha = .ok s) ↔ self.m_initialized = false) ∧
      (self.m_initialized = false →
        self.InitializeDsdccAlpha alpha =
          .ok { self with m_alpha_ecn := alpha, m_alpha_rtt := alpha, m_alpha := alpha }) ∧
      (self.m_initialized = true → self.InitializeDsdccAlpha alpha = .error Fault.abort) ∧
      (TcpDsdcc.construct raw).InitializeDsdccAlpha alpha =
        .ok { TcpDsdcc.construct raw with
          m_alpha_ecn := alpha, m_alpha_rtt := alpha, m_alpha := alpha } ∧
      (self.Init tcb).1.InitializeDsdccAlpha alpha = .error Fault.abort ∧
      (TcpDsdcc.Fork raw (self.Init tcb).1).2.InitializeDsdccAlpha alpha =
        .error Fault.abort ∧
      (∀ (tcb2 : TcpSocketState) (n : Nat) (rtt : Time) (out : Outcome TcpDsdcc),
        TcpDsdcc.PktsAcked (self.Init tcb).1 tcb2 n rtt = .ok out →
        out.self.InitializeDsdccAlpha alpha = .error Fault.abort)) ∧
    (∀ raw self : TcpDstcp,
      ((∃ s, self.InitializeDstcpAlpha alpha = .ok s) ↔ self.m_initialized = false) ∧
      (self.m_initialized = false →
        self.InitializeDstcpAlpha alpha =
          .ok { self with m_alpha_ecn := alpha, m_alpha_rtt := alpha, m_alpha := alpha }) ∧
      (self.m_initialized = true → self.InitializeDstcpAlpha alpha = .error Fault.abort) ∧
      (TcpDstcp.construct raw).InitializeDstcpAlpha alpha =
        .ok { TcpDstcp.construct raw with
          m_alpha_ecn := alpha, m_alpha_rtt := alpha, m_alpha := alpha } ∧
      (self.Init tcb).1.InitializeDstcpAlpha alpha = .error Fault.abort ∧
      (TcpDstcp.Fork raw (self.Init tcb).1).2.InitializeDstcpAlpha alpha =
        .error Fault.abort ∧
      (∀ (ty : NqAvgDecl) (tcb2 : TcpSocketState) (n : Nat) (rtt : Time)
        (out : Outcome TcpDstcp),
        TcpDstcp.PktsAcked ty (self.Init tcb).1 tcb2 n rtt = .ok out →
        out.self.InitializeDstcpAlpha alpha = .error Fault.abort)) := by
  refine ⟨?_, ?_, ?_⟩
  · intro raw self
    have hrej : ∀ s : TcpDcvegas, s.m_initialized = true →
        s.InitializeDcvegasAlpha alpha = .error Fault.abort := by
      intro s hs
      simp [TcpDcvegas.InitializeDcvegasAlpha, hs]
    have hacc : ∀ s : TcpDcvegas, s.m_initialized = false →
        s.InitializeDcvegasAlpha alpha = .ok { s with m_alpha := alpha } := by
      intro s hs
      simp [TcpDcvegas.InitializeDcvegasAlpha, hs]
    refine ⟨⟨?_, fun hs => ⟨_, hacc self hs⟩⟩, hacc self, hrej self, hacc _ rfl, hrej _ rfl,
      hrej _ rfl, ?_⟩
    · rintro ⟨s, hs⟩
      cases hi : self.m_initialized
      · rfl
      · rw [hrej self hi] at hs
        cases hs
    · intro tcb2 n rtt out h
      exact hrej _ ((PktsAcked_initialized_dcvegas h).trans rfl)
  · intro raw self
    have hrej : ∀ s : TcpDsdcc, s.m_initialized = true →
        s.InitializeDsdccAlpha alpha = .error Fault.abort := by
      intro s hs
      simp [TcpDsdcc.InitializeDsdccAlpha, hs]
    have hacc : ∀ s : TcpDsdcc, s.m_initialized = false →
        s.InitializeDsdccAlpha alpha =
          .ok { s with m_alpha_ecn := alpha, m_alpha_rtt := alpha, m_alpha := alpha } := by
      intro s hs
      simp [TcpDsdcc.InitializeDsdccAlpha, hs]
    refine ⟨⟨?_, fun hs => ⟨_, hacc self hs⟩⟩, hacc self, hrej self, hacc _ rfl, hrej _ rfl,
      hrej _ rfl, ?_⟩
    · rintro ⟨s, hs⟩
      cases hi : self.m_initialized
      · rfl
      · rw [hrej self hi] at hs
        cases hs
    · intro tcb2 n rtt out h
      exact hrej _ ((PktsAcked_initialized_dsdcc h).trans rfl)
  · intro raw self
    have hrej : ∀ s : TcpDstcp, s.m_initialized = true →
        s.InitializeDstcpAlpha alpha = .error Fault.abort := by
      intro s hs
      simp [TcpDstcp.InitializeDstcpAlpha, hs]
    have hacc : ∀ s : TcpDstcp, s.m_initialized = false →
        s.InitializeDstcpAlpha alpha =
          .ok { s with m_alpha_ecn := alpha, m_alpha_rtt := alpha, m_alpha := alpha } := by
      intro s hs
      simp [TcpDstcp.InitializeDstcpAlpha, hs]
    refine ⟨⟨?_, fun hs => ⟨_, hacc self hs⟩⟩, hacc self, hrej self, hacc _ rfl, hrej _ rfl,
      hrej _ rfl, ?_⟩
    · rintro ⟨s, hs⟩
      cases hi : self.m_initialized
      · rfl
      · rw [hrej self hi] at hs
        cases hs
    · intro ty tcb2 n rtt out h
      exact hrej _ ((PktsAcked_initialized_dstcp h).trans rfl)

/-- C12 at the default instances, not yet initialised, and the value 1/2: the setter returns
with the alphas set to 1/2; after `Init` and the window close of `Example.dcvegasClosed` it is
rejected. -/
theorem C12_initial_alpha_witness :
    Example.dcvegas.InitializeDcvegasAlpha (1 / 2) =
      .ok { Example.dcvegas with m_alpha := 1 / 2 } ∧
    Example.dsdcc.InitializeDsdccAlpha (1 / 2) =
      .ok { Example.dsdcc with m_alpha_ecn := 1 / 2, m_alpha_rtt := 1 / 2, m_alpha := 1 / 2 } ∧
    Example.dstcp.InitializeDstcpAlpha (1 / 2) =
      .ok { Example.dstcp with m_alpha_ecn := 1 / 2, m_alpha_rtt := 1 / 2, m_alpha := 1 / 2 } ∧
    ({ Example.dcvegasClosed.self with m_initialized := true } :
      TcpDcvegas).InitializeDcvegasAlpha (1 / 2) = .error Fault.abort :=
  have h := C12_initial_alpha (1 / 2) Example.tcb
  ⟨(h.1 Example.dcvegas Example.dcvegas).2.1 rfl,
    (h.2.1 Example.dsdcc Example.dsdcc).2.1 rfl,
    (h.2.2 Example.dstcp Example.dstcp).2.1 rfl,
    (h.1 Example.dcvegas Example.dcvegasMidWindow).2.2.2.2.2.2 Example.tcbLater 1
      Example.rttZero
      { Example.dcvegasClosed with
        self := { Example.dcvegasClosed.self with m_initialized := true } }
      (ok_of_toOption (by decide!))⟩

/-! ## C13: the division by the RTT sample -/

/-- C13: a non-zero RTT sample of 500 nanoseconds, not below the minimum RTT of 300
nanoseconds, is 0 in whole microseconds: the assertion passes and the division
`segCwnd * (current_rtt - base_rtt) / current_rtt` is a division by zero in the three
classes. -/
theorem C13_sub_microsecond_sample_divides_by_zero :
    Example.rtt500ns.IsZero = false ∧
    Example.tcbMinRtt300ns.m_minRtt.m_data ≤ Example.rtt500ns.m_data ∧
    Example.rtt500ns.GetMicroSeconds = 0 ∧
    faultOf (TcpDcvegas.PktsAcked Example.dcvegas Example.tcbMinRtt300ns 1 Example.rtt500ns) =
      some Fault.divideByZero ∧
    faultOf (TcpDsdcc.PktsAcked Example.dsdcc Example.tcbMinRtt300ns 1 Example.rtt500ns) =
      some Fault.divideByZero ∧
    faultOf (TcpDstcp.PktsAcked NqAvgDecl.double Example.dstcp Example.tcbMinRtt300ns 1
      Example.rtt500ns) = some Fault.divideByZero ∧
    faultOf (TcpDstcp.PktsAcked NqAvgDecl.int32 Example.dstcp Example.tcbMinRtt300ns 1
      Example.rtt500ns) = some Fault.divideByZero := by
  refine ⟨?_, ?_, ?_, ?_, ?_, ?_, ?_⟩ <;> decide!

/-! ## C14: the division by the drain period -/

/-- C14: with `DrainCycle = 0`, or with `DrainCycle = DrainCycleScale = 65536` whose 32-bit
product is 0, the first window close of TcpDstcp evaluates `m_round % 0`: the call ends in a
division by zero. -/
theorem C14_zero_drain_period_divides_by_zero :
    TcpDstcp.drainPeriod Example.dstcpCycle0 = 0 ∧
    TcpDstcp.drainPeriod Example.dstcpCycleWrap = 0 ∧
    (∀ ty : NqAvgDecl,
      faultOf (TcpDstcp.PktsAcked ty Example.dstcpCycle0 Example.tcb 1 Example.rttZero) =
        some Fault.divideByZero ∧
      faultOf (TcpDstcp.PktsAcked ty Example.dstcpCycleWrap Example.tcb 1 Example.rttZero) =
        some Fault.divideByZero) := by
  refine ⟨by decide!, by decide!, ?_⟩
  intro ty
  cases ty <;> constructor <;> decide!

/-! ## C15: drain periodicity -/

/-- C15: take a TcpDstcp instance with round counter 0, no signal, `DrainCycle = 8` and
`DrainCycleScale = 1` (what the constructor sets), any run of `PktsAcked` calls from it, and a
next call that closes a window, the n-th one, where `n - 1` windows were closed along the run.
That call enters the `switch` with `drain_sig` if and only if `n` is a multiple of 8 and
`cwnd` exceeds the drain target, which is `m_drain_cwnd * m_drain_cwnd_scale * segmentSize`
of the initial configuration converted to `uint32_t`; the signal of the window plays no
part. -/
theorem C15_drain_periodicity (ty : NqAvgDecl) (s0 s : TcpDstcp) (acks : List Ack) (a : Ack)
    (sig : TcpDstcp.Signal) (hround : s0.m_round = 0) (hcycle : s0.m_drain_cycle = 8)
    (hscale : s0.m_drain_cycle_scale = 1) (hsig0 : s0.m_signal = TcpDstcp.Signal.non_sig)
    (hrun : TcpDstcp.run ty s0 acks = .ok s)
    (hnth : TcpDstcp.closingSignal ty s a.tcb a.segmentsAcked a.rtt = some sig) :
    (sig = TcpDstcp.Signal.drain_sig ↔
      8 ∣ TcpDstcp.closedWindows ty s0 acks + 1 ∧
        a.tcb.m_cWnd > castU32 (s0.m_drain_cwnd * (s0.m_drain_cwnd_scale : ℚ) *
          (a.tcb.m_segmentSize : ℚ))) ∧
    (TcpDstcp.construct s0).m_round = 0 ∧ (TcpDstcp.construct s0).m_drain_cycle = 8 ∧
    (TcpDstcp.construct s0).m_drain_cycle_scale = 1 ∧
    (TcpDstcp.construct s0).m_signal = TcpDstcp.Signal.non_sig := by
  refine ⟨?_, rfl, rfl, rfl, rfl⟩
  obtain ⟨d1, d2, d3, d4, d5, d6, d7⟩ :=
    run_round_dstcp ty acks s0 s (by rw [hround]; decide) hcycle hscale
      (by rw [hsig0]; decide) hrun
  rw [hround, Nat.zero_add] at d5
  have hper : TcpDstcp.drainPeriod s = 8 := drainPeriod_eight_dstcp d2 d3
  have hnth' := hnth
  unfold TcpDstcp.closingSignal at hnth'
  cases hacc : TcpDstcp.account ty s a.tcb a.segmentsAcked a.rtt with
  | error e => rw [hacc] at hnth'; cases hnth'
  | ok s1 =>
    obtain ⟨hge, hper0⟩ := closingSignal_some_dstcp hacc hnth
    obtain ⟨s2, -, hcs, hs2, -⟩ := close_core_dstcp hacc hge hper0
    rw [hcs] at hnth
    simp only [Option.some.injEq] at hnth
    have hs1 : s1.m_signal ≠ TcpDstcp.Signal.drain_sig := by
      rcases account_signal_dstcp hacc with e | e | e
      · rw [e]; exact d4
      · rw [e]; decide
      · rw [e]; decide
    have hw : wrapU32 (s.m_round + 1) = s.m_round + 1 := by
      unfold wrapU32
      exact Nat.mod_eq_of_lt (by omega)
    have htarget : TcpDstcp.drainTarget s a.tcb =
        castU32 (s0.m_drain_cwnd * (s0.m_drain_cwnd_scale : ℚ) * (a.tcb.m_segmentSize : ℚ)) := by
      unfold TcpDstcp.drainTarget
      rw [d6, d7]
    have hfire : TcpDstcp.drainFires s a.tcb = true ↔
        8 ∣ TcpDstcp.closedWindows ty s0 acks + 1 ∧
          a.tcb.m_cWnd > castU32 (s0.m_drain_cwnd * (s0.m_drain_cwnd_scale : ℚ) *
            (a.tcb.m_segmentSize : ℚ)) := by
      unfold TcpDstcp.drainFires
      rw [hper, hw, htarget, d5]
      simp only [Bool.and_eq_true, decide_eq_true_eq]
      constructor
      · rintro ⟨h1, h2⟩
        exact ⟨by omega, h2⟩
      · rintro ⟨h1, h2⟩
        exact ⟨by omega, h2⟩
    rw [← hnth, hs2, ← hfire]
    by_cases hf : TcpDstcp.drainFires s a.tcb = true
    · rw [if_pos hf]
      exact ⟨fun _ => hf, fun _ => rfl⟩
    · rw [if_neg hf]
      constructor
      · intro h
        exfalso
        by_cases hear : s1.m_signal = TcpDstcp.Signal.ecn_sig ∧ s1.m_nq_avg ≥ (s.m_nq_k2 : ℚ)
        · rw [if_pos hear] at h
          cases h
        · rw [if_neg hear] at h
          exact hs1 h
      · intro h
        exact absurd h hf

/-- C15 at the default configuration with `g = 0`: after the seven window closes of
`Example.acksSeven` an eighth closing call with a window of 7000 bytes, above the drain target
5500, enters the `switch` with `drain_sig`, and 8 divides the number of the window. -/
theorem C15_drain_periodicity_witness :
    8 ∣ TcpDstcp.closedWindows NqAvgDecl.double Example.dstcpG0 Example.acksSeven + 1 ∧
      Example.ackClosing.tcb.m_cWnd > castU32 (Example.dstcpG0.m_drain_cwnd *
        (Example.dstcpG0.m_drain_cwnd_scale : ℚ) * (Example.ackClosing.tcb.m_segmentSize : ℚ)) :=
  (C15_drain_periodicity NqAvgDecl.double Example.dstcpG0 Example.dstcpG0Round7
    Example.acksSeven Example.ackClosing TcpDstcp.Signal.drain_sig rfl rfl rfl rfl
    (ok_of_toOption (by decide!)) (by decide!)).1.mp rfl

/-! ## C16: the signal with which a window of TcpDstcp closes -/

/-- C16, as stated, fails: in the window `Example.acksEceThenDelay` the first acknowledgment
arrives in the echo-received state and leaves the signal `ecn_sig`; the second, without echo
and delay-marked, overwrites it and closes the window through the `rtt_sig` branch (`cwnd`
goes from 7000 to 6968, `alpha` is not set), although the drain rule does not fire. -/
theorem C16_ecn_then_delay_closes_with_delay :
    (TcpDstcp.PktsAcked NqAvgDecl.double Example.dstcp
      { Example.tcbInFlight with m_ecnState := EcnState_t.ECN_ECE_RCVD } 1
      Example.rttZero).toOption.map (fun out => (out.self, out.trace.length)) =
      some (Example.dstcpEceFirst, 0) ∧
    Example.dstcpEceFirst.m_signal = TcpDstcp.Signal.ecn_sig ∧
    Example.dstcpEceFirst.m_ackedBytesEcn = 1000 ∧
    TcpDstcp.drainFires Example.dstcpEceFirst Example.tcbLater = false ∧
    TcpDstcp.closingSignal NqAvgDecl.double Example.dstcpEceFirst Example.tcbLater 1
      Example.rtt1ms = some TcpDstcp.Signal.rtt_sig ∧
    TcpDstcp.closingSignal NqAvgDecl.int32 Example.dstcpEceFirst Example.tcbLater 1
      Example.rtt1ms = some TcpDstcp.Signal.rtt_sig ∧
    (TcpDstcp.PktsAcked NqAvgDecl.double Example.dstcpEceFirst Example.tcbLater 1
      Example.rtt1ms).toOption.map
      (fun out => (out.trace.length, out.tcb.m_cWnd, out.self.m_alpha)) =
      some (1, 6968, 1) := by
  refine ⟨?_, ?_, ?_, ?_, ?_, ?_, ?_⟩ <;> decide!

/-- C16, amended: the signal of a window of TcpDstcp is the one value `m_signal`, which the
accounting of each acknowledgment may overwrite: an acknowledgment in the echo-received state
leaves `ecn_sig` (also when it is delay-marked); one without echo leaves `rtt_sig` when it is
delay-marked (its queue estimate reaches `k1`) and the value it found otherwise.  At a window
close where the value left by the accounting is `ecn_sig` and the drain rule does not fire,
the window closes with `ear_sig` when `m_nq_avg >= k2` and with `ecn_sig` otherwise, never
with `rtt_sig`. -/
theorem C16_dstcp_signal_precedence (ty : NqAvgDecl) (self s1 : TcpDstcp)
    (tcb : TcpSocketState) (n : Nat) (rtt : Time)
    (hacc : TcpDstcp.account ty self tcb n rtt = .ok s1) :
    (tcb.m_ecnState = EcnState_t.ECN_ECE_RCVD → s1.m_signal = TcpDstcp.Signal.ecn_sig) ∧
    (tcb.m_ecnState ≠ EcnState_t.ECN_ECE_RCVD → rtt.IsZero = true →
      s1.m_signal = self.m_signal) ∧
    (tcb.m_ecnState ≠ EcnState_t.ECN_ECE_RCVD → rtt.IsZero = false →
      ∀ (segCwnd : Nat) (nq : Int), tcb.GetCwndInSegments = .ok segCwnd →
        networkQueue segCwnd rtt.GetMicroSeconds tcb.m_minRtt.GetMicroSeconds = .ok nq →
        s1.m_signal = if nq ≥ self.m_nq_k1 then TcpDstcp.Signal.rtt_sig else self.m_signal) ∧
    (∀ sig : TcpDstcp.Signal, s1.m_signal = TcpDstcp.Signal.ecn_sig →
      TcpDstcp.closingSignal ty self tcb n rtt = some sig →
      sig ≠ TcpDstcp.Signal.drain_sig →
      sig = (if s1.m_nq_avg ≥ (self.m_nq_k2 : ℚ) then TcpDstcp.Signal.ear_sig
        else TcpDstcp.Signal.ecn_sig) ∧
      sig ≠ TcpDstcp.Signal.rtt_sig) := by
  obtain ⟨r1, r2, r3⟩ := account_signal_rules_dstcp hacc
  refine ⟨r1, r2, r3, ?_⟩
  intro sig hsig hcs hnd
  obtain ⟨hclose, hper⟩ := closingSignal_some_dstcp hacc hcs
  obtain ⟨s2, -, hcs2, hs, -⟩ := close_core_dstcp hacc hclose hper
  rw [hcs2] at hcs
  cases hcs
  rw [hs] at hnd ⊢
  by_cases hfire : TcpDstcp.drainFires self tcb = true
  · simp [hfire] at hnd
  · by_cases havg : s1.m_nq_avg ≥ (self.m_nq_k2 : ℚ)
    · simp [hfire, hsig, havg]
    · simp [hfire, hsig, havg]

/-- C16, amended, at an acknowledgment that arrives in the echo-received state and is
delay-marked (queue estimate 6 against `k1 = 5`), and at the window `Example.dstcpEar` closing
with average queue estimate 25: the accounting leaves `ecn_sig`, and the window closes with
`ear_sig`. -/
theorem C16_dstcp_signal_precedence_witness :
    ({ Example.dstcpEceFirst with
        m_ackedBytesEcn := 2000, m_ackedBytesRtt := 1000, m_ackedBytesTotal := 2000
        m_nq_avg := 6, m_last_minRtt := 1000 } : TcpDstcp).m_signal =
      TcpDstcp.Signal.ecn_sig ∧
    (TcpDstcp.Signal.ear_sig =
        (if Example.dstcpEar.m_nq_avg ≥ (Example.dstcpEar.m_nq_k2 : ℚ) then
          TcpDstcp.Signal.ear_sig
        else TcpDstcp.Signal.ecn_sig) ∧
      TcpDstcp.Signal.ear_sig ≠ TcpDstcp.Signal.rtt_sig) :=
  ⟨(C16_dstcp_signal_precedence NqAvgDecl.double Example.dstcpEceFirst
      { Example.dstcpEceFirst with
        m_ackedBytesEcn := 2000, m_ackedBytesRtt := 1000, m_ackedBytesTotal := 2000
        m_nq_avg := 6, m_last_minRtt := 1000 }
      { Example.tcbInFlight with m_ecnState := EcnState_t.ECN_ECE_RCVD } 1 Example.rtt1ms
      (ok_of_toOption (by decide!))).1 rfl,
    (C16_dstcp_signal_precedence NqAvgDecl.double Example.dstcpEar Example.dstcpEar
      Example.tcbLater 0 Example.rttZero (ok_of_toOption (by decide!))).2.2.2
      TcpDstcp.Signal.ear_sig rfl (by decide!) (by decide)⟩

/-! ## C17, C18, C19: the branches of the window close of TcpDstcp -/

/-- C17: a `PktsAcked` call of TcpDstcp whose accounting gives the instance `s1` with signal
`ecn_sig` and `m_nq_avg >= m_nq_k2`, that finds `m_lastAckedSeq >= m_nextSeq` and at which the
drain rule does not fire, returns through the `ear_sig` branch: `alphaEcn` and `alphaRtt` are
the two averages `(1 - g) * old + g * fraction` of the window, `alpha` is their sum, and the
control block (`cwnd`, `ssthresh`, `cwndInfl`) is unchanged. -/
theorem C17_dstcp_both_branch (ty : NqAvgDecl) (self s1 : TcpDstcp) (tcb : TcpSocketState)
    (n : Nat) (rtt : Time) (hacc : TcpDstcp.account ty self tcb n rtt = .ok s1)
    (hclose : SequenceNumber32.ge tcb.m_lastAckedSeq (TcpDstcp.latch s1 tcb).m_nextSeq = true)
    (hsig : s1.m_signal = TcpDstcp.Signal.ecn_sig)
    (havg : s1.m_nq_avg ≥ (self.m_nq_k2 : ℚ))
    (hper : TcpDstcp.drainPeriod self ≠ 0) (hnd : TcpDstcp.drainFires self tcb = false) :
    ∃ out, TcpDstcp.PktsAcked ty self tcb n rtt = .ok out ∧
      TcpDstcp.closingSignal ty self tcb n rtt = some TcpDstcp.Signal.ear_sig ∧
      out.self.m_alpha_ecn = (1 - self.m_g) * self.m_alpha_ecn + self.m_g *
        (if s1.m_ackedBytesTotal = 0 then 0
          else (s1.m_ackedBytesEcn : ℚ) / (s1.m_ackedBytesTotal : ℚ)) ∧
      out.self.m_alpha_rtt = (1 - self.m_g) * self.m_alpha_rtt + self.m_g *
        (if s1.m_ackedBytesTotal = 0 then 0
          else (s1.m_ackedBytesRtt : ℚ) / (s1.m_ackedBytesTotal : ℚ)) ∧
      out.self.m_alpha = out.self.m_alpha_ecn + out.self.m_alpha_rtt ∧
      out.tcb = tcb ∧
      (out.tcb.m_cWnd = tcb.m_cWnd ∧ out.tcb.m_ssThresh = tcb.m_ssThresh ∧
        out.tcb.m_cWndInfl = tcb.m_cWndInfl) := by
  obtain ⟨s2, hp, hcs, hs, -, he, hr, -, -⟩ := close_core_dstcp hacc hclose hper
  have hs2 : s2.m_signal = TcpDstcp.Signal.ear_sig := by
    rw [hs]
    simp [hnd, hsig, havg]
  obtain ⟨f1, f2, -⟩ := react_self_fields_dstcp s2 tcb
  obtain ⟨b1, b2⟩ := (react_branches_dstcp s2 tcb).1 hs2
  refine ⟨TcpDstcp.react s2 tcb, hp, by rw [hcs, hs2], ?_, ?_, ?_, b1, ?_⟩
  · rw [f1, he, bytesEcn_eq_dstcp]
  · rw [f2, hr, bytesRtt_eq_dstcp]
  · rw [b2, f1, f2]
  · rw [b1]
    exact ⟨rfl, rfl, rfl⟩

/-- C17 at `Example.dstcpEar`, a window with 4000 ECN-marked and 2000 delay-marked bytes out
of 8000 and average queue estimate 25 against `k2 = 20`: `alphaEcn = 31/32`,
`alphaRtt = 61/64`, `alpha = 123/64`, and `cwnd` stays 7000. -/
theorem C17_dstcp_both_branch_witness :
    ∃ out, TcpDstcp.PktsAcked NqAvgDecl.double Example.dstcpEar Example.tcbLater 0
        Example.rttZero = .ok out ∧
      out.self.m_alpha_ecn = 31 / 32 ∧ out.self.m_alpha_rtt = 61 / 64 ∧
      out.self.m_alpha = 123 / 64 ∧ out.tcb.m_cWnd = 7000 := by
  obtain ⟨out, h1, -, h3, h4, h5, h6, -⟩ :=
    C17_dstcp_both_branch NqAvgDecl.double Example.dstcpEar Example.dstcpEar Example.tcbLater 0
      Example.rttZero (ok_of_toOption (by decide!)) (by decide!) rfl (by decide!) (by decide!)
      (by decide!)
  have he : out.self.m_alpha_ecn = 31 / 32 := by
    rw [h3]
    decide!
  have hr : out.self.m_alpha_rtt = 61 / 64 := by
    rw [h4]
    decide!
  refine ⟨out, h1, he, hr, ?_, ?_⟩
  · rw [h5, he, hr]
    norm_num
  · rw [h6]
    rfl

/-- C18: a `PktsAcked` call of TcpDstcp whose accounting gives the instance `s1` with signal
`rtt_sig`, that finds `m_lastAckedSeq >= m_nextSeq` and at which the drain rule does not fire,
returns through the `rtt_sig` branch: `alphaRtt` is the average of the window, `cwnd` is
`cwnd - (1 - alphaRtt) * segmentSize` with that new `alphaRtt`, converted to `uint32_t`, and
`ssthresh` and `cwndInfl` equal the new `cwnd`; `alpha` is not touched. -/
theorem C18_dstcp_delay_branch (ty : NqAvgDecl) (self s1 : TcpDstcp) (tcb : TcpSocketState)
    (n : Nat) (rtt : Time) (hacc : TcpDstcp.account ty self tcb n rtt = .ok s1)
    (hclose : SequenceNumber32.ge tcb.m_lastAckedSeq (TcpDstcp.latch s1 tcb).m_nextSeq = true)
    (hsig : s1.m_signal = TcpDstcp.Signal.rtt_sig)
    (hper : TcpDstcp.drainPeriod self ≠ 0) (hnd : TcpDstcp.drainFires self tcb = false) :
    ∃ out, TcpDstcp.PktsAcked ty self tcb n rtt = .ok out ∧
      TcpDstcp.closingSignal ty self tcb n rtt = some TcpDstcp.Signal.rtt_sig ∧
      out.self.m_alpha_rtt = (1 - self.m_g) * self.m_alpha_rtt + self.m_g *
        (if s1.m_ackedBytesTotal = 0 then 0
          else (s1.m_ackedBytesRtt : ℚ) / (s1.m_ackedBytesTotal : ℚ)) ∧
      out.tcb.m_cWnd =
        castU32 ((tcb.m_cWnd : ℚ) - (1 - out.self.m_alpha_rtt) * (tcb.m_segmentSize : ℚ)) ∧
      out.tcb.m_ssThresh = out.tcb.m_cWnd ∧ out.tcb.m_cWndInfl = out.tcb.m_cWnd ∧
      out.self.m_alpha = self.m_alpha := by
  obtain ⟨s2, hp, hcs, hs, -, -, hr, ha, -⟩ := close_core_dstcp hacc hclose hper
  have hs2 : s2.m_signal = TcpDstcp.Signal.rtt_sig := by
    rw [hs]
    simp [hnd, hsig]
  obtain ⟨-, f2, -⟩ := react_self_fields_dstcp s2 tcb
  obtain ⟨b1, b2⟩ := (react_branches_dstcp s2 tcb).2.2.2.1 hs2
  refine ⟨TcpDstcp.react s2 tcb, hp, by rw [hcs, hs2], ?_, ?_, ?_, ?_, ?_⟩
  · rw [f2, hr, bytesRtt_eq_dstcp]
  · rw [b1, f2]
  · rw [b1]
  · rw [b1]
  · rw [b2, ha]

/-- C18 at `Example.dstcpMidWindow`, one more segment acknowledged: `alphaRtt = 31/32` and the
window goes from 7000 to `7000 - 1000/32 = 6968.75`, truncated to 6968. -/
theorem C18_dstcp_delay_branch_witness :
    ∃ out, TcpDstcp.PktsAcked NqAvgDecl.double Example.dstcpMidWindow Example.tcbLater 1
        Example.rttZero = .ok out ∧
      out.self.m_alpha_rtt = 31 / 32 ∧ out.tcb.m_cWnd = 6968 ∧ out.tcb.m_ssThresh = 6968 ∧
      out.tcb.m_cWndInfl = 6968 := by
  obtain ⟨out, h1, -, h3, h4, h5, h6, -⟩ :=
    C18_dstcp_delay_branch NqAvgDecl.double Example.dstcpMidWindow
      { Example.dstcpMidWindow with m_ackedBytesTotal := 2000 } Example.tcbLater 1
      Example.rttZero (ok_of_toOption (by decide!)) (by decide!) rfl (by decide!) (by decide!)
  have hr : out.self.m_alpha_rtt = 31 / 32 := by
    rw [h3]
    decide!
  have hc : out.tcb.m_cWnd = 6968 := by
    rw [h4, hr]
    decide!
  exact ⟨out, h1, hr, hc, by rw [h5, hc], by rw [h6, hc]⟩

/-- C19: a `PktsAcked` call of TcpDstcp whose accounting succeeds, that finds
`m_lastAckedSeq >= m_nextSeq`, whose incremented round counter is a multiple of the (non-zero)
period `m_drain_cycle * m_drain_cycle_scale` and whose `cwnd` exceeds the drain target,
returns through the `drain_sig` branch whatever the signal of the window was: `cwnd`,
`ssthresh` and `cwndInfl` are the drain target `m_drain_cwnd * m_drain_cwnd_scale *
segmentSize` converted to `uint32_t`, `alpha` is not touched, and the round counter is 0. -/
theorem C19_dstcp_drain_branch (ty : NqAvgDecl) (self s1 : TcpDstcp) (tcb : TcpSocketState)
    (n : Nat) (rtt : Time) (hacc : TcpDstcp.account ty self tcb n rtt = .ok s1)
    (hclose : SequenceNumber32.ge tcb.m_lastAckedSeq (TcpDstcp.latch s1 tcb).m_nextSeq = true)
    (hper : TcpDstcp.drainPeriod self ≠ 0)
    (hround : wrapU32 (self.m_round + 1) % TcpDstcp.drainPeriod self = 0)
    (hcwnd : tcb.m_cWnd > TcpDstcp.drainTarget self tcb) :
    ∃ out, TcpDstcp.PktsAcked ty self tcb n rtt = .ok out ∧
      TcpDstcp.closingSignal ty self tcb n rtt = some TcpDstcp.Signal.drain_sig ∧
      out.tcb.m_cWnd = TcpDstcp.drainTarget self tcb ∧
      out.tcb.m_ssThresh = TcpDstcp.drainTarget self tcb ∧
      out.tcb.m_cWndInfl = TcpDstcp.drainTarget self tcb ∧
      TcpDstcp.drainTarget self tcb =
        castU32 (self.m_drain_cwnd * (self.m_drain_cwnd_scale : ℚ) * (tcb.m_segmentSize : ℚ)) ∧
      out.self.m_alpha = self.m_alpha ∧ out.self.m_round = 0 := by
  obtain ⟨s2, hp, hcs, hs, hrd, -, -, ha, ht, -⟩ := close_core_dstcp hacc hclose hper
  have hfire : TcpDstcp.drainFires self tcb = true := by
    simp [TcpDstcp.drainFires, hround, hcwnd]
  have hs2 : s2.m_signal = TcpDstcp.Signal.drain_sig := by
    rw [hs]
    simp [hfire]
  obtain ⟨-, -, f3⟩ := react_self_fields_dstcp s2 tcb
  obtain ⟨b1, b2⟩ := (react_branches_dstcp s2 tcb).2.2.2.2 hs2
  refine ⟨TcpDstcp.react s2 tcb, hp, by rw [hcs, hs2], ?_, ?_, ?_, rfl, ?_, ?_⟩
  · rw [b1, ht]
  · rw [b1, ht]
  · rw [b1, ht]
  · rw [b2, ha]
  · rw [f3, hrd, if_pos hround]

/-- C19 at `Example.dstcpRound7`, seven windows into a cycle of 8, with a window of 100000
bytes, an ECN-marked acknowledgment and the drain window 5.5 segments of 1000 bytes: `cwnd`,
`ssthresh` and `cwndInfl` become 5500, `alpha` stays 1 and the round counter is 0. -/
theorem C19_dstcp_drain_branch_witness :
    ∃ out, TcpDstcp.PktsAcked NqAvgDecl.double Example.dstcpRound7 Example.tcbEce 1
        Example.rttZero = .ok out ∧
      out.tcb.m_cWnd = 5500 ∧ out.tcb.m_ssThresh = 5500 ∧ out.tcb.m_cWndInfl = 5500 ∧
      out.self.m_alpha = 1 ∧ out.self.m_round = 0 := by
  obtain ⟨out, h1, -, h3, h4, h5, -, h7, h8⟩ :=
    C19_dstcp_drain_branch NqAvgDecl.double Example.dstcpRound7
      { Example.dstcpRound7 with
        m_ackedBytesTotal := 1000, m_ackedBytesEcn := 1000
        m_signal := TcpDstcp.Signal.ecn_sig }
      Example.tcbEce 1 Example.rttZero (ok_of_toOption (by decide!)) (by decide!) (by decide!)
      (by decide!) (by decide!)
  have ht : TcpDstcp.drainTarget Example.dstcpRound7 Example.tcbEce = 5500 := by decide!
  exact ⟨out, h1, by rw [h3, ht], by rw [h4, ht], by rw [h5, ht], by rw [h7]; rfl, h8⟩

/-! ## C20: the window close of a short flow in TcpDsdcc -/

/-- C20: a `PktsAcked` call of TcpDsdcc on a `Mouse` flow whose accounting gives the instance
`s1` and that finds `m_lastAckedSeq >= m_nextSeq` returns with
`alphaEcn = (1 - g) * alphaEcn + g * fracEcn`, where `fracEcn` is
`m_ackedBytesEcn / m_ackedBytesTotal` of the window and 0 when the total is 0, with
`alpha = alphaEcn`, `alphaRtt` as it was, and the control block (`cwnd`, `ssthresh`)
unchanged, whatever the signal of the window. -/
theorem C20_dsdcc_short_flow_close (self s1 : TcpDsdcc) (tcb : TcpSocketState) (n : Nat)
    (rtt : Time) (hacc : TcpDsdcc.account self tcb n rtt = .ok s1)
    (hflow : tcb.m_flowMode = FlowMode_t.Mouse)
    (hclose : SequenceNumber32.ge tcb.m_lastAckedSeq (TcpDsdcc.latch s1 tcb).m_nextSeq = true) :
    ∃ out, TcpDsdcc.PktsAcked self tcb n rtt = .ok out ∧
      out.self.m_alpha_ecn = (1 - self.m_g) * self.m_alpha_ecn + self.m_g *
        (if s1.m_ackedBytesTotal = 0 then 0
          else (s1.m_ackedBytesEcn : ℚ) / (s1.m_ackedBytesTotal : ℚ)) ∧
      out.self.m_alpha = out.self.m_alpha_ecn ∧
      out.self.m_alpha_rtt = self.m_alpha_rtt ∧
      out.tcb = tcb := by
  refine ⟨TcpDsdcc.expireMouse (TcpDsdcc.latch s1 tcb) tcb, ?_, ?_, ?_, ?_, ?_⟩
  · rw [TcpDsdcc.PktsAcked_eq_dsdcc hacc, hflow]
    simp only [hclose, if_true]
  · obtain ⟨-, -, -, -, a5, -, a7, -⟩ := TcpDsdcc.account_spec_dsdcc hacc
    obtain ⟨-, l2, l3, -, l5, -, l7, -⟩ := TcpDsdcc.latch_fields_dsdcc s1 tcb
    rw [(TcpDsdcc.expireMouse_fields_dsdcc _ tcb).1]
    unfold TcpDsdcc.bytesEcn
    rw [l2, l3, l5, l7, a5, a7]
    by_cases h0 : s1.m_ackedBytesTotal = 0
    · simp [h0]
    · have hpos : s1.m_ackedBytesTotal > 0 := Nat.pos_of_ne_zero h0
      simp [h0, hpos]
  · exact (TcpDsdcc.expireMouse_fields_dsdcc _ tcb).2.1
  · obtain ⟨-, -, -, -, -, a6, -⟩ := TcpDsdcc.account_spec_dsdcc hacc
    obtain ⟨-, -, -, -, -, l6, -⟩ := TcpDsdcc.latch_fields_dsdcc s1 tcb
    rw [(TcpDsdcc.expireMouse_fields_dsdcc _ tcb).2.2.1, l6, a6]
  · exact (TcpDsdcc.expireMouse_fields_dsdcc _ tcb).2.2.2.2.2.2.2.2.2.1

/-- C20 at a window with 4000 ECN-marked bytes out of 8000, `g = 1/16`, `alphaEcn = 1` and
the delay signal set: `alphaEcn = alpha = 31/32 = 0.96875`, and `cwnd` and `ssthresh` are as
before. -/
theorem C20_dsdcc_short_flow_close_witness :
    ∃ out, TcpDsdcc.PktsAcked Example.dsdccMouse Example.tcbMouse 0 Example.rttZero = .ok out ∧
      out.self.m_alpha_ecn = 31 / 32 ∧ out.self.m_alpha = 31 / 32 ∧
      out.tcb.m_cWnd = 7000 ∧ out.tcb.m_ssThresh = 65535 := by
  obtain ⟨out, h1, h2, h3, -, h5⟩ :=
    C20_dsdcc_short_flow_close Example.dsdccMouse Example.dsdccMouse Example.tcbMouse 0
      Example.rttZero (ok_of_toOption (by decide!)) rfl (by decide!)
  have he : out.self.m_alpha_ecn = 31 / 32 := by
    rw [h2]
    decide!
  refine ⟨out, h1, he, by rw [h3, he], ?_, ?_⟩
  · rw [h5]
    rfl
  · rw [h5]
    rfl

/-! ## TcpDsdcc on a long flow and TcpDcvegas, side by side -/

/-- The accounting of TcpDsdcc and of TcpDcvegas on instances that agree on the delay members:
both end in the same fault, or both return and the instances agree again.  The mark state of
the control block and the ECN counter play no part. -/
theorem account_sim {d : TcpDsdcc} {v : TcpDcvegas} (h : delayAgree d v)
    {tcb tcbE : TcpSocketState} {e : EcnState_t} (htE : tcbE = { tcb with m_ecnState := e })
    (n : Nat) (rtt : Time) :
    (∃ f, TcpDsdcc.account d tcbE n rtt = .error f ∧
        TcpDcvegas.account v tcb n rtt = .error f) ∨
      (∃ sd sv, TcpDsdcc.account d tcbE n rtt = .ok sd ∧
        TcpDcvegas.account v tcb n rtt = .ok sv ∧ delayAgree sd sv) := by
  subst htE
  obtain ⟨h1, h2, h3, h4, h5, h6, h7, h8⟩ := h
  unfold TcpDsdcc.account TcpDsdcc.accountRtt TcpDsdcc.accountEcn TcpDcvegas.account
    TcpSocketState.GetCwndInSegments
  simp only
  by_cases hz : rtt.IsZero = true
  · right
    simp only [hz, if_true]
    by_cases he : e = EcnState_t.ECN_ECE_RCVD
    · simp only [he, if_true]
      exact ⟨_, _, rfl, rfl, ⟨h1, by simp only [ackedBytes, h2], h3, h4, h5, h6, h7, h8⟩⟩
    · simp only [he, if_false]
      exact ⟨_, _, rfl, rfl, ⟨h1, by simp only [ackedBytes, h2], h3, h4, h5, h6, h7, h8⟩⟩
  · simp only [hz]
    by_cases hs : tcb.m_segmentSize = 0
    · left
      simp [hs]
    · simp only [hs, if_false]
      cases hq : networkQueue (tcb.m_cWnd / tcb.m_segmentSize) rtt.GetMicroSeconds
          tcb.m_minRtt.GetMicroSeconds with
      | error f =>
        left
        simp
      | ok nq =>
        right
        simp only [Bool.false_eq_true, if_false]
        by_cases hk : nq ≥ v.m_nq_k
        · have hk2 : nq ≥ d.m_nq_k := by rw [h7]; exact hk
          simp only [hk, hk2, if_true]
          by_cases he : e = EcnState_t.ECN_ECE_RCVD
          · simp only [he, if_true]
            refine ⟨_, _, rfl, rfl, ⟨?_, ?_, ?_, h4, h5, h6, h7, h8⟩⟩
            · simp only [ackedBytes, h1]
            · simp only [ackedBytes, h2]
            · simp
          · simp only [he, if_false]
            refine ⟨_, _, rfl, rfl, ⟨?_, ?_, ?_, h4, h5, h6, h7, h8⟩⟩
            · simp only [ackedBytes, h1]
            · simp only [ackedBytes, h2]
            · simp
        · have hk2 : ¬ nq ≥ d.m_nq_k := by rw [h7]; exact hk
          simp only [hk, hk2, if_false]
          by_cases he : e = EcnState_t.ECN_ECE_RCVD
          · simp only [he, if_true]
            exact ⟨_, _, rfl, rfl, ⟨h1, by simp only [ackedBytes, h2], h3, h4, h5, h6, h7, h8⟩⟩
          · simp only [he, if_false]
            exact ⟨_, _, rfl, rfl, ⟨h1, by simp only [ackedBytes, h2], h3, h4, h5, h6, h7, h8⟩⟩

theorem latch_sim {d : TcpDsdcc} {v : TcpDcvegas} (h : delayAgree d v)
    {tcb tcbE : TcpSocketState} {e : EcnState_t} (htE : tcbE = { tcb with m_ecnState := e }) :
    delayAgree (TcpDsdcc.latch d tcbE) (TcpDcvegas.latch v tcb) := by
  subst htE
  obtain ⟨h1, h2, h3, h4, h5, h6, h7, h8⟩ := h
  unfold TcpDsdcc.latch TcpDcvegas.latch
  rw [h5]
  by_cases hf : v.m_nextSeqFlag = false
  · simp only [hf, if_true]
    exact ⟨h1, h2, h3, rfl, rfl, h6, h7, h8⟩
  · simp only [hf, if_false]
    exact ⟨h1, h2, h3, h4, h5, h6, h7, h8⟩

theorem expire_sim {d : TcpDsdcc} {v : TcpDcvegas} (h : delayAgree d v)
    {tcb tcbE : TcpSocketState} {e : EcnState_t} (htE : tcbE = { tcb with m_ecnState := e }) :
    (TcpDsdcc.expireElephant d tcbE).tcb =
        { (TcpDcvegas.expire v tcb).tcb with m_ecnState := e } ∧
      delayAgree (TcpDsdcc.expireElephant d tcbE).self (TcpDcvegas.expire v tcb).self ∧
      (TcpDsdcc.expireElephant d tcbE).trace = (TcpDcvegas.expire v tcb).trace := by
  subst htE
  obtain ⟨h1, h2, h3, h4, h5, h6, h7, h8⟩ := h
  have hb : TcpDsdcc.bytesRtt d = TcpDcvegas.bytesRtt v := by
    unfold TcpDsdcc.bytesRtt TcpDcvegas.bytesRtt
    rw [h1, h2]
  unfold TcpDsdcc.expireElephant TcpDcvegas.expire TcpDsdcc.Reset TcpDcvegas.Reset
  by_cases hs : v.m_signal = TcpDcvegas.Signal.rtt_sig
  · have hs2 : d.m_signal = TcpDsdcc.Signal.rtt_sig := h3.mpr hs
    simp only [hs, hs2, if_true, hb, h1, h2, h6, h8, delayAgree]
    simp [h5, h7]
  · have hs2 : ¬ d.m_signal = TcpDsdcc.Signal.rtt_sig := fun hd => hs (h3.mp hd)
    simp only [hs, hs2, if_false, hb, h1, h2, h6, h8, delayAgree]
    simp [h5, h7]

/-! ## C21: the long-flow rule of TcpDsdcc is the rule of TcpDcvegas -/

/-- C21: take a TcpDsdcc instance and a TcpDcvegas instance that agree on `m_ackedBytesRtt`,
`m_ackedBytesTotal`, the delay signal, `m_nextSeq`, `m_nextSeqFlag`, `m_g`, `m_nq_k` and the
tracked alpha (`m_alpha_rtt` against `m_alpha`), and one acknowledgment of an `Elephant`
flow, delivered to TcpDsdcc with any mark state `e` in the control block.  The two
`PktsAcked` calls end in the same fault, or both return: with the same control block (`cwnd`,
`ssthresh` and the rest, the mark state apart), instances that agree again, and the same
trace event.  The ECN counter of TcpDsdcc and the mark state are arbitrary. -/
theorem C21_long_flow_is_pure_delay (d : TcpDsdcc) (v : TcpDcvegas) (tcb : TcpSocketState)
    (e : EcnState_t) (n : Nat) (rtt : Time) (hagree : delayAgree d v)
    (hflow : tcb.m_flowMode = FlowMode_t.Elephant) :
    (∃ f, TcpDsdcc.PktsAcked d { tcb with m_ecnState := e } n rtt = .error f ∧
        TcpDcvegas.PktsAcked v tcb n rtt = .error f) ∨
      (∃ od ov, TcpDsdcc.PktsAcked d { tcb with m_ecnState := e } n rtt = .ok od ∧
        TcpDcvegas.PktsAcked v tcb n rtt = .ok ov ∧
        od.tcb = { ov.tcb with m_ecnState := e } ∧
        od.tcb.m_cWnd = ov.tcb.m_cWnd ∧ od.tcb.m_ssThresh = ov.tcb.m_ssThresh ∧
        delayAgree od.self ov.self ∧ od.trace = ov.trace) := by
  obtain ⟨tcbE, htE⟩ : ∃ t : TcpSocketState, t = { tcb with m_ecnState := e } := ⟨_, rfl⟩
  have hflowE : tcbE.m_flowMode = FlowMode_t.Elephant := by
    rw [htE]
    exact hflow
  have hackE : tcbE.m_lastAckedSeq = tcb.m_lastAckedSeq := by rw [htE]
  rw [← htE]
  rcases account_sim hagree htE n rtt with ⟨f, hd, hv⟩ | ⟨sd, sv, hd, hv, hs⟩
  · left
    refine ⟨f, ?_, ?_⟩
    · unfold TcpDsdcc.PktsAcked
      rw [hd]
    · unfold TcpDcvegas.PktsAcked
      rw [hv]
  · right
    have hl := latch_sim hs htE
    have hn : (TcpDsdcc.latch sd tcbE).m_nextSeq = (TcpDcvegas.latch sv tcb).m_nextSeq :=
      hl.2.2.2.1
    rw [TcpDsdcc.PktsAcked_eq_dsdcc hd, TcpDcvegas.PktsAcked_eq_dcvegas hv, hflowE, hackE, hn]
    by_cases hge : SequenceNumber32.ge tcb.m_lastAckedSeq (TcpDcvegas.latch sv tcb).m_nextSeq = true
    · obtain ⟨e1, e2, e3⟩ := expire_sim hl htE
      refine ⟨_, _, if_pos hge, if_pos hge, e1, by rw [e1], by rw [e1], e2, e3⟩
    · exact ⟨_, _, if_neg hge, if_neg hge, htE, by rw [htE], by rw [htE], hl, rfl⟩

/-- C21 at `Example.dsdccMidWindow` and `Example.dcvegasMidWindow`, one more segment of a long
flow acknowledged, the echo of a mark received: both calls close the window with the same
reduction. -/
theorem C21_long_flow_is_pure_delay_witness :
    delayAgree Example.dsdccMidWindow Example.dcvegasMidWindow ∧
    ((∃ f, TcpDsdcc.PktsAcked Example.dsdccMidWindow
          { Example.tcbLater with m_ecnState := EcnState_t.ECN_ECE_RCVD } 1 Example.rttZero =
          .error f ∧
        TcpDcvegas.PktsAcked Example.dcvegasMidWindow Example.tcbLater 1 Example.rttZero =
          .error f) ∨
      (∃ od ov, TcpDsdcc.PktsAcked Example.dsdccMidWindow
          { Example.tcbLater with m_ecnState := EcnState_t.ECN_ECE_RCVD } 1 Example.rttZero =
          .ok od ∧
        TcpDcvegas.PktsAcked Example.dcvegasMidWindow Example.tcbLater 1 Example.rttZero =
          .ok ov ∧
        od.tcb = { ov.tcb with m_ecnState := EcnState_t.ECN_ECE_RCVD } ∧
        od.tcb.m_cWnd = ov.tcb.m_cWnd ∧ od.tcb.m_ssThresh = ov.tcb.m_ssThresh ∧
        delayAgree od.self ov.self ∧ od.trace = ov.trace)) :=
  have h : delayAgree Example.dsdccMidWindow Example.dcvegasMidWindow :=
    ⟨rfl, rfl, by decide, rfl, rfl, rfl, rfl, rfl⟩
  ⟨h, C21_long_flow_is_pure_delay Example.dsdccMidWindow Example.dcvegasMidWindow
    Example.tcbLater EcnState_t.ECN_ECE_RCVD 1 Example.rttZero h rfl⟩

/-! ## C22: an unclassified flow in TcpDsdcc -/

theorem latch_frame_dsdcc (self : TcpDsdcc) (tcb : TcpSocketState) :
    TcpDsdcc.latch self tcb = { self with
      m_nextSeq := (TcpDsdcc.latch self tcb).m_nextSeq
      m_nextSeqFlag := (TcpDsdcc.latch self tcb).m_nextSeqFlag } ∧
    (self.m_nextSeqFlag = true → (TcpDsdcc.latch self tcb).m_nextSeq = self.m_nextSeq) ∧
    (self.m_nextSeqFlag = false →
      (TcpDsdcc.latch self tcb).m_nextSeq = tcb.m_nextTxSequence) ∧
    (TcpDsdcc.latch self tcb).m_nextSeqFlag = true := by
  unfold TcpDsdcc.latch
  by_cases hf : self.m_nextSeqFlag = false
  · rw [if_pos hf]
    refine ⟨rfl, ?_, ?_, rfl⟩
    · intro h
      rw [hf] at h
      cases h
    · intro _
      rfl
  · rw [if_neg hf]
    have ht : self.m_nextSeqFlag = true := by simpa using hf
    refine ⟨rfl, ?_, ?_, ht⟩
    · intro _
      rfl
    · intro h
      exact absurd h hf

/-- C22: a `PktsAcked` call of TcpDsdcc on a flow that is neither `Elephant` nor `Mouse`
returns whenever its accounting does, closes no window (no trace event, whatever
`m_lastAckedSeq` is) and leaves the control block (`cwnd`, `ssthresh`) and the three alphas
as they were.  The members it may change are the three byte counters, the signal (which
stays or becomes `rtt_sig`) and the window boundary with its flag, the boundary only when the
flag was clear. -/
theorem C22_unclassified_flow (self : TcpDsdcc) (tcb : TcpSocketState) (n : Nat) (rtt : Time)
    (hflow : tcb.m_flowMode = FlowMode_t.Unclassified) :
    (∀ s1, TcpDsdcc.account self tcb n rtt = .ok s1 →
      TcpDsdcc.PktsAcked self tcb n rtt =
        .ok { self := TcpDsdcc.latch s1 tcb, tcb := tcb, trace := [] }) ∧
    (∀ out, TcpDsdcc.PktsAcked self tcb n rtt = .ok out →
      out.tcb = tcb ∧ out.trace = [] ∧
      out.self.m_alpha = self.m_alpha ∧ out.self.m_alpha_ecn = self.m_alpha_ecn ∧
      out.self.m_alpha_rtt = self.m_alpha_rtt ∧
      out.self = { self with
        m_ackedBytesTotal := out.self.m_ackedBytesTotal
        m_ackedBytesRtt := out.self.m_ackedBytesRtt
        m_ackedBytesEcn := out.self.m_ackedBytesEcn
        m_signal := out.self.m_signal
        m_nextSeq := out.self.m_nextSeq
        m_nextSeqFlag := out.self.m_nextSeqFlag } ∧
      (out.self.m_signal = self.m_signal ∨ out.self.m_signal = TcpDsdcc.Signal.rtt_sig) ∧
      (self.m_nextSeqFlag = true → out.self.m_nextSeq = self.m_nextSeq)) := by
  have hp : ∀ s1, TcpDsdcc.account self tcb n rtt = .ok s1 →
      TcpDsdcc.PktsAcked self tcb n rtt =
        .ok { self := TcpDsdcc.latch s1 tcb, tcb := tcb, trace := [] } := by
    intro s1 hacc
    unfold TcpDsdcc.PktsAcked
    rw [hacc, hflow]
  refine ⟨hp, ?_⟩
  intro out h
  obtain ⟨s1, hacc⟩ := TcpDsdcc.account_of_ok_dsdcc h
  rw [hp s1 hacc] at h
  simp only [Except.ok.injEq] at h
  have hf := account_frame_dsdcc hacc
  obtain ⟨hl, hl1, -, -⟩ := latch_frame_dsdcc s1 tcb
  have hsig : s1.m_signal = self.m_signal ∨ s1.m_signal = TcpDsdcc.Signal.rtt_sig := by
    cases hs : s1.m_signal
    · left
      unfold TcpDsdcc.account TcpDsdcc.accountRtt TcpDsdcc.accountEcn at hacc
      simp only at hacc
      split at hacc
      · cases hacc
      · rename_i s hs'
        cases hacc
        split at hs'
        · cases hs'
          split at hs <;> exact hs.symm
        · split at hs'
          · cases hs'
          · split at hs'
            · cases hs'
            · split at hs'
              · cases hs'
                split at hs <;> cases hs
              · cases hs'
                split at hs <;> exact hs.symm
    · right
      rfl
  rw [← h]
  refine ⟨rfl, rfl, ?_, ?_, ?_, ?_, ?_, ?_⟩
  · show (TcpDsdcc.latch s1 tcb).m_alpha = self.m_alpha
    rw [hl, hf]
  · show (TcpDsdcc.latch s1 tcb).m_alpha_ecn = self.m_alpha_ecn
    rw [hl, hf]
  · show (TcpDsdcc.latch s1 tcb).m_alpha_rtt = self.m_alpha_rtt
    rw [hl, hf]
  · show TcpDsdcc.latch s1 tcb = _
    rw [hl, hf]
  · show (TcpDsdcc.latch s1 tcb).m_signal = self.m_signal ∨ _
    have e : (TcpDsdcc.latch s1 tcb).m_signal = s1.m_signal := by rw [hl]
    rw [e]
    exact hsig
  · intro hflag
    show (TcpDsdcc.latch s1 tcb).m_nextSeq = self.m_nextSeq
    have e1 : s1.m_nextSeqFlag = true := by rw [hf]; exact hflag
    have e2 : s1.m_nextSeq = self.m_nextSeq := by rw [hf]
    rw [hl1 e1, e2]

/-- C22 at `Example.dsdccMidWindow` and an unclassified flow whose acknowledgment reaches the
window boundary: the call only counts the 1000 bytes; no window is closed. -/
theorem C22_unclassified_flow_witness :
    TcpDsdcc.PktsAcked Example.dsdccMidWindow Example.tcbUnclassified 1 Example.rttZero =
      .ok { self := TcpDsdcc.latch { Example.dsdccMidWindow with m_ackedBytesTotal := 2000 }
              Example.tcbUnclassified
            tcb := Example.tcbUnclassified
            trace := [] } ∧
    SequenceNumber32.ge Example.tcbUnclassified.m_lastAckedSeq
      Example.dsdccMidWindow.m_nextSeq = true :=
  ⟨(C22_unclassified_flow Example.dsdccMidWindow Example.tcbUnclassified 1 Example.rttZero
      rfl).1 { Example.dsdccMidWindow with m_ackedBytesTotal := 2000 }
      (ok_of_toOption (by decide!)),
    by decide⟩

/-! ## The congestion events of TcpDsdcc and TcpDstcp -/

theorem CeState0to1_spec_dsdcc (self : TcpDsdcc) (tcb : TcpSocketState) :
    (TcpDsdcc.CeState0to1 self tcb).1 = { self with
      m_priorRcvNxt := tcb.m_rxBuffer, m_priorRcvNxtFlag := true, m_ceState := true } ∧
    (TcpDsdcc.CeState0to1 self tcb).2 = { tcb with
      m_ecnState := EcnState_t.ECN_CE_RCVD
      m_sent :=
        if self.m_ceState = false ∧ self.m_delayedAckReserved = true ∧
            self.m_priorRcvNxtFlag = true then
          (TcpHeader.ACK, self.m_priorRcvNxt) :: tcb.m_sent
        else tcb.m_sent } := by
  unfold TcpDsdcc.CeState0to1 TcpSocketState.SetNextRxSequence
    TcpSocketState.m_sendEmptyPacketCallback TcpSocketState.NextRxSequence
  cases self
  cases tcb
  simp only
  split_ifs <;> simp_all

theorem CeState1to0_spec_dsdcc (self : TcpDsdcc) (tcb : TcpSocketState) :
    (TcpDsdcc.CeState1to0 self tcb).1 = { self with
      m_priorRcvNxt := tcb.m_rxBuffer, m_priorRcvNxtFlag := true, m_ceState := false } ∧
    (TcpDsdcc.CeState1to0 self tcb).2 = { tcb with
      m_ecnState :=
        if tcb.m_ecnState = EcnState_t.ECN_CE_RCVD ∨
            tcb.m_ecnState = EcnState_t.ECN_SENDING_ECE then EcnState_t.ECN_IDLE
        else tcb.m_ecnState
      m_sent :=
        if self.m_ceState = true ∧ self.m_delayedAckReserved = true ∧
            self.m_priorRcvNxtFlag = true then
          (TcpHeader.ACK ||| TcpHeader.ECE, self.m_priorRcvNxt) :: tcb.m_sent
        else tcb.m_sent } := by
  unfold TcpDsdcc.CeState1to0 TcpSocketState.SetNextRxSequence
    TcpSocketState.m_sendEmptyPacketCallback TcpSocketState.NextRxSequence
  cases self
  cases tcb
  simp only
  split_ifs <;> simp_all

theorem CeState0to1_spec_dstcp (self : TcpDstcp) (tcb : TcpSocketState) :
    (TcpDstcp.CeState0to1 self tcb).1 = { self with
      m_priorRcvNxt := tcb.m_rxBuffer, m_priorRcvNxtFlag := true, m_ceState := true } ∧
    (TcpDstcp.CeState0to1 self tcb).2 = { tcb with
      m_ecnState := EcnState_t.ECN_CE_RCVD
      m_sent :=
        if self.m_ceState = false ∧ self.m_delayedAckReserved = true ∧
            self.m_priorRcvNxtFlag = true then
          (TcpHeader.ACK, self.m_priorRcvNxt) :: tcb.m_sent
        else tcb.m_sent } := by
  unfold TcpDstcp.CeState0to1 TcpSocketState.SetNextRxSequence
    TcpSocketState.m_sendEmptyPacketCallback TcpSocketState.NextRxSequence
  cases self
  cases tcb
  simp only
  split_ifs <;> simp_all

theorem CeState1to0_spec_dstcp (self : TcpDstcp) (tcb : TcpSocketState) :
    (TcpDstcp.CeState1to0 self tcb).1 = { self with
      m_priorRcvNxt := tcb.m_rxBuffer, m_priorRcvNxtFlag := true, m_ceState := false } ∧
    (TcpDstcp.CeState1to0 self tcb).2 = { tcb with
      m_ecnState :=
        if tcb.m_ecnState = EcnState_t.ECN_CE_RCVD ∨
            tcb.m_ecnState = EcnState_t.ECN_SENDING_ECE then EcnState_t.ECN_IDLE
        else tcb.m_ecnState
      m_sent :=
        if self.m_ceState = true ∧ self.m_delayedAckReserved = true ∧
            self.m_priorRcvNxtFlag = true then
          (TcpHeader.ACK ||| TcpHeader.ECE, self.m_priorRcvNxt) :: tcb.m_sent
        else tcb.m_sent } := by
  unfold TcpDstcp.CeState1to0 TcpSocketState.SetNextRxSequence
    TcpSocketState.m_sendEmptyPacketCallback TcpSocketState.NextRxSequence
  cases self
  cases tcb
  simp only
  split_ifs <;> simp_all

/-! ## C23: a mark is asserted -/

/-- C23: on `CA_EVENT_ECN_IS_CE` with `m_ceState` false, TcpDsdcc and TcpDstcp send one empty
segment with the flags `ACK` (no `ECE` bit) acknowledging up to the checkpoint
`m_priorRcvNxt`, if a delayed acknowledgment is reserved and a checkpoint exists, and send
nothing otherwise.  After the call the checkpoint is the receive sequence of the buffer,
which is the one before the call, the checkpoint exists, `m_ceState` is true and the mark
state of the control block is `ECN_CE_RCVD`. -/
theorem C23_mark_asserted (d : TcpDsdcc) (s : TcpDstcp) (tcb : TcpSocketState)
    (hd : d.m_ceState = false) (hs : s.m_ceState = false) :
    ((TcpDsdcc.CwndEvent d tcb TcpCAEvent_t.CA_EVENT_ECN_IS_CE).2.m_sent =
        (if d.m_delayedAckReserved = true ∧ d.m_priorRcvNxtFlag = true then
          (TcpHeader.ACK, d.m_priorRcvNxt) :: tcb.m_sent
        else tcb.m_sent) ∧
      (TcpDsdcc.CwndEvent d tcb TcpCAEvent_t.CA_EVENT_ECN_IS_CE).1.m_priorRcvNxt =
        (TcpDsdcc.CwndEvent d tcb TcpCAEvent_t.CA_EVENT_ECN_IS_CE).2.NextRxSequence ∧
      (TcpDsdcc.CwndEvent d tcb TcpCAEvent_t.CA_EVENT_ECN_IS_CE).1.m_priorRcvNxt =
        tcb.NextRxSequence ∧
      (TcpDsdcc.CwndEvent d tcb TcpCAEvent_t.CA_EVENT_ECN_IS_CE).1.m_priorRcvNxtFlag = true ∧
      (TcpDsdcc.CwndEvent d tcb TcpCAEvent_t.CA_EVENT_ECN_IS_CE).1.m_ceState = true ∧
      (TcpDsdcc.CwndEvent d tcb TcpCAEvent_t.CA_EVENT_ECN_IS_CE).2.m_ecnState =
        EcnState_t.ECN_CE_RCVD) ∧
    ((TcpDstcp.CwndEvent s tcb TcpCAEvent_t.CA_EVENT_ECN_IS_CE).2.m_sent =
        (if s.m_delayedAckReserved = true ∧ s.m_priorRcvNxtFlag = true then
          (TcpHeader.ACK, s.m_priorRcvNxt) :: tcb.m_sent
        else tcb.m_sent) ∧
      (TcpDstcp.CwndEvent s tcb TcpCAEvent_t.CA_EVENT_ECN_IS_CE).1.m_priorRcvNxt =
        (TcpDstcp.CwndEvent s tcb TcpCAEvent_t.CA_EVENT_ECN_IS_CE).2.NextRxSequence ∧
      (TcpDstcp.CwndEvent s tcb TcpCAEvent_t.CA_EVENT_ECN_IS_CE).1.m_priorRcvNxt =
        tcb.NextRxSequence ∧
      (TcpDstcp.CwndEvent s tcb TcpCAEvent_t.CA_EVENT_ECN_IS_CE).1.m_priorRcvNxtFlag = true ∧
      (TcpDstcp.CwndEvent s tcb TcpCAEvent_t.CA_EVENT_ECN_IS_CE).1.m_ceState = true ∧
      (TcpDstcp.CwndEvent s tcb TcpCAEvent_t.CA_EVENT_ECN_IS_CE).2.m_ecnState =
        EcnState_t.ECN_CE_RCVD) ∧
    TcpHeader.ACK &&& TcpHeader.ECE = 0 := by
  obtain ⟨d1, d2⟩ := CeState0to1_spec_dsdcc d tcb
  obtain ⟨s1, s2⟩ := CeState0to1_spec_dstcp s tcb
  have ed : TcpDsdcc.CwndEvent d tcb TcpCAEvent_t.CA_EVENT_ECN_IS_CE =
      TcpDsdcc.CeState0to1 d tcb := rfl
  have es : TcpDstcp.CwndEvent s tcb TcpCAEvent_t.CA_EVENT_ECN_IS_CE =
      TcpDstcp.CeState0to1 s tcb := rfl
  rw [ed, es]
  unfold TcpSocketState.NextRxSequence
  rw [d1, d2, s1, s2]
  refine ⟨⟨?_, rfl, rfl, rfl, rfl, rfl⟩, ⟨?_, rfl, rfl, rfl, rfl, rfl⟩, by decide⟩
  · simp only [hd, true_and]
  · simp only [hs, true_and]

/-- C23 at instances with a delayed acknowledgment reserved and the checkpoint 2000, the
receiver expecting 3000: one segment with flags 16 (`ACK`) acknowledging up to 2000 is sent,
the checkpoint becomes 3000. -/
theorem C23_mark_asserted_witness :
    (TcpDsdcc.CwndEvent Example.dsdccReserved Example.tcbRx
        TcpCAEvent_t.CA_EVENT_ECN_IS_CE).2.m_sent = [(16, 2000)] ∧
      (TcpDsdcc.CwndEvent Example.dsdccReserved Example.tcbRx
        TcpCAEvent_t.CA_EVENT_ECN_IS_CE).1.m_priorRcvNxt = 3000 ∧
      (TcpDstcp.CwndEvent Example.dstcpReserved Example.tcbRx
        TcpCAEvent_t.CA_EVENT_ECN_IS_CE).2.m_sent = [(16, 2000)] ∧
      (TcpDstcp.CwndEvent Example.dstcpReserved Example.tcbRx
        TcpCAEvent_t.CA_EVENT_ECN_IS_CE).1.m_priorRcvNxt = 3000 :=
  have h := C23_mark_asserted Example.dsdccReserved Example.dstcpReserved Example.tcbRx rfl rfl
  ⟨h.1.1, h.1.2.2.1, h.2.1.1, h.2.1.2.2.1⟩

/-! ## C24: a mark is cleared -/

/-- C24: on `CA_EVENT_ECN_NO_CE` with `m_ceState` true, TcpDsdcc and TcpDstcp send one empty
segment with the flags `ACK | ECE` acknowledging up to the checkpoint `m_priorRcvNxt`, if a
delayed acknowledgment is reserved and a checkpoint exists, and send nothing otherwise.
After the call the checkpoint is the receive sequence of the buffer, which is the one before
the call, the checkpoint exists, `m_ceState` is false and the mark state of the control block
is `ECN_IDLE` if it was `ECN_CE_RCVD` or `ECN_SENDING_ECE`, and what it was otherwise. -/
theorem C24_mark_cleared (d : TcpDsdcc) (s : TcpDstcp) (tcb : TcpSocketState)
    (hd : d.m_ceState = true) (hs : s.m_ceState = true) :
    ((TcpDsdcc.CwndEvent d tcb TcpCAEvent_t.CA_EVENT_ECN_NO_CE).2.m_sent =
        (if d.m_delayedAckReserved = true ∧ d.m_priorRcvNxtFlag = true then
          (TcpHeader.ACK ||| TcpHeader.ECE, d.m_priorRcvNxt) :: tcb.m_sent
        else tcb.m_sent) ∧
      (TcpDsdcc.CwndEvent d tcb TcpCAEvent_t.CA_EVENT_ECN_NO_CE).1.m_priorRcvNxt =
        (TcpDsdcc.CwndEvent d tcb TcpCAEvent_t.CA_EVENT_ECN_NO_CE).2.NextRxSequence ∧
      (TcpDsdcc.CwndEvent d tcb TcpCAEvent_t.CA_EVENT_ECN_NO_CE).1.m_priorRcvNxt =
        tcb.NextRxSequence ∧
      (TcpDsdcc.CwndEvent d tcb TcpCAEvent_t.CA_EVENT_ECN_NO_CE).1.m_priorRcvNxtFlag = true ∧
      (TcpDsdcc.CwndEvent d tcb TcpCAEvent_t.CA_EVENT_ECN_NO_CE).1.m_ceState = false ∧
      (TcpDsdcc.CwndEvent d tcb TcpCAEvent_t.CA_EVENT_ECN_NO_CE).2.m_ecnState =
        (if tcb.m_ecnState = EcnState_t.ECN_CE_RCVD ∨
            tcb.m_ecnState = EcnState_t.ECN_SENDING_ECE then EcnState_t.ECN_IDLE
        else tcb.m_ecnState)) ∧
    ((TcpDstcp.CwndEvent s tcb TcpCAEvent_t.CA_EVENT_ECN_NO_CE).2.m_sent =
        (if s.m_delayedAckReserved = true ∧ s.m_priorRcvNxtFlag = true then
          (TcpHeader.ACK ||| TcpHeader.ECE, s.m_priorRcvNxt) :: tcb.m_sent
        else tcb.m_sent) ∧
      (TcpDstcp.CwndEvent s tcb TcpCAEvent_t.CA_EVENT_ECN_NO_CE).1.m_priorRcvNxt =
        (TcpDstcp.CwndEvent s tcb TcpCAEvent_t.CA_EVENT_ECN_NO_CE).2.NextRxSequence ∧
      (TcpDstcp.CwndEvent s tcb TcpCAEvent_t.CA_EVENT_ECN_NO_CE).1.m_priorRcvNxt =
        tcb.NextRxSequence ∧
      (TcpDstcp.CwndEvent s tcb TcpCAEvent_t.CA_EVENT_ECN_NO_CE).1.m_priorRcvNxtFlag = true ∧
      (TcpDstcp.CwndEvent s tcb TcpCAEvent_t.CA_EVENT_ECN_NO_CE).1.m_ceState = false ∧
      (TcpDstcp.CwndEvent s tcb TcpCAEvent_t.CA_EVENT_ECN_NO_CE).2.m_ecnState =
        (if tcb.m_ecnState = EcnState_t.ECN_CE_RCVD ∨
            tcb.m_ecnState = EcnState_t.ECN_SENDING_ECE then EcnState_t.ECN_IDLE
        else tcb.m_ecnState)) ∧
    (TcpHeader.ACK ||| TcpHeader.ECE) &&& TcpHeader.ECE = TcpHeader.ECE ∧
    (TcpHeader.ACK ||| TcpHeader.ECE) &&& TcpHeader.ACK = TcpHeader.ACK := by
  obtain ⟨d1, d2⟩ := CeState1to0_spec_dsdcc d tcb
  obtain ⟨s1, s2⟩ := CeState1to0_spec_dstcp s tcb
  have ed : TcpDsdcc.CwndEvent d tcb TcpCAEvent_t.CA_EVENT_ECN_NO_CE =
      TcpDsdcc.CeState1to0 d tcb := rfl
  have es : TcpDstcp.CwndEvent s tcb TcpCAEvent_t.CA_EVENT_ECN_NO_CE =
      TcpDstcp.CeState1to0 s tcb := rfl
  rw [ed, es]
  unfold TcpSocketState.NextRxSequence
  rw [d1, d2, s1, s2]
  refine ⟨⟨?_, rfl, rfl, rfl, rfl, rfl⟩, ⟨?_, rfl, rfl, rfl, rfl, rfl⟩, by decide, by decide⟩
  · simp only [hd, true_and]
  · simp only [hs, true_and]

/-- C24 at marked instances with a delayed acknowledgment reserved and the checkpoint 2000,
the receiver expecting 3000 and the control block in `ECN_CE_RCVD`: one segment with flags 80
(`ACK | ECE`) acknowledging up to 2000 is sent, and the mark state becomes `ECN_IDLE`. -/
theorem C24_mark_cleared_witness :
    (TcpDsdcc.CwndEvent Example.dsdccReservedCe Example.tcbRxCe
        TcpCAEvent_t.CA_EVENT_ECN_NO_CE).2.m_sent = [(80, 2000)] ∧
      (TcpDsdcc.CwndEvent Example.dsdccReservedCe Example.tcbRxCe
        TcpCAEvent_t.CA_EVENT_ECN_NO_CE).2.m_ecnState = EcnState_t.ECN_IDLE ∧
      (TcpDstcp.CwndEvent Example.dstcpReservedCe Example.tcbRxCe
        TcpCAEvent_t.CA_EVENT_ECN_NO_CE).2.m_sent = [(80, 2000)] ∧
      (TcpDstcp.CwndEvent Example.dstcpReservedCe Example.tcbRxCe
        TcpCAEvent_t.CA_EVENT_ECN_NO_CE).2.m_ecnState = EcnState_t.ECN_IDLE :=
  have h := C24_mark_cleared Example.dsdccReservedCe Example.dstcpReservedCe Example.tcbRxCe
    rfl rfl
  ⟨h.1.1, h.1.2.2.2.2.2, h.2.1.1, h.2.1.2.2.2.2.2⟩

theorem CeState0to1_frame_dsdcc (self : TcpDsdcc) (tcb : TcpSocketState) :
    (TcpDsdcc.CeState0to1 self tcb).1 = { self with
      m_priorRcvNxt := tcb.m_rxBuffer, m_priorRcvNxtFlag := true, m_ceState := true } ∧
    (TcpDsdcc.CeState0to1 self tcb).2 = { tcb with
      m_ecnState := (TcpDsdcc.CeState0to1 self tcb).2.m_ecnState
      m_sent := (TcpDsdcc.CeState0to1 self tcb).2.m_sent } := by
  unfold TcpDsdcc.CeState0to1 TcpSocketState.SetNextRxSequence
    TcpSocketState.m_sendEmptyPacketCallback TcpSocketState.NextRxSequence
  cases self
  cases tcb
  simp only
  split_ifs <;> simp_all

theorem CeState1to0_frame_dsdcc (self : TcpDsdcc) (tcb : TcpSocketState) :
    (TcpDsdcc.CeState1to0 self tcb).1 = { self with
      m_priorRcvNxt := tcb.m_rxBuffer, m_priorRcvNxtFlag := true, m_ceState := false } ∧
    (TcpDsdcc.CeState1to0 self tcb).2 = { tcb with
      m_ecnState := (TcpDsdcc.CeState1to0 self tcb).2.m_ecnState
      m_sent := (TcpDsdcc.CeState1to0 self tcb).2.m_sent } := by
  unfold TcpDsdcc.CeState1to0 TcpSocketState.SetNextRxSequence
    TcpSocketState.m_sendEmptyPacketCallback TcpSocketState.NextRxSequence
  cases self
  cases tcb
  simp only
  split_ifs <;> simp_all

theorem CeState0to1_frame_dstcp (self : TcpDstcp) (tcb : TcpSocketState) :
    (TcpDstcp.CeState0to1 self tcb).1 = { self with
      m_priorRcvNxt := tcb.m_rxBuffer, m_priorRcvNxtFlag := true, m_ceState := true } ∧
    (TcpDstcp.CeState0to1 self tcb).2 = { tcb with
      m_ecnState := (TcpDstcp.CeState0to1 self tcb).2.m_ecnState
      m_sent := (TcpDstcp.CeState0to1 self tcb).2.m_sent } := by
  unfold TcpDstcp.CeState0to1 TcpSocketState.SetNextRxSequence
    TcpSocketState.m_sendEmptyPacketCallback TcpSocketState.NextRxSequence
  cases self
  cases tcb
  simp only
  split_ifs <;> simp_all

theorem CeState1to0_frame_dstcp (self : TcpDstcp) (tcb : TcpSocketState) :
    (TcpDstcp.CeState1to0 self tcb).1 = { self with
      m_priorRcvNxt := tcb.m_rxBuffer, m_priorRcvNxtFlag := true, m_ceState := false } ∧
    (TcpDstcp.CeState1to0 self tcb).2 = { tcb with
      m_ecnState := (TcpDstcp.CeState1to0 self tcb).2.m_ecnState
      m_sent := (TcpDstcp.CeState1to0 self tcb).2.m_sent } := by
  unfold TcpDstcp.CeState1to0 TcpSocketState.SetNextRxSequence
    TcpSocketState.m_sendEmptyPacketCallback TcpSocketState.NextRxSequence
  cases self
  cases tcb
  simp only
  split_ifs <;> simp_all

/-! ## C25: the receive sequence across a mark event -/

/-- C25: for TcpDsdcc and TcpDstcp, in every state, `CA_EVENT_ECN_IS_CE` and
`CA_EVENT_ECN_NO_CE` return with the receive sequence of the buffer as it was before the call,
whether or not a segment was sent.  The event changes nothing in the instance but the
checkpoint, its flag and `m_ceState`, and nothing in the control block but the mark state and
the record of segments sent: `cwnd`, `cwndInfl`, `ssthresh`, the byte counters and the three
alphas keep their values. -/
theorem C25_mark_event_frame (d : TcpDsdcc) (s : TcpDstcp) (tcb : TcpSocketState)
    (ev : TcpCAEvent_t) :
    ev = TcpCAEvent_t.CA_EVENT_ECN_IS_CE ∨ ev = TcpCAEvent_t.CA_EVENT_ECN_NO_CE →
    ((TcpDsdcc.CwndEvent d tcb ev).2.NextRxSequence = tcb.NextRxSequence ∧
      (TcpDsdcc.CwndEvent d tcb ev).2 = { tcb with
        m_ecnState := (TcpDsdcc.CwndEvent d tcb ev).2.m_ecnState
        m_sent := (TcpDsdcc.CwndEvent d tcb ev).2.m_sent } ∧
      (TcpDsdcc.CwndEvent d tcb ev).1 = { d with
        m_priorRcvNxt := (TcpDsdcc.CwndEvent d tcb ev).1.m_priorRcvNxt
        m_priorRcvNxtFlag := (TcpDsdcc.CwndEvent d tcb ev).1.m_priorRcvNxtFlag
        m_ceState := (TcpDsdcc.CwndEvent d tcb ev).1.m_ceState } ∧
      (TcpDsdcc.CwndEvent d tcb ev).2.m_cWnd = tcb.m_cWnd ∧
      (TcpDsdcc.CwndEvent d tcb ev).2.m_ssThresh = tcb.m_ssThresh ∧
      (TcpDsdcc.CwndEvent d tcb ev).2.m_cWndInfl = tcb.m_cWndInfl ∧
      (TcpDsdcc.CwndEvent d tcb ev).1.m_ackedBytesEcn = d.m_ackedBytesEcn ∧
      (TcpDsdcc.CwndEvent d tcb ev).1.m_ackedBytesRtt = d.m_ackedBytesRtt ∧
      (TcpDsdcc.CwndEvent d tcb ev).1.m_ackedBytesTotal = d.m_ackedBytesTotal ∧
      (TcpDsdcc.CwndEvent d tcb ev).1.m_alpha = d.m_alpha ∧
      (TcpDsdcc.CwndEvent d tcb ev).1.m_alpha_ecn = d.m_alpha_ecn ∧
      (TcpDsdcc.CwndEvent d tcb ev).1.m_alpha_rtt = d.m_alpha_rtt) ∧
    ((TcpDstcp.CwndEvent s tcb ev).2.NextRxSequence = tcb.NextRxSequence ∧
      (TcpDstcp.CwndEvent s tcb ev).2 = { tcb with
        m_ecnState := (TcpDstcp.CwndEvent s tcb ev).2.m_ecnState
        m_sent := (TcpDstcp.CwndEvent s tcb ev).2.m_sent } ∧
      (TcpDstcp.CwndEvent s tcb ev).1 = { s with
        m_priorRcvNxt := (TcpDstcp.CwndEvent s tcb ev).1.m_priorRcvNxt
        m_priorRcvNxtFlag := (TcpDstcp.CwndEvent s tcb ev).1.m_priorRcvNxtFlag
        m_ceState := (TcpDstcp.CwndEvent s tcb ev).1.m_ceState } ∧
      (TcpDstcp.CwndEvent s tcb ev).2.m_cWnd = tcb.m_cWnd ∧
      (TcpDstcp.CwndEvent s tcb ev).2.m_ssThresh = tcb.m_ssThresh ∧
      (TcpDstcp.CwndEvent s tcb ev).2.m_cWndInfl = tcb.m_cWndInfl ∧
      (TcpDstcp.CwndEvent s tcb ev).1.m_ackedBytesEcn = s.m_ackedBytesEcn ∧
      (TcpDstcp.CwndEvent s tcb ev).1.m_ackedBytesRtt = s.m_ackedBytesRtt ∧
      (TcpDstcp.CwndEvent s tcb ev).1.m_ackedBytesTotal = s.m_ackedBytesTotal ∧
      (TcpDstcp.CwndEvent s tcb ev).1.m_alpha = s.m_alpha ∧
      (TcpDstcp.CwndEvent s tcb ev).1.m_alpha_ecn = s.m_alpha_ecn ∧
      (TcpDstcp.CwndEvent s tcb ev).1.m_alpha_rtt = s.m_alpha_rtt) := by
  have key : ∀ (pd : TcpDsdcc × TcpSocketState) (cd : Bool),
      pd.1 = { d with
        m_priorRcvNxt := tcb.m_rxBuffer
        m_priorRcvNxtFlag := true
        m_ceState := cd } →
      pd.2 = { tcb with m_ecnState := pd.2.m_ecnState, m_sent := pd.2.m_sent } →
      pd.2.NextRxSequence = tcb.NextRxSequence ∧
      pd.2 = { tcb with m_ecnState := pd.2.m_ecnState, m_sent := pd.2.m_sent } ∧
      pd.1 = { d with
        m_priorRcvNxt := pd.1.m_priorRcvNxt
        m_priorRcvNxtFlag := pd.1.m_priorRcvNxtFlag
        m_ceState := pd.1.m_ceState } ∧
      pd.2.m_cWnd = tcb.m_cWnd ∧ pd.2.m_ssThresh = tcb.m_ssThresh ∧
      pd.2.m_cWndInfl = tcb.m_cWndInfl ∧
      pd.1.m_ackedBytesEcn = d.m_ackedBytesEcn ∧ pd.1.m_ackedBytesRtt = d.m_ackedBytesRtt ∧
      pd.1.m_ackedBytesTotal = d.m_ackedBytesTotal ∧ pd.1.m_alpha = d.m_alpha ∧
      pd.1.m_alpha_ecn = d.m_alpha_ecn ∧ pd.1.m_alpha_rtt = d.m_alpha_rtt := by
    intro pd cd h1 h2
    unfold TcpSocketState.NextRxSequence
    refine ⟨by rw [h2], h2, by rw [h1], by rw [h2], by rw [h2], by rw [h2], by rw [h1],
      by rw [h1], by rw [h1], by rw [h1], by rw [h1], by rw [h1]⟩
  have keys : ∀ (ps : TcpDstcp × TcpSocketState) (cs : Bool),
      ps.1 = { s with
        m_priorRcvNxt := tcb.m_rxBuffer
        m_priorRcvNxtFlag := true
        m_ceState := cs } →
      ps.2 = { tcb with m_ecnState := ps.2.m_ecnState, m_sent := ps.2.m_sent } →
      ps.2.NextRxSequence = tcb.NextRxSequence ∧
      ps.2 = { tcb with m_ecnState := ps.2.m_ecnState, m_sent := ps.2.m_sent } ∧
      ps.1 = { s with
        m_priorRcvNxt := ps.1.m_priorRcvNxt
        m_priorRcvNxtFlag := ps.1.m_priorRcvNxtFlag
        m_ceState := ps.1.m_ceState } ∧
      ps.2.m_cWnd = tcb.m_cWnd ∧ ps.2.m_ssThresh = tcb.m_ssThresh ∧
      ps.2.m_cWndInfl = tcb.m_cWndInfl ∧
      ps.1.m_ackedBytesEcn = s.m_ackedBytesEcn ∧ ps.1.m_ackedBytesRtt = s.m_ackedBytesRtt ∧
      ps.1.m_ackedBytesTotal = s.m_ackedBytesTotal ∧ ps.1.m_alpha = s.m_alpha ∧
      ps.1.m_alpha_ecn = s.m_alpha_ecn ∧ ps.1.m_alpha_rtt = s.m_alpha_rtt := by
    intro ps cs h1 h2
    unfold TcpSocketState.NextRxSequence
    refine ⟨by rw [h2], h2, by rw [h1], by rw [h2], by rw [h2], by rw [h2], by rw [h1],
      by rw [h1], by rw [h1], by rw [h1], by rw [h1], by rw [h1]⟩
  rintro (rfl | rfl)
  · exact ⟨key _ true (CeState0to1_frame_dsdcc d tcb).1 (CeState0to1_frame_dsdcc d tcb).2,
      keys _ true (CeState0to1_frame_dstcp s tcb).1 (CeState0to1_frame_dstcp s tcb).2⟩
  · exact ⟨key _ false (CeState1to0_frame_dsdcc d tcb).1 (CeState1to0_frame_dsdcc d tcb).2,
      keys _ false (CeState1to0_frame_dstcp s tcb).1 (CeState1to0_frame_dstcp s tcb).2⟩

/-- C25 at the marked instances of `Example`, where `CA_EVENT_ECN_NO_CE` sends a segment at
the checkpoint 2000: the receive sequence is 3000 afterwards as before, and `cwnd` is 7000. -/
theorem C25_mark_event_frame_witness :
    (TcpDsdcc.CwndEvent Example.dsdccReservedCe Example.tcbRxCe
        TcpCAEvent_t.CA_EVENT_ECN_NO_CE).2.NextRxSequence = 3000 ∧
      (TcpDstcp.CwndEvent Example.dstcpReservedCe Example.tcbRxCe
        TcpCAEvent_t.CA_EVENT_ECN_NO_CE).2.NextRxSequence = 3000 ∧
      (TcpDstcp.CwndEvent Example.dstcpReservedCe Example.tcbRxCe
        TcpCAEvent_t.CA_EVENT_ECN_NO_CE).2.m_cWnd = 7000 :=
  have h := C25_mark_event_frame Example.dsdccReservedCe Example.dstcpReservedCe
    Example.tcbRxCe TcpCAEvent_t.CA_EVENT_ECN_NO_CE (Or.inr rfl)
  ⟨h.1.1, h.2.1, h.2.2.2.2.1⟩

/-! ## C26: the reservation of a delayed acknowledgment -/

theorem set_reserved_dsdcc (d : TcpDsdcc) (b : Bool) (h : d.m_delayedAckReserved = b) :
    ({ d with m_delayedAckReserved := b } : TcpDsdcc) = d := by
  cases d
  simp_all

theorem set_reserved_dstcp (s : TcpDstcp) (b : Bool) (h : s.m_delayedAckReserved = b) :
    ({ s with m_delayedAckReserved := b } : TcpDstcp) = s := by
  cases s
  simp_all

/-- C26: for TcpDsdcc and TcpDstcp, in every state, `CwndEvent` returns with
`m_delayedAckReserved` true on `CA_EVENT_DELAYED_ACK` and false on
`CA_EVENT_NON_DELAYED_ACK`, every other member of the object as it was and the control block
untouched (nothing is sent).  A second delivery of the same event changes nothing. -/
theorem C26_ack_reservation (d : TcpDsdcc) (s : TcpDstcp) (tcb : TcpSocketState) :
    TcpDsdcc.CwndEvent d tcb TcpCAEvent_t.CA_EVENT_DELAYED_ACK =
      ({ d with m_delayedAckReserved := true }, tcb) ∧
    TcpDsdcc.CwndEvent d tcb TcpCAEvent_t.CA_EVENT_NON_DELAYED_ACK =
      ({ d with m_delayedAckReserved := false }, tcb) ∧
    TcpDstcp.CwndEvent s tcb TcpCAEvent_t.CA_EVENT_DELAYED_ACK =
      ({ s with m_delayedAckReserved := true }, tcb) ∧
    TcpDstcp.CwndEvent s tcb TcpCAEvent_t.CA_EVENT_NON_DELAYED_ACK =
      ({ s with m_delayedAckReserved := false }, tcb) ∧
    (∀ ev, ev = TcpCAEvent_t.CA_EVENT_DELAYED_ACK ∨ ev = TcpCAEvent_t.CA_EVENT_NON_DELAYED_ACK →
      TcpDsdcc.CwndEvent (TcpDsdcc.CwndEvent d tcb ev).1 (TcpDsdcc.CwndEvent d tcb ev).2 ev =
          TcpDsdcc.CwndEvent d tcb ev ∧
        TcpDstcp.CwndEvent (TcpDstcp.CwndEvent s tcb ev).1 (TcpDstcp.CwndEvent s tcb ev).2 ev =
          TcpDstcp.CwndEvent s tcb ev ∧
        (TcpDsdcc.CwndEvent d tcb ev).2.m_sent = tcb.m_sent ∧
        (TcpDstcp.CwndEvent s tcb ev).2.m_sent = tcb.m_sent) := by
  have d1 : TcpDsdcc.CwndEvent d tcb TcpCAEvent_t.CA_EVENT_DELAYED_ACK =
      ({ d with m_delayedAckReserved := true }, tcb) := by
    show TcpDsdcc.UpdateAckReserved d tcb TcpCAEvent_t.CA_EVENT_DELAYED_ACK = _
    unfold TcpDsdcc.UpdateAckReserved
    by_cases h : d.m_delayedAckReserved = false
    · rw [if_pos h]
    · have ht : d.m_delayedAckReserved = true := by simpa using h
      rw [if_neg h, set_reserved_dsdcc d true ht]
  have d2 : TcpDsdcc.CwndEvent d tcb TcpCAEvent_t.CA_EVENT_NON_DELAYED_ACK =
      ({ d with m_delayedAckReserved := false }, tcb) := by
    show TcpDsdcc.UpdateAckReserved d tcb TcpCAEvent_t.CA_EVENT_NON_DELAYED_ACK = _
    unfold TcpDsdcc.UpdateAckReserved
    by_cases h : d.m_delayedAckReserved = true
    · rw [if_pos h]
    · have ht : d.m_delayedAckReserved = false := by simpa using h
      rw [if_neg h, set_reserved_dsdcc d false ht]
  have s1 : TcpDstcp.CwndEvent s tcb TcpCAEvent_t.CA_EVENT_DELAYED_ACK =
      ({ s with m_delayedAckReserved := true }, tcb) := by
    show TcpDstcp.UpdateAckReserved s tcb TcpCAEvent_t.CA_EVENT_DELAYED_ACK = _
    unfold TcpDstcp.UpdateAckReserved
    by_cases h : s.m_delayedAckReserved = false
    · rw [if_pos h]
    · have ht : s.m_delayedAckReserved = true := by simpa using h
      rw [if_neg h, set_reserved_dstcp s true ht]
  have s2 : TcpDstcp.CwndEvent s tcb TcpCAEvent_t.CA_EVENT_NON_DELAYED_ACK =
      ({ s with m_delayedAckReserved := false }, tcb) := by
    show TcpDstcp.UpdateAckReserved s tcb TcpCAEvent_t.CA_EVENT_NON_DELAYED_ACK = _
    unfold TcpDstcp.UpdateAckReserved
    by_cases h : s.m_delayedAckReserved = true
    · rw [if_pos h]
    · have ht : s.m_delayedAckReserved = false := by simpa using h
      rw [if_neg h, set_reserved_dstcp s false ht]
  refine ⟨d1, d2, s1, s2, ?_⟩
  rintro ev (rfl | rfl)
  · rw [d1, s1]
    refine ⟨?_, ?_, rfl, rfl⟩
    · rfl
    · rfl
  · rw [d2, s2]
    refine ⟨?_, ?_, rfl, rfl⟩
    · rfl
    · rfl

/-- C26 at the default instances, where no delayed acknowledgment is reserved:
`CA_EVENT_DELAYED_ACK` sets the flag and leaves the control block as it was. -/
theorem C26_ack_reservation_witness :
    TcpDsdcc.CwndEvent Example.dsdcc Example.tcbRx TcpCAEvent_t.CA_EVENT_DELAYED_ACK =
      ({ Example.dsdcc with m_delayedAckReserved := true }, Example.tcbRx) ∧
    TcpDstcp.CwndEvent Example.dstcp Example.tcbRx TcpCAEvent_t.CA_EVENT_DELAYED_ACK =
      ({ Example.dstcp with m_delayedAckReserved := true }, Example.tcbRx) ∧
    (TcpDstcp.CwndEvent Example.dstcp Example.tcbRx TcpCAEvent_t.CA_EVENT_DELAYED_ACK).2.m_sent =
      Example.tcbRx.m_sent :=
  have h := C26_ack_reservation Example.dsdcc Example.dstcp Example.tcbRx
  ⟨h.1, h.2.2.1, (h.2.2.2.2 TcpCAEvent_t.CA_EVENT_DELAYED_ACK (Or.inl rfl)).2.2.2⟩

/-! ## TcpDcvegas: runs in which no byte is delay-marked -/

/-- One call whose accounting marks nothing: the control block is returned as given, the gain
is kept, and alpha is multiplied by `1 - g` if the call closes a window and kept otherwise. -/
theorem step_unmarked_dcvegas {self s1 : TcpDcvegas} {tcb : TcpSocketState} {n : Nat}
    {rtt : Time} {out : Outcome TcpDcvegas}
    (h : TcpDcvegas.PktsAcked self tcb n rtt = .ok out)
    (hacc : TcpDcvegas.account self tcb n rtt = .ok s1)
    (h0 : s1.m_ackedBytesRtt = 0) (hsig : s1.m_signal = TcpDcvegas.Signal.non_sig) :
    out.tcb = tcb ∧ out.self.m_g = self.m_g ∧
      out.self.m_alpha = (1 - self.m_g) ^ out.trace.length * self.m_alpha ∧
      out.trace.length ≤ 1 := by
  obtain ⟨-, -, a3, a4, -⟩ := TcpDcvegas.account_spec_dcvegas hacc
  obtain ⟨l1, -, l3, l4, l5, -⟩ := TcpDcvegas.latch_fields_dcvegas s1 tcb
  rw [TcpDcvegas.PktsAcked_eq_dcvegas hacc] at h
  by_cases hge : SequenceNumber32.ge tcb.m_lastAckedSeq (TcpDcvegas.latch s1 tcb).m_nextSeq = true
  · rw [if_pos hge] at h
    simp only [Except.ok.injEq] at h
    rw [← h]
    have hb : TcpDcvegas.bytesRtt (TcpDcvegas.latch s1 tcb) = 0 := by
      unfold TcpDcvegas.bytesRtt
      rw [l1, h0]
      split <;> simp
    have hs : (TcpDcvegas.latch s1 tcb).m_signal ≠ TcpDcvegas.Signal.rtt_sig := by
      rw [l5, hsig]
      decide
    obtain ⟨e1, e2, -⟩ := TcpDcvegas.expire_fields_dcvegas (TcpDcvegas.latch s1 tcb) tcb
    refine ⟨?_, ?_, ?_, ?_⟩
    · unfold TcpDcvegas.expire
      simp only [hs, if_false]
    · rw [e2, l4, a4]
    · rw [e1, hb, l3, l4, a3, a4]
      have hlen : (TcpDcvegas.expire (TcpDcvegas.latch s1 tcb) tcb).trace.length = 1 := rfl
      rw [hlen]
      ring
    · exact le_of_eq rfl
  · rw [if_neg hge] at h
    simp only [Except.ok.injEq] at h
    rw [← h]
    refine ⟨rfl, ?_, ?_, ?_⟩
    · show (TcpDcvegas.latch s1 tcb).m_g = self.m_g
      rw [l4, a4]
    · show (TcpDcvegas.latch s1 tcb).m_alpha = _
      rw [l3, a3]
      simp
    · simp

/-- A run in which no call marks a byte: alpha is multiplied by `1 - g` once per closed
window, and every call returns the control block it was given. -/
theorem run_unmarked_dcvegas : ∀ (acks : List Ack) (s0 s : TcpDcvegas),
    TcpDcvegas.run s0 acks = .ok s → TcpDcvegas.unmarked s0 acks = true →
    s.m_g = s0.m_g ∧
      s.m_alpha = (1 - s0.m_g) ^ TcpDcvegas.closedWindows s0 acks * s0.m_alpha ∧
      TcpDcvegas.blocks s0 acks = acks.map (fun a => a.tcb) := by
  intro acks
  induction acks with
  | nil =>
    intro s0 s hrun _
    simp only [TcpDcvegas.run, Except.ok.injEq] at hrun
    rw [← hrun]
    simp [TcpDcvegas.closedWindows, TcpDcvegas.blocks]
  | cons a rest ih =>
    intro s0 s hrun hq
    simp only [TcpDcvegas.run] at hrun
    cases hp : TcpDcvegas.PktsAcked s0 a.tcb a.segmentsAcked a.rtt with
    | error e => rw [hp] at hrun; cases hrun
    | ok out =>
      rw [hp] at hrun
      obtain ⟨s1, hacc⟩ := TcpDcvegas.account_of_ok_dcvegas hp
      simp only [TcpDcvegas.unmarked, hacc, hp, Bool.and_eq_true, decide_eq_true_eq] at hq
      obtain ⟨⟨h0, hsig⟩, hrest⟩ := hq
      obtain ⟨b1, b2, b3, -⟩ := step_unmarked_dcvegas hp hacc h0 hsig
      obtain ⟨c1, c2, c3⟩ := ih out.self s hrun hrest
      simp only [TcpDcvegas.closedWindows, TcpDcvegas.blocks, hp, List.map_cons]
      refine ⟨by rw [c1, b2], ?_, by rw [c3, b1]⟩
      rw [c2, b2, b3, pow_add]
      ring

theorem run_append_dcvegas : ∀ (pre post : List Ack) (s0 s : TcpDcvegas),
    TcpDcvegas.run s0 (pre ++ post) = .ok s →
    ∃ sp, TcpDcvegas.run s0 pre = .ok sp ∧ TcpDcvegas.run sp post = .ok s ∧
      (TcpDcvegas.unmarked s0 (pre ++ post) = true →
        TcpDcvegas.unmarked s0 pre = true ∧ TcpDcvegas.unmarked sp post = true) := by
  intro pre
  induction pre with
  | nil =>
    intro post s0 s h
    exact ⟨s0, rfl, h, fun hq => ⟨rfl, hq⟩⟩
  | cons a rest ih =>
    intro post s0 s h
    simp only [List.cons_append, TcpDcvegas.run] at h
    cases hp : TcpDcvegas.PktsAcked s0 a.tcb a.segmentsAcked a.rtt with
    | error e => rw [hp] at h; cases h
    | ok out =>
      rw [hp] at h
      obtain ⟨sp, h1, h2, h3⟩ := ih post out.self s h
      obtain ⟨s1, hacc⟩ := TcpDcvegas.account_of_ok_dcvegas hp
      refine ⟨sp, ?_, h2, ?_⟩
      · simp only [TcpDcvegas.run, hp]
        exact h1
      · intro hq
        simp only [List.cons_append, TcpDcvegas.unmarked, hacc, hp, Bool.and_eq_true,
          decide_eq_true_eq] at hq ⊢
        obtain ⟨hq1, hq2⟩ := hq
        obtain ⟨k1, k2⟩ := h3 hq2
        exact ⟨⟨hq1, k1⟩, k2⟩

/-- A sample equal to the minimum RTT gives the queue estimate 0. -/
theorem networkQueue_at_minRtt (segCwnd : Nat) (r : Int) :
    networkQueue segCwnd r r = .error Fault.divideByZero ∨ networkQueue segCwnd r r = .ok 0 := by
  unfold networkQueue
  by_cases hr : r = 0
  · left
    simp [hr]
  · right
    simp [hr, wrapI32]

/-- One call with a sample equal to the minimum RTT, on an instance with a positive threshold
and nothing marked so far: nothing is marked after the accounting, nor after the call. -/
theorem step_minRtt_dcvegas {self : TcpDcvegas} {tcb : TcpSocketState} {n : Nat} {rtt : Time}
    {out : Outcome TcpDcvegas} (h : TcpDcvegas.PktsAcked self tcb n rtt = .ok out)
    (h0 : self.m_ackedBytesRtt = 0) (hsig : self.m_signal = TcpDcvegas.Signal.non_sig)
    (hk : 0 < self.m_nq_k) (hr : rtt.GetMicroSeconds = tcb.m_minRtt.GetMicroSeconds) :
    (∃ s1, TcpDcvegas.account self tcb n rtt = .ok s1 ∧ s1.m_ackedBytesRtt = 0 ∧
      s1.m_signal = TcpDcvegas.Signal.non_sig) ∧
    out.self.m_ackedBytesRtt = 0 ∧ out.self.m_signal = TcpDcvegas.Signal.non_sig ∧
    out.self.m_nq_k = self.m_nq_k := by
  obtain ⟨s1, hacc, hc⟩ := TcpDcvegas.outcome_cases_dcvegas h
  have hs1 : s1.m_ackedBytesRtt = 0 ∧ s1.m_signal = TcpDcvegas.Signal.non_sig := by
    have hacc2 := hacc
    unfold TcpDcvegas.account at hacc2
    simp only at hacc2
    split at hacc2
    · cases hacc2
      exact ⟨h0, hsig⟩
    · split at hacc2
      · cases hacc2
      · rename_i segCwnd _
        rw [hr] at hacc2
        rcases networkQueue_at_minRtt segCwnd tcb.m_minRtt.GetMicroSeconds with hq | hq
        · rw [hq] at hacc2
          cases hacc2
        · rw [hq] at hacc2
          simp only at hacc2
          have hnk : ¬ (0 : Int) ≥ self.m_nq_k := by omega
          rw [if_neg hnk] at hacc2
          cases hacc2
          exact ⟨h0, hsig⟩
  obtain ⟨-, -, -, -, a5, -⟩ := TcpDcvegas.account_spec_dcvegas hacc
  obtain ⟨l1, -, -, -, l5, l6, -⟩ := TcpDcvegas.latch_fields_dcvegas s1 tcb
  refine ⟨⟨s1, hacc, hs1.1, hs1.2⟩, ?_⟩
  rcases hc with ⟨ho, -⟩ | ⟨-, ho⟩
  · rw [ho]
    exact ⟨l1.trans hs1.1, l5.trans hs1.2, l6.trans a5⟩
  · obtain ⟨-, -, e3, -, e5, -⟩ :=
      TcpDcvegas.expire_fields_dcvegas (TcpDcvegas.latch s1 tcb) tcb
    rw [ho]
    refine ⟨e3, e5, ?_⟩
    have : (TcpDcvegas.expire (TcpDcvegas.latch s1 tcb) tcb).self.m_nq_k =
        (TcpDcvegas.latch s1 tcb).m_nq_k := by
      unfold TcpDcvegas.expire TcpDcvegas.Reset
      rfl
    rw [this, l6, a5]

theorem unmarked_of_minRtt_dcvegas : ∀ (acks : List Ack) (s0 : TcpDcvegas),
    s0.m_ackedBytesRtt = 0 → s0.m_signal = TcpDcvegas.Signal.non_sig → 0 < s0.m_nq_k →
    (∀ a ∈ acks, a.rtt.GetMicroSeconds = a.tcb.m_minRtt.GetMicroSeconds) →
    TcpDcvegas.unmarked s0 acks = true := by
  intro acks
  induction acks with
  | nil =>
    intro s0 _ _ _ _
    rfl
  | cons a rest ih =>
    intro s0 h0 hsig hk hall
    simp only [TcpDcvegas.unmarked]
    cases hacc : TcpDcvegas.account s0 a.tcb a.segmentsAcked a.rtt with
    | error e => rfl
    | ok s1 =>
      have hp : TcpDcvegas.PktsAcked s0 a.tcb a.segmentsAcked a.rtt =
          (if SequenceNumber32.ge a.tcb.m_lastAckedSeq (TcpDcvegas.latch s1 a.tcb).m_nextSeq then
            .ok (TcpDcvegas.expire (TcpDcvegas.latch s1 a.tcb) a.tcb)
          else .ok { self := TcpDcvegas.latch s1 a.tcb, tcb := a.tcb, trace := [] }) :=
        TcpDcvegas.PktsAcked_eq_dcvegas hacc
      have hex : ∃ out, TcpDcvegas.PktsAcked s0 a.tcb a.segmentsAcked a.rtt = .ok out := by
        rw [hp]
        split
        · exact ⟨_, rfl⟩
        · exact ⟨_, rfl⟩
      obtain ⟨out, hout⟩ := hex
      obtain ⟨⟨s1b, hacc2, b1, b2⟩, c1, c2, c3⟩ :=
        step_minRtt_dcvegas hout h0 hsig hk (hall a (List.mem_cons_self a rest))
      rw [hacc] at hacc2
      cases hacc2
      simp only [hout, b1, b2, decide_True, Bool.true_and]
      exact ih out.self c1 c2 (by rw [c3]; exact hk)
        (fun x hx => hall x (List.mem_cons_of_mem a hx))

/-! ## C27: windows without a delay mark -/

/-- C27: take a run of `PktsAcked` calls of TcpDcvegas that returns and in which no call marks
a byte (`m_ackedBytesRtt` stays 0 and the delay signal is never set), and let `n` be the
number of windows it closes.  Then alpha ends as `(1 - g) ^ n` times its initial value, and
every call returns the control block it was given, so `cwnd` and `ssthresh` are never
written.  For `0 <= g <= 1` and a non-negative initial alpha, alpha stays non-negative and
never increases along the run; for `0 < g` it is below any positive bound once enough windows
are closed.  A run on an instance with nothing marked and a positive threshold `k`, every
sample equal to the minimum RTT, is such a run. -/
theorem C27_unmarked_windows_decay (s0 s : TcpDcvegas) (acks : List Ack)
    (hrun : TcpDcvegas.run s0 acks = .ok s) (hq : TcpDcvegas.unmarked s0 acks = true) :
    s.m_alpha = (1 - s0.m_g) ^ TcpDcvegas.closedWindows s0 acks * s0.m_alpha ∧
    TcpDcvegas.blocks s0 acks = acks.map (fun a => a.tcb) ∧
    (0 ≤ s0.m_g → s0.m_g ≤ 1 → 0 ≤ s0.m_alpha →
      0 ≤ s.m_alpha ∧
      ∀ (pre post : List Ack) (sp : TcpDcvegas), acks = pre ++ post →
        TcpDcvegas.run s0 pre = .ok sp → s.m_alpha ≤ sp.m_alpha) ∧
    (0 < s0.m_g → s0.m_g ≤ 1 → 0 ≤ s0.m_alpha → ∀ ε : ℚ, 0 < ε →
      ∃ N, ∀ (acks2 : List Ack) (s2 : TcpDcvegas), TcpDcvegas.run s0 acks2 = .ok s2 →
        TcpDcvegas.unmarked s0 acks2 = true → N ≤ TcpDcvegas.closedWindows s0 acks2 →
        s2.m_alpha < ε) ∧
    (∀ acks2 : List Ack, s0.m_ackedBytesRtt = 0 → s0.m_signal = TcpDcvegas.Signal.non_sig →
      0 < s0.m_nq_k →
      (∀ a ∈ acks2, a.rtt.GetMicroSeconds = a.tcb.m_minRtt.GetMicroSeconds) →
      TcpDcvegas.unmarked s0 acks2 = true) := by
  obtain ⟨-, r2, r3⟩ := run_unmarked_dcvegas acks s0 s hrun hq
  refine ⟨r2, r3, ?_, ?_, ?_⟩
  · intro hg0 hg1 ha
    have hb0 : 0 ≤ 1 - s0.m_g := by linarith
    have hb1 : 1 - s0.m_g ≤ 1 := by linarith
    refine ⟨?_, ?_⟩
    · rw [r2]
      exact mul_nonneg (pow_nonneg hb0 _) ha
    · intro pre post sp hsplit hpre
      subst hsplit
      obtain ⟨sp2, h1, h2, h3⟩ := run_append_dcvegas pre post s0 s hrun
      rw [hpre] at h1
      cases h1
      obtain ⟨q1, q2⟩ := h3 hq
      obtain ⟨p1, p2, -⟩ := run_unmarked_dcvegas pre s0 sp hpre q1
      obtain ⟨-, t2, -⟩ := run_unmarked_dcvegas post sp s h2 q2
      have hsp : 0 ≤ sp.m_alpha := by
        rw [p2]
        exact mul_nonneg (pow_nonneg hb0 _) ha
      rw [t2, p1]
      have hp1 : (1 - s0.m_g) ^ TcpDcvegas.closedWindows sp post ≤ 1 := pow_le_one₀ hb0 hb1
      calc (1 - s0.m_g) ^ TcpDcvegas.closedWindows sp post * sp.m_alpha
          ≤ 1 * sp.m_alpha := mul_le_mul_of_nonneg_right hp1 hsp
        _ = sp.m_alpha := one_mul _
  · intro hg0 hg1 ha ε hε
    have hb0 : 0 ≤ 1 - s0.m_g := by linarith
    have hb1 : 1 - s0.m_g < 1 := by linarith
    have hpos : 0 < ε / (s0.m_alpha + 1) := div_pos hε (by linarith)
    obtain ⟨N, hN⟩ := exists_pow_lt_of_lt_one hpos hb1
    refine ⟨N, ?_⟩
    intro acks2 s2 hrun2 hq2 hle
    obtain ⟨-, u2, -⟩ := run_unmarked_dcvegas acks2 s0 s2 hrun2 hq2
    rw [u2]
    have hmono : (1 - s0.m_g) ^ TcpDcvegas.closedWindows s0 acks2 ≤ (1 - s0.m_g) ^ N :=
      pow_le_pow_of_le_one hb0 (le_of_lt hb1) hle
    have hlt : (1 - s0.m_g) ^ TcpDcvegas.closedWindows s0 acks2 < ε / (s0.m_alpha + 1) :=
      lt_of_le_of_lt hmono hN
    have hp : 0 < s0.m_alpha + 1 := by linarith
    calc (1 - s0.m_g) ^ TcpDcvegas.closedWindows s0 acks2 * s0.m_alpha
        ≤ (1 - s0.m_g) ^ TcpDcvegas.closedWindows s0 acks2 * (s0.m_alpha + 1) :=
          mul_le_mul_of_nonneg_left (by linarith) (pow_nonneg hb0 _)
      _ < ε / (s0.m_alpha + 1) * (s0.m_alpha + 1) := mul_lt_mul_of_pos_right hlt hp
      _ = ε := div_mul_cancel₀ ε (ne_of_gt hp)
  · intro acks2 h0 hsig hk hall
    exact unmarked_of_minRtt_dcvegas acks2 s0 h0 hsig hk hall

/-- C27 at ten windows of 10000 bytes each on the default instance (`g = 1/16`, `alpha = 1`),
every sample equal to the minimum RTT: ten windows are closed, alpha ends as `(15/16) ^ 10`
and the ten calls return the control block with `cwnd = 7000` untouched. -/
theorem C27_unmarked_windows_decay_witness :
    TcpDcvegas.closedWindows Example.dcvegas Example.acksTenWindows = 10 ∧
    Example.dcvegasTenWindows.m_alpha =
      (1 - Example.dcvegas.m_g) ^
        TcpDcvegas.closedWindows Example.dcvegas Example.acksTenWindows *
        Example.dcvegas.m_alpha ∧
    TcpDcvegas.blocks Example.dcvegas Example.acksTenWindows =
      Example.acksTenWindows.map (fun a => a.tcb) ∧
    (TcpDcvegas.PktsAcked Example.dcvegas Example.tcb 10 Example.rtt100us).toOption.map
      (fun out => out.trace) = some [(0, 10000, 15 / 16)] :=
  have h := C27_unmarked_windows_decay Example.dcvegas Example.dcvegasTenWindows
    Example.acksTenWindows (ok_of_toOption (by decide!)) (by decide!)
  ⟨by decide!, h.1, h.2.1, by decide!⟩

/-! ## The window boundary across a call -/

theorem latch_nextSeq_dcvegas (self : TcpDcvegas) (tcb : TcpSocketState) :
    (TcpDcvegas.latch self tcb).m_nextSeq =
      (if self.m_nextSeqFlag = false then tcb.m_nextTxSequence else self.m_nextSeq) ∧
    (TcpDcvegas.latch self tcb).m_nextSeqFlag = true := by
  unfold TcpDcvegas.latch
  by_cases hf : self.m_nextSeqFlag = false
  · rw [if_pos hf, if_pos hf]
    exact ⟨rfl, rfl⟩
  · rw [if_neg hf, if_neg hf]
    exact ⟨rfl, by simpa using hf⟩

theorem latch_nextSeq_dsdcc (self : TcpDsdcc) (tcb : TcpSocketState) :
    (TcpDsdcc.latch self tcb).m_nextSeq =
      (if self.m_nextSeqFlag = false then tcb.m_nextTxSequence else self.m_nextSeq) ∧
    (TcpDsdcc.latch self tcb).m_nextSeqFlag = true := by
  unfold TcpDsdcc.latch
  by_cases hf : self.m_nextSeqFlag = false
  · rw [if_pos hf, if_pos hf]
    exact ⟨rfl, rfl⟩
  · rw [if_neg hf, if_neg hf]
    exact ⟨rfl, by simpa using hf⟩

theorem latch_nextSeq_dstcp (self : TcpDstcp) (tcb : TcpSocketState) :
    (TcpDstcp.latch self tcb).m_nextSeq =
      (if self.m_nextSeqFlag = false then tcb.m_nextTxSequence else self.m_nextSeq) ∧
    (TcpDstcp.latch self tcb).m_nextSeqFlag = true := by
  unfold TcpDstcp.latch
  by_cases hf : self.m_nextSeqFlag = false
  · rw [if_pos hf, if_pos hf]
    exact ⟨rfl, rfl⟩
  · rw [if_neg hf, if_neg hf]
    exact ⟨rfl, by simpa using hf⟩

/-- The window boundary after a call of TcpDcvegas that returns. -/
theorem step_boundary_dcvegas {self : TcpDcvegas} {tcb : TcpSocketState} {n : Nat} {rtt : Time}
    {out : Outcome TcpDcvegas} (h : TcpDcvegas.PktsAcked self tcb n rtt = .ok out) :
    out.self.m_nextSeqFlag = true ∧
    (out.trace ≠ [] → out.self.m_nextSeq = tcb.m_nextTxSequence) ∧
    (out.trace = [] → out.self.m_nextSeq =
      if self.m_nextSeqFlag = false then tcb.m_nextTxSequence else self.m_nextSeq) := by
  obtain ⟨s1, hacc, hc⟩ := TcpDcvegas.outcome_cases_dcvegas h
  obtain ⟨-, -, -, -, -, a6, a7, -⟩ := TcpDcvegas.account_spec_dcvegas hacc
  obtain ⟨l1, l2⟩ := latch_nextSeq_dcvegas s1 tcb
  rw [a6, a7] at l1
  rcases hc with ⟨ho, -⟩ | ⟨-, ho⟩
  · rw [ho]
    exact ⟨l2, fun hne => absurd rfl hne, fun _ => l1⟩
  · obtain ⟨-, -, -, -, -, e6, e7, -, e9, e10⟩ :=
      TcpDcvegas.expire_fields_dcvegas (TcpDcvegas.latch s1 tcb) tcb
    rw [ho]
    refine ⟨e9.trans l2, fun _ => e6.trans e7, fun hnil => absurd hnil e10⟩

/-- The window boundary after a call of TcpDsdcc that returns. -/
theorem step_boundary_dsdcc {self : TcpDsdcc} {tcb : TcpSocketState} {n : Nat} {rtt : Time}
    {out : Outcome TcpDsdcc} (h : TcpDsdcc.PktsAcked self tcb n rtt = .ok out) :
    out.self.m_nextSeqFlag = true ∧
    (out.trace ≠ [] → out.self.m_nextSeq = tcb.m_nextTxSequence) ∧
    (out.trace = [] → out.self.m_nextSeq =
      if self.m_nextSeqFlag = false then tcb.m_nextTxSequence else self.m_nextSeq) := by
  obtain ⟨s1, hacc, hc⟩ := TcpDsdcc.outcome_cases_dsdcc h
  obtain ⟨-, -, -, -, -, -, -, a8, a9, -⟩ := TcpDsdcc.account_spec_dsdcc hacc
  obtain ⟨l1, l2⟩ := latch_nextSeq_dsdcc s1 tcb
  rw [a8, a9] at l1
  rcases hc with ⟨ho, -⟩ | ⟨-, ⟨-, ho⟩ | ⟨-, ho⟩⟩
  · rw [ho]
    exact ⟨l2, fun hne => absurd rfl hne, fun _ => l1⟩
  · obtain ⟨-, -, -, -, -, -, -, -, e9, e10, -, -, -, e14⟩ :=
      TcpDsdcc.expireElephant_fields_dsdcc (TcpDsdcc.latch s1 tcb) tcb
    rw [ho]
    refine ⟨e14.trans l2, fun _ => e9.trans e10, fun hnil => ?_⟩
    exact absurd hnil (by unfold TcpDsdcc.expireElephant; simp)
  · obtain ⟨-, -, -, -, -, -, -, -, e9, e10, e11⟩ :=
      TcpDsdcc.expireMouse_fields_dsdcc (TcpDsdcc.latch s1 tcb) tcb
    rw [ho]
    refine ⟨e11.trans l2, fun _ => by rw [e9, e10], fun hnil => ?_⟩
    exact absurd hnil (by unfold TcpDsdcc.expireMouse; simp)

/-- The window boundary after a call of TcpDstcp that returns. -/
theorem step_boundary_dstcp {ty : NqAvgDecl} {self : TcpDstcp} {tcb : TcpSocketState} {n : Nat}
    {rtt : Time} {out : Outcome TcpDstcp}
    (h : TcpDstcp.PktsAcked ty self tcb n rtt = .ok out) :
    out.self.m_nextSeqFlag = true ∧
    (out.trace ≠ [] → out.self.m_nextSeq = tcb.m_nextTxSequence) ∧
    (out.trace = [] → out.self.m_nextSeq =
      if self.m_nextSeqFlag = false then tcb.m_nextTxSequence else self.m_nextSeq) := by
  obtain ⟨s1, hacc, hc⟩ := TcpDstcp.outcome_cases_dstcp h
  obtain ⟨-, -, -, -, -, -, -, a8, a9, -⟩ := TcpDstcp.account_spec_dstcp hacc
  obtain ⟨l1, l2⟩ := latch_nextSeq_dstcp s1 tcb
  rw [a8, a9] at l1
  rcases hc with ⟨ho, -⟩ | ⟨-, s2, hd, ho⟩
  · rw [ho]
    exact ⟨l2, fun hne => absurd rfl hne, fun _ => l1⟩
  · obtain ⟨-, -, -, -, -, -, -, -, -, r10, r11, -, -, r14, -, r16⟩ :=
      TcpDstcp.react_fields_dstcp s2 tcb
    obtain ⟨-, -, -, -, d5⟩ := TcpDstcp.drainCheck_fields_dstcp hd
    obtain ⟨-, -, -, -, u5, -⟩ := TcpDstcp.updateAlphas_fields_dstcp (TcpDstcp.latch s1 tcb)
    rw [ho]
    refine ⟨?_, fun _ => r10.trans r11, fun hnil => absurd hnil r16⟩
    rw [r14, d5, u5]
    exact l2

/-! ## C28: the latch of the window boundary -/

/-- C28, as stated, fails: `Reset` leaves `m_nextSeqFlag` set, so the call that follows a
window close does not latch.  In the three classes the window close of the `Example`
instances sets the boundary to 300, the `nextTxSeq` of that call; the next call comes with
`nextTxSeq = 400` and 250 acknowledged, closes nothing and leaves the boundary at 300. -/
theorem C28_no_latch_after_reset :
    Example.tcbNext.m_nextTxSequence = 400 ∧
    ((TcpDcvegas.PktsAcked Example.dcvegasMidWindow Example.tcbLater 1 Example.rttZero).toOption =
        some Example.dcvegasClosed ∧
      Example.dcvegasClosed.trace.length = 1 ∧
      (TcpDcvegas.PktsAcked Example.dcvegasClosed.self Example.tcbNext 1
        Example.rttZero).toOption.map (fun out => (out.self.m_nextSeq, out.trace.length)) =
        some (300, 0)) ∧
    ((TcpDsdcc.PktsAcked Example.dsdccMidWindow Example.tcbLater 1 Example.rttZero).toOption =
        some Example.dsdccClosed ∧
      Example.dsdccClosed.trace.length = 1 ∧
      (TcpDsdcc.PktsAcked Example.dsdccClosed.self Example.tcbNext 1
        Example.rttZero).toOption.map (fun out => (out.self.m_nextSeq, out.trace.length)) =
        some (300, 0)) ∧
    ((TcpDstcp.PktsAcked NqAvgDecl.double Example.dstcpMidWindow Example.tcbLater 1
        Example.rttZero).toOption = some Example.dstcpClosed ∧
      Example.dstcpClosed.trace.length = 1 ∧
      (TcpDstcp.PktsAcked NqAvgDecl.double Example.dstcpClosed.self Example.tcbNext 1
        Example.rttZero).toOption.map (fun out => (out.self.m_nextSeq, out.trace.length)) =
        some (300, 0)) := by
  refine ⟨rfl, ⟨?_, rfl, ?_⟩, ⟨?_, rfl, ?_⟩, ⟨?_, rfl, ?_⟩⟩ <;> decide!

/-- C28, amended: in the three classes a `PktsAcked` call that returns leaves `m_nextSeqFlag`
set.  If the flag was clear, as the constructor leaves it, the boundary `m_nextSeq` is the
`m_nextTxSequence` of the control block of that call.  A call that closes a window leaves the
boundary at the `m_nextTxSequence` of that call too (`Reset`); a call that finds the flag set
and closes no window leaves the boundary as it was. -/
theorem C28_window_boundary (tcb : TcpSocketState) (n : Nat) (rtt : Time) :
    (∀ (self : TcpDcvegas) (out : Outcome TcpDcvegas),
      TcpDcvegas.PktsAcked self tcb n rtt = .ok out →
      out.self.m_nextSeqFlag = true ∧
      (self.m_nextSeqFlag = false → out.self.m_nextSeq = tcb.m_nextTxSequence) ∧
      (out.trace ≠ [] → out.self.m_nextSeq = tcb.m_nextTxSequence) ∧
      (self.m_nextSeqFlag = true → out.trace = [] → out.self.m_nextSeq = self.m_nextSeq)) ∧
    (∀ (self : TcpDsdcc) (out : Outcome TcpDsdcc),
      TcpDsdcc.PktsAcked self tcb n rtt = .ok out →
      out.self.m_nextSeqFlag = true ∧
      (self.m_nextSeqFlag = false → out.self.m_nextSeq = tcb.m_nextTxSequence) ∧
      (out.trace ≠ [] → out.self.m_nextSeq = tcb.m_nextTxSequence) ∧
      (self.m_nextSeqFlag = true → out.trace = [] → out.self.m_nextSeq = self.m_nextSeq)) ∧
    (∀ (ty : NqAvgDecl) (self : TcpDstcp) (out : Outcome TcpDstcp),
      TcpDstcp.PktsAcked ty self tcb n rtt = .ok out →
      out.self.m_nextSeqFlag = true ∧
      (self.m_nextSeqFlag = false → out.self.m_nextSeq = tcb.m_nextTxSequence) ∧
      (out.trace ≠ [] → out.self.m_nextSeq = tcb.m_nextTxSequence) ∧
      (self.m_nextSeqFlag = true → out.trace = [] → out.self.m_nextSeq = self.m_nextSeq)) ∧
    (∀ raw : TcpDcvegas, (TcpDcvegas.construct raw).m_nextSeqFlag = false) ∧
    (∀ raw : TcpDsdcc, (TcpDsdcc.construct raw).m_nextSeqFlag = false) ∧
    (∀ raw : TcpDstcp, (TcpDstcp.construct raw).m_nextSeqFlag = false) := by
  have key : ∀ (flag : Bool) (tr : List CongestionEstimate) (a b x : SequenceNumber32),
      (tr ≠ [] → x = a) → (tr = [] → x = if flag = false then a else b) →
      (flag = false → x = a) ∧ (tr ≠ [] → x = a) ∧ (flag = true → tr = [] → x = b) := by
    intro flag tr a b x h2 h3
    refine ⟨?_, h2, ?_⟩
    · intro hf
      by_cases ht : tr = []
      · rw [h3 ht, if_pos hf]
      · exact h2 ht
    · intro hf ht
      rw [h3 ht, if_neg (by rw [hf]; decide)]
  refine ⟨?_, ?_, ?_, fun _ => rfl, fun _ => rfl, fun _ => rfl⟩
  · intro self out h
    obtain ⟨b1, b2, b3⟩ := step_boundary_dcvegas h
    exact ⟨b1, key _ _ _ _ _ b2 b3⟩
  · intro self out h
    obtain ⟨b1, b2, b3⟩ := step_boundary_dsdcc h
    exact ⟨b1, key _ _ _ _ _ b2 b3⟩
  · intro ty self out h
    obtain ⟨b1, b2, b3⟩ := step_boundary_dstcp h
    exact ⟨b1, key _ _ _ _ _ b2 b3⟩

/-- C28, amended, at the first call of the default TcpDcvegas instance, with data in flight up
to 200: the boundary is latched at 200. -/
theorem C28_window_boundary_witness :
    Example.dcvegasMarked.m_nextSeqFlag = true ∧
      Example.dcvegasMarked.m_nextSeq = Example.tcbInFlight.m_nextTxSequence :=
  have h := (C28_window_boundary Example.tcbInFlight 1 Example.rtt1ms).1 Example.dcvegas
    { self := Example.dcvegasMarked, tcb := Example.tcbInFlight, trace := [] }
    (ok_of_toOption (by decide!))
  ⟨h.1, h.2.1 rfl⟩

/-! ## The accounting of one acknowledgment, exactly -/

theorem delayMarked_zero {tcb : TcpSocketState} {rtt : Time} (k : Int)
    (hz : rtt.IsZero = true) : delayMarked tcb rtt k = false := by
  unfold delayMarked
  rw [hz]
  rfl

theorem queueEstimate_eq {tcb : TcpSocketState} {rtt : Time} {segCwnd : Nat}
    (hg : tcb.GetCwndInSegments = .ok segCwnd) :
    queueEstimate tcb rtt =
      networkQueue segCwnd rtt.GetMicroSeconds tcb.m_minRtt.GetMicroSeconds := by
  unfold queueEstimate
  rw [hg]

theorem delayMarked_sample {tcb : TcpSocketState} {rtt : Time} {nq : Int} (k : Int)
    (hz : rtt.IsZero = false) (hq : queueEstimate tcb rtt = .ok nq) :
    delayMarked tcb rtt k = decide (nq ≥ k) := by
  unfold delayMarked
  rw [hz, hq]
  rfl

theorem account_exact_dcvegas {self s1 : TcpDcvegas} {tcb : TcpSocketState} {n : Nat}
    {rtt : Time} (h : TcpDcvegas.account self tcb n rtt = .ok s1) :
    s1.m_ackedBytesTotal = wrapU32 (self.m_ackedBytesTotal + ackedBytes tcb n) ∧
    s1.m_ackedBytesRtt = (if delayMarked tcb rtt self.m_nq_k = true then
      wrapU32 (self.m_ackedBytesRtt + ackedBytes tcb n) else self.m_ackedBytesRtt) ∧
    s1.m_signal = (if delayMarked tcb rtt self.m_nq_k = true then TcpDcvegas.Signal.rtt_sig
      else self.m_signal) := by
  unfold TcpDcvegas.account at h
  simp only at h
  split at h
  · rename_i hz
    cases h
    rw [delayMarked_zero _ hz]
    exact ⟨rfl, rfl, rfl⟩
  · rename_i hz
    have hz2 : rtt.IsZero = false := by simpa using hz
    split at h
    · cases h
    · rename_i segCwnd hg
      split at h
      · cases h
      · rename_i nq hq
        rw [← queueEstimate_eq hg] at hq
        rw [delayMarked_sample _ hz2 hq]
        split at h
        · rename_i hk
          cases h
          simp [hk]
        · rename_i hk
          cases h
          simp [hk]

theorem accountRtt_exact_dsdcc {self s1 : TcpDsdcc} {tcb : TcpSocketState} {n : Nat}
    {rtt : Time} (h : TcpDsdcc.accountRtt self tcb n rtt = .ok s1) :
    s1.m_ackedBytesTotal = wrapU32 (self.m_ackedBytesTotal + ackedBytes tcb n) ∧
    s1.m_ackedBytesRtt = (if delayMarked tcb rtt self.m_nq_k = true then
      wrapU32 (self.m_ackedBytesRtt + ackedBytes tcb n) else self.m_ackedBytesRtt) ∧
    s1.m_signal = (if delayMarked tcb rtt self.m_nq_k = true then TcpDsdcc.Signal.rtt_sig
      else self.m_signal) ∧
    s1.m_ackedBytesEcn = self.m_ackedBytesEcn := by
  unfold TcpDsdcc.accountRtt at h
  simp only at h
  split at h
  · rename_i hz
    cases h
    rw [delayMarked_zero _ hz]
    exact ⟨rfl, rfl, rfl, rfl⟩
  · rename_i hz
    have hz2 : rtt.IsZero = false := by simpa using hz
    split at h
    · cases h
    · rename_i segCwnd hg
      split at h
      · cases h
      · rename_i nq hq
        rw [← queueEstimate_eq hg] at hq
        rw [delayMarked_sample _ hz2 hq]
        split at h
        · rename_i hk
          cases h
          simp [hk]
        · rename_i hk
          cases h
          simp [hk]

theorem accountEcn_exact_dsdcc (self : TcpDsdcc) (tcb : TcpSocketState) (n : Nat) :
    (TcpDsdcc.accountEcn self tcb n).m_ackedBytesTotal = self.m_ackedBytesTotal ∧
    (TcpDsdcc.accountEcn self tcb n).m_ackedBytesRtt = self.m_ackedBytesRtt ∧
    (TcpDsdcc.accountEcn self tcb n).m_signal = self.m_signal ∧
    (TcpDsdcc.accountEcn self tcb n).m_ackedBytesEcn =
      (if tcb.m_ecnState = EcnState_t.ECN_ECE_RCVD then
        wrapU32 (self.m_ackedBytesEcn + ackedBytes tcb n) else self.m_ackedBytesEcn) := by
  unfold TcpDsdcc.accountEcn
  split <;> exact ⟨rfl, rfl, rfl, rfl⟩

theorem accountRtt_exact_dstcp {ty : NqAvgDecl} {self s1 : TcpDstcp} {tcb : TcpSocketState}
    {n : Nat} {rtt : Time} (h : TcpDstcp.accountRtt ty self tcb n rtt = .ok s1) :
    s1.m_ackedBytesTotal = wrapU32 (self.m_ackedBytesTotal + ackedBytes tcb n) ∧
    s1.m_ackedBytesRtt = (if delayMarked tcb rtt self.m_nq_k1 = true then
      wrapU32 (self.m_ackedBytesRtt + ackedBytes tcb n) else self.m_ackedBytesRtt) ∧
    s1.m_signal = (if delayMarked tcb rtt self.m_nq_k1 = true then TcpDstcp.Signal.rtt_sig
      else self.m_signal) ∧
    s1.m_ackedBytesEcn = self.m_ackedBytesEcn ∧
    s1.m_nq_g = self.m_nq_g ∧
    (rtt.IsZero = true → s1.m_nq_avg = self.m_nq_avg) ∧
    (rtt.IsZero = false → ∃ nq, queueEstimate tcb rtt = .ok nq ∧
      s1.m_nq_avg = (if self.m_nq_avg < 0 then (nq : ℚ)
        else ty.store (self.m_nq_avg + self.m_nq_g * ((nq : ℚ) - self.m_nq_avg)))) := by
  unfold TcpDstcp.accountRtt at h
  simp only at h
  split at h
  · rename_i hz
    cases h
    rw [delayMarked_zero _ hz]
    refine ⟨rfl, rfl, rfl, rfl, rfl, fun _ => rfl, ?_⟩
    intro hz2
    rw [hz] at hz2
    cases hz2
  · rename_i hz
    have hz2 : rtt.IsZero = false := by simpa using hz
    split at h
    · cases h
    · rename_i segCwnd hg
      split at h
      · cases h
      · rename_i nq hq
        rw [← queueEstimate_eq hg] at hq
        rw [delayMarked_sample _ hz2 hq]
        cases h
        unfold TcpDstcp.accountNq
        simp only
        refine ⟨?_, ?_, ?_, ?_, ?_, ?_, ?_⟩
        · split <;> split <;> rfl
        · by_cases hk : nq ≥ self.m_nq_k1
          · simp only [hk, if_true, decide_True]
            split <;> rfl
          · simp only [hk, if_false, decide_False, Bool.false_eq_true]
            split <;> rfl
        · by_cases hk : nq ≥ self.m_nq_k1
          · simp only [hk, if_true, decide_True]
            split <;> rfl
          · simp only [hk, if_false, decide_False, Bool.false_eq_true]
            split <;> rfl
        · split <;> split <;> rfl
        · split <;> split <;> rfl
        · intro hz3
          rw [hz2] at hz3
          cases hz3
        · intro _
          refine ⟨nq, hq, ?_⟩
          by_cases hk : nq ≥ self.m_nq_k1
          · simp only [hk, if_true]
            split <;> rfl
          · simp only [hk, if_false]
            split <;> rfl

theorem accountEcn_exact_dstcp (self : TcpDstcp) (tcb : TcpSocketState) (n : Nat) :
    (TcpDstcp.accountEcn self tcb n).m_ackedBytesTotal = self.m_ackedBytesTotal ∧
    (TcpDstcp.accountEcn self tcb n).m_ackedBytesRtt = self.m_ackedBytesRtt ∧
    (TcpDstcp.accountEcn self tcb n).m_signal =
      (if tcb.m_ecnState = EcnState_t.ECN_ECE_RCVD then TcpDstcp.Signal.ecn_sig
        else self.m_signal) ∧
    (TcpDstcp.accountEcn self tcb n).m_ackedBytesEcn =
      (if tcb.m_ecnState = EcnState_t.ECN_ECE_RCVD then
        wrapU32 (self.m_ackedBytesEcn + ackedBytes tcb n) else self.m_ackedBytesEcn) ∧
    (TcpDstcp.accountEcn self tcb n).m_nq_avg = self.m_nq_avg ∧
    (TcpDstcp.accountEcn self tcb n).m_nq_g = self.m_nq_g := by
  unfold TcpDstcp.accountEcn
  split <;> exact ⟨rfl, rfl, rfl, rfl, rfl, rfl⟩

theorem account_split_dsdcc {self s1 : TcpDsdcc} {tcb : TcpSocketState} {n : Nat} {rtt : Time}
    (h : TcpDsdcc.account self tcb n rtt = .ok s1) :
    ∃ sr, TcpDsdcc.accountRtt self tcb n rtt = .ok sr ∧ s1 = TcpDsdcc.accountEcn sr tcb n := by
  unfold TcpDsdcc.account at h
  cases hr : TcpDsdcc.accountRtt self tcb n rtt with
  | error e => rw [hr] at h; cases h
  | ok sr =>
    rw [hr] at h
    simp only [Except.ok.injEq] at h
    exact ⟨sr, rfl, h.symm⟩

theorem account_split_dstcp {ty : NqAvgDecl} {self s1 : TcpDstcp} {tcb : TcpSocketState}
    {n : Nat} {rtt : Time} (h : TcpDstcp.account ty self tcb n rtt = .ok s1) :
    ∃ sr, TcpDstcp.accountRtt ty self tcb n rtt = .ok sr ∧
      s1 = TcpDstcp.accountEcn sr tcb n := by
  unfold TcpDstcp.account at h
  cases hr : TcpDstcp.accountRtt ty self tcb n rtt with
  | error e => rw [hr] at h; cases h
  | ok sr =>
    rw [hr] at h
    simp only [Except.ok.injEq] at h
    exact ⟨sr, rfl, h.symm⟩

theorem delayMarked_iff (tcb : TcpSocketState) (rtt : Time) (k : Int) :
    delayMarked tcb rtt k = true ↔
      rtt.IsZero = false ∧ ∃ nq, queueEstimate tcb rtt = .ok nq ∧ nq ≥ k := by
  by_cases hz : rtt.IsZero = true
  · rw [delayMarked_zero k hz]
    constructor
    · intro h
      cases h
    · rintro ⟨h, -⟩
      rw [hz] at h
      cases h
  · have hz2 : rtt.IsZero = false := by simpa using hz
    cases hq : queueEstimate tcb rtt with
    | error e =>
      unfold delayMarked
      rw [hq]
      simp
    | ok nq =>
      rw [delayMarked_sample k hz2 hq]
      simp [hz2]

/-! ## C29: the accounting of one acknowledgment -/

/-- C29: in the three classes, after a `PktsAcked` call that returns without closing a window,
`m_ackedBytesTotal` is the `uint32_t` sum of its old value and `segmentsAcked * segmentSize`
(the plain sum when nothing wraps).  If the RTT sample is non-zero and the queue estimate
reaches the threshold (`m_nq_k`, `m_nq_k1` in TcpDstcp), `m_ackedBytesRtt` grows by the same
amount and the delay accounting sets `m_signal = rtt_sig`; otherwise both are left as they
were.  `m_ackedBytesEcn` (TcpDsdcc, TcpDstcp) grows by the same amount if the mark state of
the control block is `ECN_ECE_RCVD` and is left as it was otherwise.  In TcpDstcp the ECN
accounting that follows overwrites the signal with `ecn_sig` in the first case. -/
theorem C29_per_ack_accounting (tcb : TcpSocketState) (n : Nat) (rtt : Time) :
    (∀ (self : TcpDcvegas) (out : Outcome TcpDcvegas),
      TcpDcvegas.PktsAcked self tcb n rtt = .ok out → out.trace = [] →
      out.self.m_ackedBytesTotal = wrapU32 (self.m_ackedBytesTotal + ackedBytes tcb n) ∧
      out.self.m_ackedBytesRtt = (if delayMarked tcb rtt self.m_nq_k = true then
        wrapU32 (self.m_ackedBytesRtt + ackedBytes tcb n) else self.m_ackedBytesRtt) ∧
      out.self.m_signal = (if delayMarked tcb rtt self.m_nq_k = true then
        TcpDcvegas.Signal.rtt_sig else self.m_signal)) ∧
    (∀ (self : TcpDsdcc) (out : Outcome TcpDsdcc),
      TcpDsdcc.PktsAcked self tcb n rtt = .ok out → out.trace = [] →
      out.self.m_ackedBytesTotal = wrapU32 (self.m_ackedBytesTotal + ackedBytes tcb n) ∧
      out.self.m_ackedBytesRtt = (if delayMarked tcb rtt self.m_nq_k = true then
        wrapU32 (self.m_ackedBytesRtt + ackedBytes tcb n) else self.m_ackedBytesRtt) ∧
      out.self.m_signal = (if delayMarked tcb rtt self.m_nq_k = true then
        TcpDsdcc.Signal.rtt_sig else self.m_signal) ∧
      out.self.m_ackedBytesEcn = (if tcb.m_ecnState = EcnState_t.ECN_ECE_RCVD then
        wrapU32 (self.m_ackedBytesEcn + ackedBytes tcb n) else self.m_ackedBytesEcn)) ∧
    (∀ (ty : NqAvgDecl) (self : TcpDstcp) (out : Outcome TcpDstcp),
      TcpDstcp.PktsAcked ty self tcb n rtt = .ok out → out.trace = [] →
      out.self.m_ackedBytesTotal = wrapU32 (self.m_ackedBytesTotal + ackedBytes tcb n) ∧
      out.self.m_ackedBytesRtt = (if delayMarked tcb rtt self.m_nq_k1 = true then
        wrapU32 (self.m_ackedBytesRtt + ackedBytes tcb n) else self.m_ackedBytesRtt) ∧
      (∃ sr, TcpDstcp.accountRtt ty self tcb n rtt = .ok sr ∧
        sr.m_signal = (if delayMarked tcb rtt self.m_nq_k1 = true then
          TcpDstcp.Signal.rtt_sig else self.m_signal)) ∧
      out.self.m_signal = (if tcb.m_ecnState = EcnState_t.ECN_ECE_RCVD then
        TcpDstcp.Signal.ecn_sig
        else if delayMarked tcb rtt self.m_nq_k1 = true then TcpDstcp.Signal.rtt_sig
        else self.m_signal) ∧
      out.self.m_ackedBytesEcn = (if tcb.m_ecnState = EcnState_t.ECN_ECE_RCVD then
        wrapU32 (self.m_ackedBytesEcn + ackedBytes tcb n) else self.m_ackedBytesEcn)) ∧
    (∀ k : Int, delayMarked tcb rtt k = true ↔
      rtt.IsZero = false ∧ ∃ nq, queueEstimate tcb rtt = .ok nq ∧ nq ≥ k) ∧
    (∀ x : Nat, x + n * tcb.m_segmentSize < 2 ^ 32 →
      wrapU32 (x + ackedBytes tcb n) = x + n * tcb.m_segmentSize) := by
  refine ⟨?_, ?_, ?_, fun k => delayMarked_iff tcb rtt k, ?_⟩
  · intro self out h ht
    obtain ⟨s1, hacc, hc⟩ := TcpDcvegas.outcome_cases_dcvegas h
    obtain ⟨a1, a2, a3⟩ := account_exact_dcvegas hacc
    obtain ⟨l1, l2, -, -, l5, -⟩ := TcpDcvegas.latch_fields_dcvegas s1 tcb
    rcases hc with ⟨ho, -⟩ | ⟨-, ho⟩
    · rw [ho]
      exact ⟨l2.trans a1, l1.trans a2, l5.trans a3⟩
    · obtain ⟨-, -, -, -, -, -, -, -, -, e10⟩ :=
        TcpDcvegas.expire_fields_dcvegas (TcpDcvegas.latch s1 tcb) tcb
      rw [ho] at ht
      exact absurd ht e10
  · intro self out h ht
    obtain ⟨s1, hacc, hc⟩ := TcpDsdcc.outcome_cases_dsdcc h
    obtain ⟨sr, hr, hs1⟩ := account_split_dsdcc hacc
    obtain ⟨a1, a2, a3, a4⟩ := accountRtt_exact_dsdcc hr
    obtain ⟨b1, b2, b3, b4⟩ := accountEcn_exact_dsdcc sr tcb n
    rw [← hs1] at b1 b2 b3 b4
    obtain ⟨l1, l2, l3, -, -, -, -, l8, -⟩ := TcpDsdcc.latch_fields_dsdcc s1 tcb
    rcases hc with ⟨ho, -⟩ | ⟨-, ⟨-, ho⟩ | ⟨-, ho⟩⟩
    · rw [ho]
      refine ⟨l3.trans (b1.trans a1), l1.trans (b2.trans a2), l8.trans (b3.trans a3), ?_⟩
      show (TcpDsdcc.latch s1 tcb).m_ackedBytesEcn = _
      rw [l2, b4, a4]
    · rw [ho] at ht
      exact absurd ht (by unfold TcpDsdcc.expireElephant; simp)
    · rw [ho] at ht
      exact absurd ht (by unfold TcpDsdcc.expireMouse; simp)
  · intro ty self out h ht
    obtain ⟨s1, hacc, hc⟩ := TcpDstcp.outcome_cases_dstcp h
    obtain ⟨sr, hr, hs1⟩ := account_split_dstcp hacc
    obtain ⟨a1, a2, a3, a4, -⟩ := accountRtt_exact_dstcp hr
    obtain ⟨b1, b2, b3, b4, -⟩ := accountEcn_exact_dstcp sr tcb n
    rw [← hs1] at b1 b2 b3 b4
    obtain ⟨l1, l2, l3, -⟩ := TcpDstcp.latch_fields_dstcp s1 tcb
    have l8 : (TcpDstcp.latch s1 tcb).m_signal = s1.m_signal := by
      rw [latch_frame_dstcp s1 tcb]
    rcases hc with ⟨ho, -⟩ | ⟨-, s2, -, ho⟩
    · rw [ho]
      refine ⟨l3.trans (b1.trans a1), l1.trans (b2.trans a2), ⟨sr, hr, a3⟩, ?_, ?_⟩
      · show (TcpDstcp.latch s1 tcb).m_signal = _
        rw [l8, b3, a3]
      · show (TcpDstcp.latch s1 tcb).m_ackedBytesEcn = _
        rw [l2, b4, a4]
    · obtain ⟨-, -, -, -, -, -, -, -, -, -, -, -, -, -, -, r16⟩ :=
        TcpDstcp.react_fields_dstcp s2 tcb
      rw [ho] at ht
      exact absurd ht r16
  · intro x hx
    have hb : n * tcb.m_segmentSize < 2 ^ 32 := by omega
    rw [ackedBytes_of_lt hb]
    unfold wrapU32
    exact Nat.mod_eq_of_lt hx

/-- C29 at the first acknowledgment of `Example.acksEce` on the default TcpDstcp instance: one
segment of 1000 bytes, delay-marked (queue estimate 6 against `k1 = 5`), with the echo of a
mark received.  The three counters are 1000 and the signal ends as `ecn_sig`. -/
theorem C29_per_ack_accounting_witness :
    delayMarked { Example.tcbInFlight with m_ecnState := EcnState_t.ECN_ECE_RCVD }
      Example.rtt1ms Example.dstcp.m_nq_k1 = true ∧
    Example.dstcpMarked.m_ackedBytesTotal = 1000 ∧
    Example.dstcpMarked.m_ackedBytesRtt = 1000 ∧
    Example.dstcpMarked.m_ackedBytesEcn = 1000 ∧
    Example.dstcpMarked.m_signal = TcpDstcp.Signal.ecn_sig :=
  have h := (C29_per_ack_accounting
    { Example.tcbInFlight with m_ecnState := EcnState_t.ECN_ECE_RCVD } 1 Example.rtt1ms).2.2.1
    NqAvgDecl.double Example.dstcp
    { self := Example.dstcpMarked
      tcb := { Example.tcbInFlight with m_ecnState := EcnState_t.ECN_ECE_RCVD }
      trace := [] }
    (ok_of_toOption (by decide!)) rfl
  ⟨by decide!, h.1.trans (by decide!), h.2.1.trans (by decide!), h.2.2.2.2.trans (by decide!),
    h.2.2.2.1.trans (by decide!)⟩

/-! ## TcpDstcp: the average of the queue estimate -/

theorem wrapI32_bounds (z : Int) : -2 ^ 31 ≤ wrapI32 z ∧ wrapI32 z ≤ 2 ^ 31 - 1 := by
  unfold wrapI32
  have h1 : 0 ≤ (z + 2 ^ 31) % 2 ^ 32 := Int.emod_nonneg _ (by norm_num)
  have h2 : (z + 2 ^ 31) % 2 ^ 32 < 2 ^ 32 := Int.emod_lt_of_pos _ (by norm_num)
  constructor <;> omega

theorem wrapI32_id {z : Int} (h0 : -2 ^ 31 ≤ z) (h1 : z ≤ 2 ^ 31 - 1) : wrapI32 z = z := by
  unfold wrapI32
  have h : (z + 2 ^ 31) % 2 ^ 32 = z + 2 ^ 31 :=
    Int.emod_eq_of_lt (by omega) (by omega)
  omega

theorem queueEstimate_le {tcb : TcpSocketState} {rtt : Time} {nq : Int}
    (h : queueEstimate tcb rtt = .ok nq) : nq ≤ 2 ^ 31 - 1 := by
  unfold queueEstimate at h
  split at h
  · cases h
  · unfold networkQueue at h
    split at h
    · cases h
    · split at h
      · cases h
      · cases h
        exact (wrapI32_bounds _).2

/-- With a non-negative minimum RTT and fewer than `2 ^ 31` segments in the window, the queue
estimate is not negative. -/
theorem queueEstimate_nonneg {tcb : TcpSocketState} {rtt : Time} {nq : Int}
    (h : queueEstimate tcb rtt = .ok nq) (hb : 0 ≤ tcb.m_minRtt.GetMicroSeconds)
    (hc : tcb.m_cWnd / tcb.m_segmentSize < 2 ^ 31) : 0 ≤ nq := by
  unfold queueEstimate TcpSocketState.GetCwndInSegments at h
  split at h
  · cases h
  · rename_i segCwnd hg
    split at hg
    · cases hg
    · cases hg
      unfold networkQueue at h
      split at h
      · cases h
      · rename_i hlt
        split at h
        · cases h
        · rename_i hne
          cases h
          have hcur : 0 < rtt.GetMicroSeconds := by omega
          have hd : 0 ≤ rtt.GetMicroSeconds - tcb.m_minRtt.GetMicroSeconds := by omega
          have hs : (0 : Int) ≤ ((tcb.m_cWnd / tcb.m_segmentSize : Nat) : Int) :=
            Int.natCast_nonneg _
          have hp : 0 ≤ ((tcb.m_cWnd / tcb.m_segmentSize : Nat) : Int) *
              (rtt.GetMicroSeconds - tcb.m_minRtt.GetMicroSeconds) := mul_nonneg hs hd
          have ht0 : 0 ≤ Int.tdiv (((tcb.m_cWnd / tcb.m_segmentSize : Nat) : Int) *
              (rtt.GetMicroSeconds - tcb.m_minRtt.GetMicroSeconds)) rtt.GetMicroSeconds :=
            Int.tdiv_nonneg hp (le_of_lt hcur)
          have ht1 : Int.tdiv (((tcb.m_cWnd / tcb.m_segmentSize : Nat) : Int) *
              (rtt.GetMicroSeconds - tcb.m_minRtt.GetMicroSeconds)) rtt.GetMicroSeconds ≤
              ((tcb.m_cWnd / tcb.m_segmentSize : Nat) : Int) := by
            rw [Int.tdiv_eq_ediv hp (le_of_lt hcur)]
            apply Int.ediv_le_of_le_mul hcur
            exact mul_le_mul_of_nonneg_left (by omega) hs
          have hc2 : ((tcb.m_cWnd / tcb.m_segmentSize : Nat) : Int) < 2 ^ 31 := by
            exact_mod_cast hc
          rw [wrapI32_id (by omega) (by omega)]
          exact ht0

theorem store_bounds (ty : NqAvgDecl) {x : ℚ} (h0 : 0 ≤ x) (h1 : x ≤ 2 ^ 31 - 1) :
    0 ≤ ty.store x ∧ ty.store x ≤ 2 ^ 31 - 1 := by
  cases ty
  · show 0 ≤ ((wrapI32 (truncQ x) : Int) : ℚ) ∧ ((wrapI32 (truncQ x) : Int) : ℚ) ≤ 2 ^ 31 - 1
    unfold truncQ
    rw [if_pos h0]
    have hf0 : 0 ≤ ⌊x⌋ := Int.floor_nonneg.mpr h0
    have h1b : x ≤ 2147483647 := by
      have e : (2 : ℚ) ^ 31 - 1 = 2147483647 := by norm_num
      rw [← e]
      exact h1
    have hf1 : ⌊x⌋ ≤ 2147483647 := by
      have : (⌊x⌋ : ℚ) ≤ ((2147483647 : Int) : ℚ) := by
        push_cast
        exact le_trans (Int.floor_le x) h1b
      exact_mod_cast this
    rw [wrapI32_id (by omega) (by omega)]
    constructor
    · exact_mod_cast hf0
    · have h2 : ((⌊x⌋ : Int) : ℚ) ≤ ((2147483647 : Int) : ℚ) := by exact_mod_cast hf1
      have e : (2 : ℚ) ^ 31 - 1 = ((2147483647 : Int) : ℚ) := by norm_num
      rw [e]
      exact h2
  · exact ⟨h0, h1⟩

theorem blend_bounds {avg g q : ℚ} (hg0 : 0 ≤ g) (hg1 : g ≤ 1) (ha0 : 0 ≤ avg)
    (ha1 : avg ≤ 2 ^ 31 - 1) (hq0 : 0 ≤ q) (hq1 : q ≤ 2 ^ 31 - 1) :
    0 ≤ avg + g * (q - avg) ∧ avg + g * (q - avg) ≤ 2 ^ 31 - 1 := by
  have e : avg + g * (q - avg) = (1 - g) * avg + g * q := by ring
  rw [e]
  have h1g : 0 ≤ 1 - g := by linarith
  constructor
  · exact add_nonneg (mul_nonneg h1g ha0) (mul_nonneg hg0 hq0)
  · have a1 : (1 - g) * avg ≤ (1 - g) * (2 ^ 31 - 1) := mul_le_mul_of_nonneg_left ha1 h1g
    have a2 : g * q ≤ g * (2 ^ 31 - 1) := mul_le_mul_of_nonneg_left hq1 hg0
    linarith

/-- The average of the queue estimate after the accounting of one acknowledgment. -/
theorem account_avg_dstcp {ty : NqAvgDecl} {self s1 : TcpDstcp} {tcb : TcpSocketState}
    {n : Nat} {rtt : Time} (h : TcpDstcp.account ty self tcb n rtt = .ok s1) :
    s1.m_nq_g = self.m_nq_g ∧
    (rtt.IsZero = true → s1.m_nq_avg = self.m_nq_avg) ∧
    (rtt.IsZero = false → ∃ nq, queueEstimate tcb rtt = .ok nq ∧
      s1.m_nq_avg = (if self.m_nq_avg < 0 then (nq : ℚ)
        else ty.store (self.m_nq_avg + self.m_nq_g * ((nq : ℚ) - self.m_nq_avg)))) := by
  obtain ⟨sr, hr, hs1⟩ := account_split_dstcp h
  obtain ⟨-, -, -, -, a5, a6, a7⟩ := accountRtt_exact_dstcp hr
  obtain ⟨-, -, -, -, b5, b6⟩ := accountEcn_exact_dstcp sr tcb n
  rw [← hs1] at b5 b6
  refine ⟨b6.trans a5, fun hz => b5.trans (a6 hz), fun hz => ?_⟩
  obtain ⟨nq, hq, ha⟩ := a7 hz
  exact ⟨nq, hq, b5.trans ha⟩

/-- A call that closes no window leaves the average that its accounting computed. -/
theorem step_avg_dstcp {ty : NqAvgDecl} {self : TcpDstcp} {tcb : TcpSocketState} {n : Nat}
    {rtt : Time} {out : Outcome TcpDstcp}
    (h : TcpDstcp.PktsAcked ty self tcb n rtt = .ok out) (ht : out.trace = []) :
    ∃ s1, TcpDstcp.account ty self tcb n rtt = .ok s1 ∧ out.self.m_nq_avg = s1.m_nq_avg ∧
      out.self.m_nq_g = self.m_nq_g := by
  obtain ⟨s1, hacc, hc⟩ := TcpDstcp.outcome_cases_dstcp h
  refine ⟨s1, hacc, ?_⟩
  rcases hc with ⟨ho, -⟩ | ⟨-, s2, -, ho⟩
  · rw [ho]
    have hl := latch_frame_dstcp s1 tcb
    have hf := account_frame_dstcp hacc
    constructor
    · show (TcpDstcp.latch s1 tcb).m_nq_avg = s1.m_nq_avg
      rw [hl]
    · show (TcpDstcp.latch s1 tcb).m_nq_g = self.m_nq_g
      rw [hl, hf]
  · obtain ⟨-, -, -, -, -, -, -, -, -, -, -, -, -, -, -, r16⟩ :=
      TcpDstcp.react_fields_dstcp s2 tcb
    rw [ho] at ht
    exact absurd ht r16

/-- Along a run that closes no window and whose queue estimates are not negative, the average
is -1 until a non-zero sample is seen and lies in `[0, 2 ^ 31 - 1]` from then on. -/
theorem window_avg_dstcp (ty : NqAvgDecl) : ∀ (acks : List Ack) (s0 s : TcpDstcp) (seen : Bool),
    (seen = false → s0.m_nq_avg = -1) →
    (seen = true → 0 ≤ s0.m_nq_avg ∧ s0.m_nq_avg ≤ 2 ^ 31 - 1) →
    0 ≤ s0.m_nq_g → s0.m_nq_g ≤ 1 →
    TcpDstcp.run ty s0 acks = .ok s → TcpDstcp.closedWindows ty s0 acks = 0 →
    (∀ b ∈ acks, ∀ nq, queueEstimate b.tcb b.rtt = .ok nq → 0 ≤ nq) →
    s.m_nq_g = s0.m_nq_g ∧
      ((seen || sampled acks) = false → s.m_nq_avg = -1) ∧
      ((seen || sampled acks) = true → 0 ≤ s.m_nq_avg ∧ s.m_nq_avg ≤ 2 ^ 31 - 1) := by
  intro acks
  induction acks with
  | nil =>
    intro s0 s seen h1 h2 _ _ hrun _ _
    simp only [TcpDstcp.run, Except.ok.injEq] at hrun
    rw [← hrun]
    simp only [sampled, List.any_nil, Bool.or_false]
    exact ⟨trivial, h1, h2⟩
  | cons a rest ih =>
    intro s0 s seen h1 h2 hg0 hg1 hrun hopen hnn
    simp only [TcpDstcp.run] at hrun
    cases hp : TcpDstcp.PktsAcked ty s0 a.tcb a.segmentsAcked a.rtt with
    | error e => rw [hp] at hrun; cases hrun
    | ok out =>
      rw [hp] at hrun
      simp only [TcpDstcp.closedWindows, hp] at hopen
      have ht : out.trace = [] := List.length_eq_zero.mp (by omega)
      have hrest : TcpDstcp.closedWindows ty out.self rest = 0 := by omega
      obtain ⟨s1, hacc, e1, e2⟩ := step_avg_dstcp hp ht
      obtain ⟨-, z1, z2⟩ := account_avg_dstcp hacc
      have hnn2 : ∀ b ∈ rest, ∀ nq, queueEstimate b.tcb b.rtt = .ok nq → 0 ≤ nq :=
        fun b hb => hnn b (List.mem_cons_of_mem a hb)
      have hs : sampled (a :: rest) = (!a.rtt.IsZero || sampled rest) := by
        simp only [sampled, List.any_cons]
      rw [hs]
      by_cases hz : a.rtt.IsZero = true
      · have e3 : out.self.m_nq_avg = s0.m_nq_avg := e1.trans (z1 hz)
        obtain ⟨c1, c2, c3⟩ := ih out.self s seen (fun hs => by rw [e3]; exact h1 hs)
          (fun hs => by rw [e3]; exact h2 hs) (by rw [e2]; exact hg0) (by rw [e2]; exact hg1)
          hrun hrest hnn2
        rw [hz]
        simp only [Bool.not_true, Bool.false_or]
        exact ⟨c1.trans e2, c2, c3⟩
      · have hz2 : a.rtt.IsZero = false := by simpa using hz
        obtain ⟨nq, hq, hv⟩ := z2 hz2
        have hn0 : 0 ≤ nq := hnn a (List.mem_cons_self a rest) nq hq
        have hn1 : nq ≤ 2 ^ 31 - 1 := queueEstimate_le hq
        have hq0 : (0 : ℚ) ≤ (nq : ℚ) := by exact_mod_cast hn0
        have hq1 : (nq : ℚ) ≤ 2 ^ 31 - 1 := by
          have hn2 : nq ≤ 2147483647 := by omega
          have h3 : ((nq : Int) : ℚ) ≤ ((2147483647 : Int) : ℚ) := by exact_mod_cast hn2
          have e : (2 : ℚ) ^ 31 - 1 = ((2147483647 : Int) : ℚ) := by norm_num
          rw [e]
          exact h3
        have hb : 0 ≤ out.self.m_nq_avg ∧ out.self.m_nq_avg ≤ 2 ^ 31 - 1 := by
          rw [e1, hv]
          cases hseen : seen
          · have hneg : s0.m_nq_avg < 0 := by
              rw [h1 hseen]
              norm_num
            rw [if_pos hneg]
            exact ⟨hq0, hq1⟩
          · obtain ⟨k0, k1⟩ := h2 hseen
            rw [if_neg (not_lt.mpr k0)]
            exact store_bounds ty (blend_bounds hg0 hg1 k0 k1 hq0 hq1).1
              (blend_bounds hg0 hg1 k0 k1 hq0 hq1).2
        obtain ⟨c1, -, c3⟩ := ih out.self s true (fun hs => by cases hs) (fun _ => hb)
          (by rw [e2]; exact hg0) (by rw [e2]; exact hg1) hrun hrest hnn2
        rw [hz2]
        simp only [Bool.not_false, Bool.true_or, Bool.or_true]
        refine ⟨c1.trans e2, ?_, ?_⟩
        · intro hf
          cases hf
        · intro _
          exact c3 rfl

/-! ## C30: the average queue estimate of TcpDstcp -/

/-- C30, as stated, fails: "no sample yet" is recognised by `m_nq_avg < 0`, and a queue
estimate can be negative.  With a window of 4000000000 one-byte segments and a minimum RTT of
one microsecond, a sample of one millisecond gives 3996000000, which is -298967296 as an
`int32_t`; it seeds the average.  The next sample of the same window, two milliseconds,
estimate -296967296, seeds it again instead of blending to -297217296. -/
theorem C30_negative_estimate_seeds_again :
    (TcpDstcp.PktsAcked NqAvgDecl.double Example.dstcp Example.tcbHuge 1
      Example.rtt1ms).toOption.map (fun out => (out.self.m_nq_avg, out.trace.length)) =
      some (-298967296, 0) ∧
    (queueEstimate Example.tcbHuge Example.rtt2ms).toOption = some (-296967296) ∧
    TcpDstcp.closedWindows NqAvgDecl.double Example.dstcp Example.acksHuge = 0 ∧
    (TcpDstcp.run NqAvgDecl.double Example.dstcp Example.acksHuge).toOption.map
      (fun s => s.m_nq_avg) = some (-296967296) ∧
    (TcpDstcp.run NqAvgDecl.int32 Example.dstcp Example.acksHuge).toOption.map
      (fun s => s.m_nq_avg) = some (-296967296) ∧
    (-298967296 : ℚ) + Example.dstcp.m_nq_g * ((-296967296) - (-298967296)) = -297217296 := by
  refine ⟨?_, ?_, ?_, ?_, ?_, ?_⟩ <;> decide!

/-- C30, amended: take a window of TcpDstcp that starts with `m_nq_avg = -1` (as the
constructor and `Reset` leave it), with `0 <= nqG <= 1`, a run of calls that closes no window
and whose queue estimates are not negative, and the accounting of one more acknowledgment.
With a zero RTT sample it leaves the average as it was.  With a non-zero sample and queue
estimate `nq` it sets the average to `nq` if no call of the run had a non-zero sample, and
otherwise to `avg + nqG * (nq - avg)`, stored in `m_nq_avg` (the integer part if that member
is an `int32_t`); in terms of the state, it seeds when `m_nq_avg < 0` and blends otherwise.
A call that closes no window leaves that value in the instance.  Queue estimates are not
negative when the minimum RTT is not negative and the window has fewer than `2 ^ 31`
segments. -/
theorem C30_average_queue_estimate (ty : NqAvgDecl) (s0 s s1 : TcpDstcp) (acks : List Ack)
    (tcb : TcpSocketState) (n : Nat) (rtt : Time)
    (hstart : s0.m_nq_avg = -1) (hg0 : 0 ≤ s0.m_nq_g) (hg1 : s0.m_nq_g ≤ 1)
    (hrun : TcpDstcp.run ty s0 acks = .ok s)
    (hopen : TcpDstcp.closedWindows ty s0 acks = 0)
    (hnn : ∀ b ∈ acks, ∀ nq, queueEstimate b.tcb b.rtt = .ok nq → 0 ≤ nq)
    (hacc : TcpDstcp.account ty s tcb n rtt = .ok s1) :
    (rtt.IsZero = true → s1.m_nq_avg = s.m_nq_avg) ∧
    (rtt.IsZero = false → ∃ nq, queueEstimate tcb rtt = .ok nq ∧
      s1.m_nq_avg = (if sampled acks = true then
          ty.store (s.m_nq_avg + s0.m_nq_g * ((nq : ℚ) - s.m_nq_avg))
        else (nq : ℚ)) ∧
      s1.m_nq_avg = (if s.m_nq_avg < 0 then (nq : ℚ)
        else ty.store (s.m_nq_avg + s.m_nq_g * ((nq : ℚ) - s.m_nq_avg)))) ∧
    (∀ out, TcpDstcp.PktsAcked ty s tcb n rtt = .ok out → out.trace = [] →
      out.self.m_nq_avg = s1.m_nq_avg) ∧
    (∀ t : TcpSocketState, (TcpDstcp.Reset s t).m_nq_avg = -1) ∧
    (∀ raw : TcpDstcp, (TcpDstcp.construct raw).m_nq_avg = -1) ∧
    (∀ (b : Ack) (nq : Int), queueEstimate b.tcb b.rtt = .ok nq →
      0 ≤ b.tcb.m_minRtt.GetMicroSeconds → b.tcb.m_cWnd / b.tcb.m_segmentSize < 2 ^ 31 →
      0 ≤ nq) := by
  obtain ⟨w1, w2, w3⟩ := window_avg_dstcp ty acks s0 s false (fun _ => hstart)
    (fun h => by cases h) hg0 hg1 hrun hopen hnn
  simp only [Bool.false_or] at w2 w3
  obtain ⟨-, z1, z2⟩ := account_avg_dstcp hacc
  refine ⟨z1, ?_, ?_, fun _ => rfl, fun _ => rfl, ?_⟩
  · intro hz
    obtain ⟨nq, hq, hv⟩ := z2 hz
    refine ⟨nq, hq, ?_, hv⟩
    rw [hv]
    by_cases hs : sampled acks = true
    · obtain ⟨k0, -⟩ := w3 hs
      rw [if_pos hs, if_neg (not_lt.mpr k0), w1]
    · have hs2 : sampled acks = false := by simpa using hs
      have hneg : s.m_nq_avg < 0 := by
        rw [w2 hs2]
        norm_num
      rw [if_neg hs, if_pos hneg]
  · intro out hout ht
    obtain ⟨s1b, hacc2, e1, -⟩ := step_avg_dstcp hout ht
    rw [hacc] at hacc2
    cases hacc2
    exact e1
  · intro b nq hq hb hc
    exact queueEstimate_nonneg hq hb hc

/-- C30, amended, at the default instance (`nqG = 7/8`) after one acknowledgment with queue
estimate 6, which seeded the average: a sample of 200 microseconds, estimate 3, blends it to
`6 + 7/8 * (3 - 6) = 27/8`. -/
theorem C30_average_queue_estimate_witness :
    sampled Example.acksOne = true ∧
    (queueEstimate Example.tcbInFlight Example.rtt200us).toOption = some 3 ∧
    ∃ nq, queueEstimate Example.tcbInFlight Example.rtt200us = .ok nq ∧
      (27 / 8 : ℚ) = (if sampled Example.acksOne = true then
          NqAvgDecl.double.store (Example.dstcpSampled.m_nq_avg +
            Example.dstcp.m_nq_g * ((nq : ℚ) - Example.dstcpSampled.m_nq_avg))
        else (nq : ℚ)) :=
  have h := C30_average_queue_estimate NqAvgDecl.double Example.dstcp Example.dstcpSampled
    { Example.dstcpSampled with m_ackedBytesTotal := 2000, m_nq_avg := 27 / 8
                                m_last_minRtt := 200 }
    Example.acksOne Example.tcbInFlight 1 Example.rtt200us rfl (by decide!) (by decide!)
    (ok_of_toOption (by decide!)) (by decide!)
    (fun b hb nq hq => by
      have hb2 : b = { tcb := Example.tcbInFlight, segmentsAcked := 1, rtt := Example.rtt1ms } :=
        List.mem_singleton.mp hb
      subst hb2
      exact queueEstimate_nonneg hq (by decide) (by decide))
    (ok_of_toOption (by decide!))
  have h2 := h.2.1 rfl
  ⟨by decide!, by decide!, h2.choose, h2.choose_spec.1, h2.choose_spec.2.1⟩

/-! ## C31: bounds of the queue estimate -/

/-- The value of the queue estimate when nothing faults and the narrowing to `int32_t` does
not wrap. -/
theorem networkQueue_value {segCwnd : Nat} {cur base : Int} (hb : 0 ≤ base) (hle : base ≤ cur)
    (hpos : 0 < cur) (hs : ((segCwnd : Int) * (cur - base)) / cur < 2 ^ 31) :
    networkQueue segCwnd cur base = .ok (((segCwnd : Int) * (cur - base)) / cur) ∧
      0 ≤ ((segCwnd : Int) * (cur - base)) / cur ∧
      ((segCwnd : Int) * (cur - base)) / cur ≤ (segCwnd : Int) := by
  have hd : 0 ≤ cur - base := by omega
  have hs0 : (0 : Int) ≤ (segCwnd : Int) := Int.natCast_nonneg _
  have hp : 0 ≤ (segCwnd : Int) * (cur - base) := mul_nonneg hs0 hd
  have h0 : 0 ≤ ((segCwnd : Int) * (cur - base)) / cur := Int.ediv_nonneg hp (le_of_lt hpos)
  have h1 : ((segCwnd : Int) * (cur - base)) / cur ≤ (segCwnd : Int) := by
    apply Int.ediv_le_of_le_mul hpos
    exact mul_le_mul_of_nonneg_left (by omega) hs0
  refine ⟨?_, h0, h1⟩
  unfold networkQueue
  rw [if_neg (by omega), if_neg (by omega), Int.tdiv_eq_ediv hp (le_of_lt hpos),
    wrapI32_id (by omega) (by omega)]

/-- C31: for a minimum RTT `base >= 0` and a sample `cur >= base`, `cur > 0` (whole
microseconds), when the quotient `segCwnd * (cur - base) / cur` fits an `int32_t` (no
overflow; it does whenever the window has fewer than `2 ^ 31` segments), the queue estimate
of `PktsAcked` is that quotient.  It lies between 0 and `segCwnd`, it is 0 when the sample
equals the minimum RTT, and a larger sample never gives a smaller estimate for the same
minimum RTT and window. -/
theorem C31_queue_estimate_bounds (segCwnd : Nat) (cur base : Int) (hb : 0 ≤ base)
    (hle : base ≤ cur) (hpos : 0 < cur)
    (hs : ((segCwnd : Int) * (cur - base)) / cur < 2 ^ 31) :
    ∃ q, networkQueue segCwnd cur base = .ok q ∧
      q = ((segCwnd : Int) * (cur - base)) / cur ∧
      0 ≤ q ∧ q ≤ (segCwnd : Int) ∧
      (cur = base → q = 0) ∧
      (∀ (cur2 : Int) (q2 : Int), cur ≤ cur2 →
        ((segCwnd : Int) * (cur2 - base)) / cur2 < 2 ^ 31 →
        networkQueue segCwnd cur2 base = .ok q2 → q ≤ q2) ∧
      (segCwnd < 2 ^ 31 → ∀ cur2 : Int, cur ≤ cur2 →
        ((segCwnd : Int) * (cur2 - base)) / cur2 < 2 ^ 31) := by
  obtain ⟨v1, v2, v3⟩ := networkQueue_value hb hle hpos hs
  refine ⟨_, v1, rfl, v2, v3, ?_, ?_, ?_⟩
  · intro he
    rw [he, sub_self, mul_zero, Int.zero_ediv]
  · intro cur2 q2 hc hs2 hq2
    have hpos2 : 0 < cur2 := by omega
    have hle2 : base ≤ cur2 := by omega
    obtain ⟨w1, -, -⟩ := @networkQueue_value segCwnd cur2 base hb hle2 hpos2 hs2
    rw [w1] at hq2
    simp only [Except.ok.injEq] at hq2
    rw [← hq2]
    have hs0 : (0 : Int) ≤ (segCwnd : Int) := Int.natCast_nonneg _
    rw [Int.le_ediv_iff_mul_le hpos2]
    have hq : ((segCwnd : Int) * (cur - base)) / cur * cur ≤ (segCwnd : Int) * (cur - base) :=
      Int.ediv_mul_le _ (by omega)
    have key : (segCwnd : Int) * (cur - base) * cur2 ≤ (segCwnd : Int) * (cur2 - base) * cur := by
      have e : (segCwnd : Int) * (cur2 - base) * cur - (segCwnd : Int) * (cur - base) * cur2 =
          (segCwnd : Int) * (base * (cur2 - cur)) := by ring
      have hn : 0 ≤ (segCwnd : Int) * (base * (cur2 - cur)) :=
        mul_nonneg hs0 (mul_nonneg hb (by omega))
      linarith
    have h3 : ((segCwnd : Int) * (cur - base)) / cur * cur2 * cur ≤
        (segCwnd : Int) * (cur2 - base) * cur := by
      calc ((segCwnd : Int) * (cur - base)) / cur * cur2 * cur
          = ((segCwnd : Int) * (cur - base)) / cur * cur * cur2 := by ring
        _ ≤ (segCwnd : Int) * (cur - base) * cur2 :=
          mul_le_mul_of_nonneg_right hq (le_of_lt hpos2)
        _ ≤ (segCwnd : Int) * (cur2 - base) * cur := key
    exact le_of_mul_le_mul_right h3 hpos
  · intro hseg cur2 hc
    have hs0 : (0 : Int) ≤ (segCwnd : Int) := Int.natCast_nonneg _
    have hseg2 : (segCwnd : Int) < 2 ^ 31 := by exact_mod_cast hseg
    have hpos2 : 0 < cur2 := by omega
    have h1 : ((segCwnd : Int) * (cur2 - base)) / cur2 ≤ (segCwnd : Int) := by
      apply Int.ediv_le_of_le_mul hpos2
      exact mul_le_mul_of_nonneg_left (by omega) hs0
    omega

/-- C31 at a window of 7 segments, minimum RTT 100 microseconds and a sample of one
millisecond: the estimate is `7 * 900 / 1000 = 6`. -/
theorem C31_queue_estimate_bounds_witness :
    ∃ q, networkQueue 7 1000 100 = .ok q ∧ q = ((7 : Nat) : Int) * (1000 - 100) / 1000 ∧
      0 ≤ q ∧ q ≤ ((7 : Nat) : Int) :=
  have h := C31_queue_estimate_bounds 7 1000 100 (by decide) (by decide) (by decide)
    (by decide)
  ⟨h.choose, h.choose_spec.1, h.choose_spec.2.1, h.choose_spec.2.2.1, h.choose_spec.2.2.2.1⟩

/-! ## The average queue estimate of TcpDstcp across window closes -/

theorem sampled_append (xs ys : List Ack) : sampled (xs ++ ys) = (sampled xs || sampled ys) := by
  simp only [sampled, List.any_append]

theorem estimates_append : ∀ (xs ys : List Ack),
    estimates (xs ++ ys) = estimates xs ++ estimates ys := by
  intro xs
  induction xs with
  | nil =>
    intro ys
    rfl
  | cons a rest ih =>
    intro ys
    simp only [List.cons_append, estimates]
    split
    · exact ih ys
    · split
      · exact ih ys
      · exact congrArg _ (ih ys)

theorem estimates_zero {a : Ack} (hz : a.rtt.IsZero = true) : estimates [a] = [] := by
  simp only [estimates, hz, if_true]

theorem estimates_sample {a : Ack} {nq : Int} (hz : a.rtt.IsZero = false)
    (hq : queueEstimate a.tcb a.rtt = .ok nq) : estimates [a] = [nq] := by
  simp only [estimates, hz, hq, Bool.false_eq_true, if_false]

/-- A call that closes a window leaves the average unset and keeps the gain `m_nq_g`. -/
theorem step_close_avg_dstcp {ty : NqAvgDecl} {self : TcpDstcp} {tcb : TcpSocketState}
    {n : Nat} {rtt : Time} {out : Outcome TcpDstcp}
    (h : TcpDstcp.PktsAcked ty self tcb n rtt = .ok out) (ht : out.trace ≠ []) :
    out.self.m_nq_avg = -1 ∧ out.self.m_nq_g = self.m_nq_g := by
  obtain ⟨s1, hacc, hc⟩ := TcpDstcp.outcome_cases_dstcp h
  rcases hc with ⟨ho, -⟩ | ⟨-, s2, hd, ho⟩
  · rw [ho] at ht
    exact absurd rfl ht
  · obtain ⟨hr, -⟩ := react_frame_dstcp s2 tcb
    have hf := account_frame_dstcp hacc
    have hl := latch_frame_dstcp s1 tcb
    have hu := updateAlphas_frame_dstcp (TcpDstcp.latch s1 tcb)
    have hg2 : s2.m_nq_g = (TcpDstcp.updateAlphas (TcpDstcp.latch s1 tcb)).m_nq_g := by
      unfold TcpDstcp.drainCheck at hd
      simp only at hd
      split at hd
      · cases hd
      · split at hd
        · cases hd
          split <;> rfl
        · cases hd
          rfl
    rw [ho, hr]
    refine ⟨rfl, ?_⟩
    show s2.m_nq_g = self.m_nq_g
    rw [hg2, hu, hl, hf]

/-- A value between two integers of `[0, 2 ^ 31 - 1]` is stored in `m_nq_avg` as a value
between them. -/
theorem store_between (ty : NqAvgDecl) {x : ℚ} {lo hi : Int} (h0 : 0 ≤ lo)
    (h1 : hi ≤ 2147483647) (hl : (lo : ℚ) ≤ x) (hh : x ≤ (hi : ℚ)) :
    (lo : ℚ) ≤ ty.store x ∧ ty.store x ≤ (hi : ℚ) := by
  cases ty
  · show (lo : ℚ) ≤ ((wrapI32 (truncQ x) : Int) : ℚ) ∧ ((wrapI32 (truncQ x) : Int) : ℚ) ≤ (hi : ℚ)
    have hx0 : (0 : ℚ) ≤ x := le_trans (by exact_mod_cast h0) hl
    unfold truncQ
    rw [if_pos hx0]
    have hf0 : lo ≤ ⌊x⌋ := Int.le_floor.mpr hl
    have hf1 : ⌊x⌋ ≤ hi := by
      have : (⌊x⌋ : ℚ) ≤ (hi : ℚ) := le_trans (Int.floor_le x) hh
      exact_mod_cast this
    rw [wrapI32_id (by omega) (by omega)]
    exact ⟨by exact_mod_cast hf0, by exact_mod_cast hf1⟩
  · exact ⟨hl, hh⟩

theorem blend_between {avg g q lo hi : ℚ} (hg0 : 0 ≤ g) (hg1 : g ≤ 1) (ha0 : lo ≤ avg)
    (ha1 : avg ≤ hi) (hq0 : lo ≤ q) (hq1 : q ≤ hi) :
    lo ≤ avg + g * (q - avg) ∧ avg + g * (q - avg) ≤ hi := by
  have e : avg + g * (q - avg) = (1 - g) * avg + g * q := by ring
  rw [e]
  have h1g : 0 ≤ 1 - g := by linarith
  constructor
  · have a1 : (1 - g) * lo ≤ (1 - g) * avg := mul_le_mul_of_nonneg_left ha0 h1g
    have a2 : g * lo ≤ g * q := mul_le_mul_of_nonneg_left hq0 hg0
    linarith
  · have a1 : (1 - g) * avg ≤ (1 - g) * hi := mul_le_mul_of_nonneg_left ha1 h1g
    have a2 : g * q ≤ g * hi := mul_le_mul_of_nonneg_left hq1 hg0
    linarith

/-- Along a run whose queue estimates are not negative: the average is -1 as long as the
current window has no non-zero sample, and from then on it lies between two of the queue
estimates of the window. -/
theorem window_sound_dstcp (ty : NqAvgDecl) : ∀ (acks : List Ack) (s0 s : TcpDstcp)
    (acc : List Ack),
    (sampled acc = false → s0.m_nq_avg = -1) →
    (sampled acc = true → ∃ lo ∈ estimates acc, ∃ hi ∈ estimates acc,
      (lo : ℚ) ≤ s0.m_nq_avg ∧ s0.m_nq_avg ≤ (hi : ℚ)) →
    (∀ q ∈ estimates acc, 0 ≤ q ∧ q ≤ 2147483647) →
    0 ≤ s0.m_nq_g → s0.m_nq_g ≤ 1 →
    TcpDstcp.run ty s0 acks = .ok s →
    (∀ b ∈ acks, ∀ nq, queueEstimate b.tcb b.rtt = .ok nq → 0 ≤ nq) →
    s.m_nq_g = s0.m_nq_g ∧
      (sampled (TcpDstcp.sinceClose ty s0 acc acks) = false → s.m_nq_avg = -1) ∧
      (sampled (TcpDstcp.sinceClose ty s0 acc acks) = true →
        ∃ lo ∈ estimates (TcpDstcp.sinceClose ty s0 acc acks),
          ∃ hi ∈ estimates (TcpDstcp.sinceClose ty s0 acc acks),
            (lo : ℚ) ≤ s.m_nq_avg ∧ s.m_nq_avg ≤ (hi : ℚ)) ∧
      (∀ q ∈ estimates (TcpDstcp.sinceClose ty s0 acc acks), 0 ≤ q ∧ q ≤ 2147483647) := by
  intro acks
  induction acks with
  | nil =>
    intro s0 s acc h1 h2 h3 _ _ hrun _
    simp only [TcpDstcp.run, Except.ok.injEq] at hrun
    rw [← hrun]
    exact ⟨rfl, h1, h2, h3⟩
  | cons a rest ih =>
    intro s0 s acc h1 h2 h3 hg0 hg1 hrun hnn
    simp only [TcpDstcp.run] at hrun
    cases hp : TcpDstcp.PktsAcked ty s0 a.tcb a.segmentsAcked a.rtt with
    | error e => rw [hp] at hrun; cases hrun
    | ok out =>
      rw [hp] at hrun
      have hsc : TcpDstcp.sinceClose ty s0 acc (a :: rest) =
          TcpDstcp.sinceClose ty out.self (if out.trace = [] then acc ++ [a] else []) rest := by
        simp only [TcpDstcp.sinceClose, hp]
      rw [hsc]
      have hnn2 : ∀ b ∈ rest, ∀ nq, queueEstimate b.tcb b.rtt = .ok nq → 0 ≤ nq :=
        fun b hb => hnn b (List.mem_cons_of_mem a hb)
      by_cases ht : out.trace = []
      · rw [if_pos ht]
        obtain ⟨s1, hacc, e1, e2⟩ := step_avg_dstcp hp ht
        obtain ⟨-, z1, z2⟩ := account_avg_dstcp hacc
        by_cases hz : a.rtt.IsZero = true
        · have e3 : out.self.m_nq_avg = s0.m_nq_avg := e1.trans (z1 hz)
          have hs : sampled (acc ++ [a]) = sampled acc := by
            rw [sampled_append]
            simp only [sampled, List.any_cons, hz, List.any_nil, Bool.not_true, Bool.or_false]
          have he : estimates (acc ++ [a]) = estimates acc := by
            rw [estimates_append, estimates_zero hz, List.append_nil]
          obtain ⟨c1, c2⟩ := ih out.self s (acc ++ [a])
            (by rw [hs, e3]; exact h1) (by rw [hs, he, e3]; exact h2) (by rw [he]; exact h3)
            (by rw [e2]; exact hg0) (by rw [e2]; exact hg1) hrun hnn2
          exact ⟨c1.trans e2, c2⟩
        · have hz2 : a.rtt.IsZero = false := by simpa using hz
          obtain ⟨nq, hq, hv⟩ := z2 hz2
          have hn0 : 0 ≤ nq := hnn a (List.mem_cons_self a rest) nq hq
          have hn1 : nq ≤ 2147483647 := by
            have := queueEstimate_le hq
            omega
          have hs : sampled (acc ++ [a]) = true := by
            rw [sampled_append]
            simp only [sampled, List.any_cons, hz2, List.any_nil, Bool.not_false, Bool.or_false,
              Bool.or_true]
          have he : estimates (acc ++ [a]) = estimates acc ++ [nq] := by
            rw [estimates_append, estimates_sample hz2 hq]
          have hmem : nq ∈ estimates acc ++ [nq] :=
            List.mem_append_right _ (List.mem_singleton.mpr rfl)
          have h3b : ∀ q ∈ estimates (acc ++ [a]), 0 ≤ q ∧ q ≤ 2147483647 := by
            intro q hqm
            rw [he, List.mem_append] at hqm
            rcases hqm with hqm | hqm
            · exact h3 q hqm
            · rw [List.mem_singleton.mp hqm]
              exact ⟨hn0, hn1⟩
          have h2b : ∃ lo ∈ estimates (acc ++ [a]), ∃ hi ∈ estimates (acc ++ [a]),
              (lo : ℚ) ≤ out.self.m_nq_avg ∧ out.self.m_nq_avg ≤ (hi : ℚ) := by
            rw [he, e1, hv]
            cases hsa : sampled acc
            · have hneg : s0.m_nq_avg < 0 := by
                rw [h1 hsa]
                norm_num
              rw [if_pos hneg]
              exact ⟨nq, hmem, nq, hmem, le_refl _, le_refl _⟩
            · obtain ⟨lo, hlo, hi, hhi, b1, b2⟩ := h2 hsa
              have hlo0 : (0 : ℚ) ≤ (lo : ℚ) := by exact_mod_cast (h3 lo hlo).1
              rw [if_neg (not_lt.mpr (le_trans hlo0 b1))]
              have mlo : min lo nq ∈ estimates acc ++ [nq] := by
                rcases min_choice lo nq with hm | hm
                · rw [hm]
                  exact List.mem_append_left _ hlo
                · rw [hm]
                  exact hmem
              have mhi : max hi nq ∈ estimates acc ++ [nq] := by
                rcases max_choice hi nq with hm | hm
                · rw [hm]
                  exact List.mem_append_left _ hhi
                · rw [hm]
                  exact hmem
              have k1 : ((min lo nq : Int) : ℚ) ≤ s0.m_nq_avg :=
                le_trans (by exact_mod_cast min_le_left lo nq) b1
              have k2 : s0.m_nq_avg ≤ ((max hi nq : Int) : ℚ) :=
                le_trans b2 (by exact_mod_cast le_max_left hi nq)
              have k3 : ((min lo nq : Int) : ℚ) ≤ (nq : ℚ) := by
                exact_mod_cast min_le_right lo nq
              have k4 : (nq : ℚ) ≤ ((max hi nq : Int) : ℚ) := by
                exact_mod_cast le_max_right hi nq
              have hb := blend_between hg0 hg1 k1 k2 k3 k4
              have hmin0 : 0 ≤ min lo nq := le_min (h3 lo hlo).1 hn0
              have hmax1 : max hi nq ≤ 2147483647 := max_le (h3 hi hhi).2 hn1
              exact ⟨min lo nq, mlo, max hi nq, mhi,
                store_between ty hmin0 hmax1 hb.1 hb.2⟩
          obtain ⟨c1, c2⟩ := ih out.self s (acc ++ [a])
            (by rw [hs]; intro hf; cases hf) (fun _ => h2b) h3b
            (by rw [e2]; exact hg0) (by rw [e2]; exact hg1) hrun hnn2
          exact ⟨c1.trans e2, c2⟩
      · rw [if_neg ht]
        obtain ⟨e1, e2⟩ := step_close_avg_dstcp hp ht
        obtain ⟨c1, c2⟩ := ih out.self s [] (fun _ => e1) (fun hf => by cases hf)
          (fun q hq => by cases hq) (by rw [e2]; exact hg0) (by rw [e2]; exact hg1) hrun hnn2
        exact ⟨c1.trans e2, c2⟩

/-! ## C32: the unset value of the average queue estimate -/

/-- C32, as stated, fails: a queue estimate can be negative, and it seeds the average.  From
the fresh instance, with `nqG = 7/8`, two acknowledgments on a window of 4000000000 one-byte
segments with a minimum RTT of one microsecond leave `m_nq_avg = -296967296`: the window has
non-zero samples, the average is neither -1 nor `>= 0`, and the test `m_nq_avg < 0` takes it
for unset. -/
theorem C32_negative_average_taken_for_unset :
    (TcpDstcp.construct Example.dstcp).m_nq_avg = -1 ∧
    0 ≤ (TcpDstcp.construct Example.dstcp).m_nq_g ∧
    (TcpDstcp.construct Example.dstcp).m_nq_g ≤ 1 ∧
    sampled (TcpDstcp.sinceClose NqAvgDecl.double (TcpDstcp.construct Example.dstcp) []
      Example.acksHuge) = true ∧
    sampled (TcpDstcp.sinceClose NqAvgDecl.int32 (TcpDstcp.construct Example.dstcp) []
      Example.acksHuge) = true ∧
    (TcpDstcp.run NqAvgDecl.double (TcpDstcp.construct Example.dstcp)
      Example.acksHuge).toOption.map
        (fun s => (s.m_nq_avg, decide (s.m_nq_avg = -1 ∨ 0 ≤ s.m_nq_avg),
          decide (s.m_nq_avg < 0))) = some (-296967296, false, true) ∧
    (TcpDstcp.run NqAvgDecl.int32 (TcpDstcp.construct Example.dstcp)
      Example.acksHuge).toOption.map
        (fun s => (s.m_nq_avg, decide (s.m_nq_avg = -1 ∨ 0 ≤ s.m_nq_avg),
          decide (s.m_nq_avg < 0))) = some (-296967296, false, true) := by
  refine ⟨?_, ?_, ?_, ?_, ?_, ?_, ?_⟩ <;> decide!

/-- C32, amended: take an instance of TcpDstcp with `m_nq_avg = -1` (as the constructor and
`Reset` leave it) and `0 <= nqG <= 1`, and any run of `PktsAcked` calls that returns and
whose queue estimates are not negative.  In the state it leaves, `m_nq_avg` is -1 or
`>= 0`; it is -1, and it is `< 0`, exactly when no acknowledgment since the last window
close carried a non-zero RTT sample; otherwise it lies between two of the queue estimates
of the acknowledgments since the last window close, so between the smallest and the largest
of them.  The gain `m_nq_g` is unchanged.  Queue estimates are not negative when the minimum
RTT is not negative and the window has fewer than `2 ^ 31` segments. -/
theorem C32_sentinel_soundness (ty : NqAvgDecl) (s0 s : TcpDstcp) (acks : List Ack)
    (hstart : s0.m_nq_avg = -1) (hg0 : 0 ≤ s0.m_nq_g) (hg1 : s0.m_nq_g ≤ 1)
    (hrun : TcpDstcp.run ty s0 acks = .ok s)
    (hnn : ∀ b ∈ acks, ∀ nq, queueEstimate b.tcb b.rtt = .ok nq → 0 ≤ nq) :
    (s.m_nq_avg = -1 ∨ 0 ≤ s.m_nq_avg) ∧
    (s.m_nq_avg = -1 ↔ sampled (TcpDstcp.sinceClose ty s0 [] acks) = false) ∧
    (s.m_nq_avg < 0 ↔ sampled (TcpDstcp.sinceClose ty s0 [] acks) = false) ∧
    (sampled (TcpDstcp.sinceClose ty s0 [] acks) = true →
      ∃ lo ∈ estimates (TcpDstcp.sinceClose ty s0 [] acks),
        ∃ hi ∈ estimates (TcpDstcp.sinceClose ty s0 [] acks),
          (lo : ℚ) ≤ s.m_nq_avg ∧ s.m_nq_avg ≤ (hi : ℚ)) ∧
    s.m_nq_g = s0.m_nq_g ∧
    (∀ raw : TcpDstcp, (TcpDstcp.construct raw).m_nq_avg = -1) ∧
    (∀ t : TcpSocketState, (TcpDstcp.Reset s t).m_nq_avg = -1) ∧
    (∀ (b : Ack) (nq : Int), queueEstimate b.tcb b.rtt = .ok nq →
      0 ≤ b.tcb.m_minRtt.GetMicroSeconds → b.tcb.m_cWnd / b.tcb.m_segmentSize < 2 ^ 31 →
      0 ≤ nq) := by
  obtain ⟨w1, w2, w3, w4⟩ := window_sound_dstcp ty acks s0 s [] (fun _ => hstart)
    (fun h => by cases h) (fun q hq => by cases hq) hg0 hg1 hrun hnn
  have hpos : sampled (TcpDstcp.sinceClose ty s0 [] acks) = true → 0 ≤ s.m_nq_avg := by
    intro hs
    obtain ⟨lo, hlo, -, -, b1, -⟩ := w3 hs
    have hlo0 : (0 : ℚ) ≤ (lo : ℚ) := by exact_mod_cast (w4 lo hlo).1
    exact le_trans hlo0 b1
  refine ⟨?_, ?_, ?_, w3, w1, fun _ => rfl, fun _ => rfl, ?_⟩
  · cases hs : sampled (TcpDstcp.sinceClose ty s0 [] acks)
    · exact Or.inl (w2 hs)
    · exact Or.inr (hpos hs)
  · constructor
    · intro h
      cases hs : sampled (TcpDstcp.sinceClose ty s0 [] acks)
      · rfl
      · have := hpos hs
        rw [h] at this
        norm_num at this
    · exact w2
  · constructor
    · intro h
      cases hs : sampled (TcpDstcp.sinceClose ty s0 [] acks)
      · rfl
      · exact absurd (hpos hs) (not_le.mpr h)
    · intro hs
      rw [w2 hs]
      norm_num
  · intro b nq hq hb hc
    exact queueEstimate_nonneg hq hb hc

/-- C32, amended, at the default instance (`nqG = 7/8`) after the acknowledgments
`Example.acksSecondWindow`: a window is closed, then come two samples with queue estimates 6
and 3.  The average is `6 + 7/8 * (3 - 6) = 27/8`, which is not negative and lies between 3
and 6. -/
theorem C32_sentinel_soundness_witness :
    sampled (TcpDstcp.sinceClose NqAvgDecl.double Example.dstcp []
      Example.acksSecondWindow) = true ∧
    estimates (TcpDstcp.sinceClose NqAvgDecl.double Example.dstcp []
      Example.acksSecondWindow) = [6, 3] ∧
    Example.dstcpSecondWindow.m_nq_avg = 27 / 8 ∧
    (Example.dstcpSecondWindow.m_nq_avg = -1 ∨ 0 ≤ Example.dstcpSecondWindow.m_nq_avg) ∧
    (Example.dstcpSecondWindow.m_nq_avg < 0 ↔
      sampled (TcpDstcp.sinceClose NqAvgDecl.double Example.dstcp []
        Example.acksSecondWindow) = false) :=
  have hall : ∀ b ∈ Example.acksSecondWindow,
      0 ≤ b.tcb.m_minRtt.GetMicroSeconds ∧ b.tcb.m_cWnd / b.tcb.m_segmentSize < 2 ^ 31 := by
    decide
  have h := C32_sentinel_soundness NqAvgDecl.double Example.dstcp Example.dstcpSecondWindow
    Example.acksSecondWindow rfl (by decide!) (by decide!) (ok_of_toOption (by decide!))
    (fun b hb nq hq => queueEstimate_nonneg hq (hall b hb).1 (hall b hb).2)
  ⟨by decide!, by decide!, rfl, h.1, h.2.2.1⟩

/-! ## Bounds of the window reductions -/

theorem reduction_bounds {a : ℚ} {cwnd : Nat} (w : Nat) (h0 : 0 ≤ a) (h1 : a ≤ 1)
    (hc : cwnd < 2 ^ 32) :
    w ≤ max (castU32 ((1 - a / 2) * (cwnd : ℚ))) w ∧
      max (castU32 ((1 - a / 2) * (cwnd : ℚ))) w ≤ max cwnd w ∧
      (w ≤ cwnd → max (castU32 ((1 - a / 2) * (cwnd : ℚ))) w ≤ cwnd) := by
  obtain ⟨-, hle⟩ := castU32_reduction h0 (by linarith : a ≤ 2) hc
  refine ⟨le_max_right _ _, max_le_max hle (le_refl w), ?_⟩
  intro hw
  exact max_le hle hw

theorem decrement_bounds {a : ℚ} {cwnd seg : Nat} (h0 : 0 ≤ a) (h1 : a ≤ 1)
    (hc : cwnd < 2 ^ 32) (hs : seg ≤ cwnd) :
    cwnd ≤ castU32 ((cwnd : ℚ) - (1 - a) * (seg : ℚ)) + seg ∧
      castU32 ((cwnd : ℚ) - (1 - a) * (seg : ℚ)) ≤ cwnd := by
  have hseg0 : (0 : ℚ) ≤ (seg : ℚ) := Nat.cast_nonneg seg
  have hsc : (seg : ℚ) ≤ (cwnd : ℚ) := by exact_mod_cast hs
  have hm0 : 0 ≤ (1 - a) * (seg : ℚ) := mul_nonneg (by linarith) hseg0
  have hm1 : (1 - a) * (seg : ℚ) ≤ (seg : ℚ) := by
    calc (1 - a) * (seg : ℚ) ≤ 1 * (seg : ℚ) := mul_le_mul_of_nonneg_right (by linarith) hseg0
      _ = (seg : ℚ) := one_mul _
  have hx0 : 0 ≤ (cwnd : ℚ) - (1 - a) * (seg : ℚ) := by linarith
  have hx1 : (cwnd : ℚ) - (1 - a) * (seg : ℚ) ≤ (cwnd : ℚ) := by linarith
  have hc2 : (cwnd : ℚ) < 2 ^ 32 := by exact_mod_cast hc
  rw [castU32_eq_floor hx0 (lt_of_le_of_lt hx1 hc2)]
  constructor
  · have hlow : ((cwnd - seg : Nat) : ℚ) ≤ (cwnd : ℚ) - (1 - a) * (seg : ℚ) := by
      rw [Nat.cast_sub hs]
      linarith
    have := Nat.le_floor hlow
    omega
  · exact Nat.floor_le_of_le hx1

theorem expire_cwnd_dcvegas (self : TcpDcvegas) (tcb : TcpSocketState)
    (hs : self.m_signal = TcpDcvegas.Signal.rtt_sig) :
    (TcpDcvegas.expire self tcb).tcb.m_cWnd =
        max (castU32 ((1 - (TcpDcvegas.expire self tcb).self.m_alpha / 2) * (tcb.m_cWnd : ℚ)))
          (wrapU32 (2 * tcb.m_segmentSize)) ∧
      (TcpDcvegas.expire self tcb).tcb.m_ssThresh = (TcpDcvegas.expire self tcb).tcb.m_cWnd := by
  simp only [TcpDcvegas.expire, TcpDcvegas.Reset, hs, if_true]
  exact ⟨trivial, trivial⟩

theorem expireElephant_cwnd_dsdcc (self : TcpDsdcc) (tcb : TcpSocketState)
    (hs : self.m_signal = TcpDsdcc.Signal.rtt_sig) :
    (TcpDsdcc.expireElephant self tcb).tcb.m_cWnd =
        max (castU32 ((1 - (TcpDsdcc.expireElephant self tcb).self.m_alpha_rtt / 2) *
          (tcb.m_cWnd : ℚ))) (wrapU32 (2 * tcb.m_segmentSize)) ∧
      (TcpDsdcc.expireElephant self tcb).tcb.m_ssThresh =
        (TcpDsdcc.expireElephant self tcb).tcb.m_cWnd := by
  simp only [TcpDsdcc.expireElephant, TcpDsdcc.Reset, hs, if_true]
  exact ⟨trivial, trivial⟩

/-! ## C33: bounds of the pure-delay reduction -/

/-- C33: a `PktsAcked` call of TcpDcvegas, or of TcpDsdcc on an `Elephant` flow, whose
accounting leaves the delay signal set and that finds `m_lastAckedSeq >= m_nextSeq` returns
with `cwnd = ssthresh`.  If the tracked alpha it leaves (`m_alpha`, `m_alpha_rtt` in
TcpDsdcc), which is the one the reduction uses, is in `[0, 1]`, then the new `cwnd` is at
least the 32-bit product `2 * segmentSize` and at most the larger of the old `cwnd` and that
product; it does not exceed the old `cwnd` when that was at least the product.  The alpha is
in `[0, 1]` when the old one and `g` are and `m_ackedBytesRtt <= m_ackedBytesTotal`. -/
theorem C33_reduction_bounds (tcb : TcpSocketState) (n : Nat) (rtt : Time)
    (hcw : tcb.m_cWnd < 2 ^ 32) :
    (∀ self s1 : TcpDcvegas, TcpDcvegas.account self tcb n rtt = .ok s1 →
      SequenceNumber32.ge tcb.m_lastAckedSeq (TcpDcvegas.latch s1 tcb).m_nextSeq = true →
      s1.m_signal = TcpDcvegas.Signal.rtt_sig →
      ∃ out, TcpDcvegas.PktsAcked self tcb n rtt = .ok out ∧
        out.tcb.m_cWnd = out.tcb.m_ssThresh ∧
        (0 ≤ out.self.m_alpha → out.self.m_alpha ≤ 1 →
          wrapU32 (2 * tcb.m_segmentSize) ≤ out.tcb.m_cWnd ∧
          out.tcb.m_cWnd ≤ max tcb.m_cWnd (wrapU32 (2 * tcb.m_segmentSize)) ∧
          (wrapU32 (2 * tcb.m_segmentSize) ≤ tcb.m_cWnd → out.tcb.m_cWnd ≤ tcb.m_cWnd)) ∧
        (0 ≤ self.m_alpha → self.m_alpha ≤ 1 → 0 ≤ self.m_g → self.m_g ≤ 1 →
          s1.m_ackedBytesRtt ≤ s1.m_ackedBytesTotal →
          0 ≤ out.self.m_alpha ∧ out.self.m_alpha ≤ 1)) ∧
    (∀ self s1 : TcpDsdcc, tcb.m_flowMode = FlowMode_t.Elephant →
      TcpDsdcc.account self tcb n rtt = .ok s1 →
      SequenceNumber32.ge tcb.m_lastAckedSeq (TcpDsdcc.latch s1 tcb).m_nextSeq = true →
      s1.m_signal = TcpDsdcc.Signal.rtt_sig →
      ∃ out, TcpDsdcc.PktsAcked self tcb n rtt = .ok out ∧
        out.tcb.m_cWnd = out.tcb.m_ssThresh ∧
        (0 ≤ out.self.m_alpha_rtt → out.self.m_alpha_rtt ≤ 1 →
          wrapU32 (2 * tcb.m_segmentSize) ≤ out.tcb.m_cWnd ∧
          out.tcb.m_cWnd ≤ max tcb.m_cWnd (wrapU32 (2 * tcb.m_segmentSize)) ∧
          (wrapU32 (2 * tcb.m_segmentSize) ≤ tcb.m_cWnd → out.tcb.m_cWnd ≤ tcb.m_cWnd)) ∧
        (0 ≤ self.m_alpha_rtt → self.m_alpha_rtt ≤ 1 → 0 ≤ self.m_g → self.m_g ≤ 1 →
          s1.m_ackedBytesRtt ≤ s1.m_ackedBytesTotal →
          0 ≤ out.self.m_alpha_rtt ∧ out.self.m_alpha_rtt ≤ 1)) ∧
    (2 * tcb.m_segmentSize < 2 ^ 32 → wrapU32 (2 * tcb.m_segmentSize) = 2 * tcb.m_segmentSize) := by
  refine ⟨?_, ?_, ?_⟩
  · intro self s1 hacc hclose hsig
    obtain ⟨-, -, a3, a4, -⟩ := TcpDcvegas.account_spec_dcvegas hacc
    obtain ⟨l1, l2, l3, l4, l5, -⟩ := TcpDcvegas.latch_fields_dcvegas s1 tcb
    obtain ⟨e1, -⟩ := TcpDcvegas.expire_fields_dcvegas (TcpDcvegas.latch s1 tcb) tcb
    obtain ⟨c1, c2⟩ := expire_cwnd_dcvegas (TcpDcvegas.latch s1 tcb) tcb (l5.trans hsig)
    refine ⟨TcpDcvegas.expire (TcpDcvegas.latch s1 tcb) tcb, ?_, c2.symm, ?_, ?_⟩
    · rw [TcpDcvegas.PktsAcked_eq_dcvegas hacc, if_pos hclose]
    · intro h0 h1
      rw [c1]
      exact reduction_bounds _ h0 h1 hcw
    · intro h0 h1 hg0 hg1 hle
      rw [e1, l3, l4, a3, a4]
      unfold TcpDcvegas.bytesRtt
      rw [l1, l2]
      exact ewma_mem_unit hg0 hg1 h0 h1 (frac_mem_unit hle).1 (frac_mem_unit hle).2
  · intro self s1 hflow hacc hclose hsig
    obtain ⟨-, -, -, -, -, a6, a7, -⟩ := TcpDsdcc.account_spec_dsdcc hacc
    obtain ⟨l1, -, l3, -, -, l6, l7, l8, -⟩ := TcpDsdcc.latch_fields_dsdcc s1 tcb
    obtain ⟨e1, -⟩ := TcpDsdcc.expireElephant_fields_dsdcc (TcpDsdcc.latch s1 tcb) tcb
    obtain ⟨c1, c2⟩ := expireElephant_cwnd_dsdcc (TcpDsdcc.latch s1 tcb) tcb (l8.trans hsig)
    refine ⟨TcpDsdcc.expireElephant (TcpDsdcc.latch s1 tcb) tcb, ?_, c2.symm, ?_, ?_⟩
    · rw [TcpDsdcc.PktsAcked_eq_dsdcc hacc, hflow]
      simp only [hclose, if_true]
    · intro h0 h1
      rw [c1]
      exact reduction_bounds _ h0 h1 hcw
    · intro h0 h1 hg0 hg1 hle
      rw [e1, l6, l7, a6, a7]
      unfold TcpDsdcc.bytesRtt
      rw [l1, l3]
      exact ewma_mem_unit hg0 hg1 h0 h1 (frac_mem_unit hle).1 (frac_mem_unit hle).2
  · intro hw
    unfold wrapU32
    exact Nat.mod_eq_of_lt hw

/-- C33 at `Example.dcvegasMidWindow`, whose window of 7000 bytes closes with
`alpha = 31/32`: the new `cwnd` is between 2000 and 7000. -/
theorem C33_reduction_bounds_witness :
    ∃ out, TcpDcvegas.PktsAcked Example.dcvegasMidWindow Example.tcbLater 1 Example.rttZero =
        .ok out ∧
      out.tcb.m_cWnd = out.tcb.m_ssThresh ∧
      wrapU32 (2 * Example.tcbLater.m_segmentSize) ≤ out.tcb.m_cWnd ∧
      out.tcb.m_cWnd ≤ Example.tcbLater.m_cWnd := by
  obtain ⟨out, h1, h2, h3, h4⟩ :=
    (C33_reduction_bounds Example.tcbLater 1 Example.rttZero (by decide)).1
      Example.dcvegasMidWindow { Example.dcvegasMidWindow with m_ackedBytesTotal := 2000 }
      (ok_of_toOption (by decide!)) (by decide!) rfl
  obtain ⟨k0, k1⟩ := h4 (by decide!) (by decide!) (by decide!) (by decide!) (by decide)
  obtain ⟨b1, -, b3⟩ := h3 k0 k1
  exact ⟨out, h1, h2, b1, b3 (by decide)⟩

/-! ## C34: the delay decrement of TcpDstcp -/

/-- C34: a `PktsAcked` call of TcpDstcp that closes a window through the `rtt_sig` branch (the
accounting leaves `rtt_sig`, the drain rule does not fire) on a control block with
`cwnd >= segmentSize` returns with `cwnd = cwnd - (1 - alphaRtt) * segmentSize` converted to
`uint32_t`, `alphaRtt` being the value the call leaves.  If that value is in `[0, 1]` the new
`cwnd` is at most the old one and at least the old one less `segmentSize`: the subtraction
does not wrap.  No floor is applied: from a window of 1500 bytes with segments of 1000 the
call leaves 1468, below `2 * segmentSize`.  `alphaRtt` is in `[0, 1]` when the old one and
`g` are and `m_ackedBytesRtt <= m_ackedBytesTotal`. -/
theorem C34_delay_decrement_bounds (ty : NqAvgDecl) (self s1 : TcpDstcp)
    (tcb : TcpSocketState) (n : Nat) (rtt : Time)
    (hacc : TcpDstcp.account ty self tcb n rtt = .ok s1)
    (hclose : SequenceNumber32.ge tcb.m_lastAckedSeq (TcpDstcp.latch s1 tcb).m_nextSeq = true)
    (hsig : s1.m_signal = TcpDstcp.Signal.rtt_sig)
    (hper : TcpDstcp.drainPeriod self ≠ 0) (hnd : TcpDstcp.drainFires self tcb = false)
    (hcw : tcb.m_cWnd < 2 ^ 32) (hseg : tcb.m_segmentSize ≤ tcb.m_cWnd) :
    (∃ out, TcpDstcp.PktsAcked ty self tcb n rtt = .ok out ∧
      out.tcb.m_cWnd =
        castU32 ((tcb.m_cWnd : ℚ) - (1 - out.self.m_alpha_rtt) * (tcb.m_segmentSize : ℚ)) ∧
      (0 ≤ out.self.m_alpha_rtt → out.self.m_alpha_rtt ≤ 1 →
        tcb.m_cWnd ≤ out.tcb.m_cWnd + tcb.m_segmentSize ∧
        tcb.m_cWnd - tcb.m_segmentSize ≤ out.tcb.m_cWnd ∧
        out.tcb.m_cWnd ≤ tcb.m_cWnd) ∧
      (0 ≤ self.m_alpha_rtt → self.m_alpha_rtt ≤ 1 → 0 ≤ self.m_g → self.m_g ≤ 1 →
        s1.m_ackedBytesRtt ≤ s1.m_ackedBytesTotal →
        0 ≤ out.self.m_alpha_rtt ∧ out.self.m_alpha_rtt ≤ 1)) ∧
    ((TcpDstcp.PktsAcked ty Example.dstcpMidWindow Example.tcbSmall 1
        Example.rttZero).toOption.map (fun out => (out.self.m_alpha_rtt, out.tcb.m_cWnd)) =
        some (31 / 32, 1468) ∧
      1468 < 2 * Example.tcbSmall.m_segmentSize) := by
  constructor
  · obtain ⟨s2, hp, -, hs, -, -, hr, -, -⟩ := close_core_dstcp hacc hclose hper
    have hs2 : s2.m_signal = TcpDstcp.Signal.rtt_sig := by
      rw [hs]
      simp [hnd, hsig]
    obtain ⟨-, f2, -⟩ := react_self_fields_dstcp s2 tcb
    obtain ⟨b1, -⟩ := (react_branches_dstcp s2 tcb).2.2.2.1 hs2
    have hc : (TcpDstcp.react s2 tcb).tcb.m_cWnd =
        castU32 ((tcb.m_cWnd : ℚ) - (1 - (TcpDstcp.react s2 tcb).self.m_alpha_rtt) *
          (tcb.m_segmentSize : ℚ)) := by
      rw [b1, f2]
    refine ⟨TcpDstcp.react s2 tcb, hp, hc, ?_, ?_⟩
    · intro h0 h1
      rw [hc]
      obtain ⟨d1, d2⟩ := @decrement_bounds _ tcb.m_cWnd tcb.m_segmentSize h0 h1 hcw hseg
      exact ⟨d1, by omega, d2⟩
    · intro h0 h1 hg0 hg1 hle
      rw [f2, hr]
      unfold TcpDstcp.bytesRtt
      exact ewma_mem_unit hg0 hg1 h0 h1 (frac_mem_unit hle).1 (frac_mem_unit hle).2
  · cases ty <;> exact ⟨by decide!, by decide⟩

/-- C34 at `Example.dstcpMidWindow`, whose window of 7000 bytes closes through the `rtt_sig`
branch with `alphaRtt = 31/32`: the new `cwnd` is between 6000 and 7000. -/
theorem C34_delay_decrement_bounds_witness :
    ∃ out, TcpDstcp.PktsAcked NqAvgDecl.double Example.dstcpMidWindow Example.tcbLater 1
        Example.rttZero = .ok out ∧
      Example.tcbLater.m_cWnd - Example.tcbLater.m_segmentSize ≤ out.tcb.m_cWnd ∧
      out.tcb.m_cWnd ≤ Example.tcbLater.m_cWnd := by
  obtain ⟨⟨out, h1, -, h3, h4⟩, -⟩ :=
    C34_delay_decrement_bounds NqAvgDecl.double Example.dstcpMidWindow
      { Example.dstcpMidWindow with m_ackedBytesTotal := 2000 } Example.tcbLater 1
      Example.rttZero (ok_of_toOption (by decide!)) (by decide!) rfl (by decide!) (by decide!)
      (by decide) (by decide)
  obtain ⟨k0, k1⟩ := h4 (by decide!) (by decide!) (by decide!) (by decide!) (by decide)
  obtain ⟨-, b2, b3⟩ := h3 k0 k1
  exact ⟨out, h1, b2, b3⟩

/-! ## Mark events: what is sent, and the checkpoint -/

theorem sentDuring_same (tcb after : TcpSocketState) (h : after.m_sent = tcb.m_sent) :
    sentDuring tcb after = [] := by
  unfold sentDuring
  rw [h, Nat.sub_self]
  rfl

theorem sentDuring_cons (tcb after : TcpSocketState) (x : Nat × SequenceNumber32)
    (h : after.m_sent = x :: tcb.m_sent) : sentDuring tcb after = [x] := by
  unfold sentDuring
  rw [h, List.length_cons, Nat.add_sub_cancel_left]
  rfl

theorem CwndEvent_other_dsdcc (self : TcpDsdcc) (tcb : TcpSocketState) (ev : TcpCAEvent_t)
    (h : ev.isMark = false) :
    (TcpDsdcc.CwndEvent self tcb ev).2 = tcb ∧
      (TcpDsdcc.CwndEvent self tcb ev).1.m_priorRcvNxtFlag = self.m_priorRcvNxtFlag ∧
      (TcpDsdcc.CwndEvent self tcb ev).1.m_priorRcvNxt = self.m_priorRcvNxt ∧
      (TcpDsdcc.CwndEvent self tcb ev).1.m_ceState = self.m_ceState := by
  cases ev <;> first
    | exact ⟨rfl, rfl, rfl, rfl⟩
    | (simp only [TcpDsdcc.CwndEvent, TcpDsdcc.UpdateAckReserved]
       split <;> exact ⟨rfl, rfl, rfl, rfl⟩)
    | cases h

/-- What a `CwndEvent` call of TcpDsdcc sends, and what it leaves in the checkpoint, its flag
and `m_ceState`. -/
theorem CwndEvent_step_dsdcc (self : TcpDsdcc) (tcb : TcpSocketState) (ev : TcpCAEvent_t) :
    sentDuring tcb (TcpDsdcc.CwndEvent self tcb ev).2 =
      (if ev = TcpCAEvent_t.CA_EVENT_ECN_IS_CE ∧ self.m_ceState = false ∧
          self.m_delayedAckReserved = true ∧ self.m_priorRcvNxtFlag = true then
        [(TcpHeader.ACK, self.m_priorRcvNxt)]
      else if ev = TcpCAEvent_t.CA_EVENT_ECN_NO_CE ∧ self.m_ceState = true ∧
          self.m_delayedAckReserved = true ∧ self.m_priorRcvNxtFlag = true then
        [(TcpHeader.ACK ||| TcpHeader.ECE, self.m_priorRcvNxt)]
      else []) ∧
    (TcpDsdcc.CwndEvent self tcb ev).1.m_priorRcvNxtFlag =
      (self.m_priorRcvNxtFlag || ev.isMark) ∧
    (TcpDsdcc.CwndEvent self tcb ev).1.m_priorRcvNxt =
      (if ev.isMark = true then tcb.NextRxSequence else self.m_priorRcvNxt) ∧
    (TcpDsdcc.CwndEvent self tcb ev).1.m_ceState =
      (if ev = TcpCAEvent_t.CA_EVENT_ECN_IS_CE then true
        else if ev = TcpCAEvent_t.CA_EVENT_ECN_NO_CE then false else self.m_ceState) := by
  obtain ⟨a1, a2⟩ := CeState0to1_spec_dsdcc self tcb
  obtain ⟨b1, b2⟩ := CeState1to0_spec_dsdcc self tcb
  by_cases h1 : ev = TcpCAEvent_t.CA_EVENT_ECN_IS_CE
  · subst h1
    have e : TcpDsdcc.CwndEvent self tcb TcpCAEvent_t.CA_EVENT_ECN_IS_CE =
        TcpDsdcc.CeState0to1 self tcb := rfl
    rw [e, a1]
    refine ⟨?_, by simp [TcpCAEvent_t.isMark], by simp [TcpCAEvent_t.isMark,
      TcpSocketState.NextRxSequence], by simp⟩
    by_cases hc : self.m_ceState = false ∧ self.m_delayedAckReserved = true ∧
        self.m_priorRcvNxtFlag = true
    · rw [if_pos ⟨rfl, hc⟩]
      apply sentDuring_cons
      rw [a2]
      simp only [hc, and_self, if_true]
    · rw [if_neg (fun h => hc h.2), if_neg (fun h => by cases h.1)]
      apply sentDuring_same
      rw [a2]
      simp only [hc, if_false]
  · by_cases h2 : ev = TcpCAEvent_t.CA_EVENT_ECN_NO_CE
    · subst h2
      have e : TcpDsdcc.CwndEvent self tcb TcpCAEvent_t.CA_EVENT_ECN_NO_CE =
          TcpDsdcc.CeState1to0 self tcb := rfl
      rw [e, b1]
      refine ⟨?_, by simp [TcpCAEvent_t.isMark], by simp [TcpCAEvent_t.isMark,
        TcpSocketState.NextRxSequence], by simp⟩
      by_cases hc : self.m_ceState = true ∧ self.m_delayedAckReserved = true ∧
          self.m_priorRcvNxtFlag = true
      · rw [if_neg (fun h => by cases h.1), if_pos ⟨rfl, hc⟩]
        apply sentDuring_cons
        rw [b2]
        simp only [hc, and_self, if_true]
      · rw [if_neg (fun h => by cases h.1), if_neg (fun h => hc h.2)]
        apply sentDuring_same
        rw [b2]
        simp only [hc, if_false]
    · have hm : ev.isMark = false := by
        cases ev <;> first
          | rfl
          | exact absurd rfl h1
          | exact absurd rfl h2
      obtain ⟨f1, f2, f3, f4⟩ := CwndEvent_other_dsdcc self tcb ev hm
      refine ⟨?_, ?_, ?_, ?_⟩
      · rw [if_neg (fun h => h1 h.1), if_neg (fun h => h2 h.1)]
        exact sentDuring_same _ _ (by rw [f1])
      · rw [f2, hm, Bool.or_false]
      · rw [f3, hm]
        rfl
      · rw [f4, if_neg h1, if_neg h2]

theorem CwndEvent_other_dstcp (self : TcpDstcp) (tcb : TcpSocketState) (ev : TcpCAEvent_t)
    (h : ev.isMark = false) :
    (TcpDstcp.CwndEvent self tcb ev).2 = tcb ∧
      (TcpDstcp.CwndEvent self tcb ev).1.m_priorRcvNxtFlag = self.m_priorRcvNxtFlag ∧
      (TcpDstcp.CwndEvent self tcb ev).1.m_priorRcvNxt = self.m_priorRcvNxt ∧
      (TcpDstcp.CwndEvent self tcb ev).1.m_ceState = self.m_ceState := by
  cases ev <;> first
    | exact ⟨rfl, rfl, rfl, rfl⟩
    | (simp only [TcpDstcp.CwndEvent, TcpDstcp.UpdateAckReserved]
       split <;> exact ⟨rfl, rfl, rfl, rfl⟩)
    | cases h

/-- What a `CwndEvent` call of TcpDstcp sends, and what it leaves in the checkpoint, its flag
and `m_ceState`. -/
theorem CwndEvent_step_dstcp (self : TcpDstcp) (tcb : TcpSocketState) (ev : TcpCAEvent_t) :
    sentDuring tcb (TcpDstcp.CwndEvent self tcb ev).2 =
      (if ev = TcpCAEvent_t.CA_EVENT_ECN_IS_CE ∧ self.m_ceState = false ∧
          self.m_delayedAckReserved = true ∧ self.m_priorRcvNxtFlag = true then
        [(TcpHeader.ACK, self.m_priorRcvNxt)]
      else if ev = TcpCAEvent_t.CA_EVENT_ECN_NO_CE ∧ self.m_ceState = true ∧
          self.m_delayedAckReserved = true ∧ self.m_priorRcvNxtFlag = true then
        [(TcpHeader.ACK ||| TcpHeader.ECE, self.m_priorRcvNxt)]
      else []) ∧
    (TcpDstcp.CwndEvent self tcb ev).1.m_priorRcvNxtFlag =
      (self.m_priorRcvNxtFlag || ev.isMark) ∧
    (TcpDstcp.CwndEvent self tcb ev).1.m_priorRcvNxt =
      (if ev.isMark = true then tcb.NextRxSequence else self.m_priorRcvNxt) ∧
    (TcpDstcp.CwndEvent self tcb ev).1.m_ceState =
      (if ev = TcpCAEvent_t.CA_EVENT_ECN_IS_CE then true
        else if ev = TcpCAEvent_t.CA_EVENT_ECN_NO_CE then false else self.m_ceState) := by
  obtain ⟨a1, a2⟩ := CeState0to1_spec_dstcp self tcb
  obtain ⟨b1, b2⟩ := CeState1to0_spec_dstcp self tcb
  by_cases h1 : ev = TcpCAEvent_t.CA_EVENT_ECN_IS_CE
  · subst h1
    have e : TcpDstcp.CwndEvent self tcb TcpCAEvent_t.CA_EVENT_ECN_IS_CE =
        TcpDstcp.CeState0to1 self tcb := rfl
    rw [e, a1]
    refine ⟨?_, by simp [TcpCAEvent_t.isMark], by simp [TcpCAEvent_t.isMark,
      TcpSocketState.NextRxSequence], by simp⟩
    by_cases hc : self.m_ceState = false ∧ self.m_delayedAckReserved = true ∧
        self.m_priorRcvNxtFlag = true
    · rw [if_pos ⟨rfl, hc⟩]
      apply sentDuring_cons
      rw [a2]
      simp only [hc, and_self, if_true]
    · rw [if_neg (fun h => hc h.2), if_neg (fun h => by cases h.1)]
      apply sentDuring_same
      rw [a2]
      simp only [hc, if_false]
  · by_cases h2 : ev = TcpCAEvent_t.CA_EVENT_ECN_NO_CE
    · subst h2
      have e : TcpDstcp.CwndEvent self tcb TcpCAEvent_t.CA_EVENT_ECN_NO_CE =
          TcpDstcp.CeState1to0 self tcb := rfl
      rw [e, b1]
      refine ⟨?_, by simp [TcpCAEvent_t.isMark], by simp [TcpCAEvent_t.isMark,
        TcpSocketState.NextRxSequence], by simp⟩
      by_cases hc : self.m_ceState = true ∧ self.m_delayedAckReserved = true ∧
          self.m_priorRcvNxtFlag = true
      · rw [if_neg (fun h => by cases h.1), if_pos ⟨rfl, hc⟩]
        apply sentDuring_cons
        rw [b2]
        simp only [hc, and_self, if_true]
      · rw [if_neg (fun h => by cases h.1), if_neg (fun h => hc h.2)]
        apply sentDuring_same
        rw [b2]
        simp only [hc, if_false]
    · have hm : ev.isMark = false := by
        cases ev <;> first
          | rfl
          | exact absurd rfl h1
          | exact absurd rfl h2
      obtain ⟨f1, f2, f3, f4⟩ := CwndEvent_other_dstcp self tcb ev hm
      refine ⟨?_, ?_, ?_, ?_⟩
      · rw [if_neg (fun h => h1 h.1), if_neg (fun h => h2 h.1)]
        exact sentDuring_same _ _ (by rw [f1])
      · rw [f2, hm, Bool.or_false]
      · rw [f3, hm]
        rfl
      · rw [f4, if_neg h1, if_neg h2]

/-- After a sequence of events the checkpoint flag is set if it was before or a mark event
came, and the checkpoint is the receive sequence at the last mark event (TcpDsdcc). -/
theorem deliver_checkpoint_dsdcc : ∀ (evs : List CaEvent) (s0 : TcpDsdcc),
    (TcpDsdcc.deliver s0 evs).m_priorRcvNxtFlag =
      (s0.m_priorRcvNxtFlag || (lastMark evs).isSome) ∧
    (∀ q, lastMark evs = some q → (TcpDsdcc.deliver s0 evs).m_priorRcvNxt = q) ∧
    (lastMark evs = none → (TcpDsdcc.deliver s0 evs).m_priorRcvNxt = s0.m_priorRcvNxt) := by
  intro evs
  induction evs with
  | nil =>
    intro s0
    simp [TcpDsdcc.deliver, lastMark]
  | cons e rest ih =>
    intro s0
    obtain ⟨-, c2, c3, -⟩ := CwndEvent_step_dsdcc s0 e.tcb e.event
    obtain ⟨i1, i2, i3⟩ := ih (TcpDsdcc.CwndEvent s0 e.tcb e.event).1
    simp only [TcpDsdcc.deliver, lastMark]
    cases hl : lastMark rest with
    | some q =>
      refine ⟨?_, ?_, ?_⟩
      · rw [i1, hl]
        simp
      · intro q2 hq2
        simp only [Option.some.injEq] at hq2
        rw [← hq2]
        exact i2 q hl
      · intro hn
        cases hn
    | none =>
      rw [hl] at i1
      simp only [Option.isSome_none, Bool.or_false] at i1
      cases hm : e.event.isMark with
      | true =>
        rw [hm] at c2 c3
        simp only [if_true]
        refine ⟨?_, ?_, ?_⟩
        · rw [i1, c2]
          simp
        · intro q2 hq2
          simp only [Option.some.injEq] at hq2
          rw [i3 hl, c3, ← hq2]
          rfl
        · intro hn
          cases hn
      | false =>
        rw [hm] at c2 c3
        simp only [Bool.false_eq_true, if_false]
        refine ⟨?_, ?_, ?_⟩
        · rw [i1, c2]
          simp
        · intro q2 hq2
          cases hq2
        · intro _
          rw [i3 hl, c3]
          rfl

/-- After a sequence of events the checkpoint flag is set if it was before or a mark event
came, and the checkpoint is the receive sequence at the last mark event (TcpDstcp). -/
theorem deliver_checkpoint_dstcp : ∀ (evs : List CaEvent) (s0 : TcpDstcp),
    (TcpDstcp.deliver s0 evs).m_priorRcvNxtFlag =
      (s0.m_priorRcvNxtFlag || (lastMark evs).isSome) ∧
    (∀ q, lastMark evs = some q → (TcpDstcp.deliver s0 evs).m_priorRcvNxt = q) ∧
    (lastMark evs = none → (TcpDstcp.deliver s0 evs).m_priorRcvNxt = s0.m_priorRcvNxt) := by
  intro evs
  induction evs with
  | nil =>
    intro s0
    simp [TcpDstcp.deliver, lastMark]
  | cons e rest ih =>
    intro s0
    obtain ⟨-, c2, c3, -⟩ := CwndEvent_step_dstcp s0 e.tcb e.event
    obtain ⟨i1, i2, i3⟩ := ih (TcpDstcp.CwndEvent s0 e.tcb e.event).1
    simp only [TcpDstcp.deliver, lastMark]
    cases hl : lastMark rest with
    | some q =>
      refine ⟨?_, ?_, ?_⟩
      · rw [i1, hl]
        simp
      · intro q2 hq2
        simp only [Option.some.injEq] at hq2
        rw [← hq2]
        exact i2 q hl
      · intro hn
        cases hn
    | none =>
      rw [hl] at i1
      simp only [Option.isSome_none, Bool.or_false] at i1
      cases hm : e.event.isMark with
      | true =>
        rw [hm] at c2 c3
        simp only [if_true]
        refine ⟨?_, ?_, ?_⟩
        · rw [i1, c2]
          simp
        · intro q2 hq2
          simp only [Option.some.injEq] at hq2
          rw [i3 hl, c3, ← hq2]
          rfl
        · intro hn
          cases hn
      | false =>
        rw [hm] at c2 c3
        simp only [Bool.false_eq_true, if_false]
        refine ⟨?_, ?_, ?_⟩
        · rw [i1, c2]
          simp
        · intro q2 hq2
          cases hq2
        · intro _
          rw [i3 hl, c3]
          rfl

/-! ## C35: repeated mark events of the same direction -/

/-- Mark events of the direction `m_ceState` already has send nothing and move the
checkpoint; a call that sends is a mark event that flips `m_ceState` (TcpDsdcc). -/
theorem repeated_mark_dsdcc (self : TcpDsdcc) (tcb : TcpSocketState) (ev : TcpCAEvent_t) :
    ((self.m_ceState = true →
        (TcpDsdcc.CwndEvent self tcb TcpCAEvent_t.CA_EVENT_ECN_IS_CE).2.m_sent = tcb.m_sent ∧
        sentDuring tcb (TcpDsdcc.CwndEvent self tcb TcpCAEvent_t.CA_EVENT_ECN_IS_CE).2 = [] ∧
        (TcpDsdcc.CwndEvent self tcb TcpCAEvent_t.CA_EVENT_ECN_IS_CE).1.m_priorRcvNxt =
            tcb.NextRxSequence ∧
        (TcpDsdcc.CwndEvent self tcb TcpCAEvent_t.CA_EVENT_ECN_IS_CE).1.m_ceState = true) ∧
      (self.m_ceState = false →
        (TcpDsdcc.CwndEvent self tcb TcpCAEvent_t.CA_EVENT_ECN_NO_CE).2.m_sent = tcb.m_sent ∧
        sentDuring tcb (TcpDsdcc.CwndEvent self tcb TcpCAEvent_t.CA_EVENT_ECN_NO_CE).2 = [] ∧
        (TcpDsdcc.CwndEvent self tcb TcpCAEvent_t.CA_EVENT_ECN_NO_CE).1.m_priorRcvNxt =
            tcb.NextRxSequence ∧
        (TcpDsdcc.CwndEvent self tcb TcpCAEvent_t.CA_EVENT_ECN_NO_CE).1.m_ceState = false) ∧
      (sentDuring tcb (TcpDsdcc.CwndEvent self tcb ev).2 ≠ [] →
        ev.isMark = true ∧
        (TcpDsdcc.CwndEvent self tcb ev).1.m_ceState = !self.m_ceState)) := by
  obtain ⟨k1, -, k3, k4⟩ := CwndEvent_step_dsdcc self tcb TcpCAEvent_t.CA_EVENT_ECN_IS_CE
  obtain ⟨m1, -, m3, m4⟩ := CwndEvent_step_dsdcc self tcb TcpCAEvent_t.CA_EVENT_ECN_NO_CE
  obtain ⟨n1, -, -, n4⟩ := CwndEvent_step_dsdcc self tcb ev
  obtain ⟨-, a2⟩ := CeState0to1_spec_dsdcc self tcb
  obtain ⟨-, b2⟩ := CeState1to0_spec_dsdcc self tcb
  refine ⟨?_, ?_, ?_⟩
  · intro hc
    have hno : ¬ (self.m_ceState = false ∧ self.m_delayedAckReserved = true ∧
        self.m_priorRcvNxtFlag = true) := by
      rw [hc]
      exact fun h => Bool.noConfusion h.1
    refine ⟨?_, ?_, ?_, ?_⟩
    · show (TcpDsdcc.CeState0to1 self tcb).2.m_sent = tcb.m_sent
      rw [a2]
      exact if_neg hno
    · rw [k1, if_neg (fun h => hno h.2), if_neg (fun h => by cases h.1)]
    · rw [k3]
      rfl
    · rw [k4]
      rfl
  · intro hc
    have hno : ¬ (self.m_ceState = true ∧ self.m_delayedAckReserved = true ∧
        self.m_priorRcvNxtFlag = true) := by
      rw [hc]
      exact fun h => Bool.noConfusion h.1
    refine ⟨?_, ?_, ?_, ?_⟩
    · show (TcpDsdcc.CeState1to0 self tcb).2.m_sent = tcb.m_sent
      rw [b2]
      exact if_neg hno
    · rw [m1, if_neg (fun h => by cases h.1), if_neg (fun h => hno h.2)]
    · rw [m3]
      rfl
    · rw [m4]
      rfl
  · intro hne
    rw [n1] at hne
    rw [n4]
    by_cases p1 : ev = TcpCAEvent_t.CA_EVENT_ECN_IS_CE ∧ self.m_ceState = false ∧
        self.m_delayedAckReserved = true ∧ self.m_priorRcvNxtFlag = true
    · obtain ⟨e1, e2, -, -⟩ := p1
      subst e1
      rw [e2]
      exact ⟨rfl, rfl⟩
    · rw [if_neg p1] at hne
      by_cases p2 : ev = TcpCAEvent_t.CA_EVENT_ECN_NO_CE ∧ self.m_ceState = true ∧
          self.m_delayedAckReserved = true ∧ self.m_priorRcvNxtFlag = true
      · obtain ⟨e1, e2, -, -⟩ := p2
        subst e1
        rw [e2]
        exact ⟨rfl, rfl⟩
      · rw [if_neg p2] at hne
        exact absurd rfl hne

/-- Mark events of the direction `m_ceState` already has send nothing and move the
checkpoint; a call that sends is a mark event that flips `m_ceState` (TcpDstcp). -/
theorem repeated_mark_dstcp (self : TcpDstcp) (tcb : TcpSocketState) (ev : TcpCAEvent_t) :
    ((self.m_ceState = true →
        (TcpDstcp.CwndEvent self tcb TcpCAEvent_t.CA_EVENT_ECN_IS_CE).2.m_sent = tcb.m_sent ∧
        sentDuring tcb (TcpDstcp.CwndEvent self tcb TcpCAEvent_t.CA_EVENT_ECN_IS_CE).2 = [] ∧
        (TcpDstcp.CwndEvent self tcb TcpCAEvent_t.CA_EVENT_ECN_IS_CE).1.m_priorRcvNxt =
            tcb.NextRxSequence ∧
        (TcpDstcp.CwndEvent self tcb TcpCAEvent_t.CA_EVENT_ECN_IS_CE).1.m_ceState = true) ∧
      (self.m_ceState = false →
        (TcpDstcp.CwndEvent self tcb TcpCAEvent_t.CA_EVENT_ECN_NO_CE).2.m_sent = tcb.m_sent ∧
        sentDuring tcb (TcpDstcp.CwndEvent self tcb TcpCAEvent_t.CA_EVENT_ECN_NO_CE).2 = [] ∧
        (TcpDstcp.CwndEvent self tcb TcpCAEvent_t.CA_EVENT_ECN_NO_CE).1.m_priorRcvNxt =
            tcb.NextRxSequence ∧
        (TcpDstcp.CwndEvent self tcb TcpCAEvent_t.CA_EVENT_ECN_NO_CE).1.m_ceState = false) ∧
      (sentDuring tcb (TcpDstcp.CwndEvent self tcb ev).2 ≠ [] →
        ev.isMark = true ∧
        (TcpDstcp.CwndEvent self tcb ev).1.m_ceState = !self.m_ceState)) := by
  obtain ⟨k1, -, k3, k4⟩ := CwndEvent_step_dstcp self tcb TcpCAEvent_t.CA_EVENT_ECN_IS_CE
  obtain ⟨m1, -, m3, m4⟩ := CwndEvent_step_dstcp self tcb TcpCAEvent_t.CA_EVENT_ECN_NO_CE
  obtain ⟨n1, -, -, n4⟩ := CwndEvent_step_dstcp self tcb ev
  obtain ⟨-, a2⟩ := CeState0to1_spec_dstcp self tcb
  obtain ⟨-, b2⟩ := CeState1to0_spec_dstcp self tcb
  refine ⟨?_, ?_, ?_⟩
  · intro hc
    have hno : ¬ (self.m_ceState = false ∧ self.m_delayedAckReserved = true ∧
        self.m_priorRcvNxtFlag = true) := by
      rw [hc]
      exact fun h => Bool.noConfusion h.1
    refine ⟨?_, ?_, ?_, ?_⟩
    · show (TcpDstcp.CeState0to1 self tcb).2.m_sent = tcb.m_sent
      rw [a2]
      exact if_neg hno
    · rw [k1, if_neg (fun h => hno h.2), if_neg (fun h => by cases h.1)]
    · rw [k3]
      rfl
    · rw [k4]
      rfl
  · intro hc
    have hno : ¬ (self.m_ceState = true ∧ self.m_delayedAckReserved = true ∧
        self.m_priorRcvNxtFlag = true) := by
      rw [hc]
      exact fun h => Bool.noConfusion h.1
    refine ⟨?_, ?_, ?_, ?_⟩
    · show (TcpDstcp.CeState1to0 self tcb).2.m_sent = tcb.m_sent
      rw [b2]
      exact if_neg hno
    · rw [m1, if_neg (fun h => by cases h.1), if_neg (fun h => hno h.2)]
    · rw [m3]
      rfl
    · rw [m4]
      rfl
  · intro hne
    rw [n1] at hne
    rw [n4]
    by_cases p1 : ev = TcpCAEvent_t.CA_EVENT_ECN_IS_CE ∧ self.m_ceState = false ∧
        self.m_delayedAckReserved = true ∧ self.m_priorRcvNxtFlag = true
    · obtain ⟨e1, e2, -, -⟩ := p1
      subst e1
      rw [e2]
      exact ⟨rfl, rfl⟩
    · rw [if_neg p1] at hne
      by_cases p2 : ev = TcpCAEvent_t.CA_EVENT_ECN_NO_CE ∧ self.m_ceState = true ∧
          self.m_delayedAckReserved = true ∧ self.m_priorRcvNxtFlag = true
      · obtain ⟨e1, e2, -, -⟩ := p2
        subst e1
        rw [e2]
        exact ⟨rfl, rfl⟩
      · rw [if_neg p2] at hne
        exact absurd rfl hne

/-- C35: in the state that any sequence of congestion events leaves, from any instance of
TcpDsdcc or TcpDstcp, a `CA_EVENT_ECN_IS_CE` received while `m_ceState` is true, and a
`CA_EVENT_ECN_NO_CE` received while `m_ceState` is false, send nothing, whatever the
reservation of a delayed acknowledgment and the checkpoint flag are; they still write the
receive sequence of the buffer into the checkpoint `m_priorRcvNxt` and leave `m_ceState` as
it was.  A call of `CwndEvent` that sends a segment is the call of a mark event, and it
leaves `m_ceState` negated. -/
theorem C35_repeated_mark_emits_nothing (d0 : TcpDsdcc) (t0 : TcpDstcp) (evs : List CaEvent)
    (tcb : TcpSocketState) (ev : TcpCAEvent_t) :
    (((TcpDsdcc.deliver d0 evs).m_ceState = true →
        (TcpDsdcc.CwndEvent (TcpDsdcc.deliver d0 evs) tcb
            TcpCAEvent_t.CA_EVENT_ECN_IS_CE).2.m_sent = tcb.m_sent ∧
        sentDuring tcb (TcpDsdcc.CwndEvent (TcpDsdcc.deliver d0 evs) tcb
            TcpCAEvent_t.CA_EVENT_ECN_IS_CE).2 = [] ∧
        (TcpDsdcc.CwndEvent (TcpDsdcc.deliver d0 evs) tcb
            TcpCAEvent_t.CA_EVENT_ECN_IS_CE).1.m_priorRcvNxt = tcb.NextRxSequence ∧
        (TcpDsdcc.CwndEvent (TcpDsdcc.deliver d0 evs) tcb
            TcpCAEvent_t.CA_EVENT_ECN_IS_CE).1.m_ceState = true) ∧
      ((TcpDsdcc.deliver d0 evs).m_ceState = false →
        (TcpDsdcc.CwndEvent (TcpDsdcc.deliver d0 evs) tcb
            TcpCAEvent_t.CA_EVENT_ECN_NO_CE).2.m_sent = tcb.m_sent ∧
        sentDuring tcb (TcpDsdcc.CwndEvent (TcpDsdcc.deliver d0 evs) tcb
            TcpCAEvent_t.CA_EVENT_ECN_NO_CE).2 = [] ∧
        (TcpDsdcc.CwndEvent (TcpDsdcc.deliver d0 evs) tcb
            TcpCAEvent_t.CA_EVENT_ECN_NO_CE).1.m_priorRcvNxt = tcb.NextRxSequence ∧
        (TcpDsdcc.CwndEvent (TcpDsdcc.deliver d0 evs) tcb
            TcpCAEvent_t.CA_EVENT_ECN_NO_CE).1.m_ceState = false) ∧
      (sentDuring tcb (TcpDsdcc.CwndEvent (TcpDsdcc.deliver d0 evs) tcb ev).2 ≠ [] →
        ev.isMark = true ∧
        (TcpDsdcc.CwndEvent (TcpDsdcc.deliver d0 evs) tcb ev).1.m_ceState =
          !(TcpDsdcc.deliver d0 evs).m_ceState)) ∧
    (((TcpDstcp.deliver t0 evs).m_ceState = true →
        (TcpDstcp.CwndEvent (TcpDstcp.deliver t0 evs) tcb
            TcpCAEvent_t.CA_EVENT_ECN_IS_CE).2.m_sent = tcb.m_sent ∧
        sentDuring tcb (TcpDstcp.CwndEvent (TcpDstcp.deliver t0 evs) tcb
            TcpCAEvent_t.CA_EVENT_ECN_IS_CE).2 = [] ∧
        (TcpDstcp.CwndEvent (TcpDstcp.deliver t0 evs) tcb
            TcpCAEvent_t.CA_EVENT_ECN_IS_CE).1.m_priorRcvNxt = tcb.NextRxSequence ∧
        (TcpDstcp.CwndEvent (TcpDstcp.deliver t0 evs) tcb
            TcpCAEvent_t.CA_EVENT_ECN_IS_CE).1.m_ceState = true) ∧
      ((TcpDstcp.deliver t0 evs).m_ceState = false →
        (TcpDstcp.CwndEvent (TcpDstcp.deliver t0 evs) tcb
            TcpCAEvent_t.CA_EVENT_ECN_NO_CE).2.m_sent = tcb.m_sent ∧
        sentDuring tcb (TcpDstcp.CwndEvent (TcpDstcp.deliver t0 evs) tcb
            TcpCAEvent_t.CA_EVENT_ECN_NO_CE).2 = [] ∧
        (TcpDstcp.CwndEvent (TcpDstcp.deliver t0 evs) tcb
            TcpCAEvent_t.CA_EVENT_ECN_NO_CE).1.m_priorRcvNxt = tcb.NextRxSequence ∧
        (TcpDstcp.CwndEvent (TcpDstcp.deliver t0 evs) tcb
            TcpCAEvent_t.CA_EVENT_ECN_NO_CE).1.m_ceState = false) ∧
      (sentDuring tcb (TcpDstcp.CwndEvent (TcpDstcp.deliver t0 evs) tcb ev).2 ≠ [] →
        ev.isMark = true ∧
        (TcpDstcp.CwndEvent (TcpDstcp.deliver t0 evs) tcb ev).1.m_ceState =
          !(TcpDstcp.deliver t0 evs).m_ceState)) :=
  ⟨repeated_mark_dsdcc (TcpDsdcc.deliver d0 evs) tcb ev,
    repeated_mark_dstcp (TcpDstcp.deliver t0 evs) tcb ev⟩

/-- C35 at the instances that the events `Example.events` leave, which are in the marked
state with a delayed acknowledgment reserved and the checkpoint 3000: a further
`CA_EVENT_ECN_IS_CE` with the receiver expecting 4500 sends nothing and moves the checkpoint
to 4500. -/
theorem C35_repeated_mark_emits_nothing_witness :
    (TcpDsdcc.deliver (TcpDsdcc.construct Example.dsdcc) Example.events).m_ceState = true ∧
      (TcpDsdcc.deliver (TcpDsdcc.construct Example.dsdcc)
        Example.events).m_delayedAckReserved = true ∧
      (TcpDsdcc.deliver (TcpDsdcc.construct Example.dsdcc)
        Example.events).m_priorRcvNxtFlag = true ∧
      (TcpDsdcc.deliver (TcpDsdcc.construct Example.dsdcc) Example.events).m_priorRcvNxt =
        3000 ∧
      sentDuring Example.tcbRxLater
        (TcpDsdcc.CwndEvent (TcpDsdcc.deliver (TcpDsdcc.construct Example.dsdcc) Example.events)
          Example.tcbRxLater TcpCAEvent_t.CA_EVENT_ECN_IS_CE).2 = [] ∧
      (TcpDsdcc.CwndEvent (TcpDsdcc.deliver (TcpDsdcc.construct Example.dsdcc) Example.events)
        Example.tcbRxLater TcpCAEvent_t.CA_EVENT_ECN_IS_CE).1.m_priorRcvNxt = 4500 ∧
      sentDuring Example.tcbRxLater
        (TcpDstcp.CwndEvent (TcpDstcp.deliver (TcpDstcp.construct Example.dstcp) Example.events)
          Example.tcbRxLater TcpCAEvent_t.CA_EVENT_ECN_IS_CE).2 = [] ∧
      (TcpDstcp.CwndEvent (TcpDstcp.deliver (TcpDstcp.construct Example.dstcp) Example.events)
        Example.tcbRxLater TcpCAEvent_t.CA_EVENT_ECN_IS_CE).1.m_priorRcvNxt = 4500 :=
  have h := C35_repeated_mark_emits_nothing (TcpDsdcc.construct Example.dsdcc)
    (TcpDstcp.construct Example.dstcp) Example.events Example.tcbRxLater
    TcpCAEvent_t.CA_EVENT_ECN_IS_CE
  ⟨rfl, rfl, rfl, rfl, (h.1.1 rfl).2.1, (h.1.1 rfl).2.2.1, (h.2.1 rfl).2.1,
    (h.2.1 rfl).2.2.1⟩

/-! ## C36: the checkpoint -/

theorem deliver_append_dsdcc : ∀ (evs more : List CaEvent) (s0 : TcpDsdcc),
    TcpDsdcc.deliver s0 (evs ++ more) = TcpDsdcc.deliver (TcpDsdcc.deliver s0 evs) more := by
  intro evs
  induction evs with
  | nil =>
    intro more s0
    rfl
  | cons e rest ih =>
    intro more s0
    exact ih more (TcpDsdcc.CwndEvent s0 e.tcb e.event).1

/-- What a call of `CwndEvent` of TcpDsdcc sends acknowledges up to the checkpoint, and is sent
only if the checkpoint exists. -/
theorem sent_checkpoint_dsdcc (self : TcpDsdcc) (tcb : TcpSocketState) (ev : TcpCAEvent_t)
    (x : Nat × SequenceNumber32) (hx : x ∈ sentDuring tcb (TcpDsdcc.CwndEvent self tcb ev).2) :
    x.2 = self.m_priorRcvNxt ∧ self.m_priorRcvNxtFlag = true := by
  obtain ⟨n1, -, -, -⟩ := CwndEvent_step_dsdcc self tcb ev
  rw [n1] at hx
  by_cases p1 : ev = TcpCAEvent_t.CA_EVENT_ECN_IS_CE ∧ self.m_ceState = false ∧
      self.m_delayedAckReserved = true ∧ self.m_priorRcvNxtFlag = true
  · rw [if_pos p1, List.mem_singleton] at hx
    rw [hx]
    exact ⟨rfl, p1.2.2.2⟩
  · rw [if_neg p1] at hx
    by_cases p2 : ev = TcpCAEvent_t.CA_EVENT_ECN_NO_CE ∧ self.m_ceState = true ∧
        self.m_delayedAckReserved = true ∧ self.m_priorRcvNxtFlag = true
    · rw [if_pos p2, List.mem_singleton] at hx
      rw [hx]
      exact ⟨rfl, p2.2.2.2⟩
    · rw [if_neg p2] at hx
      cases hx

/-- From a fresh instance of TcpDsdcc: the checkpoint exists exactly if a mark event came, it is
the receive sequence at the last one, and what the next event sends acknowledges up to it. -/
theorem checkpoint_valid_dsdcc (raw : TcpDsdcc) (evs : List CaEvent) (e : CaEvent) :
    (TcpDsdcc.deliver (TcpDsdcc.construct raw) evs).m_priorRcvNxtFlag = (lastMark evs).isSome ∧
    (∀ q, lastMark evs = some q →
      (TcpDsdcc.deliver (TcpDsdcc.construct raw) evs).m_priorRcvNxt = q) ∧
    (lastMark evs = none →
      sentDuring e.tcb
        (TcpDsdcc.CwndEvent (TcpDsdcc.deliver (TcpDsdcc.construct raw) evs) e.tcb e.event).2 = []) ∧
    (∀ x ∈ sentDuring e.tcb
        (TcpDsdcc.CwndEvent (TcpDsdcc.deliver (TcpDsdcc.construct raw) evs) e.tcb e.event).2,
      lastMark evs = some x.2) ∧
    (e.event.isMark = true →
      (TcpDsdcc.deliver (TcpDsdcc.construct raw) (evs ++ [e])).m_priorRcvNxtFlag = true) ∧
    ((TcpDsdcc.deliver (TcpDsdcc.construct raw) evs).m_priorRcvNxtFlag = true →
      ∀ more, (TcpDsdcc.deliver (TcpDsdcc.construct raw) (evs ++ more)).m_priorRcvNxtFlag = true) := by
  obtain ⟨i1, i2, -⟩ := deliver_checkpoint_dsdcc evs (TcpDsdcc.construct raw)
  have hf : (TcpDsdcc.construct raw).m_priorRcvNxtFlag = false := rfl
  rw [hf, Bool.false_or] at i1
  have h4 : ∀ x ∈ sentDuring e.tcb
      (TcpDsdcc.CwndEvent (TcpDsdcc.deliver (TcpDsdcc.construct raw) evs) e.tcb e.event).2,
      lastMark evs = some x.2 := by
    intro x hx
    obtain ⟨x1, x2⟩ := sent_checkpoint_dsdcc _ _ _ x hx
    rw [i1] at x2
    cases hl : lastMark evs with
    | none =>
      rw [hl] at x2
      cases x2
    | some q =>
      rw [x1, i2 q hl]
  refine ⟨i1, i2, ?_, h4, ?_, ?_⟩
  · intro hn
    cases hs : sentDuring e.tcb
        (TcpDsdcc.CwndEvent (TcpDsdcc.deliver (TcpDsdcc.construct raw) evs) e.tcb e.event).2 with
    | nil => rfl
    | cons x rest =>
      have hx := h4 x (by rw [hs]; exact List.mem_cons_self x rest)
      rw [hn] at hx
      cases hx
  · intro hm
    rw [deliver_append_dsdcc]
    obtain ⟨-, c2, -, -⟩ :=
      CwndEvent_step_dsdcc (TcpDsdcc.deliver (TcpDsdcc.construct raw) evs) e.tcb e.event
    show (TcpDsdcc.CwndEvent (TcpDsdcc.deliver (TcpDsdcc.construct raw) evs) e.tcb
      e.event).1.m_priorRcvNxtFlag = true
    rw [c2, hm, Bool.or_true]
  · intro ht more
    rw [deliver_append_dsdcc]
    obtain ⟨j1, -, -⟩ := deliver_checkpoint_dsdcc more (TcpDsdcc.deliver (TcpDsdcc.construct raw) evs)
    rw [j1, ht, Bool.true_or]

theorem deliver_append_dstcp : ∀ (evs more : List CaEvent) (s0 : TcpDstcp),
    TcpDstcp.deliver s0 (evs ++ more) = TcpDstcp.deliver (TcpDstcp.deliver s0 evs) more := by
  intro evs
  induction evs with
  | nil =>
    intro more s0
    rfl
  | cons e rest ih =>
    intro more s0
    exact ih more (TcpDstcp.CwndEvent s0 e.tcb e.event).1

/-- What a call of `CwndEvent` of TcpDstcp sends acknowledges up to the checkpoint, and is sent
only if the checkpoint exists. -/
theorem sent_checkpoint_dstcp (self : TcpDstcp) (tcb : TcpSocketState) (ev : TcpCAEvent_t)
    (x : Nat × SequenceNumber32) (hx : x ∈ sentDuring tcb (TcpDstcp.CwndEvent self tcb ev).2) :
    x.2 = self.m_priorRcvNxt ∧ self.m_priorRcvNxtFlag = true := by
  obtain ⟨n1, -, -, -⟩ := CwndEvent_step_dstcp self tcb ev
  rw [n1] at hx
  by_cases p1 : ev = TcpCAEvent_t.CA_EVENT_ECN_IS_CE ∧ self.m_ceState = false ∧
      self.m_delayedAckReserved = true ∧ self.m_priorRcvNxtFlag = true
  · rw [if_pos p1, List.mem_singleton] at hx
    rw [hx]
    exact ⟨rfl, p1.2.2.2⟩
  · rw [if_neg p1] at hx
    by_cases p2 : ev = TcpCAEvent_t.CA_EVENT_ECN_NO_CE ∧ self.m_ceState = true ∧
        self.m_delayedAckReserved = true ∧ self.m_priorRcvNxtFlag = true
    · rw [if_pos p2, List.mem_singleton] at hx
      rw [hx]
      exact ⟨rfl, p2.2.2.2⟩
    · rw [if_neg p2] at hx
      cases hx

/-- From a fresh instance of TcpDstcp: the checkpoint exists exactly if a mark event came, it is
the receive sequence at the last one, and what the next event sends acknowledges up to it. -/
theorem checkpoint_valid_dstcp (raw : TcpDstcp) (evs : List CaEvent) (e : CaEvent) :
    (TcpDstcp.deliver (TcpDstcp.construct raw) evs).m_priorRcvNxtFlag = (lastMark evs).isSome ∧
    (∀ q, lastMark evs = some q →
      (TcpDstcp.deliver (TcpDstcp.construct raw) evs).m_priorRcvNxt = q) ∧
    (lastMark evs = none →
      sentDuring e.tcb
        (TcpDstcp.CwndEvent (TcpDstcp.deliver (TcpDstcp.construct raw) evs) e.tcb e.event).2 = []) ∧
    (∀ x ∈ sentDuring e.tcb
        (TcpDstcp.CwndEvent (TcpDstcp.deliver (TcpDstcp.construct raw) evs) e.tcb e.event).2,
      lastMark evs = some x.2) ∧
    (e.event.isMark = true →
      (TcpDstcp.deliver (TcpDstcp.construct raw) (evs ++ [e])).m_priorRcvNxtFlag = true) ∧
    ((TcpDstcp.deliver (TcpDstcp.construct raw) evs).m_priorRcvNxtFlag = true →
      ∀ more, (TcpDstcp.deliver (TcpDstcp.construct raw) (evs ++ more)).m_priorRcvNxtFlag = true) := by
  obtain ⟨i1, i2, -⟩ := deliver_checkpoint_dstcp evs (TcpDstcp.construct raw)
  have hf : (TcpDstcp.construct raw).m_priorRcvNxtFlag = false := rfl
  rw [hf, Bool.false_or] at i1
  have h4 : ∀ x ∈ sentDuring e.tcb
      (TcpDstcp.CwndEvent (TcpDstcp.deliver (TcpDstcp.construct raw) evs) e.tcb e.event).2,
      lastMark evs = some x.2 := by
    intro x hx
    obtain ⟨x1, x2⟩ := sent_checkpoint_dstcp _ _ _ x hx
    rw [i1] at x2
    cases hl : lastMark evs with
    | none =>
      rw [hl] at x2
      cases x2
    | some q =>
      rw [x1, i2 q hl]
  refine ⟨i1, i2, ?_, h4, ?_, ?_⟩
  · intro hn
    cases hs : sentDuring e.tcb
        (TcpDstcp.CwndEvent (TcpDstcp.deliver (TcpDstcp.construct raw) evs) e.tcb e.event).2 with
    | nil => rfl
    | cons x rest =>
      have hx := h4 x (by rw [hs]; exact List.mem_cons_self x rest)
      rw [hn] at hx
      cases hx
  · intro hm
    rw [deliver_append_dstcp]
    obtain ⟨-, c2, -, -⟩ :=
      CwndEvent_step_dstcp (TcpDstcp.deliver (TcpDstcp.construct raw) evs) e.tcb e.event
    show (TcpDstcp.CwndEvent (TcpDstcp.deliver (TcpDstcp.construct raw) evs) e.tcb
      e.event).1.m_priorRcvNxtFlag = true
    rw [c2, hm, Bool.or_true]
  · intro ht more
    rw [deliver_append_dstcp]
    obtain ⟨j1, -, -⟩ := deliver_checkpoint_dstcp more (TcpDstcp.deliver (TcpDstcp.construct raw) evs)
    rw [j1, ht, Bool.true_or]

/-- C36: from a fresh instance of TcpDsdcc or TcpDstcp (the constructor has run on any
storage) and after any sequence of congestion events, the checkpoint flag
`m_priorRcvNxtFlag` is true exactly if a mark event (`CA_EVENT_ECN_IS_CE` or
`CA_EVENT_ECN_NO_CE`) was delivered, and the checkpoint `m_priorRcvNxt` is then the receive
sequence that the buffer held at the last of them.  If no mark event was delivered yet, the
next event sends nothing, whatever it is and whether or not a delayed acknowledgment is
reserved.  Every segment that the next event sends acknowledges up to the receive sequence
recorded at the last mark event before it.  After a mark event the flag is true, and once
true it is true after any further events. -/
theorem C36_checkpoint_validity (rawD : TcpDsdcc) (rawT : TcpDstcp) (evs : List CaEvent)
    (e : CaEvent) :
    ((TcpDsdcc.deliver (TcpDsdcc.construct rawD) evs).m_priorRcvNxtFlag = (lastMark evs).isSome
        ∧
      (∀ q, lastMark evs = some q → (TcpDsdcc.deliver (TcpDsdcc.construct rawD)
          evs).m_priorRcvNxt = q) ∧
      (lastMark evs = none →
        sentDuring e.tcb (TcpDsdcc.CwndEvent (TcpDsdcc.deliver (TcpDsdcc.construct rawD) evs)
            e.tcb e.event).2 = []) ∧
      (∀ x ∈ sentDuring e.tcb (TcpDsdcc.CwndEvent (TcpDsdcc.deliver (TcpDsdcc.construct rawD)
          evs) e.tcb e.event).2,
        lastMark evs = some x.2) ∧
      (e.event.isMark = true →
        (TcpDsdcc.deliver (TcpDsdcc.construct rawD) (evs ++ [e])).m_priorRcvNxtFlag = true) ∧
      ((TcpDsdcc.deliver (TcpDsdcc.construct rawD) evs).m_priorRcvNxtFlag = true →
        ∀ more,
          (TcpDsdcc.deliver (TcpDsdcc.construct rawD) (evs ++ more)).m_priorRcvNxtFlag = true)) ∧
    ((TcpDstcp.deliver (TcpDstcp.construct rawT) evs).m_priorRcvNxtFlag = (lastMark evs).isSome
        ∧
      (∀ q, lastMark evs = some q → (TcpDstcp.deliver (TcpDstcp.construct rawT)
          evs).m_priorRcvNxt = q) ∧
      (lastMark evs = none →
        sentDuring e.tcb (TcpDstcp.CwndEvent (TcpDstcp.deliver (TcpDstcp.construct rawT) evs)
            e.tcb e.event).2 = []) ∧
      (∀ x ∈ sentDuring e.tcb (TcpDstcp.CwndEvent (TcpDstcp.deliver (TcpDstcp.construct rawT)
          evs) e.tcb e.event).2,
        lastMark evs = some x.2) ∧
      (e.event.isMark = true →
        (TcpDstcp.deliver (TcpDstcp.construct rawT) (evs ++ [e])).m_priorRcvNxtFlag = true) ∧
      ((TcpDstcp.deliver (TcpDstcp.construct rawT) evs).m_priorRcvNxtFlag = true →
        ∀ more,
          (TcpDstcp.deliver (TcpDstcp.construct rawT) (evs ++ more)).m_priorRcvNxtFlag = true)) :=
  ⟨checkpoint_valid_dsdcc rawD evs e, checkpoint_valid_dstcp rawT evs e⟩

/-- C36 at fresh instances, the events `Example.events` (a delayed acknowledgment is
reserved, then a mark arrives while the receiver expects 3000) and then an unmarked segment
while the receiver expects 4500: the last mark event recorded 3000, and the one segment sent
acknowledges up to 3000. -/
theorem C36_checkpoint_validity_witness :
    lastMark Example.events = some 3000 ∧
      sentDuring Example.eventClear.tcb
        (TcpDsdcc.CwndEvent (TcpDsdcc.deliver (TcpDsdcc.construct Example.dsdcc) Example.events)
          Example.eventClear.tcb Example.eventClear.event).2 = [(80, 3000)] ∧
      sentDuring Example.eventClear.tcb
        (TcpDstcp.CwndEvent (TcpDstcp.deliver (TcpDstcp.construct Example.dstcp) Example.events)
          Example.eventClear.tcb Example.eventClear.event).2 = [(80, 3000)] ∧
      (TcpDsdcc.deliver (TcpDsdcc.construct Example.dsdcc) Example.events).m_priorRcvNxt =
        3000 ∧
      (TcpDstcp.deliver (TcpDstcp.construct Example.dstcp) Example.events).m_priorRcvNxt =
        3000 ∧
      (TcpDsdcc.deliver (TcpDsdcc.construct Example.dsdcc)
        (Example.events ++ [Example.eventClear])).m_priorRcvNxtFlag = true ∧
      (TcpDstcp.deliver (TcpDstcp.construct Example.dstcp)
        (Example.events ++ [Example.eventClear])).m_priorRcvNxtFlag = true :=
  have h := C36_checkpoint_validity Example.dsdcc Example.dstcp Example.events
    Example.eventClear
  ⟨rfl, rfl, rfl, h.1.2.1 3000 rfl, h.2.2.1 3000 rfl, h.1.2.2.2.2.1 rfl,
    h.2.2.2.2.2.1 rfl⟩

end ns3
